import Mathlib

/-!
# The access control evaluator of slapd (`servers/slapd/acl.c`)

A shallow embedding of the policy evaluator of `acl.c` and theorems about it.

Build configuration embedded here: `LDAP_DEVEL` undefined (hence neither
`SLAP_OVERLAY_ACCESS` nor `SLAP_DYNACL`), `SLAPD_ACI_ENABLED` and
`LDAP_PF_LOCAL` defined, assertions enabled.
The registry of dynamic ACL modules (`slap_dynacl_register`,
`slap_dynacl_get`), which is compiled with `SLAP_DYNACL` only, is embedded on
its own; the evaluator above does not call it.

Conventions of the embedding.

* A C string is a list of byte codes (`List Nat`) without the terminating NUL.
  A `struct berval` is its `bv_val` (an optional byte list, `none` for a NULL
  pointer); `bv_len` is the length of that list.
* Pointers into the policy list are positions: a rule pointer is
  `Option Nat` (the index of the rule in `be_acl`, `none` for NULL) and a
  clause pointer is `Option Nat` (the index of the clause in the rule).
* Functions that live outside `acl.c` (regex engine, schema, DN utilities,
  entry store) are fields of `Env`.
* Values the C code reads without having written them (uninitialised locals,
  bytes outside a buffer) are fields of `Indeterminate`.
* An `int` the code computes with digit by digit is an `Int` taken modulo
  `2^32` into the range of `int` (`int_wrap`).
* A failed `assert` is the result `none` of `access_allowed_mask`.
-/

namespace Slapd

/-! ## Machine words and byte strings -/

/-- The type `slap_mask_t` (an `unsigned long`). -/
abbrev slap_mask_t := Nat

/-- The enumeration `slap_access_t`, by its integer values. -/
abbrev slap_access_t := Nat

/-- Width in bits of `unsigned long`. -/
def ULONG_BITS : Nat := 64

/-- The C operator `~` on an `unsigned long`. -/
def lnot (x : Nat) : Nat := (2 ^ ULONG_BITS - 1) ^^^ (x % 2 ^ ULONG_BITS)

/-- Byte codes of a string literal. -/
def bytes (s : String) : List Nat := s.toList.map Char.toNat

/-- The C type `struct berval`: `bv_val` is `none` for a NULL pointer. -/
structure berval where
  bv_val : Option (List Nat)
deriving DecidableEq, Repr

/-- The field `bv_len`. -/
def berval.bv_len (b : berval) : Nat := (b.bv_val.getD []).length

/-- The bytes `bv_val` points to (nothing for a NULL pointer). -/
def berval.str (b : berval) : List Nat := b.bv_val.getD []

/-- The macro `BER_BVNULL`. -/
def BER_BVNULL : berval := ⟨none⟩

/-- The macro `BER_BVC`/`BER_BVSTR` on a string literal. -/
def BER_BVC (s : String) : berval := ⟨some (bytes s)⟩

/-- The macro `BER_BVISNULL`. -/
def BER_BVISNULL (b : berval) : Bool := b.bv_val.isNone

/-- The macro `BER_BVISEMPTY`. -/
def BER_BVISEMPTY (b : berval) : Bool := b.bv_len == 0

/-- The type `regmatch_t`. -/
structure regmatch_t where
  rm_so : Int
  rm_eo : Int
deriving DecidableEq, Repr

/-- Values read by the C code without having been written by it. -/
structure Indeterminate where
  /-- content of the local `mask` of `access_allowed_mask` before assignment -/
  mask : slap_mask_t
  /-- content of the local `matches` of `access_allowed_mask` before `memset` -/
  rmatches : List regmatch_t
  /-- content of the local `level` of `acl_mask_dn` before assignment -/
  level : Int
  /-- a byte read outside the bounds of a string -/
  byte : Nat
  /-- content of a scratch buffer after the bytes written to it -/
  tail : List Nat
  /-- a `regmatch_t` read before the first element of a match array -/
  rmatch : regmatch_t
deriving Repr

/-- The byte `s[i]` of a C string: the terminator at `i = length`, an
indeterminate byte outside `0..length`. -/
def char_at (junk : Indeterminate) (s : List Nat) (i : Int) : Nat :=
  if i < 0 then junk.byte
  else if h : i.toNat < s.length then s.get ⟨i.toNat, h⟩
  else if i.toNat = s.length then 0
  else junk.byte

/-- The element `matches[n]` of a match array. -/
def match_at (ms : List regmatch_t) (n : Nat) : regmatch_t := ms.getD n ⟨0, 0⟩

/-- The element `matches[n]` for an index `n` of type `int`: an indeterminate
element for a negative index. -/
def match_read (junk : Indeterminate) (ms : List regmatch_t) (n : Int) : regmatch_t :=
  if n < 0 then junk.rmatch else match_at ms n.toNat

/-- The constant `INT_MAX` of a 32-bit `int`. -/
def INT_MAX : Int := 2147483647

/-- The value an `int` holds after an arithmetic operation whose exact result
is `x`: the result modulo `2^32`, taken in `-2^31 .. 2^31 - 1`. The C standard
leaves signed overflow undefined; this is the wrap-around of two's complement
machines. -/
def int_wrap (x : Int) : Int := (x + 2147483648) % 4294967296 - 2147483648

/-- The library function `tolower` on ASCII bytes. -/
def tolower (c : Nat) : Nat := if 65 ≤ c ∧ c ≤ 90 then c + 32 else c

/-- Case-insensitive equality of two byte strings (`strcasecmp(a, b) == 0`). -/
def strcaseeq (a b : List Nat) : Bool := a.map tolower == b.map tolower

/-- The test `ber_bvstrcasecmp(a, b) == 0`: equal lengths and equal bytes up to case. -/
def ber_bvstrcaseeq (a b : berval) : Bool := strcaseeq a.str b.str

/-- The test `ber_bvcmp(a, b) == 0`. -/
def ber_bveq (a b : berval) : Bool := a.str == b.str

/-- The macro `ber_bvccmp(bv, c)`: the berval is the single byte `c`. -/
def ber_bvccmp (b : berval) (c : Nat) : Bool := b.str == [c]

/-- The test `strncasecmp(s, p, strlen(p)) == 0`. -/
def strncaseeq (s p : List Nat) : Bool := strcaseeq (s.take p.length) p

/-- The test `strncmp(s, p, strlen(p)) == 0`. -/
def strneq (s p : List Nat) : Bool := s.take p.length == p

/-- The constant `ACL_BUF_SIZE`. -/
def ACL_BUF_SIZE : Nat := 1024

/-- The constant `MAXREMATCHES` of slap.h.
Modelled from the spec: slap.h is not among the sources; the value is the one
of the OpenLDAP header. -/
def MAXREMATCHES : Nat := 100

/-! ## Privileges and masks (slap.h) -/

/-- The level `ACL_NONE`.
Modelled from the spec: slap.h is not among the sources; the levels of
`slap_access_t` follow the chain NONE, AUTH, COMPARE, SEARCH, READ, WRITE,
MANAGE of the OpenLDAP header, numbered from 0. -/
def ACL_NONE : slap_access_t := 0
/-- The level `ACL_AUTH`. Modelled from the spec: see `ACL_NONE`. -/
def ACL_AUTH : slap_access_t := 1
/-- The level `ACL_COMPARE`. Modelled from the spec: see `ACL_NONE`. -/
def ACL_COMPARE : slap_access_t := 2
/-- The level `ACL_SEARCH`. Modelled from the spec: see `ACL_NONE`. -/
def ACL_SEARCH : slap_access_t := 3
/-- The level `ACL_READ`. Modelled from the spec: see `ACL_NONE`. -/
def ACL_READ : slap_access_t := 4
/-- The level `ACL_WRITE`. Modelled from the spec: see `ACL_NONE`. -/
def ACL_WRITE : slap_access_t := 5
/-- The level `ACL_MANAGE`. Modelled from the spec: see `ACL_NONE`. -/
def ACL_MANAGE : slap_access_t := 6
/-- The end marker `ACL_LAST` of the levels. Modelled from the spec: see `ACL_NONE`. -/
def ACL_LAST : slap_access_t := 7
/-- The constant `ACL_LEVEL_MASK`. Modelled from the spec: slap.h is not among
the sources; value of the OpenLDAP header. -/
def ACL_LEVEL_MASK : Nat := 0x000f
/-- The constant `ACL_QUALIFIER1`. Modelled from the spec: value of the OpenLDAP header. -/
def ACL_QUALIFIER1 : Nat := 0x0100
/-- The constant `ACL_QUALIFIER2`. Modelled from the spec: value of the OpenLDAP header. -/
def ACL_QUALIFIER2 : Nat := 0x0200
/-- The constant `ACL_QUALIFIER_MASK`. Modelled from the spec: value of the OpenLDAP header. -/
def ACL_QUALIFIER_MASK : Nat := 0x0f00
/-- The access `ACL_WADD` (write, qualified "add"). Modelled from the spec:
defined in slap.h as `ACL_WRITE|ACL_QUALIFIER1`. -/
def ACL_WADD : slap_access_t := ACL_WRITE ||| ACL_QUALIFIER1
/-- The access `ACL_WDEL` (write, qualified "delete"). Modelled from the spec:
defined in slap.h as `ACL_WRITE|ACL_QUALIFIER2`. -/
def ACL_WDEL : slap_access_t := ACL_WRITE ||| ACL_QUALIFIER2

/-- The macro `ACL_LEVEL(p)`. Modelled from the spec: slap.h defines it as
`(p) & ACL_LEVEL_MASK`. -/
def ACL_LEVEL (p : slap_access_t) : slap_access_t := p &&& ACL_LEVEL_MASK
/-- The macro `ACL_QUALIFIERS(p)`. Modelled from the spec: slap.h defines it as
`(p) & ~ACL_LEVEL_MASK`. -/
def ACL_QUALIFIERS (p : slap_access_t) : Nat := p &&& lnot ACL_LEVEL_MASK
/-- The macro `ACL_ACCESS2PRIV(access)`. Modelled from the spec: slap.h defines
it as `(0x01U << ACL_LEVEL(access)) | ACL_QUALIFIERS(access)`. -/
def ACL_ACCESS2PRIV (access : slap_access_t) : slap_mask_t :=
  (1 <<< ACL_LEVEL access) ||| ACL_QUALIFIERS access

/-- The mask `ACL_PRIV_NONE`. Modelled from the spec: `ACL_ACCESS2PRIV( ACL_NONE )` in slap.h. -/
def ACL_PRIV_NONE : slap_mask_t := ACL_ACCESS2PRIV ACL_NONE
/-- The mask `ACL_PRIV_AUTH`. Modelled from the spec: `ACL_ACCESS2PRIV( ACL_AUTH )`. -/
def ACL_PRIV_AUTH : slap_mask_t := ACL_ACCESS2PRIV ACL_AUTH
/-- The mask `ACL_PRIV_COMPARE`. Modelled from the spec: `ACL_ACCESS2PRIV( ACL_COMPARE )`. -/
def ACL_PRIV_COMPARE : slap_mask_t := ACL_ACCESS2PRIV ACL_COMPARE
/-- The mask `ACL_PRIV_SEARCH`. Modelled from the spec: `ACL_ACCESS2PRIV( ACL_SEARCH )`. -/
def ACL_PRIV_SEARCH : slap_mask_t := ACL_ACCESS2PRIV ACL_SEARCH
/-- The mask `ACL_PRIV_READ`. Modelled from the spec: `ACL_ACCESS2PRIV( ACL_READ )`. -/
def ACL_PRIV_READ : slap_mask_t := ACL_ACCESS2PRIV ACL_READ
/-- The mask `ACL_PRIV_WADD`. Modelled from the spec: `ACL_ACCESS2PRIV( ACL_WADD )`. -/
def ACL_PRIV_WADD : slap_mask_t := ACL_ACCESS2PRIV ACL_WADD
/-- The mask `ACL_PRIV_WDEL`. Modelled from the spec: `ACL_ACCESS2PRIV( ACL_WDEL )`. -/
def ACL_PRIV_WDEL : slap_mask_t := ACL_ACCESS2PRIV ACL_WDEL
/-- The mask `ACL_PRIV_WRITE`. Modelled from the spec: `ACL_PRIV_WADD | ACL_PRIV_WDEL`. -/
def ACL_PRIV_WRITE : slap_mask_t := ACL_PRIV_WADD ||| ACL_PRIV_WDEL
/-- The mask `ACL_PRIV_MANAGE`. Modelled from the spec: `ACL_ACCESS2PRIV( ACL_MANAGE )`. -/
def ACL_PRIV_MANAGE : slap_mask_t := ACL_ACCESS2PRIV ACL_MANAGE
/-- The privilege bit space `ACL_PRIV_MASK`. Modelled from the spec: slap.h
defines it as `(ACL_ACCESS2PRIV(ACL_LAST) - 1) | ACL_QUALIFIER_MASK`. -/
def ACL_PRIV_MASK : slap_mask_t := (ACL_ACCESS2PRIV ACL_LAST - 1) ||| ACL_QUALIFIER_MASK
/-- The flag `ACL_PRIV_LEVEL`. Modelled from the spec: value of the OpenLDAP header. -/
def ACL_PRIV_LEVEL : slap_mask_t := 0x1000
/-- The flag `ACL_PRIV_ADDITIVE`. Modelled from the spec: value of the OpenLDAP header. -/
def ACL_PRIV_ADDITIVE : slap_mask_t := 0x2000
/-- The flag `ACL_PRIV_SUBSTRACTIVE`. Modelled from the spec: value of the OpenLDAP header. -/
def ACL_PRIV_SUBSTRACTIVE : slap_mask_t := 0x4000
/-- The sentinel `ACL_PRIV_INVALID`. Modelled from the spec: value of the OpenLDAP header. -/
def ACL_PRIV_INVALID : slap_mask_t := 0x0

/-- The macro `ACL_PRIV_ISSET(m,p)`. Modelled from the spec: `((m) & (p)) == (p)`. -/
def ACL_PRIV_ISSET (m p : slap_mask_t) : Bool := (m &&& p) == p
/-- The macro `ACL_PRIV_SET(m,p)`, as the new value of `m`. Modelled from the spec: `(m) |= (p)`. -/
def ACL_PRIV_SET (m p : slap_mask_t) : slap_mask_t := m ||| p
/-- The macro `ACL_PRIV_CLR(m,p)`, as the new value of `m`. Modelled from the spec: `(m) &= ~(p)`. -/
def ACL_PRIV_CLR (m p : slap_mask_t) : slap_mask_t := m &&& lnot p
/-- The macro `ACL_GRANT(m,a)`. Modelled from the spec:
`ACL_PRIV_ISSET((m),ACL_ACCESS2PRIV(a))`. -/
def ACL_GRANT (m : slap_mask_t) (a : slap_access_t) : Bool := ACL_PRIV_ISSET m (ACL_ACCESS2PRIV a)
/-- The macro `ACL_IS_INVALID(m)`. Modelled from the spec: `(m) == ACL_PRIV_INVALID`. -/
def ACL_IS_INVALID (m : slap_mask_t) : Bool := m == ACL_PRIV_INVALID
/-- The macro `ACL_IS_ADDITIVE(m)`. Modelled from the spec: `ACL_PRIV_ISSET((m),ACL_PRIV_ADDITIVE)`. -/
def ACL_IS_ADDITIVE (m : slap_mask_t) : Bool := ACL_PRIV_ISSET m ACL_PRIV_ADDITIVE
/-- The macro `ACL_IS_SUBTRACTIVE(m)`. Modelled from the spec:
`ACL_PRIV_ISSET((m),ACL_PRIV_SUBSTRACTIVE)`. -/
def ACL_IS_SUBTRACTIVE (m : slap_mask_t) : Bool := ACL_PRIV_ISSET m ACL_PRIV_SUBSTRACTIVE

/-- The mask `ACL_LVL_NONE`. Modelled from the spec: `ACL_PRIV_NONE|ACL_PRIV_LEVEL`. -/
def ACL_LVL_NONE : slap_mask_t := ACL_PRIV_NONE ||| ACL_PRIV_LEVEL
/-- The mask `ACL_LVL_AUTH`. Modelled from the spec: `ACL_PRIV_AUTH|ACL_LVL_NONE`. -/
def ACL_LVL_AUTH : slap_mask_t := ACL_PRIV_AUTH ||| ACL_LVL_NONE
/-- The mask `ACL_LVL_COMPARE`. Modelled from the spec: `ACL_PRIV_COMPARE|ACL_LVL_AUTH`. -/
def ACL_LVL_COMPARE : slap_mask_t := ACL_PRIV_COMPARE ||| ACL_LVL_AUTH
/-- The mask `ACL_LVL_SEARCH`. Modelled from the spec: `ACL_PRIV_SEARCH|ACL_LVL_COMPARE`. -/
def ACL_LVL_SEARCH : slap_mask_t := ACL_PRIV_SEARCH ||| ACL_LVL_COMPARE
/-- The mask `ACL_LVL_READ`. Modelled from the spec: `ACL_PRIV_READ|ACL_LVL_SEARCH`. -/
def ACL_LVL_READ : slap_mask_t := ACL_PRIV_READ ||| ACL_LVL_SEARCH
/-- The mask `ACL_LVL_WRITE`. Modelled from the spec: `ACL_PRIV_WRITE|ACL_LVL_READ`. -/
def ACL_LVL_WRITE : slap_mask_t := ACL_PRIV_WRITE ||| ACL_LVL_READ
/-- The mask `ACL_LVL_MANAGE`. Modelled from the spec: `ACL_PRIV_MANAGE|ACL_LVL_WRITE`. -/
def ACL_LVL_MANAGE : slap_mask_t := ACL_PRIV_MANAGE ||| ACL_LVL_WRITE

/-- The enumeration `slap_control_t`. -/
inductive slap_control_t where
  | ACL_INVALID_CONTROL
  | ACL_STOP
  | ACL_CONTINUE
  | ACL_BREAK
deriving DecidableEq, Repr

/-- The enumeration `slap_style_t`. -/
inductive slap_style_t where
  | ACL_STYLE_REGEX
  | ACL_STYLE_EXPAND
  | ACL_STYLE_BASE
  | ACL_STYLE_ONE
  | ACL_STYLE_SUBTREE
  | ACL_STYLE_CHILDREN
  | ACL_STYLE_LEVEL
  | ACL_STYLE_ATTROF
  | ACL_STYLE_ANONYMOUS
  | ACL_STYLE_USERS
  | ACL_STYLE_SELF
  | ACL_STYLE_IP
  | ACL_STYLE_PATH
deriving DecidableEq, Repr

/-- The bit `ACL_STATE_RECORDED_VD` of `as_recorded`. Modelled from the spec:
slap.h is not among the sources; value of the OpenLDAP header. -/
def ACL_STATE_RECORDED_VD : Nat := 0x1
/-- The bit `ACL_STATE_RECORDED_NV` of `as_recorded`. Modelled from the spec:
value of the OpenLDAP header. -/
def ACL_STATE_RECORDED_NV : Nat := 0x2
/-- The value `ACL_STATE_RECORDED` (both bits). Modelled from the spec: value
of the OpenLDAP header. -/
def ACL_STATE_RECORDED : Nat := 0x3

/-- The macro `DN_SEPARATOR(c)`. Modelled from the spec: slap.h defines it as
`(c) == ','`. -/
def DN_SEPARATOR (c : Nat) : Bool := c == 44

/-- Result codes of the LDAP library used by the evaluator. -/
def LDAP_SUCCESS : Int := 0
/-- The result code `LDAP_COMPARE_TRUE`. -/
def LDAP_COMPARE_TRUE : Int := 6
/-- The result code `LDAP_NO_SUCH_ATTRIBUTE`. -/
def LDAP_NO_SUCH_ATTRIBUTE : Int := 16
/-- The result code `LDAP_NO_SUCH_OBJECT`. -/
def LDAP_NO_SUCH_OBJECT : Int := 32
/-- The result code `LDAP_OTHER`. -/
def LDAP_OTHER : Int := 80

/-! ## Data model (slap.h) -/

/-- The type `regex_t`: a compiled regular expression, as a handle that the
regex engine (`Env.regexec`) interprets. -/
structure regex_t where
  re_id : Nat
deriving DecidableEq, Repr

/-- The type `AttributeType`, reduced to the fields the evaluator reads. -/
structure AttributeType where
  /-- the flag read by `is_at_no_user_mod` -/
  sat_no_user_mod : Bool
  /-- identity of the syntax `sat_syntax` -/
  sat_syntax : Nat
  /-- identity of the equality matching rule `sat_equality` -/
  sat_equality : Nat
deriving DecidableEq, Repr

/-- The type `AttributeDescription`. Descriptions are compared by address in
the C code; `ad_id` stands for the address and equality of values for
equality of pointers. -/
structure AttributeDescription where
  ad_id : Nat
  ad_cname : berval
  ad_type : AttributeType
deriving DecidableEq, Repr

/-- The type `AttributeName`. -/
structure AttributeName where
  an_name : berval
  an_desc : AttributeDescription
deriving DecidableEq, Repr

/-- The type `Attribute`: `a_nvals` is the value array up to its terminator;
`a_next` is the tail of the list the attribute sits in. -/
structure Attribute where
  a_desc : AttributeDescription
  a_nvals : List berval
deriving DecidableEq, Repr

/-- The type `Entry`: `e_dn` is `e_name.bv_val` and `e_ndn` is `e_nname.bv_val`. -/
structure Entry where
  e_name : berval
  e_nname : berval
  e_attrs : List Attribute
deriving DecidableEq, Repr

/-- The pointer `e->e_ndn` as a C string. -/
def Entry.e_ndn (e : Entry) : List Nat := e.e_nname.str

/-- The type `slap_dn_access`. -/
structure slap_dn_access where
  a_pat : berval
  a_style : slap_style_t
  a_level : Int
  a_self_level : Int
  a_at : Option AttributeDescription
  a_self : Bool
  a_expand : Bool
deriving DecidableEq, Repr

/-- The type `AuthorizationInformation`, reduced to the strength factors. -/
structure AuthorizationInformation where
  sai_ssf : Nat
  sai_transport_ssf : Nat
  sai_tls_ssf : Nat
  sai_sasl_ssf : Nat
deriving DecidableEq, Repr

/-- The type `Access`: one who clause of a rule. `a_next` is the tail of the
clause list of the rule. -/
structure Access where
  a_type : slap_control_t
  a_access_mask : slap_mask_t
  a_dn : slap_dn_access
  a_realdn : slap_dn_access
  a_authz : AuthorizationInformation
  a_peername_style : slap_style_t
  a_peername_pat : berval
  a_peername_addr : Nat
  a_peername_mask : Nat
  a_peername_port : Int
  a_sockname_style : slap_style_t
  a_sockname_pat : berval
  a_domain_style : slap_style_t
  a_domain_pat : berval
  a_domain_expand : Bool
  a_sockurl_style : slap_style_t
  a_sockurl_pat : berval
  a_set_style : slap_style_t
  a_set_pat : berval
  a_aci_at : Option AttributeDescription
  a_group_style : slap_style_t
  a_group_pat : berval
  a_group_oc : Nat
  a_group_at : Option AttributeDescription
deriving DecidableEq, Repr

/-- The macro `a_dn_pat`. -/
def Access.a_dn_pat (b : Access) : berval := b.a_dn.a_pat
/-- The macro `a_dn_at`. -/
def Access.a_dn_at (b : Access) : Option AttributeDescription := b.a_dn.a_at
/-- The macro `a_realdn_pat`. -/
def Access.a_realdn_pat (b : Access) : berval := b.a_realdn.a_pat
/-- The macro `a_realdn_at`. -/
def Access.a_realdn_at (b : Access) : Option AttributeDescription := b.a_realdn.a_at

/-- The type `AccessControl`: one rule of a policy list. `acl_attrs` and
`acl_filter` are `none` for NULL; `acl_access` is the list of who clauses;
`acl_next` is the tail of the policy list. -/
structure AccessControl where
  acl_filter : Option Nat
  acl_dn_style : slap_style_t
  acl_dn_re : regex_t
  acl_dn_pat : berval
  acl_attrs : Option (List AttributeName)
  acl_attrval_mr : Nat
  acl_attrval_style : slap_style_t
  acl_attrval_re : regex_t
  acl_attrval : berval
  acl_access : List Access
deriving DecidableEq, Repr

/-- The type `BackendDB`, reduced to the policy list (`[]` for a NULL `be_acl`)
and the default access level. -/
structure BackendDB where
  be_id : Nat
  be_acl : List AccessControl
  be_dfltaccess : slap_access_t
deriving DecidableEq, Repr

/-- The type `Connection`, reduced to the fields the evaluator reads.
`c_listener` tells whether the listener pointer is non-NULL. -/
structure Connection where
  c_ndn : berval
  c_listener : Bool
  c_listener_url : berval
  c_peer_domain : berval
  c_peer_name : berval
  c_sock_name : berval
deriving DecidableEq, Repr

/-- The type `Operation`, reduced to the fields the evaluator reads. The
network dimensions dereference `o_conn` unguarded, so an operation carries a
connection. -/
structure Operation where
  o_bd : Option BackendDB
  o_dn : berval
  o_ndn : berval
  o_conn : Connection
  o_is_auth_check : Bool
  o_ssf : Nat
  o_transport_ssf : Nat
  o_tls_ssf : Nat
  o_sasl_ssf : Nat
deriving DecidableEq, Repr

/-- The type `AccessControlState`. Rule pointers (`as_vd_acl`, `as_vi_acl`) are
positions in the policy list, the clause pointer `as_vd_access` is a position
in the clause list of the rule `as_vd_acl`. -/
structure AccessControlState where
  as_recorded : Nat
  as_vd_acl : Option Nat
  as_vi_acl : Option Nat
  as_vd_acl_mask : slap_mask_t
  as_vd_acl_matches : List regmatch_t
  as_vd_acl_count : Int
  as_vd_access : Option Nat
  as_vd_access_count : Int
  as_result : Int
  as_vd_ad : Option AttributeDescription
deriving DecidableEq, Repr

/-- An array of `MAXREMATCHES` zeroed `regmatch_t` (`memset( matches, 0, ... )`). -/
def matches_zero : List regmatch_t := List.replicate MAXREMATCHES ⟨0, 0⟩

/-- The initialiser `ACL_STATE_INIT`. Modelled from the spec: slap.h is not
among the sources; nothing recorded, all pointers NULL, all numbers zero. -/
def ACL_STATE_INIT : AccessControlState :=
  { as_recorded := 0, as_vd_acl := none, as_vi_acl := none, as_vd_acl_mask := 0,
    as_vd_acl_matches := matches_zero, as_vd_acl_count := 0, as_vd_access := none,
    as_vd_access_count := 0, as_result := 0, as_vd_ad := none }

/-- The collaborators of the evaluator that live outside `acl.c`. -/
structure Env where
  /-- `be_isroot( op )` -/
  be_isroot : Operation → Bool
  /-- `LDAP_STAILQ_FIRST( &backendDB )` -/
  first_backend : Option BackendDB
  /-- the global `frontendDB` -/
  frontendDB : BackendDB
  /-- `slap_schema.si_ad_entry` -/
  si_ad_entry : AttributeDescription
  /-- `slap_schema.si_ad_children` -/
  si_ad_children : AttributeDescription
  /-- identity of `slap_schema.si_syn_distinguishedName` -/
  si_syn_distinguishedName : Nat
  /-- `regexec( re, str, nmatch, matches, 0 )`: the return code and the content
  of the match array afterwards -/
  regexec : regex_t → List Nat → Nat → List regmatch_t → Int × List regmatch_t
  /-- `regcomp( &re, pattern, REG_EXTENDED|REG_ICASE )`: `none` on failure -/
  regcomp : List Nat → Option regex_t
  /-- `ad_inlist( desc, attrs )` -/
  ad_inlist : AttributeDescription → List AttributeName → Bool
  /-- `is_ad_subtype( sub, super )` -/
  is_ad_subtype : AttributeDescription → AttributeDescription → Bool
  /-- `value_match( &match, ad, mr, 0, v1, v2, &text )`: return code and `match` -/
  value_match : AttributeDescription → Nat → berval → berval → Int × Int
  /-- `value_find_ex( ad, flags, vals, val, ctx )` -/
  value_find_ex : AttributeDescription → List berval → berval → Int
  /-- `test_filter( NULL, e, filter )` -/
  test_filter : Entry → Nat → Int
  /-- `dn_rdnlen( NULL, dn )` -/
  dn_rdnlen : berval → Int
  /-- `dnParent( dn, &pdn )` -/
  dnParent : berval → berval
  /-- `dn_match( a, b )` -/
  dn_match : berval → berval → Bool
  /-- `dnIsSuffix( dn, suffix )` -/
  dnIsSuffix : berval → berval → Bool
  /-- `dnNormalize( 0, NULL, NULL, in, &out, ctx )`: `none` unless `LDAP_SUCCESS` -/
  dnNormalize : berval → Option berval
  /-- `backend_group( op, e, group_ndn, op_ndn, oc, at )` -/
  backend_group : Operation → Entry → berval → berval → Nat → Option AttributeDescription → Int
  /-- `backend_attribute( op, target, ndn, ad, &vals, access )`: return code and values -/
  backend_attribute : Operation → Option Entry → berval → AttributeDescription →
    slap_access_t → Int × Option (List berval)
  /-- `slap_set_filter( aci_set_gather, cookie, set, user_ndn, entry_ndn, NULL )` -/
  slap_set_filter : Operation → Entry → berval → berval → berval → Int
  /-- `slap_bv2ad( bv, &ad, &text )`: `none` unless `LDAP_SUCCESS` -/
  slap_bv2ad : berval → Option AttributeDescription
  /-- `oc_bvfind( bv )` -/
  oc_bvfind : berval → Option Nat
  /-- `inet_addr( str )` -/
  inet_addr : List Nat → Nat
  /-- `strtol( str, &next, 10 )`: the value and the unparsed rest -/
  strtol : List Nat → Int × List Nat
  /-- the strings `SLAPD_GROUP_CLASS`, `SLAPD_GROUP_ATTR`, `SLAPD_ROLE_CLASS`,
  `SLAPD_ROLE_ATTR`, `SLAPD_ACI_SET_ATTR` -/
  aci_bv_group_class : berval
  aci_bv_group_attr : berval
  aci_bv_role_class : berval
  aci_bv_role_attr : berval
  aci_bv_set_attr : berval
  /-- values read before being written -/
  junk : Indeterminate

/-! ## Pattern matcher -/

/-- The copying loop of `string_expand`:
`for ( ; size < bv->bv_len && i < l; size++, i++ ) *dp++ = match[i];`
where `size` is the number of bytes written so far. -/
def string_expand_copy (junk : Indeterminate) (cap : Nat) (match_ : List Nat) (i l : Int)
    (out : List Nat) : List Nat :=
  out ++ (List.range (min (cap - out.length) (l - i).toNat)).map
    (fun k => char_at junk match_ (i + (k : Int)))

/-- The main loop of `string_expand` over the rest of the pattern. `flag` is the
C variable (0, 1 after `$`, 2 after `${`); `flag = 3` stands for the inner loop
`for ( sp++; *sp != 0 && *sp != '}'; sp++ )` that accumulates the number `n`,
an `int`: `n = 10*n + ( *sp - '0' )` is taken with the wrap-around of `int`,
and `matches[n]` is read for every `n < nmatch`, a negative one included.
`out` is the buffer written so far (`size = out.length`). The result is the
return code and the bytes written. -/
def string_expand_loop (junk : Indeterminate) (cap : Nat) (match_ : List Nat) (nmatch : Int)
    (ms : List regmatch_t) : List Nat → Nat → Int → List Nat → Int × List Nat
  | [], flag, _, out =>
    if flag = 3 then (1, out)
    else (0, if flag ≠ 0 then out ++ [36] else out)
  | c :: rest, flag, n, out =>
    if flag = 3 then
      if c = 0 then (1, out)
      else if c = 125 then
        if n ≥ nmatch then (1, out)
        else string_expand_loop junk cap match_ nmatch ms rest 0 0
          (string_expand_copy junk cap match_ (match_read junk ms n).rm_so
            (match_read junk ms n).rm_eo out)
      else if 48 ≤ c ∧ c ≤ 57 then
        string_expand_loop junk cap match_ nmatch ms rest 3
          (int_wrap (10 * n + ((c : Int) - 48))) out
      else string_expand_loop junk cap match_ nmatch ms rest 3 n out
    else if ¬ (out.length < cap) then (0, if flag ≠ 0 then out ++ [36] else out)
    else if flag ≠ 0 then
      if flag = 1 ∧ c = 36 then string_expand_loop junk cap match_ nmatch ms rest 0 0 (out ++ [36])
      else if flag = 1 ∧ c = 123 then string_expand_loop junk cap match_ nmatch ms rest 2 0 out
      else if 48 ≤ c ∧ c ≤ 57 then
        if flag = 2 then
          string_expand_loop junk cap match_ nmatch ms rest 3 ((c : Int) - 48) out
        else if ((c : Int) - 48) ≥ nmatch then (1, out)
        else string_expand_loop junk cap match_ nmatch ms rest 0 0
          (string_expand_copy junk cap match_ (match_at ms (c - 48)).rm_so
            (match_at ms (c - 48)).rm_eo out)
      else string_expand_loop junk cap match_ nmatch ms rest flag n out
    else if c = 36 then string_expand_loop junk cap match_ nmatch ms rest 1 0 out
    else string_expand_loop junk cap match_ nmatch ms rest 0 0 (out ++ [c])

/-- The function `string_expand( bv, pat, match, nmatch, matches )`: `bv_len` is
the capacity `bv->bv_len` on entry (one byte of it is set aside for a lone
`$`); it is `ACL_BUF_SIZE - 1` at every call site, and the statements about
this function take it positive (`bv->bv_len--` on 0 would wrap). Returns the
return code and the bytes written to `bv->bv_val`; on success these are the
expansion and `bv->bv_len` is their number. -/
def string_expand (junk : Indeterminate) (bv_len : Nat) (pat : berval) (match_ : List Nat)
    (nmatch : Int) (ms : List regmatch_t) : Int × List Nat :=
  string_expand_loop junk (bv_len - 1) match_ nmatch ms pat.str 0 0 []

/-- The function `regex_matches( pat, str, buf, nmatch, matches )`. The return
code of `string_expand` is ignored by the C code; after a failed expansion the
buffer handed to `regcomp` is not terminated. -/
def regex_matches (env : Env) (pat : berval) (str : Option (List Nat)) (buf : List Nat)
    (nmatch : Int) (ms : List regmatch_t) : Bool :=
  let r := string_expand env.junk (ACL_BUF_SIZE - 1) pat buf nmatch ms
  let newbuf := if r.1 = 0 then r.2 else r.2 ++ env.junk.tail
  match env.regcomp newbuf with
  | none => false
  | some re => (env.regexec re (str.getD []) 0 []).1 == 0

/-- The capture array a who clause uses for `$N` expansion, chosen by the style
of the rule's entry DN (the `switch ( a->acl_dn_style )` that `acl_mask_dn` and
the group and set dimensions of `slap_acl_mask` repeat): the pair
`(tmp_nmatch, tmp_matchesp)`, or `none` for the error case. -/
def acl_tmp_matches (e : Entry) (a : AccessControl) (nmatch : Int) (ms : List regmatch_t) :
    Option (Int × List regmatch_t) :=
  match a.acl_dn_style with
  | .ACL_STYLE_REGEX =>
    if !BER_BVISNULL a.acl_dn_pat then some (nmatch, ms)
    else some (1, [⟨0, e.e_nname.bv_len⟩])
  | .ACL_STYLE_BASE => some (1, [⟨0, e.e_nname.bv_len⟩])
  | .ACL_STYLE_ONE | .ACL_STYLE_SUBTREE | .ACL_STYLE_CHILDREN =>
    some (2, [⟨0, e.e_nname.bv_len⟩,
      ⟨(e.e_nname.bv_len : Int) - (a.acl_dn_pat.bv_len : Int), e.e_nname.bv_len⟩])
  | _ => none

/-- The loop of the SELF style:
`for ( ; level > 0; level-- ) { if ( BER_BVISEMPTY( &ndn ) ) break; dnParent( &ndn, &ndn ); }`. -/
def self_walk (env : Env) : Nat → berval → berval
  | 0, ndn => ndn
  | k + 1, ndn => if BER_BVISEMPTY ndn then ndn else self_walk env k (env.dnParent ndn)

/-- The loop of the LEVEL style; `none` stands for `goto dn_match_cleanup`. -/
def level_walk (env : Env) (patlen : Nat) : Nat → berval → Option berval
  | 0, ndn => some ndn
  | k + 1, ndn =>
    if BER_BVISEMPTY ndn then none
    else if (env.dnParent ndn).bv_len < patlen then none
    else level_walk env patlen k (env.dnParent ndn)

/-- The structural part of `acl_mask_dn` between the length test and
`dn_match_cleanup`: the value of `got_match`. -/
def acl_mask_dn_structural (env : Env) (b : slap_dn_access) (pat opndn : berval) : Bool :=
  let patlen := pat.bv_len
  let odnlen := opndn.bv_len
  let sepc := char_at env.junk opndn.str ((odnlen : Int) - (patlen : Int) - 1)
  let cmp := pat.str == opndn.str.drop (odnlen - patlen)
  if odnlen < patlen then false
  else if b.a_style = .ACL_STYLE_BASE then
    if odnlen ≠ patlen then false else cmp
  else if b.a_style = .ACL_STYLE_ONE then
    if odnlen ≤ patlen then false
    else if !DN_SEPARATOR sepc then false
    else if env.dn_rdnlen opndn ≠ (odnlen : Int) - (patlen : Int) - 1 then false
    else cmp
  else if b.a_style = .ACL_STYLE_SUBTREE then
    if odnlen > patlen && !DN_SEPARATOR sepc then false else cmp
  else if b.a_style = .ACL_STYLE_CHILDREN then
    if odnlen ≤ patlen then false
    else if !DN_SEPARATOR sepc then false
    else cmp
  else if b.a_style = .ACL_STYLE_LEVEL then
    if odnlen ≤ patlen then false
    else if decide (env.junk.level > 0) && !DN_SEPARATOR sepc then false
    else
      match level_walk env patlen b.a_level.toNat opndn with
      | none => false
      | some ndn => if ndn.bv_len ≠ patlen then false else cmp
  else cmp

/-- The function `acl_mask_dn`: 0 when the DN dimension matches, 1 otherwise. -/
def acl_mask_dn (env : Env) (e : Entry) (a : AccessControl) (nmatch : Int)
    (ms : List regmatch_t) (b : slap_dn_access) (opndn : berval) : Int :=
  if b.a_style = .ACL_STYLE_ANONYMOUS then
    if !BER_BVISEMPTY opndn then 1 else 0
  else if b.a_style = .ACL_STYLE_USERS then
    if BER_BVISEMPTY opndn then 1 else 0
  else if b.a_style = .ACL_STYLE_SELF then
    if BER_BVISEMPTY opndn || BER_BVISNULL e.e_nname then 1
    else
      let ndn := if b.a_self_level < 0 then e.e_nname else opndn
      let selfndn := if b.a_self_level < 0 then opndn else e.e_nname
      let level := if b.a_self_level < 0 then - b.a_self_level else b.a_self_level
      let ndn1 := self_walk env level.toNat ndn
      if BER_BVISEMPTY ndn1 || !env.dn_match ndn1 selfndn then 1 else 0
  else if b.a_style = .ACL_STYLE_REGEX then
    if !ber_bvccmp b.a_pat 42 then
      match acl_tmp_matches e a nmatch ms with
      | none => 1
      | some (tmp_nmatch, tmp_matches) =>
        if !regex_matches env b.a_pat opndn.bv_val e.e_ndn tmp_nmatch tmp_matches then 1 else 0
    else 0
  else
    if e.e_name.bv_val.isNone then 1
    else if b.a_expand then
      match acl_tmp_matches e a nmatch ms with
      | none => 1
      | some (tmp_nmatch, tmp_matches) =>
        let r := string_expand env.junk (ACL_BUF_SIZE - 1) b.a_pat e.e_nname.str tmp_nmatch
          tmp_matches
        if r.1 ≠ 0 then 1
        else
          match env.dnNormalize ⟨some r.2⟩ with
          | none => 1
          | some pat => if !acl_mask_dn_structural env b pat opndn then 1 else 0
    else if !acl_mask_dn_structural env b b.a_pat opndn then 1 else 0

/-- The macro `ACL_RECORD_VALUE_STATE`, as the new content of the state. `a`
and `b` are the positions of the current rule and clause. -/
def ACL_RECORD_VALUE_STATE (state : Option AccessControlState) (a : Nat)
    (ms : List regmatch_t) (count : Int) (b : Nat) (i : Int) : Option AccessControlState :=
  match state with
  | none => none
  | some st =>
    if st.as_recorded &&& ACL_STATE_RECORDED_VD = 0 then
      some { st with
        as_recorded := st.as_recorded ||| ACL_STATE_RECORDED_VD
        as_vd_acl := some a
        as_vd_acl_matches := ms
        as_vd_acl_count := count
        as_vd_access := some b
        as_vd_access_count := i }
    else some st

/-- The loop of `acl_mask_dnattr` over the attributes of the entry found by
`attrs_find`: whether `value_find_ex` finds the requester in one of them.
`attrs_find( attrs, desc )` (attr.c) yields the next attribute of the list whose
description `is_ad_subtype` of `desc`. -/
def dnattr_listed (env : Env) (ad : AttributeDescription) (bv : berval) : List Attribute → Bool
  | [] => false
  | at_ :: rest =>
    if env.is_ad_subtype at_.a_desc ad then
      if env.value_find_ex ad at_.a_nvals bv = 0 then true
      else dnattr_listed env ad bv rest
    else dnattr_listed env ad bv rest

/-- The function `acl_mask_dnattr`: the return value (0 when the dimension
matches) and the state afterwards. `ai`, `bi` are the positions of the rule `a`
and of the clause `b`; `at_` is `bdn->a_at`. -/
def acl_mask_dnattr (env : Env) (e : Entry) (val : Option berval) (ai bi : Nat) (i : Int)
    (ms : List regmatch_t) (count : Int) (state : Option AccessControlState)
    (bdn : slap_dn_access) (at_ : AttributeDescription) (opndn : berval) :
    Int × Option AccessControlState :=
  if BER_BVISEMPTY opndn then (1, state)
  else if dnattr_listed env at_ opndn e.e_attrs then
    if bdn.a_self then
      match val with
      | none => (1, state)
      | some v =>
        let r := env.value_match at_ at_.ad_type.sat_equality v opndn
        if r.1 ≠ LDAP_SUCCESS ∨ r.2 ≠ 0 then (1, state) else (0, state)
    else (0, state)
  else
    if !bdn.a_self then (1, state)
    else
      let state1 := ACL_RECORD_VALUE_STATE state ai ms count bi i
      match val with
      | none => (1, state1)
      | some v =>
        let r := env.value_match at_ at_.ad_type.sat_equality v opndn
        if r.1 ≠ LDAP_SUCCESS ∨ r.2 ≠ 0 then (1, state1) else (0, state1)

/-! ## ACI engine -/

/-- A `struct berval` that points into a larger buffer: the bytes
`buf[off .. off+len)`. Reading the byte at `off+len` reads the buffer. -/
structure bvslice where
  buf : List Nat
  off : Nat
  len : Nat
deriving DecidableEq, Repr

/-- The bytes of a slice. -/
def bvslice.str (s : bvslice) : List Nat := (s.buf.drop s.off).take s.len

/-- The slice as a `struct berval` of its own. -/
def bvslice.bv (s : bvslice) : berval := ⟨some s.str⟩

/-- A whole berval seen as a slice. -/
def berval.slice (b : berval) : bvslice := ⟨b.str, 0, b.bv_len⟩

/-- The inner loop `while ( --len >= 0 && *p++ != sep ) ;` of `aci_get_part`,
from `len` remaining bytes at position `p`: the remaining length and position
afterwards, `none` when `len` has become negative. -/
def aci_skip_field (junk : Indeterminate) (buf : List Nat) (sep : Nat) : Nat → Nat → Option (Nat × Nat)
  | 0, _ => none
  | len + 1, p =>
    if char_at junk buf p ≠ sep then aci_skip_field junk buf sep len (p + 1)
    else some (len, p + 1)

/-- The outer loop `while ( len >= 0 && --ix >= 0 )` of `aci_get_part`. -/
def aci_skip_fields (junk : Indeterminate) (buf : List Nat) (sep : Nat) :
    Nat → Nat → Nat → Option (Nat × Nat)
  | 0, len, p => some (len, p)
  | ix + 1, len, p =>
    match aci_skip_field junk buf sep len p with
    | none => none
    | some (len1, p1) => aci_skip_fields junk buf sep ix len1 p1

/-- The loop `while ( len >= 0 && *p == ' ' ) { len--; p++; }` of `aci_get_part`. -/
def aci_skip_spaces (junk : Indeterminate) (buf : List Nat) : Nat → Nat → Option (Nat × Nat)
  | 0, p => if char_at junk buf p = 32 then none else some (0, p)
  | len + 1, p =>
    if char_at junk buf p = 32 then aci_skip_spaces junk buf len (p + 1)
    else some (len + 1, p)

/-- The loop `while ( --len >= 0 && *p != sep ) { bv->bv_len++; p++; }` of
`aci_get_part`: the value of `bv->bv_len` afterwards. -/
def aci_field_len (junk : Indeterminate) (buf : List Nat) (sep : Nat) : Nat → Nat → Nat
  | 0, _ => 0
  | len + 1, p =>
    if char_at junk buf p ≠ sep then aci_field_len junk buf sep len (p + 1) + 1 else 0

/-- The loop `while ( bv->bv_len > 0 && *--p == ' ' ) bv->bv_len--;` of
`aci_get_part`, for a field that starts at `start`. -/
def aci_trim (junk : Indeterminate) (buf : List Nat) (start : Nat) : Nat → Nat
  | 0 => 0
  | n + 1 => if char_at junk buf ((start + n : Nat) : Int) = 32 then aci_trim junk buf start n else n + 1

/-- The function `aci_get_part( list, ix, sep, bv )`: the return value and the
content of `*bv` afterwards (`want` tells whether `bv` is non-NULL). -/
def aci_get_part (junk : Indeterminate) (list : bvslice) (ix : Int) (sep : Nat) (want : Bool) :
    Int × bvslice :=
  match aci_skip_fields junk list.buf sep ix.toNat list.len list.off with
  | none => (-1, ⟨list.buf, 0, 0⟩)
  | some (len1, p1) =>
    match aci_skip_spaces junk list.buf len1 p1 with
    | none => (-1, ⟨list.buf, 0, 0⟩)
    | some (len2, p2) =>
      if !want then (0, ⟨list.buf, 0, 0⟩)
      else
        let n := aci_trim junk list.buf p2 (aci_field_len junk list.buf sep len2 p2)
        ((n : Int), ⟨list.buf, p2, n⟩)

/-- The loop of `aci_list_map_rights` from index `i` (`fuel` bounds the number
of parts, which is at most the length of the list plus one). -/
def aci_list_map_rights_loop (junk : Indeterminate) (list : bvslice) :
    Nat → Nat → slap_access_t → slap_access_t
  | 0, _, mask => mask
  | fuel + 1, i, mask =>
    let r := aci_get_part junk list i 44 true
    if r.1 < 0 then mask
    else if r.2.len ≤ 0 then aci_list_map_rights_loop junk list fuel (i + 1) mask
    else
      let c := char_at junk r.2.buf r.2.off
      let mask1 :=
        if c = 99 then ACL_PRIV_SET mask ACL_PRIV_COMPARE
        else if c = 115 then ACL_PRIV_SET mask ACL_PRIV_SEARCH
        else if c = 114 then ACL_PRIV_SET mask ACL_PRIV_READ
        else if c = 119 then ACL_PRIV_SET mask ACL_PRIV_WRITE
        else if c = 120 then ACL_PRIV_SET mask ACL_PRIV_AUTH
        else mask
      aci_list_map_rights_loop junk list fuel (i + 1) mask1

/-- The function `aci_list_map_rights`. -/
def aci_list_map_rights (junk : Indeterminate) (list : bvslice) : slap_access_t :=
  aci_list_map_rights_loop junk list (list.len + 2) 0 ACL_PRIV_NONE

/-- The body of the loop of `aci_list_has_attr` for the part `bv`: whether the
function returns 1 there. -/
def aci_list_has_attr_part (junk : Indeterminate) (bv : bvslice) (attr : berval)
    (val : Option berval) : Bool :=
  let l := aci_get_part junk bv 0 61 true
  let r := aci_get_part junk bv 1 61 true
  if l.1 < 0 || r.1 < 0 then strcaseeq attr.str bv.str
  else
    match val with
    | none => strcaseeq attr.str l.2.str
    | some v =>
      if strcaseeq attr.str l.2.str then
        let l2 := aci_get_part junk r.2 0 42 true
        if l2.1 < 0 || r.2.len ≤ l2.2.len then strcaseeq v.str r.2.str
        else if v.bv_len ≥ l2.2.len then strncaseeq v.str l2.2.str
        else false
      else false

/-- The loop of `aci_list_has_attr` from index `i`. -/
def aci_list_has_attr_loop (junk : Indeterminate) (list : bvslice) (attr : berval)
    (val : Option berval) : Nat → Nat → Int
  | 0, _ => 0
  | fuel + 1, i =>
    let r := aci_get_part junk list i 44 true
    if r.1 < 0 then 0
    else if aci_list_has_attr_part junk r.2 attr val then 1
    else aci_list_has_attr_loop junk list attr val fuel (i + 1)

/-- The function `aci_list_has_attr`. -/
def aci_list_has_attr (junk : Indeterminate) (list : bvslice) (attr : berval)
    (val : Option berval) : Int :=
  aci_list_has_attr_loop junk list attr val (list.len + 2) 0

/-- The loop of `aci_list_get_attr_rights` from index `i` (which advances by 2). -/
def aci_list_get_attr_rights_loop (junk : Indeterminate) (list : bvslice) (attr : berval)
    (val : Option berval) : Nat → Nat → slap_access_t → slap_access_t
  | 0, _, mask => mask
  | fuel + 1, i, mask =>
    let r := aci_get_part junk list (i + 1) 59 true
    if r.1 < 0 then mask
    else if aci_list_has_attr junk r.2 attr val = 0 then
      aci_list_get_attr_rights_loop junk list attr val fuel (i + 2) mask
    else
      let r2 := aci_get_part junk list i 59 true
      if r2.1 < 0 then aci_list_get_attr_rights_loop junk list attr val fuel (i + 2) mask
      else aci_list_get_attr_rights_loop junk list attr val fuel (i + 2)
        (mask ||| aci_list_map_rights junk r2.2)

/-- The function `aci_list_get_attr_rights`. -/
def aci_list_get_attr_rights (junk : Indeterminate) (list : bvslice) (attr : berval)
    (val : Option berval) : slap_access_t :=
  aci_list_get_attr_rights_loop junk list attr val (list.len + 2) 1 ACL_PRIV_NONE

/-- The loop of `aci_list_get_rights` from index `i`: `found`, `*grant`, `*deny`. -/
def aci_list_get_rights_loop (junk : Indeterminate) (list : bvslice) (attr : berval)
    (val : Option berval) : Nat → Nat → Int × slap_access_t × slap_access_t →
    Int × slap_access_t × slap_access_t
  | 0, _, acc => acc
  | fuel + 1, i, (found, grant, deny) =>
    let perm := aci_get_part junk list i 36 true
    if perm.1 < 0 then (found, grant, deny)
    else
      let actn := aci_get_part junk perm.2 0 59 true
      if actn.1 < 0 then
        aci_list_get_rights_loop junk list attr val fuel (i + 1) (found, grant, deny)
      else
        let add := aci_list_get_attr_rights junk perm.2 attr val |||
          aci_list_get_attr_rights junk perm.2 (BER_BVC "[all]") none
        if strcaseeq (bytes "grant") actn.2.str then
          aci_list_get_rights_loop junk list attr val fuel (i + 1) (1, grant ||| add, deny)
        else if strcaseeq (bytes "deny") actn.2.str then
          aci_list_get_rights_loop junk list attr val fuel (i + 1) (1, grant, deny ||| add)
        else aci_list_get_rights_loop junk list attr val fuel (i + 1) (found, grant, deny)

/-- The function `aci_list_get_rights`: the return value `found` and the content
of `*grant` and `*deny`. -/
def aci_list_get_rights (junk : Indeterminate) (list : bvslice) (attr : Option berval)
    (val : Option berval) : Int × slap_access_t × slap_access_t :=
  let attr1 : berval :=
    match attr with
    | none => BER_BVC "[entry]"
    | some at_ =>
      if at_.bv_len = 0 || strcaseeq at_.str (bytes "entry") then BER_BVC "[entry]" else at_
  aci_list_get_rights_loop junk list attr1 val (list.len + 2) 0 (0, ACL_PRIV_NONE, ACL_PRIV_NONE)

/-- The function `aci_group_member`. -/
def aci_group_member (env : Env) (subj : bvslice) (defgrpoc defgrpat : berval) (op : Operation)
    (e : Entry) (nmatch : Int) (ms : List regmatch_t) : Int :=
  let subjdn := aci_get_part env.junk subj 0 47 true
  if subjdn.1 < 0 then 0
  else
    let oc := aci_get_part env.junk subj 1 47 true
    let grpoc := if oc.1 < 0 then defgrpoc else oc.2.bv
    let at_ := aci_get_part env.junk subj 2 47 true
    let grpat := if at_.1 < 0 then defgrpat else at_.2.bv
    match env.slap_bv2ad grpat with
    | none => 0
    | some grp_ad =>
      match env.oc_bvfind grpoc with
      | none => 0
      | some grp_oc =>
        let r := string_expand env.junk (ACL_BUF_SIZE - 1) subjdn.2.bv e.e_ndn nmatch ms
        if r.1 ≠ 0 then LDAP_OTHER
        else
          match env.dnNormalize ⟨some r.2⟩ with
          | none => 0
          | some ndn =>
            if env.backend_group op e ndn op.o_ndn grp_oc (some grp_ad) = 0 then 1 else 0

/-- The function `aci_match_set`. -/
def aci_match_set (env : Env) (subj : bvslice) (op : Operation) (e : Entry) (setref : Int) : Int :=
  let set : Option berval :=
    if setref = 0 then some subj.bv
    else
      let subjdn := aci_get_part env.junk subj 0 47 true
      if subjdn.1 < 0 then none
      else
        let sa := aci_get_part env.junk subj 1 47 true
        let setat := if sa.1 < 0 then env.aci_bv_set_attr else sa.2.bv
        match env.slap_bv2ad setat with
        | none => none
        | some desc =>
          match env.dnNormalize subjdn.2.bv with
          | none => none
          | some ndn =>
            match (env.backend_attribute op (some e) ndn desc ACL_NONE).2 with
            | none => none
            | some bvals =>
              match bvals.head? with
              | none => none
              | some b0 => if BER_BVISNULL b0 then none else some b0
  match set with
  | none => 0
  | some st => if env.slap_set_filter op e st op.o_ndn e.e_nname > 0 then 1 else 0

/-- The constant `SLAP_ACI_SCOPE_ENTRY`. -/
def SLAP_ACI_SCOPE_ENTRY : Nat := 0x1
/-- The constant `SLAP_ACI_SCOPE_CHILDREN`. -/
def SLAP_ACI_SCOPE_CHILDREN : Nat := 0x2
/-- The constant `SLAP_ACI_SCOPE_SUBTREE`. -/
def SLAP_ACI_SCOPE_SUBTREE : Nat := SLAP_ACI_SCOPE_ENTRY ||| SLAP_ACI_SCOPE_CHILDREN

/-- The subject test of `aci_mask` (from the test for `access-id` on), for the
subject type `type` and the subject body `sdn`. -/
def aci_mask_subject (env : Env) (op : Operation) (e : Entry) (nmatch : Int)
    (ms : List regmatch_t) (type sdn : bvslice) : Int :=
  if strcaseeq (bytes "access-id") type.str then
    match env.dnNormalize sdn.bv with
    | none => 0
    | some ndn => if env.dn_match op.o_ndn ndn then 1 else LDAP_SUCCESS
  else if strcaseeq (bytes "subtree") type.str then
    match env.dnNormalize sdn.bv with
    | none => 0
    | some ndn => if env.dnIsSuffix op.o_ndn ndn then 1 else LDAP_SUCCESS
  else if strcaseeq (bytes "onelevel") type.str then
    match env.dnNormalize sdn.bv with
    | none => 0
    | some ndn => if env.dn_match op.o_ndn (env.dnParent ndn) then 1 else LDAP_SUCCESS
  else if strcaseeq (bytes "children") type.str then
    match env.dnNormalize sdn.bv with
    | none => 0
    | some ndn =>
      if !env.dn_match op.o_ndn ndn && env.dnIsSuffix op.o_ndn ndn then 1 else LDAP_SUCCESS
  else if strcaseeq (bytes "self") type.str then
    if env.dn_match op.o_ndn e.e_nname then 1 else 0
  else if strcaseeq (bytes "dnattr") type.str then
    match env.slap_bv2ad sdn.bv with
    | none => 0
    | some ad => if dnattr_listed env ad op.o_ndn e.e_attrs then 1 else 0
  else if strcaseeq (bytes "group") type.str then
    if aci_group_member env sdn env.aci_bv_group_class env.aci_bv_group_attr op e nmatch ms ≠ 0
    then 1 else 0
  else if strcaseeq (bytes "role") type.str then
    if aci_group_member env sdn env.aci_bv_role_class env.aci_bv_role_attr op e nmatch ms ≠ 0
    then 1 else 0
  else if strcaseeq (bytes "set") type.str then
    if aci_match_set env sdn op e 0 ≠ 0 then 1 else 0
  else if strcaseeq (bytes "set-ref") type.str then
    if aci_match_set env sdn op e 1 ≠ 0 then 1 else 0
  else 0

/-- The function `aci_mask`: the return value and the content of `*grant` and
`*deny` afterwards (`grant0`, `deny0` is their content before). The assertion
`assert( !BER_BVISNULL( &desc->ad_cname ) )` is taken as given: `slap_acl_mask`,
the only caller, has asserted `desc->ad_cname.bv_val != NULL` before. -/
def aci_mask (env : Env) (op : Operation) (e : Entry) (desc : AttributeDescription)
    (val : Option berval) (aci : berval) (nmatch : Int) (ms : List regmatch_t)
    (grant0 deny0 : slap_access_t) (asserted_scope : Nat) : Int × slap_access_t × slap_access_t :=
  let junk := env.junk
  let acis := aci.slice
  if (aci_get_part junk acis 4 35 false).1 < 0 then (0, grant0, deny0)
  else if (aci_get_part junk acis 0 35 true).1 < 0 then (0, grant0, deny0)
  else
    let scope := aci_get_part junk acis 1 35 true
    if scope.1 < 0 then (0, grant0, deny0)
    else if !(if asserted_scope = SLAP_ACI_SCOPE_ENTRY then
        strcaseeq scope.2.str (bytes "entry") || strcaseeq scope.2.str (bytes "subtree")
      else if asserted_scope = SLAP_ACI_SCOPE_CHILDREN then
        strcaseeq scope.2.str (bytes "children") || strcaseeq scope.2.str (bytes "subtree")
      else false) then (0, grant0, deny0)
    else
      let perms := aci_get_part junk acis 2 35 true
      if perms.1 ≤ 0 then (0, grant0, deny0)
      else
        let rights := aci_list_get_rights junk perms.2 (some desc.ad_cname) val
        if rights.1 = 0 then (0, rights.2.1, rights.2.2)
        else
          let type := aci_get_part junk acis 3 35 true
          if type.1 < 0 then (0, rights.2.1, rights.2.2)
          else if strcaseeq (bytes "public") type.2.str then (1, rights.2.1, rights.2.2)
          else if BER_BVISNULL op.o_ndn || BER_BVISEMPTY op.o_ndn then (0, rights.2.1, rights.2.2)
          else if strcaseeq (bytes "users") type.2.str then (1, rights.2.1, rights.2.2)
          else
            let sdn_off := type.2.off + type.2.len + 1
            let sdn : bvslice := ⟨acis.buf, sdn_off, aci.bv_len - (sdn_off - acis.off)⟩
            (aci_mask_subject env op e nmatch ms type.2 sdn, rights.2.1, rights.2.2)

/-! ## Who-clause evaluator and mask composer (`slap_acl_mask`) -/

/-- The library function `strrchr( s, c )`, as the position found. -/
def strrchr (s : List Nat) (c : Nat) : Option Nat :=
  (List.range s.length).reverse.find? (fun k => s.getD k 0 == c)

/-- The socket URL dimension of `slap_acl_mask` (`a_sockurl_pat`): `false` when
the clause is left by `continue`. -/
def who_sockurl (env : Env) (b : Access) (op : Operation) (e : Entry) (nmatch : Int)
    (ms : List regmatch_t) : Bool :=
  if !BER_BVISEMPTY b.a_sockurl_pat then
    if !op.o_conn.c_listener then false
    else if !ber_bvccmp b.a_sockurl_pat 42 then
      if b.a_sockurl_style = .ACL_STYLE_REGEX then
        regex_matches env b.a_sockurl_pat op.o_conn.c_listener_url.bv_val e.e_ndn nmatch ms
      else if b.a_sockurl_style = .ACL_STYLE_EXPAND then
        let r := string_expand env.junk (ACL_BUF_SIZE - 1) b.a_sockurl_pat e.e_ndn nmatch ms
        if r.1 ≠ 0 then false
        else strcaseeq r.2 op.o_conn.c_listener_url.str
      else ber_bvstrcaseeq b.a_sockurl_pat op.o_conn.c_listener_url
    else true
  else true

/-- The peer domain dimension of `slap_acl_mask` (`a_domain_pat`). -/
def who_domain (env : Env) (b : Access) (op : Operation) (e : Entry) (nmatch : Int)
    (ms : List regmatch_t) : Bool :=
  if !BER_BVISEMPTY b.a_domain_pat then
    if op.o_conn.c_peer_domain.bv_val.isNone then false
    else if !ber_bvccmp b.a_domain_pat 42 then
      if b.a_domain_style = .ACL_STYLE_REGEX then
        regex_matches env b.a_domain_pat op.o_conn.c_peer_domain.bv_val e.e_ndn nmatch ms
      else
        let cmp := op.o_conn.c_peer_domain.str
        let r := string_expand env.junk (ACL_BUF_SIZE - 1) b.a_domain_pat e.e_ndn nmatch ms
        if b.a_domain_expand && decide (r.1 ≠ 0) then false
        else
          let pat := if b.a_domain_expand then r.2 else b.a_domain_pat.str
          if b.a_domain_style = .ACL_STYLE_SUBTREE then
            let offset : Int := (cmp.length : Int) - (pat.length : Int)
            if offset < 0 then false
            else if offset = 1 ∨ (offset > 1 ∧ char_at env.junk cmp (offset - 1) ≠ 46) then false
            else strcaseeq pat (cmp.drop offset.toNat)
          else strcaseeq pat cmp
    else true
  else true

/-- The IP style of the peer name dimension. -/
def who_peername_ip (env : Env) (b : Access) (op : Operation) : Bool :=
  let peer := op.o_conn.c_peer_name.str
  if !strncaseeq peer (bytes "IP=") then false
  else
    let ip := peer.drop 3
    let port := strrchr ip 58
    let next : List Nat := match port with
      | none => []
      | some k => (env.strtol (ip.drop (k + 1))).2
    let port_number : Int := match port with
      | none => -1
      | some k => (env.strtol (ip.drop (k + 1))).1
    let ip_len : Nat := match port with
      | none => ip.length
      | some k => k
    if char_at env.junk next 0 ≠ 0 then false
    else if b.a_peername_port ≠ -1 ∧ port_number ≠ b.a_peername_port then false
    else if ip_len ≥ 16 then false
    else
      let addr := env.inet_addr (ip.take ip_len)
      if addr = 2 ^ ULONG_BITS - 1 then false
      else if addr &&& b.a_peername_mask ≠ b.a_peername_addr then false
      else true

/-- The peer name dimension of `slap_acl_mask` (`a_peername_pat`). -/
def who_peername (env : Env) (b : Access) (op : Operation) (e : Entry) (nmatch : Int)
    (ms : List regmatch_t) : Bool :=
  if !BER_BVISEMPTY b.a_peername_pat then
    if op.o_conn.c_peer_name.bv_val.isNone then false
    else if !ber_bvccmp b.a_peername_pat 42 then
      if b.a_peername_style = .ACL_STYLE_REGEX then
        regex_matches env b.a_peername_pat op.o_conn.c_peer_name.bv_val e.e_ndn nmatch ms
      else if b.a_peername_style = .ACL_STYLE_BASE then
        ber_bvstrcaseeq b.a_peername_pat op.o_conn.c_peer_name
      else if b.a_peername_style = .ACL_STYLE_EXPAND then
        let r := string_expand env.junk (ACL_BUF_SIZE - 1) b.a_peername_pat e.e_ndn nmatch ms
        if r.1 ≠ 0 then false
        else strcaseeq r.2 op.o_conn.c_peer_name.str
      else if b.a_peername_style = .ACL_STYLE_IP then who_peername_ip env b op
      else if b.a_peername_style = .ACL_STYLE_PATH then
        if !strneq op.o_conn.c_peer_name.str (bytes "PATH=") then false
        else b.a_peername_pat.str == op.o_conn.c_peer_name.str.drop 5
      else ber_bveq op.o_conn.c_peer_name b.a_peername_pat
    else true
  else true

/-- The socket name dimension of `slap_acl_mask` (`a_sockname_pat`). -/
def who_sockname (env : Env) (b : Access) (op : Operation) (e : Entry) (nmatch : Int)
    (ms : List regmatch_t) : Bool :=
  if !BER_BVISEMPTY b.a_sockname_pat then
    if BER_BVISNULL op.o_conn.c_sock_name then false
    else if !ber_bvccmp b.a_sockname_pat 42 then
      if b.a_sockname_style = .ACL_STYLE_REGEX then
        regex_matches env b.a_sockname_pat op.o_conn.c_sock_name.bv_val e.e_ndn nmatch ms
      else if b.a_sockname_style = .ACL_STYLE_EXPAND then
        let r := string_expand env.junk (ACL_BUF_SIZE - 1) b.a_sockname_pat e.e_ndn nmatch ms
        if r.1 ≠ 0 then false
        else strcaseeq r.2 op.o_conn.c_sock_name.str
      else ber_bvstrcaseeq b.a_sockname_pat op.o_conn.c_sock_name
    else true
  else true

/-- The group dimension of `slap_acl_mask` (`a_group_pat`). -/
def who_group (env : Env) (a : AccessControl) (b : Access) (op : Operation) (e : Entry)
    (nmatch : Int) (ms : List regmatch_t) : Bool :=
  if !BER_BVISEMPTY b.a_group_pat then
    if op.o_ndn.bv_len = 0 then false
    else if b.a_group_style = .ACL_STYLE_EXPAND then
      match acl_tmp_matches e a nmatch ms with
      | none => false
      | some (tmp_nmatch, tmp_matches) =>
        let r := string_expand env.junk (ACL_BUF_SIZE - 1) b.a_group_pat e.e_nname.str
          tmp_nmatch tmp_matches
        if r.1 ≠ 0 then false
        else
          match env.dnNormalize ⟨some r.2⟩ with
          | none => false
          | some ndn => env.backend_group op e ndn op.o_ndn b.a_group_oc b.a_group_at = 0
    else env.backend_group op e b.a_group_pat op.o_ndn b.a_group_oc b.a_group_at = 0
  else true

/-- The set dimension of `slap_acl_mask` (`a_set_pat`). -/
def who_set (env : Env) (a : AccessControl) (b : Access) (op : Operation) (e : Entry)
    (nmatch : Int) (ms : List regmatch_t) : Bool :=
  if !BER_BVISEMPTY b.a_set_pat then
    if b.a_set_style = .ACL_STYLE_EXPAND then
      match acl_tmp_matches e a nmatch ms with
      | none => false
      | some (tmp_nmatch, tmp_matches) =>
        let r := string_expand env.junk (ACL_BUF_SIZE - 1) b.a_set_pat e.e_nname.str
          tmp_nmatch tmp_matches
        if r.1 ≠ 0 then false
        else aci_match_set env (berval.slice ⟨some r.2⟩) op e 0 ≠ 0
    else aci_match_set env b.a_set_pat.slice op e 0 ≠ 0
  else true

/-- The four security strength factor dimensions of `slap_acl_mask`. -/
def who_ssf (b : Access) (op : Operation) : Bool :=
  if b.a_authz.sai_ssf ≠ 0 ∧ b.a_authz.sai_ssf > op.o_ssf then false
  else if b.a_authz.sai_transport_ssf ≠ 0 ∧ b.a_authz.sai_transport_ssf > op.o_transport_ssf
  then false
  else if b.a_authz.sai_tls_ssf ≠ 0 ∧ b.a_authz.sai_tls_ssf > op.o_tls_ssf then false
  else if b.a_authz.sai_sasl_ssf ≠ 0 ∧ b.a_authz.sai_sasl_ssf > op.o_sasl_ssf then false
  else true

/-- A value array up to its terminator (the first NULL berval). -/
def bvarray (l : List berval) : List berval := l.takeWhile (fun v => !BER_BVISNULL v)

/-- The locals `tgrant`, `tdeny`, `grant`, `deny` of the ACI dimension. -/
structure AciAcc where
  tgrant : slap_access_t
  tdeny : slap_access_t
  grant : slap_access_t
  deny : slap_access_t
deriving DecidableEq, Repr

/-- The loop of the ACI dimension over the ACI values of the entry itself. -/
def aci_entry_values (env : Env) (op : Operation) (e : Entry) (desc : AttributeDescription)
    (val : Option berval) (nmatch : Int) (ms : List regmatch_t) : List berval → AciAcc → AciAcc
  | [], acc => acc
  | v :: vs, acc =>
    let r := aci_mask env op e desc val v nmatch ms acc.grant acc.deny SLAP_ACI_SCOPE_ENTRY
    if r.1 ≠ 0 then
      aci_entry_values env op e desc val nmatch ms vs
        ⟨acc.tgrant ||| r.2.1, acc.tdeny ||| r.2.2, r.2.1, r.2.2⟩
    else aci_entry_values env op e desc val nmatch ms vs ⟨acc.tgrant, acc.tdeny, r.2.1, r.2.2⟩

/-- The loop of the ACI dimension over the ACI values of one ancestor; the
Boolean is the local `stop`. -/
def aci_parent_values (env : Env) (op : Operation) (e : Entry) (desc : AttributeDescription)
    (val : Option berval) (nmatch : Int) (ms : List regmatch_t) :
    List berval → AciAcc × Bool → AciAcc × Bool
  | [], acc => acc
  | v :: vs, (acc, stop) =>
    let r := aci_mask env op e desc val v nmatch ms acc.grant acc.deny SLAP_ACI_SCOPE_CHILDREN
    if r.1 ≠ 0 then
      let tg := acc.tgrant ||| r.2.1
      let td := acc.tdeny ||| r.2.2
      aci_parent_values env op e desc val nmatch ms vs
        (⟨tg, td, r.2.1, r.2.2⟩, if tg ≠ ACL_PRIV_NONE ∨ td ≠ ACL_PRIV_NONE then true else stop)
    else aci_parent_values env op e desc val nmatch ms vs (⟨acc.tgrant, acc.tdeny, r.2.1, r.2.2⟩, stop)

/-- The loop `while ( !BER_BVISEMPTY( &parent_ndn ) )` of the ACI dimension:
the locals and the variable `i` afterwards. `fuel` bounds the number of
ancestors visited (each `dnParent` of a DN is shorter than the DN). -/
def aci_parent_walk (env : Env) (op : Operation) (e : Entry) (desc : AttributeDescription)
    (val : Option berval) (nmatch : Int) (ms : List regmatch_t) (aci_at : AttributeDescription) :
    Nat → berval → AciAcc → Int → AciAcc × Int
  | 0, _, acc, i => (acc, i)
  | fuel + 1, parent_ndn, acc, i =>
    if BER_BVISEMPTY parent_ndn then (acc, i)
    else
      let r := env.backend_attribute op none parent_ndn aci_at ACL_AUTH
      if r.1 = LDAP_SUCCESS then
        match r.2 with
        | none =>
          aci_parent_walk env op e desc val nmatch ms aci_at fuel (env.dnParent parent_ndn) acc i
        | some bvals =>
          let w := aci_parent_values env op e desc val nmatch ms (bvarray bvals) (acc, false)
          if w.2 then (w.1, ((bvarray bvals).length : Int))
          else aci_parent_walk env op e desc val nmatch ms aci_at fuel (env.dnParent parent_ndn)
            w.1 ((bvarray bvals).length : Int)
      else if r.1 = LDAP_NO_SUCH_ATTRIBUTE then
        aci_parent_walk env op e desc val nmatch ms aci_at fuel (env.dnParent parent_ndn) acc i
      else (acc, i)

/-- The ACI dimension of `slap_acl_mask` (`b->a_aci_at != NULL`) and the choice
of `modmask`: `none` when the clause is left by `continue`, else `modmask`;
and the value of the variable `i`, which the loops over ACI values reuse.
`attr_find( attrs, desc )` (attr.c) yields the first attribute of the list whose
description is `desc`. The test `ACL_GRANT( b->a_access_mask, *mask )` is
applied to the running mask, as in the source. -/
def who_aci (env : Env) (b : Access) (mask : slap_mask_t) (op : Operation) (e : Entry)
    (desc : AttributeDescription) (val : Option berval) (nmatch : Int) (ms : List regmatch_t)
    (i : Int) : Option slap_mask_t × Int :=
  match b.a_aci_at with
  | none => (some b.a_access_mask, i)
  | some aci_at =>
    if BER_BVISEMPTY e.e_nname then (none, i)
    else if !ACL_GRANT b.a_access_mask mask then (none, i)
    else
      let acc0 : AciAcc := ⟨ACL_PRIV_NONE, ACL_PRIV_NONE, 0, 0⟩
      let r1 : AciAcc × Int :=
        match e.e_attrs.find? (fun at_ => at_.a_desc = aci_at) with
        | none => (acc0, i)
        | some at_ =>
          (aci_entry_values env op e desc val nmatch ms (bvarray at_.a_nvals) acc0,
            ((bvarray at_.a_nvals).length : Int))
      let r2 : AciAcc × Int :=
        if r1.1.tgrant = ACL_PRIV_NONE ∧ r1.1.tdeny = ACL_PRIV_NONE then
          aci_parent_walk env op e desc val nmatch ms aci_at (e.e_nname.bv_len + 1)
            (env.dnParent e.e_nname) r1.1 r1.2
        else r1
      let tgrant := r2.1.tgrant &&& (b.a_access_mask &&& ACL_PRIV_MASK)
      let tdeny := r2.1.tdeny &&& ACL_PRIV_MASK
      if ACL_IS_INVALID tgrant && ACL_IS_INVALID tdeny then (none, r2.2)
      else if ACL_IS_INVALID tdeny then (some (tgrant ||| ACL_PRIV_ADDITIVE), r2.2)
      else if ACL_IS_INVALID tgrant then (some (tdeny ||| ACL_PRIV_SUBSTRACTIVE), r2.2)
      else (some ((tgrant &&& lnot tdeny) ||| ACL_PRIV_ADDITIVE), r2.2)

/-- The outcome of the dimensions of one who clause. -/
structure WhoResult where
  /-- `none` when the clause is left by `continue`, else the value of `modmask` -/
  modmask : Option slap_mask_t
  /-- the state cache afterwards -/
  state : Option AccessControlState
  /-- the variable `i` afterwards -/
  i : Int
deriving DecidableEq, Repr

/-- The identity a real-DN dimension is tested against. -/
def real_ndn (op : Operation) : berval :=
  if !BER_BVISNULL op.o_conn.c_ndn then op.o_conn.c_ndn else op.o_ndn

/-- The DN dimension of `slap_acl_mask` (`a_dn_pat`, lines 1438-1458): `false`
when the clause is left by `continue`. -/
def who_dn (env : Env) (a : AccessControl) (b : Access) (op : Operation) (e : Entry)
    (nmatch : Int) (ms : List regmatch_t) : Bool :=
  if !BER_BVISEMPTY b.a_dn_pat then acl_mask_dn env e a nmatch ms b.a_dn op.o_ndn == 0
  else true

/-- The real DN dimension of `slap_acl_mask` (`a_realdn_pat`, lines 1460-1489). -/
def who_realdn (env : Env) (a : AccessControl) (b : Access) (op : Operation) (e : Entry)
    (nmatch : Int) (ms : List regmatch_t) : Bool :=
  if !BER_BVISEMPTY b.a_realdn_pat then
    acl_mask_dn env e a nmatch ms b.a_realdn (real_ndn op) == 0
  else true

/-- A DN-attribute dimension of `slap_acl_mask` (`a_dn_at` with the operation
DN, `a_realdn_at` with the real DN): the value `acl_mask_dnattr` returns (0 when
the dimension is not configured) and the state cache afterwards. -/
def who_dnattr (env : Env) (e : Entry) (val : Option berval) (ai bi : Nat) (i : Int)
    (ms : List regmatch_t) (count : Int) (state : Option AccessControlState)
    (bdn : slap_dn_access) (opndn : berval) : Int × Option AccessControlState :=
  match bdn.a_at with
  | none => (0, state)
  | some at_ => acl_mask_dnattr env e val ai bi i ms count state bdn at_ opndn

/-- The body of the clause loop of `slap_acl_mask` up to the choice of
`modmask` (the AND of the who dimensions, in the order of the source: each
dimension that fails leaves the clause by `continue`). `ai`, `bi` are the
positions of the rule `a` and the clause `b`. -/
def acl_mask_who (env : Env) (a : AccessControl) (ai : Nat) (b : Access) (bi : Nat) (i : Int)
    (mask : slap_mask_t) (op : Operation) (e : Entry) (desc : AttributeDescription)
    (val : Option berval) (nmatch : Int) (ms : List regmatch_t) (count : Int)
    (state : Option AccessControlState) : WhoResult :=
  if !(who_dn env a b op e nmatch ms && who_realdn env a b op e nmatch ms &&
      who_sockurl env b op e nmatch ms && who_domain env b op e nmatch ms &&
      who_peername env b op e nmatch ms && who_sockname env b op e nmatch ms) then
    ⟨none, state, i⟩
  else if (who_dnattr env e val ai bi i ms count state b.a_dn op.o_ndn).1 ≠ 0 then
    ⟨none, (who_dnattr env e val ai bi i ms count state b.a_dn op.o_ndn).2, i⟩
  else if (who_dnattr env e val ai bi i ms count
      (who_dnattr env e val ai bi i ms count state b.a_dn op.o_ndn).2 b.a_realdn
      (real_ndn op)).1 ≠ 0 then
    ⟨none, (who_dnattr env e val ai bi i ms count
      (who_dnattr env e val ai bi i ms count state b.a_dn op.o_ndn).2 b.a_realdn
      (real_ndn op)).2, i⟩
  else if !(who_group env a b op e nmatch ms && who_set env a b op e nmatch ms &&
      who_ssf b op) then
    ⟨none, (who_dnattr env e val ai bi i ms count
      (who_dnattr env e val ai bi i ms count state b.a_dn op.o_ndn).2 b.a_realdn
      (real_ndn op)).2, i⟩
  else
    ⟨(who_aci env b mask op e desc val nmatch ms i).1,
      (who_dnattr env e val ai bi i ms count
        (who_dnattr env e val ai bi i ms count state b.a_dn op.o_ndn).2 b.a_realdn
        (real_ndn op)).2,
      (who_aci env b mask op e desc val nmatch ms i).2⟩

/-- The mask composer of `slap_acl_mask`: the value of `*mask` after the
effect `modmask` is applied to it. -/
def acl_mask_apply (mask modmask : slap_mask_t) : slap_mask_t :=
  if ACL_IS_ADDITIVE modmask then
    ACL_PRIV_CLR (ACL_PRIV_SET mask modmask) (lnot ACL_PRIV_MASK)
  else if ACL_IS_SUBTRACTIVE modmask then
    ACL_PRIV_CLR (ACL_PRIV_CLR mask modmask) (lnot ACL_PRIV_MASK)
  else modmask

/-- The outcome of `slap_acl_mask`. -/
structure MaskResult where
  control : slap_control_t
  mask : slap_mask_t
  state : Option AccessControlState
deriving DecidableEq, Repr

/-- The clause loop `for ( ; b != NULL; b = b->a_next, i++ )` of
`slap_acl_mask` over the clauses from `b` on (`bi` is the position of the
first of them). -/
def slap_acl_mask_loop (env : Env) (a : AccessControl) (ai : Nat) (op : Operation) (e : Entry)
    (desc : AttributeDescription) (val : Option berval) (nmatch : Int) (ms : List regmatch_t)
    (count : Int) : List Access → Nat → Int → slap_mask_t → Option AccessControlState → MaskResult
  | [], _, _, _, state => ⟨.ACL_STOP, ACL_PRIV_NONE, state⟩
  | b :: bs, bi, i, mask, state =>
    let w := acl_mask_who env a ai b bi i mask op e desc val nmatch ms count state
    match w.modmask with
    | none => slap_acl_mask_loop env a ai op e desc val nmatch ms count bs (bi + 1) (w.i + 1) mask
        w.state
    | some modmask =>
      if b.a_type = .ACL_CONTINUE then
        slap_acl_mask_loop env a ai op e desc val nmatch ms count bs (bi + 1) (w.i + 1)
          (acl_mask_apply mask modmask) w.state
      else if b.a_type = .ACL_BREAK then ⟨.ACL_BREAK, acl_mask_apply mask modmask, w.state⟩
      else ⟨.ACL_STOP, acl_mask_apply mask modmask, w.state⟩

/-- The clause pointer and counter `slap_acl_mask` starts from. -/
def slap_acl_mask_start (ai : Nat) (state : Option AccessControlState) : Option Nat × Int :=
  match state with
  | none => (some 0, 1)
  | some st =>
    if st.as_recorded &&& ACL_STATE_RECORDED_VD ≠ 0 ∧ st.as_vd_acl = some ai then
      (st.as_vd_access, st.as_vd_access_count)
    else (some 0, 1)

/-- The function `slap_acl_mask` on the rule `a` at position `ai`, from the
running mask `mask`. -/
def slap_acl_mask (env : Env) (a : AccessControl) (ai : Nat) (mask : slap_mask_t)
    (op : Operation) (e : Entry) (desc : AttributeDescription) (val : Option berval)
    (nmatch : Int) (ms : List regmatch_t) (count : Int) (state : Option AccessControlState) :
    MaskResult :=
  match (slap_acl_mask_start ai state).1 with
  | none => slap_acl_mask_loop env a ai op e desc val nmatch ms count [] 0
      (slap_acl_mask_start ai state).2 mask state
  | some k => slap_acl_mask_loop env a ai op e desc val nmatch ms count (a.acl_access.drop k) k
      (slap_acl_mask_start ai state).2 mask state

/-! ## Rule selector (`slap_acl_get`) -/

/-- The entry DN predicate of `slap_acl_get` for the structural styles (the
branch where `acl_dn_style` is not REGEX): `false` when the rule is left by
`continue`. -/
def acl_get_dn_structural (env : Env) (a : AccessControl) (e : Entry) : Bool :=
  let dnlen : Int := e.e_nname.bv_len
  let patlen : Int := a.acl_dn_pat.bv_len
  let sepc := char_at env.junk e.e_ndn (dnlen - patlen - 1)
  let cmp := a.acl_dn_pat.str == e.e_ndn.drop (dnlen - patlen).toNat
  if dnlen < patlen then false
  else if a.acl_dn_style = .ACL_STYLE_BASE then
    if dnlen ≠ patlen then false else cmp
  else if a.acl_dn_style = .ACL_STYLE_ONE then
    if dnlen ≤ patlen then false
    else if patlen > 0 ∧ !DN_SEPARATOR sepc then false
    else if env.dn_rdnlen e.e_nname ≠ dnlen - patlen - (if patlen > 0 then 1 else 0) then false
    else cmp
  else if a.acl_dn_style = .ACL_STYLE_SUBTREE then
    if dnlen > patlen ∧ !DN_SEPARATOR sepc then false else cmp
  else if a.acl_dn_style = .ACL_STYLE_CHILDREN then
    if dnlen ≤ patlen then false
    else if !DN_SEPARATOR sepc then false
    else cmp
  else cmp

/-- The value predicate of `slap_acl_get` for attributes of DN syntax (the
structural styles on the value): `false` when the rule is left by `continue`. -/
def acl_get_val_structural (env : Env) (a : AccessControl) (v : berval) : Bool :=
  let patlen : Int := a.acl_attrval.bv_len
  let vdnlen : Int := v.bv_len
  let sepc := char_at env.junk v.str (vdnlen - patlen - 1)
  let cmp := a.acl_attrval.str == v.str.drop (vdnlen - patlen).toNat
  if vdnlen < patlen then false
  else if a.acl_attrval_style = .ACL_STYLE_BASE then
    if vdnlen > patlen then false else cmp
  else if a.acl_attrval_style = .ACL_STYLE_ONE then
    if !DN_SEPARATOR sepc then false
    else if env.dn_rdnlen v ≠ vdnlen - patlen - 1 then false
    else cmp
  else if a.acl_attrval_style = .ACL_STYLE_SUBTREE then
    if vdnlen > patlen ∧ !DN_SEPARATOR sepc then false else cmp
  else if a.acl_attrval_style = .ACL_STYLE_CHILDREN then
    if vdnlen ≤ patlen then false
    else if !DN_SEPARATOR sepc then false
    else cmp
  else cmp

/-- The outcome of the examination of one rule by `slap_acl_get`. -/
structure RuleResult where
  /-- whether the rule is returned -/
  matched : Bool
  /-- the match array afterwards -/
  rmatches : List regmatch_t
  /-- the state cache afterwards -/
  state : Option AccessControlState
deriving DecidableEq, Repr

/-- The state cache after `slap_acl_get` meets a value-scoped rule at position
`ai` while a value is given (lines 897-904). -/
def acl_get_record (state : Option AccessControlState) (a : AccessControl) (ai : Nat)
    (count : Int) : Option AccessControlState :=
  match state with
  | none => none
  | some st =>
    if st.as_recorded &&& ACL_STATE_RECORDED_VD = 0 then
      some { st with
        as_recorded := st.as_recorded ||| ACL_STATE_RECORDED_VD
        as_vd_acl := some ai
        as_vd_acl_count := count
        as_vd_access := if a.acl_access.isEmpty then none else some 0
        as_vd_access_count := 1
        as_vd_acl_mask := ACL_PRIV_INVALID }
    else some st

/-- The syntax `a->acl_attrs[0].an_desc->ad_type->sat_syntax` (indeterminate
when the rule has no attribute list). -/
def acl_attrs0_syntax (env : Env) (a : AccessControl) : Nat :=
  match (a.acl_attrs.getD []).head? with
  | some an => an.an_desc.ad_type.sat_syntax
  | none => env.junk.byte

/-- The entry DN predicate of `slap_acl_get` (lines 832-884): whether the rule
passes it, and the match array afterwards (`regexec` writes to it). -/
def acl_get_dn (env : Env) (a : AccessControl) (e : Entry) (nmatch : Nat)
    (ms : List regmatch_t) : Bool × List regmatch_t :=
  if a.acl_dn_pat.bv_len ≠ 0 ∨ a.acl_dn_style ≠ .ACL_STYLE_REGEX then
    if a.acl_dn_style = .ACL_STYLE_REGEX then
      ((env.regexec a.acl_dn_re e.e_ndn nmatch ms).1 == 0,
        (env.regexec a.acl_dn_re e.e_ndn nmatch ms).2)
    else (acl_get_dn_structural env a e, ms)
  else (true, ms)

/-- The attribute list predicate of `slap_acl_get` (line 886). -/
def acl_get_attrs (env : Env) (a : AccessControl) (desc : AttributeDescription) : Bool :=
  match a.acl_attrs with
  | none => true
  | some attrs => env.ad_inlist desc attrs

/-- The value predicate of `slap_acl_get` on the value `v` (lines 906-967). -/
def acl_get_val (env : Env) (a : AccessControl) (desc : AttributeDescription) (v : berval) :
    Bool :=
  if a.acl_attrval_style = .ACL_STYLE_REGEX then
    (env.regexec a.acl_attrval_re v.str 0 []).1 == 0
  else if acl_attrs0_syntax env a ≠ env.si_syn_distinguishedName then
    (env.value_match desc a.acl_attrval_mr v a.acl_attrval).1 == LDAP_SUCCESS &&
      (env.value_match desc a.acl_attrval_mr v a.acl_attrval).2 == 0
  else acl_get_val_structural env a v

/-- The filter predicate of `slap_acl_get` (lines 970-975). -/
def acl_get_filter (env : Env) (a : AccessControl) (e : Entry) : Bool :=
  match a.acl_filter with
  | none => true
  | some f => env.test_filter e f == LDAP_COMPARE_TRUE

/-- The body of the loop of `slap_acl_get` for the rule `a` at position `ai`,
after `(*count)++` (`count` is the incremented value): each predicate that
fails leaves the rule by `continue`. -/
def slap_acl_get_rule (env : Env) (a : AccessControl) (ai : Nat) (count : Int) (e : Entry)
    (desc : AttributeDescription) (val : Option berval) (nmatch : Nat) (ms : List regmatch_t)
    (state : Option AccessControlState) : RuleResult :=
  if !(acl_get_dn env a e nmatch ms).1 then ⟨false, (acl_get_dn env a e nmatch ms).2, state⟩
  else if !acl_get_attrs env a desc then
    ⟨false, (acl_get_dn env a e nmatch ms).2.set 0 ⟨-1, -1⟩, state⟩
  else if a.acl_attrval.bv_len ≠ 0 then
    match val with
    | none => ⟨false, (acl_get_dn env a e nmatch ms).2, state⟩
    | some v =>
      if !acl_get_val env a desc v then
        ⟨false, (acl_get_dn env a e nmatch ms).2, acl_get_record state a ai count⟩
      else if !acl_get_filter env a e then
        ⟨false, (acl_get_dn env a e nmatch ms).2, acl_get_record state a ai count⟩
      else ⟨true, (acl_get_dn env a e nmatch ms).2, acl_get_record state a ai count⟩
  else if !acl_get_filter env a e then ⟨false, (acl_get_dn env a e nmatch ms).2, state⟩
  else ⟨true, (acl_get_dn env a e nmatch ms).2, state⟩

/-- The outcome of `slap_acl_get`. -/
structure GetResult where
  /-- the rule returned, as its position in the policy list; `none` for NULL -/
  a : Option Nat
  /-- the content of `*count` afterwards -/
  count : Int
  /-- the match array afterwards -/
  rmatches : List regmatch_t
  /-- the state cache afterwards -/
  state : Option AccessControlState
deriving DecidableEq, Repr

/-- The loop `for ( ; a != NULL; a = a->acl_next )` of `slap_acl_get` over the
rules from position `ai` on. -/
def slap_acl_get_loop (env : Env) (e : Entry) (desc : AttributeDescription)
    (val : Option berval) (nmatch : Nat) : List AccessControl → Nat → Int → List regmatch_t →
    Option AccessControlState → GetResult
  | [], _, count, ms, state => ⟨none, count, ms, state⟩
  | a :: rest, ai, count, ms, state =>
    let r := slap_acl_get_rule env a ai (count + 1) e desc val nmatch ms state
    if r.matched then ⟨some ai, count + 1, r.rmatches, r.state⟩
    else slap_acl_get_loop env e desc val nmatch rest (ai + 1) (count + 1) r.rmatches r.state

/-- The policy list `slap_acl_get` walks. -/
def op_acl (env : Env) (op : Operation) : List AccessControl :=
  match op.o_bd with
  | none => env.frontendDB.be_acl
  | some bd => bd.be_acl

/-- The position `slap_acl_get` starts from: the head of the list for a NULL
cursor, the rule after the cursor (`a->acl_next`) otherwise. -/
def cursor_next : Option Nat → Nat
  | none => 0
  | some k => k + 1

/-- The function `slap_acl_get( a, count, op, e, desc, val, nmatch, matches,
state )`; the cursor `a` is a position in the policy list of the operation
(`none` for NULL: start from the head, which `access_allowed_mask` has checked
to exist). -/
def slap_acl_get (env : Env) (a : Option Nat) (count : Int) (op : Operation) (e : Entry)
    (desc : AttributeDescription) (val : Option berval) (nmatch : Nat) (ms : List regmatch_t)
    (state : Option AccessControlState) : GetResult :=
  slap_acl_get_loop env e desc val nmatch ((op_acl env op).drop (cursor_next a)) (cursor_next a)
    count ms state

/-! ## Entry point (`access_allowed_mask`) -/

/-- The outcome of `access_allowed_mask`. -/
structure AccessResult where
  /-- the value returned: 1 for grant, 0 for deny -/
  ret : Int
  /-- the content of `*maskp` afterwards, `none` when `maskp` is NULL -/
  maskp : Option slap_mask_t
  /-- the state cache afterwards -/
  state : Option AccessControlState
deriving DecidableEq, Repr

/-- The recorded answer `access_allowed_mask` returns at once (lines 562-575),
if any. -/
def state_answer (state : Option AccessControlState) (desc : AttributeDescription)
    (val : Option berval) : Option Int :=
  match state with
  | none => none
  | some st =>
    if st.as_vd_ad = some desc then
      if st.as_recorded ≠ 0 then
        if st.as_recorded &&& ACL_STATE_RECORDED_NV ≠ 0 ∧ val.isNone then some st.as_result
        else if st.as_recorded &&& ACL_STATE_RECORDED_VD ≠ 0 ∧ val.isSome ∧ st.as_vd_acl.isNone
        then some st.as_result
        else none
      else none
    else none

/-- The local `st_same_attr` after the block of lines 562-582. -/
def st_same_attr (state : Option AccessControlState) (desc : AttributeDescription) : Bool :=
  match state with
  | none => false
  | some st => st.as_vd_ad = some desc

/-- The state cache after the block of lines 562-582 when no recorded answer
is returned. -/
def state_enter (state : Option AccessControlState) (desc : AttributeDescription) :
    Option AccessControlState :=
  match state with
  | none => none
  | some st =>
    if st.as_vd_ad = some desc then some { st with as_vd_ad := some desc }
    else some { ACL_STATE_INIT with as_vd_ad := some desc }

/-- The block at the label `done` (lines 767-774): the state cache afterwards. -/
def state_done (state : Option AccessControlState) (a : Option Nat) (ret : Int) :
    Option AccessControlState :=
  match state with
  | none => none
  | some st =>
    if st.as_recorded &&& ACL_STATE_RECORDED_VD = 0 then
      some { st with
        as_vi_acl := a
        as_result := ret
        as_recorded := st.as_recorded ||| ACL_STATE_RECORDED }
    else some { st with as_recorded := st.as_recorded ||| ACL_STATE_RECORDED }

/-- How the rule loop of `access_allowed_mask` was left. -/
structure LoopOut where
  /-- the pointer `a` afterwards -/
  a : Option Nat
  /-- the local `control` afterwards -/
  control : slap_control_t
  /-- the local `mask` afterwards -/
  mask : slap_mask_t
  /-- the state cache afterwards -/
  state : Option AccessControlState
  /-- the answer taken from the state by `goto done` inside the loop, if any -/
  from_state : Option Int
deriving DecidableEq, Repr

/-- The test inside the loop (lines 718-732) whether the answer recorded in
the state is for the rule at position `ai`. -/
def state_hit (state : Option AccessControlState) (ai : Nat) : Option Int :=
  match state with
  | none => none
  | some st =>
    if st.as_vi_acl = some ai ∧ st.as_recorded &&& ACL_STATE_RECORDED_NV ≠ 0 then
      some st.as_result
    else none

/-- The loop `while ( ( a = slap_acl_get( a, ... ) ) != NULL )` of
`access_allowed_mask`, entered at its head. Each turn moves the cursor `a`
forward in the policy list, so `fuel` = number of rules + 1 turns suffice;
`none` when the fuel runs out or the rule pointer is dangling. -/
def access_loop (env : Env) (op : Operation) (e : Entry) (desc : AttributeDescription)
    (val : Option berval) : Nat → Option Nat → Int → slap_control_t → slap_mask_t →
    List regmatch_t → Option AccessControlState → Option LoopOut
  | 0, _, _, _, _, _, _ => none
  | fuel + 1, a, count, control, mask, ms, state =>
    let g := slap_acl_get env a count op e desc val MAXREMATCHES ms state
    match g.a with
    | none => some ⟨none, control, mask, g.state, none⟩
    | some ai =>
      match state_hit g.state ai with
      | some r => some ⟨some ai, control, mask, g.state, some r⟩
      | none =>
        match (op_acl env op)[ai]? with
        | none => none
        | some rule =>
          let r := slap_acl_mask env rule ai mask op e desc val MAXREMATCHES g.rmatches g.count
            g.state
          if r.control ≠ .ACL_BREAK then some ⟨some ai, r.control, r.mask, r.state, none⟩
          else access_loop env op e desc val fuel (some ai) g.count r.control r.mask matches_zero
            r.state

/-- The rule loop of `access_allowed_mask` with its preamble (lines 679-743):
either entered at the head, or resumed from the state cache (`st_same_attr`),
in which case a valid recorded mask makes it enter at the label `vd_access`.
`none` when `assert( state->as_vd_acl != NULL )` fails. -/
def access_rules (env : Env) (op : Operation) (e : Entry) (desc : AttributeDescription)
    (val : Option berval) (same : Bool) (state : Option AccessControlState) : Option LoopOut :=
  let fuel := (op_acl env op).length + 1
  match same, state with
  | true, some st =>
    match st.as_vd_acl with
    | none => none
    | some ai =>
      if !ACL_IS_INVALID st.as_vd_acl_mask then
        match (op_acl env op)[ai]? with
        | none => none
        | some rule =>
          let r := slap_acl_mask env rule ai st.as_vd_acl_mask op e desc val MAXREMATCHES
            st.as_vd_acl_matches st.as_vd_acl_count state
          if r.control ≠ .ACL_BREAK then some ⟨some ai, r.control, r.mask, r.state, none⟩
          else access_loop env op e desc val fuel (some ai) st.as_vd_acl_count r.control r.mask
            matches_zero r.state
      else access_loop env op e desc val fuel (some ai) st.as_vd_acl_count .ACL_BREAK
        env.junk.mask env.junk.rmatches state
  | _, _ =>
    access_loop env op e desc val fuel none 0 .ACL_BREAK ACL_PRIV_NONE matches_zero
      (match state with
        | none => none
        | some st => some { st with as_vi_acl := none })

/-- The backend default mask of lines 647-650:
`mask = ACL_PRIV_LEVEL; for ( i = ACL_NONE; i <= be->be_dfltaccess; i++ ) mask |= ACL_ACCESS2PRIV( i );`. -/
def dflt_mask (dflt : slap_access_t) : slap_mask_t :=
  (List.range (dflt + 1)).foldl (fun m i => m ||| ACL_ACCESS2PRIV i) ACL_PRIV_LEVEL

/-- The backend of lines 593-607: `op->o_bd`, or the first backend when that
is NULL (then also stored in `op->o_bd` for the duration of the call). -/
def op_backend (env : Env) (o : Operation) : Option BackendDB :=
  match o.o_bd with
  | some bd => some bd
  | none => env.first_backend

/-- The variable `access` after lines 556-560: an authentication check turns a
SEARCH or READ request into an AUTH request. -/
def effective_access (op : Option Operation) (access : slap_access_t) : slap_access_t :=
  match op with
  | some o =>
    if o.o_is_auth_check ∧ (ACL_LEVEL access = ACL_SEARCH ∨ ACL_LEVEL access = ACL_READ) then
      ACL_AUTH
    else access
  | none => access

/-- The condition of the no-user-modification short-circuit (lines 624-626). -/
def no_user_mod_shortcut (env : Env) (desc : AttributeDescription) (access_level : slap_access_t) :
    Bool :=
  decide (access_level ≥ ACL_WRITE) && desc.ad_type.sat_no_user_mod &&
    decide (desc ≠ env.si_ad_entry) && decide (desc ≠ env.si_ad_children)

/-- The function `access_allowed_mask( op, e, desc, val, access, state, maskp )`
(the variant compiled without `SLAP_OVERLAY_ACCESS`). `op = none` is a NULL
operation, `state = none` a NULL state, `maskp` tells whether the mask pointer
is non-NULL. The result is `none` when an assertion fails. -/
def access_allowed_mask (env : Env) (op : Option Operation) (e : Entry)
    (desc : AttributeDescription) (val : Option berval) (access : slap_access_t)
    (state : Option AccessControlState) (maskp : Bool) : Option AccessResult :=
  let access_level := ACL_LEVEL access
  let out (m : slap_mask_t) : Option slap_mask_t := if maskp then some m else none
  if ¬ (access_level > ACL_NONE) then none
  else
    let access1 := effective_access op access
    match state_answer state desc val with
    | some r => some ⟨r, out ACL_PRIV_INVALID, state⟩
    | none =>
      let same := st_same_attr state desc
      let state1 := state_enter state desc
      match op with
      | none => some ⟨1, out env.junk.mask, state_done state1 none 1⟩
      | some o =>
        match op_backend env o with
        | none => none
        | some be =>
          let op1 : Operation := { o with o_bd := some be }
          if env.be_isroot op1 then
            some ⟨1, out ACL_LVL_MANAGE, state_done state1 none 1⟩
          else if no_user_mod_shortcut env desc access_level then
            some ⟨1, out env.junk.mask, state_done state1 none 1⟩
          else if be.be_acl.isEmpty then
            let ret : Int := if be.be_dfltaccess ≥ access_level then 1 else 0
            some ⟨ret, out (dflt_mask be.be_dfltaccess), state_done state1 none ret⟩
          else
            match access_rules env op1 e desc val same state1 with
            | none => none
            | some l =>
              match l.from_state with
              | some r => some ⟨r, out l.mask, state_done l.state l.a r⟩
              | none =>
                if ACL_IS_INVALID l.mask then
                  let ret : Int := if ACL_GRANT ACL_PRIV_NONE access1 then 1 else 0
                  some ⟨ret, out ACL_PRIV_NONE, state_done l.state l.a ret⟩
                else if l.control = .ACL_BREAK then
                  some ⟨0, out l.mask, state_done l.state l.a 0⟩
                else
                  let ret : Int := if ACL_GRANT l.mask access1 then 1 else 0
                  some ⟨ret, out l.mask, state_done l.state l.a ret⟩

/-- The state cache a call of `access_allowed_mask` leaves behind. -/
def state_after (r : Option AccessResult) : Option AccessControlState :=
  match r with
  | some x => x.state
  | none => none

/-- The value a call of `access_allowed_mask` returns. -/
def ret_of (r : Option AccessResult) : Option Int :=
  match r with
  | some x => some x.ret
  | none => none

/-- The mask a call of `access_allowed_mask` writes to `*maskp`. -/
def mask_of (r : Option AccessResult) : Option slap_mask_t :=
  match r with
  | some x => x.maskp
  | none => none

/-! ## Modification check (`acl_check_modlist`) -/

/-- The operation code `LDAP_MOD_ADD`. Modelled from the spec: ldap.h is not
among the sources; value of the OpenLDAP header. -/
def LDAP_MOD_ADD : Nat := 0x0000
/-- The operation code `LDAP_MOD_DELETE`. Modelled from the spec: value of the
OpenLDAP header. -/
def LDAP_MOD_DELETE : Nat := 0x0001
/-- The operation code `LDAP_MOD_REPLACE`. Modelled from the spec: value of the
OpenLDAP header. -/
def LDAP_MOD_REPLACE : Nat := 0x0002
/-- The operation code `SLAP_MOD_SOFTADD`. Modelled from the spec: slap.h is not
among the sources; value of the OpenLDAP header. -/
def SLAP_MOD_SOFTADD : Nat := 0x1000
/-- The flag `SLAP_MOD_INTERNAL` of `sml_flags`. Modelled from the spec: value
of the OpenLDAP header. -/
def SLAP_MOD_INTERNAL : Nat := 0x01

/-- The type `Modifications`: one element of a modification list.
`sml_values` and `sml_nvalues` are `none` for NULL, else the array up to and
beyond its terminator; `sml_next` is the tail of the list. -/
structure Modifications where
  sml_op : Nat
  sml_flags : Nat
  sml_desc : AttributeDescription
  sml_values : Option (List berval)
  sml_nvalues : Option (List berval)
deriving DecidableEq, Repr

/-- The macro `access_allowed( op, e, desc, val, access, state )`.
Modelled from the spec: slap.h is not among the sources; the OpenLDAP header
defines it as `access_allowed_mask( op, e, desc, val, access, state, NULL )`. -/
def access_allowed (env : Env) (op : Option Operation) (e : Entry)
    (desc : AttributeDescription) (val : Option berval) (access : slap_access_t)
    (state : Option AccessControlState) : Option AccessResult :=
  access_allowed_mask env op e desc val access state false

/-- The content of the local `state` of `acl_check_modlist` after a call that
was given `&state`. -/
def state_kept (r : AccessResult) (st : AccessControlState) : AccessControlState :=
  r.state.getD st

/-- The value arrays walked by `acl_check_modlist`:
`mlist->sml_nvalues ? mlist->sml_nvalues : mlist->sml_values`, up to the
terminator. -/
def mod_values (m : Modifications) (values : List berval) : List berval :=
  bvarray (m.sml_nvalues.getD values)

/-- The loops `for ( bv = ...; bv->bv_val != NULL; bv++ )` of
`acl_check_modlist`: `none` when an assertion of the evaluator fails,
`some (false, _)` for `ret = 0; goto done`, else `true` and the state cache
afterwards. -/
def acl_check_values (env : Env) (op : Operation) (e : Entry) (desc : AttributeDescription)
    (access : slap_access_t) : List berval → AccessControlState →
    Option (Bool × AccessControlState)
  | [], st => some (true, st)
  | bv :: rest, st =>
    match access_allowed env (some op) e desc (some bv) access (some st) with
    | none => none
    | some r =>
      if r.ret = 0 then some (false, state_kept r st)
      else acl_check_values env op e desc access rest (state_kept r st)

/-- The loop `for ( ; mlist != NULL; mlist = mlist->sml_next )` of
`acl_check_modlist`: the value of `ret` at the label `done`, `none` when an
assertion fails. -/
def acl_check_modlist_loop (env : Env) (op : Operation) (e : Entry) :
    List Modifications → AccessControlState → Option Int
  | [], _ => some 1
  | m :: rest, st =>
    if m.sml_flags &&& SLAP_MOD_INTERNAL ≠ 0 then acl_check_modlist_loop env op e rest st
    else if m.sml_desc.ad_type.sat_no_user_mod then acl_check_modlist_loop env op e rest st
    else if m.sml_op = LDAP_MOD_REPLACE then
      match access_allowed env (some op) e m.sml_desc none ACL_WDEL (some st) with
      | none => none
      | some r =>
        if r.ret = 0 then some 0
        else
          match m.sml_values with
          | none => acl_check_modlist_loop env op e rest (state_kept r st)
          | some values =>
            match acl_check_values env op e m.sml_desc ACL_WADD (mod_values m values)
                (state_kept r st) with
            | none => none
            | some (false, _) => some 0
            | some (true, st1) => acl_check_modlist_loop env op e rest st1
    else if m.sml_op = LDAP_MOD_ADD then
      match m.sml_values with
      | none => none
      | some values =>
        match acl_check_values env op e m.sml_desc ACL_WADD (mod_values m values) st with
        | none => none
        | some (false, _) => some 0
        | some (true, st1) => acl_check_modlist_loop env op e rest st1
    else if m.sml_op = LDAP_MOD_DELETE then
      match m.sml_values with
      | none =>
        match access_allowed env (some op) e m.sml_desc none ACL_WDEL none with
        | none => none
        | some r => if r.ret = 0 then some 0 else acl_check_modlist_loop env op e rest st
      | some values =>
        match acl_check_values env op e m.sml_desc ACL_WDEL (mod_values m values) st with
        | none => none
        | some (false, _) => some 0
        | some (true, st1) => acl_check_modlist_loop env op e rest st1
    else if m.sml_op = SLAP_MOD_SOFTADD then acl_check_modlist_loop env op e rest st
    else none

/-- The function `acl_check_modlist( op, e, mlist )`: 1 when the modifications
are allowed, 0 when they are not, `none` when an assertion fails. The backend
is `op->o_bd`, or the first backend when that is NULL (stored in `op->o_bd`
until the label `done`). -/
def acl_check_modlist (env : Env) (op : Operation) (e : Entry) (mlist : List Modifications) :
    Option Int :=
  match op_backend env op with
  | none => none
  | some be =>
    let op1 : Operation := { op with o_bd := some be }
    if env.be_isroot op1 then some 1
    else if be.be_acl.isEmpty then some (if be.be_dfltaccess ≥ ACL_WRITE then 1 else 0)
    else acl_check_modlist_loop env op1 e mlist ACL_STATE_INIT

/-! ## Registry of dynamic ACL modules (compiled with `SLAP_DYNACL`) -/

/-- The type `slap_dynacl_t`, reduced to the name, the hooks (as handles,
`none` for NULL) and the private data; `da_next` is the tail of the list the
module sits in. -/
structure slap_dynacl_t where
  da_name : List Nat
  da_parse : Option Nat
  da_unparse : Option Nat
  da_mask : Option Nat
  da_private : Option Nat
deriving DecidableEq, Repr

/-- The function `slap_dynacl_register( da )` on the registry `da_list`: the
value returned and the registry afterwards. -/
def slap_dynacl_register (da_list : List slap_dynacl_t) (da : slap_dynacl_t) :
    Int × List slap_dynacl_t :=
  match da_list.find? (fun tmp => strcaseeq da.da_name tmp.da_name) with
  | some _ => (-1, da_list)
  | none =>
    if da.da_mask.isNone then (-1, da_list)
    else (0, { da with da_private := none } :: da_list)

/-- The function `slap_dynacl_get( name )` on the registry `da_list`: the
module found, `none` for NULL. -/
def slap_dynacl_get (da_list : List slap_dynacl_t) (name : List Nat) : Option slap_dynacl_t :=
  da_list.find? (fun da => strcaseeq da.da_name name)

/-! ## A sample configuration

A small directory used to run the evaluator on concrete requests. -/

/-- An attribute type of string syntax (syntax 1). -/
def at_string : AttributeType := ⟨false, 1, 1⟩
/-- An operational attribute type flagged no-user-modification. -/
def at_operational : AttributeType := ⟨true, 1, 1⟩
/-- The pseudo-attribute `entry`. -/
def ad_entry : AttributeDescription := ⟨1, BER_BVC "entry", at_operational⟩
/-- The pseudo-attribute `children`. -/
def ad_children : AttributeDescription := ⟨2, BER_BVC "children", at_operational⟩
/-- The attribute `mail`. -/
def ad_mail : AttributeDescription := ⟨3, BER_BVC "mail", at_string⟩
/-- The attribute `cn`. -/
def ad_cn : AttributeDescription := ⟨4, BER_BVC "cn", at_string⟩
/-- The operational attribute `modifyTimestamp` (no-user-modification). -/
def ad_modifyTimestamp : AttributeDescription := ⟨5, BER_BVC "modifyTimestamp", at_operational⟩

/-- No values read before being written matter in the samples: all zero. -/
def junk0 : Indeterminate := ⟨0, matches_zero, 0, 0, [], ⟨0, 0⟩⟩

/-- A sample environment: the root identity is `cn=root`, there is no regex
engine (nothing compiles), values match when their bytes are equal, a DN has
no parent, and the entry store holds nothing. -/
def env0 : Env :=
  { be_isroot := fun op => op.o_ndn.str == bytes "cn=root"
    first_backend := none
    frontendDB := ⟨0, [], ACL_NONE⟩
    si_ad_entry := ad_entry
    si_ad_children := ad_children
    si_syn_distinguishedName := 2
    regexec := fun _ _ _ ms => (1, ms)
    regcomp := fun _ => none
    ad_inlist := fun d l => l.any (fun an => an.an_desc == d)
    is_ad_subtype := fun d1 d2 => d1 == d2
    value_match := fun _ _ v1 v2 => (0, if v1.str == v2.str then 0 else 1)
    value_find_ex := fun _ vals v => if vals.any (fun w => w.str == v.str) then 0 else 16
    test_filter := fun _ _ => 5
    dn_rdnlen := fun dn => dn.bv_len
    dnParent := fun _ => ⟨some []⟩
    dn_match := fun d1 d2 => d1.str == d2.str
    dnIsSuffix := fun d1 d2 => d1.str == d2.str
    dnNormalize := fun d => some d
    backend_group := fun _ _ _ _ _ _ => 1
    backend_attribute := fun _ _ _ _ _ => (32, none)
    slap_set_filter := fun _ _ _ _ _ => 0
    slap_bv2ad := fun _ => none
    oc_bvfind := fun _ => none
    inet_addr := fun _ => 0
    strtol := fun s => (0, s)
    aci_bv_group_class := BER_BVC "groupOfNames"
    aci_bv_group_attr := BER_BVC "member"
    aci_bv_role_class := BER_BVC "organizationalRole"
    aci_bv_role_attr := BER_BVC "roleOccupant"
    aci_bv_set_attr := BER_BVC "template"
    junk := junk0 }

/-- A DN dimension that is not configured. -/
def dn_unset : slap_dn_access := ⟨BER_BVNULL, .ACL_STYLE_REGEX, 0, 0, none, false, false⟩

/-- The who clause `by * <mask> <control>`: no dimension is configured. -/
def by_any (mask : slap_mask_t) (control : slap_control_t) : Access :=
  { a_type := control, a_access_mask := mask, a_dn := dn_unset, a_realdn := dn_unset,
    a_authz := ⟨0, 0, 0, 0⟩, a_peername_style := .ACL_STYLE_REGEX, a_peername_pat := BER_BVNULL,
    a_peername_addr := 0, a_peername_mask := 0, a_peername_port := -1,
    a_sockname_style := .ACL_STYLE_REGEX, a_sockname_pat := BER_BVNULL,
    a_domain_style := .ACL_STYLE_REGEX, a_domain_pat := BER_BVNULL, a_domain_expand := false,
    a_sockurl_style := .ACL_STYLE_REGEX, a_sockurl_pat := BER_BVNULL,
    a_set_style := .ACL_STYLE_REGEX, a_set_pat := BER_BVNULL, a_aci_at := none,
    a_group_style := .ACL_STYLE_REGEX, a_group_pat := BER_BVNULL, a_group_oc := 0,
    a_group_at := none }

/-- The rule `to * <clauses>`: every entry, attribute and value. -/
def to_any (clauses : List Access) : AccessControl :=
  { acl_filter := none, acl_dn_style := .ACL_STYLE_REGEX, acl_dn_re := ⟨0⟩,
    acl_dn_pat := BER_BVNULL, acl_attrs := none, acl_attrval_mr := 0,
    acl_attrval_style := .ACL_STYLE_BASE, acl_attrval_re := ⟨0⟩, acl_attrval := BER_BVNULL,
    acl_access := clauses }

/-- The rule `to attrs=<ad> <clauses>`. -/
def to_attr (ad : AttributeDescription) (clauses : List Access) : AccessControl :=
  { to_any clauses with acl_attrs := some [⟨ad.ad_cname, ad⟩] }

/-- The rule `to attrs=<ad> val=<v> <clauses>` (exact value). -/
def to_attr_val (ad : AttributeDescription) (v : String) (clauses : List Access) : AccessControl :=
  { to_attr ad clauses with acl_attrval := BER_BVC v }

/-- A connection without network context. -/
def conn0 : Connection := ⟨BER_BVNULL, false, BER_BVNULL, BER_BVNULL, BER_BVNULL, BER_BVNULL⟩

/-- An operation of the requester `ndn` on the backend `be`. -/
def op_of (be : BackendDB) (ndn : String) (auth_check : Bool) : Operation :=
  { o_bd := some be, o_dn := BER_BVC ndn, o_ndn := BER_BVC ndn, o_conn := conn0,
    o_is_auth_check := auth_check, o_ssf := 0, o_transport_ssf := 0, o_tls_ssf := 0,
    o_sasl_ssf := 0 }

/-- The entry `uid=a,dc=x` without attributes. -/
def entry0 : Entry := ⟨BER_BVC "uid=a,dc=x", BER_BVC "uid=a,dc=x", []⟩

/-- The effect mask `+w` (additive WRITE). -/
def mask_add_write : slap_mask_t := ACL_PRIV_ADDITIVE ||| ACL_PRIV_WRITE
/-- The effect mask `-r` (subtractive READ). -/
def mask_sub_read : slap_mask_t := ACL_PRIV_SUBSTRACTIVE ||| ACL_PRIV_READ

/-- A backend whose policy list is the given one, with default level NONE. -/
def be_of (acl : List AccessControl) : BackendDB := ⟨1, acl, ACL_NONE⟩

/-- The requester `uid=b,dc=x` on a backend with the given policy list. -/
def op_b (acl : List AccessControl) : Operation := op_of (be_of acl) "uid=b,dc=x" false

/-- The root requester `cn=root` on the backend `be`. -/
def op_root (be : BackendDB) : Operation := op_of be "cn=root" false

/-- The policy `to * by * none`. -/
def acl_none : List AccessControl := [to_any [by_any ACL_LVL_NONE .ACL_STOP]]
/-- The policy `to * by * read`. -/
def acl_read : List AccessControl := [to_any [by_any ACL_LVL_READ .ACL_STOP]]
/-- The policy `to * by * read break`. -/
def acl_read_break : List AccessControl := [to_any [by_any ACL_LVL_READ .ACL_BREAK]]
/-- The policy `to attrs=cn by * read`: no rule for the attribute `mail`. -/
def acl_cn_only : List AccessControl := [to_attr ad_cn [by_any ACL_LVL_READ .ACL_STOP]]
/-- The policy `to attrs=mail val=foo by * none`, `to attrs=mail by * read`. -/
def acl_mail_val : List AccessControl :=
  [to_attr_val ad_mail "foo" [by_any ACL_LVL_NONE .ACL_STOP],
   to_attr ad_mail [by_any ACL_LVL_READ .ACL_STOP]]

/-- A backend without policy list whose default level is AUTH. -/
def be_dflt_auth : BackendDB := ⟨1, [], ACL_AUTH⟩
/-- A backend without policy list whose default level is READ. -/
def be_dflt_read : BackendDB := ⟨1, [], ACL_READ⟩

/-- The state cache left by the request READ on `mail` without a value under
the policy `acl_mail_val`: the answer 1 is recorded with both flags. -/
def state_recorded_mail : AccessControlState :=
  { ACL_STATE_INIT with
    as_recorded := 3, as_vi_acl := some 1, as_result := 1, as_vd_ad := some ad_mail }

/-- A sample environment with comma-separated DNs: the leading RDN of a DN is
what stands before its first separator, its parent what stands after it. -/
def env_rdn : Env :=
  { env0 with
    dn_rdnlen := fun dn => ((dn.str.takeWhile (fun c => c != 44)).length : Int)
    dnParent := fun dn => ⟨some ((dn.str.dropWhile (fun c => c != 44)).drop 1)⟩ }

/-- The rule `to dn.<style>=<pat> <clauses>`. -/
def to_dn (style : slap_style_t) (pat : String) (clauses : List Access) : AccessControl :=
  { to_any clauses with acl_dn_style := style, acl_dn_pat := BER_BVC pat }

/-- The entry with the normalized DN `ndn`, without attributes. -/
def entry_of (ndn : String) : Entry := ⟨BER_BVC ndn, BER_BVC ndn, []⟩

/-- The DN dimension `<style>` without pattern (`anonymous`, `users`, `self`),
with the self level `n`. -/
def dn_style (style : slap_style_t) (n : Int) : slap_dn_access :=
  ⟨BER_BVC "*", style, 0, n, none, false, false⟩

/-- The policy `to * by * read continue by * +w continue`. -/
def rule_continue : AccessControl :=
  to_any [by_any ACL_LVL_READ .ACL_CONTINUE, by_any mask_add_write .ACL_CONTINUE]

/-- The policy `to dn.subtree="" by * read`. -/
def acl_root_subtree : List AccessControl :=
  [to_dn .ACL_STYLE_SUBTREE "" [by_any ACL_LVL_READ .ACL_STOP]]

/-- The policy `to attrs=cn by * read`, `to dn.base="dc=y" by * read`,
`to attrs=mail by * read`, `to * by * none`. -/
def acl_four : List AccessControl :=
  [to_attr ad_cn [by_any ACL_LVL_READ .ACL_STOP],
   to_dn .ACL_STYLE_BASE "dc=y" [by_any ACL_LVL_READ .ACL_STOP],
   to_attr ad_mail [by_any ACL_LVL_READ .ACL_STOP],
   to_any [by_any ACL_LVL_NONE .ACL_STOP]]

/-- The attribute `OpenLDAPaci` that holds the ACI values of an entry. -/
def ad_aci : AttributeDescription := ⟨6, BER_BVC "OpenLDAPaci", at_string⟩

/-- The who clause `by aci <mask> <control>`: only the ACI dimension is configured. -/
def by_aci (mask : slap_mask_t) (control : slap_control_t) : Access :=
  { by_any mask control with a_aci_at := some ad_aci }

/-- The entry with the normalized DN `ndn` and the given ACI values. -/
def entry_aci (ndn : String) (vals : List String) : Entry :=
  ⟨BER_BVC ndn, BER_BVC ndn, [⟨ad_aci, vals.map BER_BVC⟩]⟩

/-- The requester `uid=a,dc=x` on a backend with the given policy list. -/
def op_a (acl : List AccessControl) : Operation := op_of (be_of acl) "uid=a,dc=x" false

/-- The effect mask `+r` (additive READ). -/
def mask_add_read : slap_mask_t := ACL_PRIV_ADDITIVE ||| ACL_PRIV_READ

/-- The policy `to * by * +r continue by aci write`. -/
def acl_add_read_then_aci : List AccessControl :=
  [to_any [by_any mask_add_read .ACL_CONTINUE, by_aci ACL_LVL_WRITE .ACL_STOP]]
/-- The policy `to * by * search continue by aci write`. -/
def acl_search_then_aci : List AccessControl :=
  [to_any [by_any ACL_LVL_SEARCH .ACL_CONTINUE, by_aci ACL_LVL_WRITE .ACL_STOP]]
/-- The policy `to * by aci read`. -/
def acl_aci_read : List AccessControl := [to_any [by_aci ACL_LVL_READ .ACL_STOP]]
/-- The policy `to * by aci write`. -/
def acl_aci_write : List AccessControl := [to_any [by_aci ACL_LVL_WRITE .ACL_STOP]]

/-- The modification `<op>: <ad>` with the given values (the array ends with
its terminator), not internal. -/
def mod_of (op : Nat) (ad : AttributeDescription) (vals : List String) : Modifications :=
  ⟨op, 0, ad, some (vals.map BER_BVC ++ [BER_BVNULL]), none⟩

/-- The modification `<op>: <ad>` without values, with the given flags. -/
def mod_bare (op flags : Nat) (ad : AttributeDescription) : Modifications :=
  ⟨op, flags, ad, none, none⟩

/-- The policy `to attrs=mail by * =z`: the right to delete values, not to add. -/
def acl_mail_wdel : List AccessControl := [to_attr ad_mail [by_any ACL_PRIV_WDEL .ACL_STOP]]
/-- The policy `to attrs=mail by * =a`: the right to add values, not to delete. -/
def acl_mail_wadd : List AccessControl := [to_attr ad_mail [by_any ACL_PRIV_WADD .ACL_STOP]]

/-- An attribute type of DN syntax (the syntax 2 of the sample environment). -/
def at_dn : AttributeType := ⟨false, 2, 1⟩
/-- The attribute `member`, of DN syntax. -/
def ad_member : AttributeDescription := ⟨7, BER_BVC "member", at_dn⟩

/-- The rule `to attrs=member val.<style>=<pat> <clauses>`. -/
def to_member_val (style : slap_style_t) (pat : String) (clauses : List Access) :
    AccessControl :=
  { to_attr ad_member clauses with acl_attrval := BER_BVC pat, acl_attrval_style := style }

/-- The DN dimension `dn.<style>=<pat>` with the level `n`, not expanded. -/
def dn_pat (style : slap_style_t) (pat : String) (n : Int) : slap_dn_access :=
  ⟨BER_BVC pat, style, n, 0, none, false, false⟩

/-- The who clause `by dn.<style>=<pat> <mask> <control>`. -/
def by_dn (style : slap_style_t) (pat : String) (mask : slap_mask_t) (control : slap_control_t) :
    Access :=
  { by_any mask control with a_dn := dn_pat style pat 0 }

/-- The module `aci` of the registry, with its three hooks. -/
def dynacl_sample (name : String) : slap_dynacl_t := ⟨bytes name, some 1, some 2, some 3, some 9⟩

/-! ## Vocabulary of the statements -/

/-- The clauses `slap_acl_mask` walks on the rule `a`: those from the clause
pointer it starts from. -/
def slap_acl_mask_clauses (a : AccessControl) (ai : Nat) (state : Option AccessControlState) :
    List Access :=
  match (slap_acl_mask_start ai state).1 with
  | none => []
  | some k => a.acl_access.drop k

/-- The position of the first clause `slap_acl_mask` walks. -/
def slap_acl_mask_first (ai : Nat) (state : Option AccessControlState) : Nat :=
  match (slap_acl_mask_start ai state).1 with
  | none => 0
  | some k => k

/-- Whether no clause ends the run of the clause loop of `slap_acl_mask` over
the given clauses: each clause met mismatches (the who dimensions leave it by
`continue`) or matches with the verdict CONTINUE. The running values are those
of the loop. -/
def no_clause_ends (env : Env) (a : AccessControl) (ai : Nat) (op : Operation) (e : Entry)
    (desc : AttributeDescription) (val : Option berval) (nmatch : Int) (ms : List regmatch_t)
    (count : Int) : List Access → Nat → Int → slap_mask_t → Option AccessControlState → Bool
  | [], _, _, _, _ => true
  | b :: bs, bi, i, mask, state =>
    let w := acl_mask_who env a ai b bi i mask op e desc val nmatch ms count state
    match w.modmask with
    | none => no_clause_ends env a ai op e desc val nmatch ms count bs (bi + 1) (w.i + 1) mask
        w.state
    | some modmask =>
      decide (b.a_type = .ACL_CONTINUE) &&
        no_clause_ends env a ai op e desc val nmatch ms count bs (bi + 1) (w.i + 1)
          (acl_mask_apply mask modmask) w.state

/-- A who clause with no dimension configured: every pattern is empty and
there is no DN attribute, group, set, security factor or ACI attribute. -/
def who_unconfigured (b : Access) : Bool :=
  BER_BVISEMPTY b.a_dn_pat && BER_BVISEMPTY b.a_realdn_pat && BER_BVISEMPTY b.a_sockurl_pat &&
  BER_BVISEMPTY b.a_domain_pat && BER_BVISEMPTY b.a_peername_pat &&
  BER_BVISEMPTY b.a_sockname_pat && b.a_dn_at.isNone && b.a_realdn_at.isNone &&
  BER_BVISEMPTY b.a_group_pat && BER_BVISEMPTY b.a_set_pat &&
  decide (b.a_authz = ⟨0, 0, 0, 0⟩) && b.a_aci_at.isNone

/-- Whether the rule `a` accepts the request: its entry DN predicate, its
attribute list, its value predicate (a value-scoped rule needs a value) and its
filter all hold. The match array given to the regular expression of the entry
DN is the cleared one. -/
def rule_accepts (env : Env) (a : AccessControl) (e : Entry) (desc : AttributeDescription)
    (val : Option berval) (nmatch : Nat) : Bool :=
  (acl_get_dn env a e nmatch matches_zero).1 && acl_get_attrs env a desc &&
  (if a.acl_attrval.bv_len ≠ 0 then
    match val with
    | none => false
    | some v => acl_get_val env a desc v
   else true) &&
  acl_get_filter env a e

/-- The position of the first rule at or after position `k` of the policy list
that accepts the request, if there is one. -/
def first_accepting (env : Env) (e : Entry) (desc : AttributeDescription) (val : Option berval)
    (nmatch : Nat) : List AccessControl → Nat → Option Nat
  | [], _ => none
  | a :: rest, k =>
    if rule_accepts env a e desc val nmatch then some k
    else first_accepting env e desc val nmatch rest (k + 1)

/-! ## Expansion patterns, in the words of the description of `string_expand` -/

/-- A piece of an expansion pattern: a byte other than `$`, a reference `$d`
with one decimal digit, or a reference `${d ds}` with the decimal digits `d`,
`ds`. Digits are given by their values. -/
inductive PatToken where
  | lit (c : Nat)
  | ref (d : Nat)
  | bref (d : Nat) (ds : List Nat)
deriving DecidableEq, Repr

/-- The decimal number a reference names. -/
def PatToken.index : PatToken → Nat
  | .lit _ => 0
  | .ref d => d
  | .bref d ds => ds.foldl (fun n x => 10 * n + x) d

/-- The bytes of a piece in the pattern. -/
def PatToken.render : PatToken → List Nat
  | .lit c => [c]
  | .ref d => [36, 48 + d]
  | .bref d ds => 36 :: 123 :: (48 + d) :: (ds.map (fun x => 48 + x) ++ [125])

/-- Whether a piece is well formed for `nmatch` match slots: a literal byte is
not `$`, digits are digits, and the number named is below `nmatch` (`nmatch`
is an `int`, so the number named is at most `INT_MAX`). -/
def PatToken.ok (nmatch : Int) : PatToken → Bool
  | .lit c => decide (c ≠ 36)
  | .ref d => decide (d ≤ 9) && decide ((d : Int) < nmatch)
  | .bref d ds =>
    decide (d ≤ 9) && ds.all (fun x => decide (x ≤ 9)) &&
      decide (((PatToken.bref d ds).index : Int) < nmatch) &&
      decide (((PatToken.bref d ds).index : Int) ≤ INT_MAX)

/-- The bytes `source[matches[n].rm_so .. matches[n].rm_eo)`. -/
def match_bytes (junk : Indeterminate) (source : List Nat) (ms : List regmatch_t) (n : Nat) :
    List Nat :=
  (List.range ((match_at ms n).rm_eo - (match_at ms n).rm_so).toNat).map
    (fun (k : Nat) => char_at junk source ((match_at ms n).rm_so + (k : Int)))

/-- What a piece stands for in the expansion: itself for a literal byte, the
bytes of the match it names for a reference. -/
def PatToken.expand (junk : Indeterminate) (source : List Nat) (ms : List regmatch_t) :
    PatToken → List Nat
  | .lit c => [c]
  | .ref d => match_bytes junk source ms d
  | .bref d ds => match_bytes junk source ms (PatToken.bref d ds).index

/-- The bytes of the pattern made of the given pieces. -/
def render_pattern : List PatToken → List Nat
  | [] => []
  | t :: ts => t.render ++ render_pattern ts

/-- The expansion of the pattern made of the given pieces: each reference
replaced by the bytes of its match, every other byte kept, in order. -/
def expand_spec (junk : Indeterminate) (source : List Nat) (ms : List regmatch_t) :
    List PatToken → List Nat
  | [] => []
  | t :: ts => t.expand junk source ms ++ expand_spec junk source ms ts

/-! ## Permission lists of ACI values, in the words of their description -/

/-- The fields `fs` written one after the other with the separator `sep`
between them. -/
def joined (sep : Nat) : List (List Nat) → List Nat
  | [] => []
  | [f] => f
  | f :: g :: fs => f ++ sep :: joined sep (g :: fs)

/-- The slice `s` lies inside its buffer and its bytes are `l`. -/
def holds (s : bvslice) (l : List Nat) : Prop :=
  ∃ pre post, s.buf = pre ++ l ++ post ∧ pre.length = s.off ∧ l.length = s.len

/-- A word of a permission list: not empty, and free of the space and of the
separators `,` `;` `$` `=`. -/
def aci_word (w : List Nat) : Bool :=
  !w.isEmpty && w.all (fun c => decide (c ≠ 32 ∧ c ≠ 44 ∧ c ≠ 59 ∧ c ≠ 36 ∧ c ≠ 61))

/-- A rights/attr pair of a permission element: the rights `r,s,...` and the
attribute list `attr,attr,...`. -/
structure AciPair where
  rights : List (List Nat)
  attrs : List (List Nat)
deriving DecidableEq, Repr

/-- A permission element `action;rights;attr;rights;attr;...`. -/
structure AciPerm where
  action : List Nat
  pairs : List AciPair
deriving DecidableEq, Repr

/-- The `;`-separated fields of the pairs of an element. -/
def pairs_fields : List AciPair → List (List Nat)
  | [] => []
  | p :: ps => joined 44 p.rights :: joined 44 p.attrs :: pairs_fields ps

/-- The bytes of a permission element. -/
def AciPerm.render (e : AciPerm) : List Nat := joined 59 (e.action :: pairs_fields e.pairs)

/-- The bytes of a permissions list: its elements separated by `$`. -/
def render_perms (es : List AciPerm) : List Nat := joined 36 (es.map AciPerm.render)

/-- A pair is well formed: both lists are non-empty lists of words. -/
def AciPair.ok (p : AciPair) : Bool :=
  !p.rights.isEmpty && p.rights.all aci_word && !p.attrs.isEmpty && p.attrs.all aci_word

/-- An element is well formed: its action is a word and its pairs are well formed. -/
def AciPerm.ok (e : AciPerm) : Bool := aci_word e.action && e.pairs.all AciPair.ok

/-- The privilege a right stands for, by its first letter: `c` COMPARE,
`s` SEARCH, `r` READ, `w` WRITE, `x` AUTH; nothing for another letter. -/
def right_of (w : List Nat) : slap_access_t :=
  if w.head? = some 99 then ACL_PRIV_COMPARE
  else if w.head? = some 115 then ACL_PRIV_SEARCH
  else if w.head? = some 114 then ACL_PRIV_READ
  else if w.head? = some 119 then ACL_PRIV_WRITE
  else if w.head? = some 120 then ACL_PRIV_AUTH
  else 0

/-- The OR of the rights of a rights list. -/
def rights_of (ws : List (List Nat)) : slap_access_t :=
  ws.foldl (fun m w => m ||| right_of w) 0

/-- Whether the attribute list of a pair names `attr` (up to case). -/
def AciPair.names (p : AciPair) (attr : List Nat) : Bool := p.attrs.any (fun a => strcaseeq attr a)

/-- The OR of the rights of every pair of the element whose attribute list
names `attr` or `[all]`. -/
def AciPerm.rights_for (e : AciPerm) (attr : List Nat) : slap_access_t :=
  e.pairs.foldl
    (fun m p => if p.names attr || p.names (bytes "[all]") then m ||| rights_of p.rights else m) 0

/-- The OR of `rights_for` over the elements of the list whose action is
`action` (up to case). -/
def perms_rights (action : List Nat) (es : List AciPerm) (attr : List Nat) : slap_access_t :=
  es.foldl (fun m e => if strcaseeq action e.action then m ||| e.rights_for attr else m) 0

/-- The attribute name `aci_list_get_rights` looks up: `[entry]` for no
attribute, an empty name or the name `entry`. -/
def aci_attr_name (attr : Option berval) : List Nat :=
  match attr with
  | none => bytes "[entry]"
  | some at_ =>
    if at_.bv_len = 0 || strcaseeq at_.str (bytes "entry") then bytes "[entry]" else at_.str

/-! ## Modification lists, clauses and fields, in the words of their description -/

/-- A modification the modification check passes over: flagged internal, on a
no-user-modification attribute, or a SOFT-ADD. -/
def mod_skipped (m : Modifications) : Bool :=
  (m.sml_flags &&& SLAP_MOD_INTERNAL != 0) || m.sml_desc.ad_type.sat_no_user_mod ||
    (m.sml_op == SLAP_MOD_SOFTADD)

/-- The effect of the clause `b` of the rule `a` on a request, at the running
mask `mask`: `none` when the clause mismatches (a configured dimension fails,
or the ACI dimension has nothing to contribute). -/
def clause_effect (env : Env) (a : AccessControl) (op : Operation) (e : Entry)
    (desc : AttributeDescription) (val : Option berval) (nmatch : Int) (ms : List regmatch_t)
    (b : Access) (mask : slap_mask_t) : Option slap_mask_t :=
  (acl_mask_who env a 0 b 0 0 mask op e desc val nmatch ms 0 none).modmask

/-- The clauses of a rule without those that mismatch at the running mask the
clauses before them leave (the mask matters to the ACI dimension only). -/
def matching_clauses (env : Env) (a : AccessControl) (op : Operation) (e : Entry)
    (desc : AttributeDescription) (val : Option berval) (nmatch : Int) (ms : List regmatch_t) :
    List Access → slap_mask_t → List Access
  | [], _ => []
  | b :: bs, mask =>
    match clause_effect env a op e desc val nmatch ms b mask with
    | none => matching_clauses env a op e desc val nmatch ms bs mask
    | some modmask =>
      b :: matching_clauses env a op e desc val nmatch ms bs (acl_mask_apply mask modmask)

/-- The index at which the value predicate of `slap_acl_get` for attributes of
DN syntax (lines 929-966) reads the byte `val->bv_val[vdnlen - patlen - 1]` for
`DN_SEPARATOR`; `none` when it reads no such byte. -/
def acl_get_val_sep_index (a : AccessControl) (v : berval) : Option Int :=
  let patlen : Int := a.acl_attrval.bv_len
  let vdnlen : Int := v.bv_len
  if vdnlen < patlen then none
  else if a.acl_attrval_style = .ACL_STYLE_BASE then none
  else if a.acl_attrval_style = .ACL_STYLE_ONE then some (vdnlen - patlen - 1)
  else if a.acl_attrval_style = .ACL_STYLE_SUBTREE then
    if vdnlen > patlen then some (vdnlen - patlen - 1) else none
  else if a.acl_attrval_style = .ACL_STYLE_CHILDREN then
    if vdnlen ≤ patlen then none else some (vdnlen - patlen - 1)
  else none

/-- The fields of a list: what stands between the occurrences of the
separator, in order (a list without separator is one field). -/
def fields_of (sep : Nat) : List Nat → List (List Nat)
  | [] => [[]]
  | c :: cs =>
    if c = sep then [] :: fields_of sep cs
    else
      match fields_of sep cs with
      | [] => [[c]]
      | f :: fs => (c :: f) :: fs

/-- A byte string without its trailing spaces. -/
def strip_right (f : List Nat) : List Nat := (f.reverse.dropWhile (fun c => c == 32)).reverse

/-- A byte string without its leading and trailing spaces. -/
def strip_spaces (f : List Nat) : List Nat := strip_right (f.dropWhile (fun c => c == 32))

/-! ## Theorems -/

/-! ### Mask arithmetic -/

theorem lnot_lnot_priv_mask : lnot (lnot ACL_PRIV_MASK) = ACL_PRIV_MASK := by decide

theorem acl_priv_clr_cleanup (m : slap_mask_t) :
    ACL_PRIV_CLR m (lnot ACL_PRIV_MASK) = m &&& ACL_PRIV_MASK := by
  unfold ACL_PRIV_CLR
  rw [lnot_lnot_priv_mask]

theorem acl_mask_apply_additive (mask modmask : slap_mask_t)
    (hadd : ACL_IS_ADDITIVE modmask = true) :
    acl_mask_apply mask modmask = (mask ||| modmask) &&& ACL_PRIV_MASK := by
  unfold acl_mask_apply
  rw [if_pos hadd, acl_priv_clr_cleanup]
  rfl

theorem acl_mask_apply_subtractive (mask modmask : slap_mask_t)
    (hadd : ACL_IS_ADDITIVE modmask = false) (hsub : ACL_IS_SUBTRACTIVE modmask = true) :
    acl_mask_apply mask modmask = (mask &&& lnot modmask) &&& ACL_PRIV_MASK := by
  unfold acl_mask_apply
  rw [if_neg (by simp [hadd]), if_pos hsub, acl_priv_clr_cleanup]
  rfl

/-! ### Mask composer -/

/-- C9: in `slap_acl_mask`, when the dimensions of the clause `b` match and its
effect mask `modmask` has the ADDITIVE flag, the running mask afterwards is
`(old mask OR modmask) AND ACL_PRIV_MASK` (it is the mask returned on a BREAK or
STOP verdict and the mask the next clause starts from on CONTINUE), and every
bit of the old mask inside `ACL_PRIV_MASK` is still set in it. -/
theorem slap_acl_mask_additive_effect (env : Env) (a : AccessControl) (ai : Nat)
    (op : Operation) (e : Entry) (desc : AttributeDescription) (val : Option berval)
    (nmatch : Int) (ms : List regmatch_t) (count : Int) (b : Access) (bs : List Access)
    (bi : Nat) (i : Int) (mask : slap_mask_t) (state : Option AccessControlState)
    (modmask : slap_mask_t)
    (hwho : (acl_mask_who env a ai b bi i mask op e desc val nmatch ms count state).modmask
      = some modmask)
    (hadd : ACL_IS_ADDITIVE modmask = true) :
    (slap_acl_mask_loop env a ai op e desc val nmatch ms count (b :: bs) bi i mask state =
      if b.a_type = .ACL_CONTINUE then
        slap_acl_mask_loop env a ai op e desc val nmatch ms count bs (bi + 1)
          ((acl_mask_who env a ai b bi i mask op e desc val nmatch ms count state).i + 1)
          ((mask ||| modmask) &&& ACL_PRIV_MASK)
          (acl_mask_who env a ai b bi i mask op e desc val nmatch ms count state).state
      else if b.a_type = .ACL_BREAK then
        ⟨.ACL_BREAK, (mask ||| modmask) &&& ACL_PRIV_MASK,
          (acl_mask_who env a ai b bi i mask op e desc val nmatch ms count state).state⟩
      else
        ⟨.ACL_STOP, (mask ||| modmask) &&& ACL_PRIV_MASK,
          (acl_mask_who env a ai b bi i mask op e desc val nmatch ms count state).state⟩) ∧
    ∀ k : Nat, ACL_PRIV_MASK.testBit k = true → mask.testBit k = true →
      ((mask ||| modmask) &&& ACL_PRIV_MASK).testBit k = true := by
  constructor
  · rw [slap_acl_mask_loop]
    simp only [hwho]
    rw [acl_mask_apply_additive mask modmask hadd]
  · intro k hk hm
    simp [Nat.testBit_and, Nat.testBit_or, hk, hm]

/-- Witness of C9: the clause `by * +w` applied to the running mask of level
READ yields READ plus WRITE, without the level flag. -/
theorem slap_acl_mask_additive_effect_witness :
    (acl_mask_who env0 (to_any [by_any mask_add_write .ACL_STOP]) 0
        (by_any mask_add_write .ACL_STOP) 0 1 ACL_LVL_READ (op_b []) entry0 ad_cn none 100
        matches_zero 1 none).modmask = some mask_add_write ∧
    ACL_IS_ADDITIVE mask_add_write = true ∧
    slap_acl_mask_loop env0 (to_any [by_any mask_add_write .ACL_STOP]) 0 (op_b []) entry0 ad_cn
        none 100 matches_zero 1 [by_any mask_add_write .ACL_STOP] 0 1 ACL_LVL_READ none
      = ⟨.ACL_STOP, 0x33f, none⟩ :=
  ⟨by decide, by decide,
    (slap_acl_mask_additive_effect env0 (to_any [by_any mask_add_write .ACL_STOP]) 0 (op_b [])
      entry0 ad_cn none 100 matches_zero 1 (by_any mask_add_write .ACL_STOP) [] 0 1 ACL_LVL_READ
      none mask_add_write (by decide) (by decide)).1.trans (by decide)⟩

/-- Counterexample to C10 as stated: the clause `by * -r` applied to the running
mask of level READ clears the level flag (bit 12), a bit of the old mask that
is not set in the effect mask; the result differs from the old mask with the
effect mask's bits cleared. -/
theorem subtractive_clears_level_flag :
    (acl_mask_who env0 (to_any [by_any mask_sub_read .ACL_STOP]) 0
        (by_any mask_sub_read .ACL_STOP) 0 1 ACL_LVL_READ (op_b []) entry0 ad_cn none 100
        matches_zero 1 none).modmask = some mask_sub_read ∧
    ACL_IS_SUBTRACTIVE mask_sub_read = true ∧ ACL_IS_ADDITIVE mask_sub_read = false ∧
    (slap_acl_mask env0 (to_any [by_any mask_sub_read .ACL_STOP]) 0 ACL_LVL_READ (op_b [])
        entry0 ad_cn none 100 matches_zero 1 none).mask = 0x00f ∧
    ACL_LVL_READ &&& lnot mask_sub_read = 0x100f ∧
    ACL_LVL_READ.testBit 12 = true ∧ mask_sub_read.testBit 12 = false ∧
    (slap_acl_mask env0 (to_any [by_any mask_sub_read .ACL_STOP]) 0 ACL_LVL_READ (op_b [])
        entry0 ad_cn none 100 matches_zero 1 none).mask.testBit 12 = false := by
  decide

theorem testBit_priv_mask_lt {k : Nat} (hk : ACL_PRIV_MASK.testBit k = true) :
    k < ULONG_BITS := by
  by_contra hge
  have h12 : ACL_PRIV_MASK < 2 ^ k := by
    have h1 : ACL_PRIV_MASK < 2 ^ 64 := by decide
    have h2 : (2 : Nat) ^ 64 ≤ 2 ^ k :=
      Nat.pow_le_pow_right (by decide) (by simpa [ULONG_BITS] using hge)
    exact lt_of_lt_of_le h1 h2
  rw [Nat.testBit_lt_two_pow h12] at hk
  exact Bool.noConfusion hk

theorem testBit_lnot (x k : Nat) :
    (lnot x).testBit k = (decide (k < ULONG_BITS) && !x.testBit k) := by
  unfold lnot
  rw [Nat.testBit_xor, Nat.testBit_two_pow_sub_one, Nat.testBit_mod_two_pow]
  cases decide (k < ULONG_BITS) <;> simp

/-- C10 (amended): in `slap_acl_mask`, when the dimensions of the clause `b`
match and its effect mask `modmask` has the SUBTRACTIVE flag and not the
ADDITIVE flag, the running mask afterwards is the old running mask with the
effect mask's bits cleared and every bit outside `ACL_PRIV_MASK` cleared: every
bit of the old mask inside `ACL_PRIV_MASK` that is not set in the effect mask is
kept, and no bit is added. -/
theorem slap_acl_mask_subtractive_effect (env : Env) (a : AccessControl) (ai : Nat)
    (op : Operation) (e : Entry) (desc : AttributeDescription) (val : Option berval)
    (nmatch : Int) (ms : List regmatch_t) (count : Int) (b : Access) (bs : List Access)
    (bi : Nat) (i : Int) (mask : slap_mask_t) (state : Option AccessControlState)
    (modmask : slap_mask_t)
    (hwho : (acl_mask_who env a ai b bi i mask op e desc val nmatch ms count state).modmask
      = some modmask)
    (hadd : ACL_IS_ADDITIVE modmask = false) (hsub : ACL_IS_SUBTRACTIVE modmask = true) :
    (slap_acl_mask_loop env a ai op e desc val nmatch ms count (b :: bs) bi i mask state =
      if b.a_type = .ACL_CONTINUE then
        slap_acl_mask_loop env a ai op e desc val nmatch ms count bs (bi + 1)
          ((acl_mask_who env a ai b bi i mask op e desc val nmatch ms count state).i + 1)
          ((mask &&& lnot modmask) &&& ACL_PRIV_MASK)
          (acl_mask_who env a ai b bi i mask op e desc val nmatch ms count state).state
      else if b.a_type = .ACL_BREAK then
        ⟨.ACL_BREAK, (mask &&& lnot modmask) &&& ACL_PRIV_MASK,
          (acl_mask_who env a ai b bi i mask op e desc val nmatch ms count state).state⟩
      else
        ⟨.ACL_STOP, (mask &&& lnot modmask) &&& ACL_PRIV_MASK,
          (acl_mask_who env a ai b bi i mask op e desc val nmatch ms count state).state⟩) ∧
    (∀ k : Nat, ACL_PRIV_MASK.testBit k = true → mask.testBit k = true →
      modmask.testBit k = false →
      ((mask &&& lnot modmask) &&& ACL_PRIV_MASK).testBit k = true) ∧
    (∀ k : Nat, ((mask &&& lnot modmask) &&& ACL_PRIV_MASK).testBit k = true →
      mask.testBit k = true ∧ modmask.testBit k = false ∧ ACL_PRIV_MASK.testBit k = true) := by
  refine ⟨?_, ?_, ?_⟩
  · rw [slap_acl_mask_loop]
    simp only [hwho]
    rw [acl_mask_apply_subtractive mask modmask hadd hsub]
  · intro k hk hm hmod
    have hlt := testBit_priv_mask_lt hk
    simp [Nat.testBit_and, testBit_lnot, hk, hm, hmod, hlt]
  · intro k hres
    simp only [Nat.testBit_and, testBit_lnot, Bool.and_eq_true, Bool.not_eq_true',
      decide_eq_true_eq] at hres
    exact ⟨hres.1.1, hres.1.2.2, hres.2⟩

/-- Witness of C10 (amended): the clause `by * -r` applied to the running mask
of level READ leaves NONE, AUTH, COMPARE and SEARCH. -/
theorem slap_acl_mask_subtractive_effect_witness :
    (acl_mask_who env0 (to_any [by_any mask_sub_read .ACL_STOP]) 0
        (by_any mask_sub_read .ACL_STOP) 0 1 ACL_LVL_READ (op_b []) entry0 ad_cn none 100
        matches_zero 1 none).modmask = some mask_sub_read ∧
    ACL_IS_ADDITIVE mask_sub_read = false ∧ ACL_IS_SUBTRACTIVE mask_sub_read = true ∧
    slap_acl_mask_loop env0 (to_any [by_any mask_sub_read .ACL_STOP]) 0 (op_b []) entry0 ad_cn
        none 100 matches_zero 1 [by_any mask_sub_read .ACL_STOP] 0 1 ACL_LVL_READ none
      = ⟨.ACL_STOP, 0x00f, none⟩ :=
  ⟨by decide, by decide, by decide,
    (slap_acl_mask_subtractive_effect env0 (to_any [by_any mask_sub_read .ACL_STOP]) 0 (op_b [])
      entry0 ad_cn none 100 matches_zero 1 (by_any mask_sub_read .ACL_STOP) [] 0 1 ACL_LVL_READ
      none mask_sub_read (by decide) (by decide) (by decide)).1.trans (by decide)⟩

/-! ### State cache, basic facts -/

theorem state_answer_null (desc : AttributeDescription) (val : Option berval) :
    state_answer none desc val = none := rfl

theorem state_answer_fresh (desc : AttributeDescription) (val : Option berval) :
    state_answer (some ACL_STATE_INIT) desc val = none := by
  simp [state_answer, ACL_STATE_INIT]

theorem state_answer_absent_or_fresh (state : Option AccessControlState)
    (desc : AttributeDescription) (val : Option berval)
    (hstate : state = none ∨ state = some ACL_STATE_INIT) :
    state_answer state desc val = none := by
  rcases hstate with h | h
  · rw [h]; rfl
  · rw [h]; exact state_answer_fresh desc val

/-! ### Short-circuits of `access_allowed_mask` -/

/-- C3: for every policy list, entry, attribute, value and requested access of
level above NONE, when the operation is non-null, the requester is the database
root and the state cache is absent or freshly initialised, `access_allowed_mask`
returns 1 (grant) and, when `maskp` is supplied, writes `ACL_LVL_MANAGE` to it. -/
theorem access_allowed_mask_root (env : Env) (o : Operation) (be : BackendDB) (e : Entry)
    (desc : AttributeDescription) (val : Option berval) (access : slap_access_t)
    (state : Option AccessControlState) (maskp : Bool)
    (hlevel : ACL_LEVEL access > ACL_NONE)
    (hbe : op_backend env o = some be)
    (hroot : env.be_isroot { o with o_bd := some be } = true)
    (hstate : state = none ∨ state = some ACL_STATE_INIT) :
    ∃ st, access_allowed_mask env (some o) e desc val access state maskp =
      some ⟨1, if maskp then some ACL_LVL_MANAGE else none, st⟩ := by
  have hc := state_answer_absent_or_fresh state desc val hstate
  refine ⟨state_done (state_enter state desc) none 1, ?_⟩
  simp only [access_allowed_mask, hlevel, not_true_eq_false, if_false, hc, hbe, hroot, if_true]

/-- Witness of C3: the root requester is granted WRITE on `mail` under the
policy `to * by * none`, and the mask written is `ACL_LVL_MANAGE`. -/
theorem access_allowed_mask_root_witness :
    ACL_LEVEL ACL_WRITE > ACL_NONE ∧
    op_backend env0 (op_root (be_of acl_none)) = some (be_of acl_none) ∧
    env0.be_isroot { op_root (be_of acl_none) with o_bd := some (be_of acl_none) } = true ∧
    ∃ st, access_allowed_mask env0 (some (op_root (be_of acl_none))) entry0 ad_mail none
      ACL_WRITE none true = some ⟨1, if true then some ACL_LVL_MANAGE else none, st⟩ :=
  ⟨by decide, by decide, by decide,
    access_allowed_mask_root env0 (op_root (be_of acl_none)) (be_of acl_none) entry0 ad_mail none
      ACL_WRITE none true (by decide) (by decide) (by decide) (Or.inl rfl)⟩

/-- C4: when the call is not answered from the state cache, the requester is not
root, the no-user-modification short-circuit does not apply and the backend has
no policy list, `access_allowed_mask` returns 1 (grant) if the backend default
level is greater than or equal to the level of the requested access and 0
(deny) otherwise. -/
theorem access_allowed_mask_default (env : Env) (o : Operation) (be : BackendDB) (e : Entry)
    (desc : AttributeDescription) (val : Option berval) (access : slap_access_t)
    (state : Option AccessControlState) (maskp : Bool)
    (hlevel : ACL_LEVEL access > ACL_NONE)
    (hcache : state_answer state desc val = none)
    (hbe : op_backend env o = some be)
    (hroot : env.be_isroot { o with o_bd := some be } = false)
    (hnum : no_user_mod_shortcut env desc (ACL_LEVEL access) = false)
    (hacl : be.be_acl = []) :
    ∃ st, access_allowed_mask env (some o) e desc val access state maskp =
      some ⟨if be.be_dfltaccess ≥ ACL_LEVEL access then 1 else 0,
        if maskp then some (dflt_mask be.be_dfltaccess) else none, st⟩ := by
  refine ⟨state_done (state_enter state desc) none
    (if be.be_dfltaccess ≥ ACL_LEVEL access then 1 else 0), ?_⟩
  simp [access_allowed_mask, hlevel, hcache, hbe, hroot, hnum, hacl]

/-- Witness of C4: with default level READ and no policy list, SEARCH is
granted to `uid=b,dc=x`. -/
theorem access_allowed_mask_default_witness :
    ACL_LEVEL ACL_SEARCH > ACL_NONE ∧
    state_answer none ad_mail none = none ∧
    op_backend env0 (op_of be_dflt_read "uid=b,dc=x" false) = some be_dflt_read ∧
    env0.be_isroot { op_of be_dflt_read "uid=b,dc=x" false with o_bd := some be_dflt_read }
      = false ∧
    no_user_mod_shortcut env0 ad_mail (ACL_LEVEL ACL_SEARCH) = false ∧
    be_dflt_read.be_acl = [] ∧
    ∃ st, access_allowed_mask env0 (some (op_of be_dflt_read "uid=b,dc=x" false)) entry0 ad_mail
      none ACL_SEARCH none false =
      some ⟨if be_dflt_read.be_dfltaccess ≥ ACL_LEVEL ACL_SEARCH then 1 else 0,
        if false then some (dflt_mask be_dflt_read.be_dfltaccess) else none, st⟩ :=
  ⟨by decide, rfl, by decide, by decide, by decide, rfl,
    access_allowed_mask_default env0 (op_of be_dflt_read "uid=b,dc=x" false) be_dflt_read entry0
      ad_mail none ACL_SEARCH none false (by decide) rfl (by decide) (by decide) (by decide) rfl⟩

/-- Counterexample to C8 as stated: `uid=b,dc=x` (not root) requests READ, a
non-WRITE access, on the no-user-modification attribute `modifyTimestamp`; the
policy list is consulted: under `to * by * none` the request is denied, under
`to * by * read` it is granted. -/
theorem no_user_mod_read_consults_policy :
    env0.be_isroot (op_b acl_none) = false ∧
    ad_modifyTimestamp.ad_type.sat_no_user_mod = true ∧
    ad_modifyTimestamp ≠ env0.si_ad_entry ∧ ad_modifyTimestamp ≠ env0.si_ad_children ∧
    ACL_LEVEL ACL_READ < ACL_WRITE ∧
    ret_of (access_allowed_mask env0 (some (op_b acl_none)) entry0 ad_modifyTimestamp none
      ACL_READ none true) = some 0 ∧
    ret_of (access_allowed_mask env0 (some (op_b acl_read)) entry0 ad_modifyTimestamp none
      ACL_READ none true) = some 1 := by
  decide

/-- C8 (amended): for a requester that is not root and an attribute whose type
is no-user-modification and which is neither the `entry` nor the `children`
pseudo-attribute, `access_allowed_mask` (when the call is not answered from the
state cache) grants immediately, whatever the policy list and the backend
default, when the level of the requested access is WRITE or above. -/
theorem access_allowed_mask_no_user_mod (env : Env) (o : Operation) (be : BackendDB) (e : Entry)
    (desc : AttributeDescription) (val : Option berval) (access : slap_access_t)
    (state : Option AccessControlState) (maskp : Bool)
    (hlevel : ACL_LEVEL access ≥ ACL_WRITE)
    (hnum : desc.ad_type.sat_no_user_mod = true)
    (hentry : desc ≠ env.si_ad_entry) (hchildren : desc ≠ env.si_ad_children)
    (hcache : state_answer state desc val = none)
    (hbe : op_backend env o = some be)
    (hroot : env.be_isroot { o with o_bd := some be } = false) :
    ∃ st, access_allowed_mask env (some o) e desc val access state maskp =
      some ⟨1, if maskp then some env.junk.mask else none, st⟩ := by
  have hpos : ACL_LEVEL access > ACL_NONE :=
    lt_of_lt_of_le (by decide : ACL_NONE < ACL_WRITE) hlevel
  have hs : no_user_mod_shortcut env desc (ACL_LEVEL access) = true := by
    simp [no_user_mod_shortcut, hlevel, hnum, hentry, hchildren]
  refine ⟨state_done (state_enter state desc) none 1, ?_⟩
  simp [access_allowed_mask, hpos, hcache, hbe, hroot, hs]

/-- Witness of C8 (amended): WRITE on `modifyTimestamp` is granted to
`uid=b,dc=x` under the policy `to * by * none`. -/
theorem access_allowed_mask_no_user_mod_witness :
    ACL_LEVEL ACL_WRITE ≥ ACL_WRITE ∧
    ad_modifyTimestamp.ad_type.sat_no_user_mod = true ∧
    ad_modifyTimestamp ≠ env0.si_ad_entry ∧ ad_modifyTimestamp ≠ env0.si_ad_children ∧
    state_answer none ad_modifyTimestamp none = none ∧
    op_backend env0 (op_b acl_none) = some (be_of acl_none) ∧
    env0.be_isroot { op_b acl_none with o_bd := some (be_of acl_none) } = false ∧
    ∃ st, access_allowed_mask env0 (some (op_b acl_none)) entry0 ad_modifyTimestamp none
      ACL_WRITE none false = some ⟨1, if false then some env0.junk.mask else none, st⟩ :=
  ⟨by decide, by decide, by decide, by decide, rfl, by decide, by decide,
    access_allowed_mask_no_user_mod env0 (op_b acl_none) (be_of acl_none) entry0
      ad_modifyTimestamp none ACL_WRITE none false (by decide) (by decide) (by decide)
      (by decide) rfl (by decide) (by decide)⟩

/-- C7, the code at the failing input: on a backend without policy list whose
default level is AUTH, an authentication check that requests READ or SEARCH is
denied while the same call with requested access AUTH is granted (the default
is compared with the level computed before the request was turned into AUTH). -/
theorem auth_check_default_level_stale :
    (op_of be_dflt_auth "uid=b,dc=x" true).o_is_auth_check = true ∧
    effective_access (some (op_of be_dflt_auth "uid=b,dc=x" true)) ACL_READ = ACL_AUTH ∧
    ret_of (access_allowed_mask env0 (some (op_of be_dflt_auth "uid=b,dc=x" true)) entry0 ad_mail
      none ACL_READ none false) = some 0 ∧
    ret_of (access_allowed_mask env0 (some (op_of be_dflt_auth "uid=b,dc=x" true)) entry0 ad_mail
      none ACL_SEARCH none false) = some 0 ∧
    ret_of (access_allowed_mask env0 (some (op_of be_dflt_auth "uid=b,dc=x" true)) entry0 ad_mail
      none ACL_AUTH none false) = some 1 := by
  decide

/-- C1, the code at the failing input: under the policy
`to attrs=mail val=foo by * none`, `to attrs=mail by * read`, the request READ
on the value `foo` of `mail` is denied without a state cache and on the first
call through a fresh state cache, and granted on the second, identical call
through the same state cache (the value-scoped rule is skipped on resumption). -/
theorem state_cache_changes_decision :
    ret_of (access_allowed_mask env0 (some (op_b acl_mail_val)) entry0 ad_mail
      (some (BER_BVC "foo")) ACL_READ none false) = some 0 ∧
    ret_of (access_allowed_mask env0 (some (op_b acl_mail_val)) entry0 ad_mail
      (some (BER_BVC "foo")) ACL_READ (some ACL_STATE_INIT) false) = some 0 ∧
    ret_of (access_allowed_mask env0 (some (op_b acl_mail_val)) entry0 ad_mail
      (some (BER_BVC "foo")) ACL_READ
      (state_after (access_allowed_mask env0 (some (op_b acl_mail_val)) entry0 ad_mail
        (some (BER_BVC "foo")) ACL_READ (some ACL_STATE_INIT) false)) false) = some 1 := by
  decide

/-! ### The evaluation without a state cache, totality of the rule loop -/

theorem acl_mask_dnattr_state_null (env : Env) (e : Entry) (val : Option berval) (ai bi : Nat)
    (i : Int) (ms : List regmatch_t) (count : Int) (bdn : slap_dn_access)
    (at_ : AttributeDescription) (opndn : berval) :
    (acl_mask_dnattr env e val ai bi i ms count none bdn at_ opndn).2 = none := by
  unfold acl_mask_dnattr
  cases val <;> simp [ACL_RECORD_VALUE_STATE] <;> split_ifs <;> simp

theorem who_dnattr_state_null (env : Env) (e : Entry) (val : Option berval) (ai bi : Nat)
    (i : Int) (ms : List regmatch_t) (count : Int) (bdn : slap_dn_access) (opndn : berval) :
    (who_dnattr env e val ai bi i ms count none bdn opndn).2 = none := by
  unfold who_dnattr
  cases bdn.a_at
  · rfl
  · exact acl_mask_dnattr_state_null ..

theorem acl_mask_who_state_null (env : Env) (a : AccessControl) (ai : Nat) (b : Access) (bi : Nat)
    (i : Int) (mask : slap_mask_t) (op : Operation) (e : Entry) (desc : AttributeDescription)
    (val : Option berval) (nmatch : Int) (ms : List regmatch_t) (count : Int) :
    (acl_mask_who env a ai b bi i mask op e desc val nmatch ms count none).state = none := by
  unfold acl_mask_who
  simp only [who_dnattr_state_null]
  split_ifs <;> rfl

theorem slap_acl_mask_loop_state_null (env : Env) (a : AccessControl) (ai : Nat) (op : Operation)
    (e : Entry) (desc : AttributeDescription) (val : Option berval) (nmatch : Int)
    (ms : List regmatch_t) (count : Int) (bs : List Access) :
    ∀ (bi : Nat) (i : Int) (mask : slap_mask_t),
      (slap_acl_mask_loop env a ai op e desc val nmatch ms count bs bi i mask none).state
        = none := by
  induction bs with
  | nil => intro bi i mask; rfl
  | cons b bs ih =>
    intro bi i mask
    rw [slap_acl_mask_loop]
    have hw := acl_mask_who_state_null env a ai b bi i mask op e desc val nmatch ms count
    simp only [hw]
    split
    · exact ih _ _ _
    · split_ifs
      · exact ih _ _ _
      · rfl
      · rfl

theorem slap_acl_mask_state_null (env : Env) (a : AccessControl) (ai : Nat) (mask : slap_mask_t)
    (op : Operation) (e : Entry) (desc : AttributeDescription) (val : Option berval)
    (nmatch : Int) (ms : List regmatch_t) (count : Int) :
    (slap_acl_mask env a ai mask op e desc val nmatch ms count none).state = none := by
  unfold slap_acl_mask
  simp only [slap_acl_mask_start]
  exact slap_acl_mask_loop_state_null ..

theorem slap_acl_get_rule_state_null (env : Env) (a : AccessControl) (ai : Nat) (count : Int)
    (e : Entry) (desc : AttributeDescription) (val : Option berval) (nmatch : Nat)
    (ms : List regmatch_t) :
    (slap_acl_get_rule env a ai count e desc val nmatch ms none).state = none := by
  unfold slap_acl_get_rule
  cases val <;> simp only [acl_get_record] <;> split_ifs <;> rfl

theorem slap_acl_get_loop_state_null (env : Env) (e : Entry) (desc : AttributeDescription)
    (val : Option berval) (nmatch : Nat) (rules : List AccessControl) :
    ∀ (ai : Nat) (count : Int) (ms : List regmatch_t),
      (slap_acl_get_loop env e desc val nmatch rules ai count ms none).state = none := by
  induction rules with
  | nil => intro ai count ms; rfl
  | cons a rest ih =>
    intro ai count ms
    rw [slap_acl_get_loop]
    simp only [slap_acl_get_rule_state_null]
    split_ifs
    · rfl
    · exact ih _ _ _

theorem slap_acl_get_state_null (env : Env) (a : Option Nat) (count : Int) (op : Operation)
    (e : Entry) (desc : AttributeDescription) (val : Option berval) (nmatch : Nat)
    (ms : List regmatch_t) :
    (slap_acl_get env a count op e desc val nmatch ms none).state = none := by
  unfold slap_acl_get
  exact slap_acl_get_loop_state_null ..

theorem slap_acl_get_loop_range (env : Env) (e : Entry) (desc : AttributeDescription)
    (val : Option berval) (nmatch : Nat) (rules : List AccessControl) :
    ∀ (ai : Nat) (count : Int) (ms : List regmatch_t) (state : Option AccessControlState)
      (k : Nat),
      (slap_acl_get_loop env e desc val nmatch rules ai count ms state).a = some k →
      ai ≤ k ∧ k < ai + rules.length := by
  induction rules with
  | nil => intro ai count ms state k h; simp [slap_acl_get_loop] at h
  | cons a rest ih =>
    intro ai count ms state k h
    rw [slap_acl_get_loop] at h
    split_ifs at h
    · simp only [Option.some.injEq] at h
      subst h
      simp
    · have := ih _ _ _ _ _ h
      simp only [List.length_cons]
      omega

theorem slap_acl_get_range (env : Env) (a : Option Nat) (count : Int) (op : Operation)
    (e : Entry) (desc : AttributeDescription) (val : Option berval) (nmatch : Nat)
    (ms : List regmatch_t) (state : Option AccessControlState) (k : Nat)
    (h : (slap_acl_get env a count op e desc val nmatch ms state).a = some k) :
    cursor_next a ≤ k ∧ k < (op_acl env op).length := by
  unfold slap_acl_get at h
  have := slap_acl_get_loop_range env e desc val nmatch _ _ _ _ _ _ h
  simp only [List.length_drop] at this
  constructor
  · exact this.1
  · omega

theorem access_loop_total (env : Env) (op : Operation) (e : Entry) (desc : AttributeDescription)
    (val : Option berval) :
    ∀ (fuel : Nat) (a : Option Nat) (count : Int) (control : slap_control_t) (mask : slap_mask_t)
      (ms : List regmatch_t) (state : Option AccessControlState),
      (op_acl env op).length ≤ fuel + cursor_next a →
      ∃ l, access_loop env op e desc val (fuel + 1) a count control mask ms state = some l := by
  intro fuel
  induction fuel with
  | zero =>
    intro a count control mask ms state h
    rw [access_loop]
    cases hg : (slap_acl_get env a count op e desc val MAXREMATCHES ms state).a with
    | none => exact ⟨_, rfl⟩
    | some ai =>
      have hr := slap_acl_get_range env a count op e desc val MAXREMATCHES ms state ai hg
      omega
  | succ n ih =>
    intro a count control mask ms state h
    rw [access_loop]
    cases hg : (slap_acl_get env a count op e desc val MAXREMATCHES ms state).a with
    | none => exact ⟨_, rfl⟩
    | some ai =>
      have hr := slap_acl_get_range env a count op e desc val MAXREMATCHES ms state ai hg
      simp only
      cases hh : state_hit (slap_acl_get env a count op e desc val MAXREMATCHES ms state).state ai with
      | some r => exact ⟨_, rfl⟩
      | none =>
        simp only
        cases hrule : (op_acl env op)[ai]? with
        | none =>
          rw [List.getElem?_eq_none_iff] at hrule
          omega
        | some rule =>
          simp only
          split_ifs with hc
          · exact ⟨_, rfl⟩
          · apply ih
            simp only [cursor_next]
            omega

theorem access_loop_state_null (env : Env) (op : Operation) (e : Entry)
    (desc : AttributeDescription) (val : Option berval) :
    ∀ (fuel : Nat) (a : Option Nat) (count : Int) (control : slap_control_t) (mask : slap_mask_t)
      (ms : List regmatch_t) (l : LoopOut),
      access_loop env op e desc val fuel a count control mask ms none = some l →
      l.from_state = none ∧ l.state = none := by
  intro fuel
  induction fuel with
  | zero =>
    intro a count control mask ms l h
    simp [access_loop] at h
  | succ n ih =>
    intro a count control mask ms l h
    rw [access_loop] at h
    simp only [slap_acl_get_state_null] at h
    cases hg : (slap_acl_get env a count op e desc val MAXREMATCHES ms none).a with
    | none =>
      simp only [hg, Option.some.injEq] at h
      subst h
      exact ⟨rfl, rfl⟩
    | some ai =>
      simp only [hg, state_hit] at h
      cases hrule : (op_acl env op)[ai]? with
      | none => simp [hrule] at h
      | some rule =>
        simp only [hrule, slap_acl_mask_state_null] at h
        split_ifs at h with hc
        · simp only [Option.some.injEq] at h
          subst h
          exact ⟨rfl, rfl⟩
        · exact ih _ _ _ _ _ _ h

theorem acl_grant_none (a : slap_access_t) (h : ACL_LEVEL a > ACL_NONE) :
    ACL_GRANT ACL_PRIV_NONE a = false := by
  have h1 : ACL_PRIV_NONE = 1 := by decide
  have hl : 1 ≤ ACL_LEVEL a := h
  have hbit : (ACL_ACCESS2PRIV a).testBit (ACL_LEVEL a) = true := by
    unfold ACL_ACCESS2PRIV
    rw [Nat.testBit_or, Nat.one_shiftLeft, Nat.testBit_two_pow_self]
    rfl
  have h2 : 2 ≤ ACL_ACCESS2PRIV a :=
    calc (2 : Nat) = 2 ^ 1 := by norm_num
      _ ≤ 2 ^ ACL_LEVEL a := Nat.pow_le_pow_right (by norm_num) hl
      _ ≤ ACL_ACCESS2PRIV a := Nat.testBit_implies_ge hbit
  have h4 : 1 &&& ACL_ACCESS2PRIV a ≤ 1 := Nat.and_le_left
  unfold ACL_GRANT ACL_PRIV_ISSET
  rw [h1]
  simp only [beq_eq_false_iff_ne, ne_eq]
  intro heq
  rw [heq] at h4
  exact absurd (le_trans h2 h4) (by norm_num)

theorem effective_access_level (op : Option Operation) (access : slap_access_t)
    (h : ACL_LEVEL access > ACL_NONE) : ACL_LEVEL (effective_access op access) > ACL_NONE := by
  unfold effective_access
  cases op with
  | none => exact h
  | some o =>
    simp only
    split_ifs
    · decide
    · exact h

theorem slap_acl_get_rule_indep (env : Env) (a : AccessControl) (ai ai' : Nat)
    (count count' : Int) (e : Entry) (desc : AttributeDescription) (val : Option berval)
    (nmatch : Nat) (ms : List regmatch_t) (state state' : Option AccessControlState) :
    (slap_acl_get_rule env a ai count e desc val nmatch ms state).matched =
      (slap_acl_get_rule env a ai' count' e desc val nmatch ms state').matched ∧
    (slap_acl_get_rule env a ai count e desc val nmatch ms state).rmatches =
      (slap_acl_get_rule env a ai' count' e desc val nmatch ms state').rmatches := by
  unfold slap_acl_get_rule
  cases val <;> dsimp only <;> split_ifs <;> exact ⟨rfl, rfl⟩

theorem slap_acl_get_loop_indep (env : Env) (e : Entry) (desc : AttributeDescription)
    (val : Option berval) (nmatch : Nat) (rules : List AccessControl) :
    ∀ (ai : Nat) (count count' : Int) (ms : List regmatch_t)
      (state state' : Option AccessControlState),
      (slap_acl_get_loop env e desc val nmatch rules ai count ms state).a =
        (slap_acl_get_loop env e desc val nmatch rules ai count' ms state').a := by
  induction rules with
  | nil => intro ai count count' ms state state'; rfl
  | cons a rest ih =>
    intro ai count count' ms state state'
    rw [slap_acl_get_loop, slap_acl_get_loop]
    have hi := slap_acl_get_rule_indep env a ai ai (count + 1) (count' + 1) e desc val nmatch ms
      state state'
    simp only [hi.1, hi.2]
    split_ifs
    · rfl
    · exact ih _ _ _ _ _ _

theorem slap_acl_get_indep (env : Env) (a : Option Nat) (count count' : Int) (op : Operation)
    (e : Entry) (desc : AttributeDescription) (val : Option berval) (nmatch : Nat)
    (ms : List regmatch_t) (state state' : Option AccessControlState) :
    (slap_acl_get env a count op e desc val nmatch ms state).a =
      (slap_acl_get env a count' op e desc val nmatch ms state').a := by
  unfold slap_acl_get
  exact slap_acl_get_loop_indep ..

/-! ### No rule, and the final test of the mask -/

theorem st_same_attr_absent_or_fresh (state : Option AccessControlState)
    (desc : AttributeDescription) (hstate : state = none ∨ state = some ACL_STATE_INIT) :
    st_same_attr state desc = false := by
  rcases hstate with h | h <;> subst h <;> simp [st_same_attr, ACL_STATE_INIT]

/-- C5: when the policy list is non-empty but the rule selector returns no
rule for the request (`slap_acl_get` from the head of the list returns NULL),
`access_allowed_mask` with an absent or fresh state, reaching the selector (the
requester is not root and the no-user-modification short-circuit does not
apply), returns 0 (deny) for every requested access of level above NONE, and the
mask it writes is the cleared mask `ACL_PRIV_NONE`. -/
theorem access_allowed_mask_no_rule (env : Env) (o : Operation) (be : BackendDB) (e : Entry)
    (desc : AttributeDescription) (val : Option berval) (access : slap_access_t)
    (state : Option AccessControlState) (maskp : Bool)
    (hlevel : ACL_LEVEL access > ACL_NONE)
    (hstate : state = none ∨ state = some ACL_STATE_INIT)
    (hbe : op_backend env o = some be)
    (hroot : env.be_isroot { o with o_bd := some be } = false)
    (hnum : no_user_mod_shortcut env desc (ACL_LEVEL access) = false)
    (hacl : be.be_acl ≠ [])
    (hsel : (slap_acl_get env none 0 { o with o_bd := some be } e desc val MAXREMATCHES
      matches_zero none).a = none) :
    ∃ st, access_allowed_mask env (some o) e desc val access state maskp =
      some ⟨0, if maskp then some ACL_PRIV_NONE else none, st⟩ := by
  have hc := state_answer_absent_or_fresh state desc val hstate
  have hsame := st_same_attr_absent_or_fresh state desc hstate
  have hacl' : be.be_acl.isEmpty = false := by
    cases hb : be.be_acl with
    | nil => exact absurd hb hacl
    | cons _ _ => rfl
  have hinv : ACL_IS_INVALID ACL_PRIV_NONE = false := by decide
  have hloop : ∀ st0 : Option AccessControlState, ∃ st1,
      access_rules env { o with o_bd := some be } e desc val false st0 =
        some ⟨none, .ACL_BREAK, ACL_PRIV_NONE, st1, none⟩ := by
    intro st0
    refine ⟨(slap_acl_get env none 0 { o with o_bd := some be } e desc val MAXREMATCHES
      matches_zero (match st0 with
        | none => none
        | some st => some { st with as_vi_acl := none })).state, ?_⟩
    unfold access_rules
    simp only
    rw [access_loop]
    simp only [slap_acl_get_indep env none 0 0 _ e desc val MAXREMATCHES matches_zero _ none, hsel]
  obtain ⟨st1, h1⟩ := hloop (state_enter state desc)
  refine ⟨state_done st1 none 0, ?_⟩
  simp [access_allowed_mask, hlevel, hc, hbe, hroot, hnum, hacl', hsame, h1, hinv]

theorem access_rules_null_total (env : Env) (op : Operation) (e : Entry)
    (desc : AttributeDescription) (val : Option berval) :
    ∃ l, access_rules env op e desc val false none = some l ∧ l.from_state = none ∧
      l.state = none := by
  have ht := access_loop_total env op e desc val (op_acl env op).length none 0 .ACL_BREAK
    ACL_PRIV_NONE matches_zero none (by simp [cursor_next])
  obtain ⟨l, hl⟩ := ht
  have hn := access_loop_state_null env op e desc val _ _ _ _ _ _ l hl
  refine ⟨l, ?_, hn.1, hn.2⟩
  unfold access_rules
  simpa using hl

/-- C2 (amended): for every request of a requester that is not root, evaluated
against a non-empty policy list without a state cache, `access_allowed_mask`
returns grant if and only if the rule loop ended on a verdict other than BREAK
and the mask it writes to `*maskp` contains the privilege of the effective
requested access (`ACL_GRANT(mask, access)`); when the loop ends on BREAK (no
rule matched, or the last applicable rule ended with BREAK and no further rule
matched) it returns deny whatever the mask holds. Here `l` is the outcome of the
rule loop, `r` the result of the call and `m` the mask written. -/
theorem access_allowed_mask_grant_iff (env : Env) (o : Operation) (be : BackendDB) (e : Entry)
    (desc : AttributeDescription) (val : Option berval) (access : slap_access_t)
    (hlevel : ACL_LEVEL access > ACL_NONE)
    (hbe : op_backend env o = some be)
    (hroot : env.be_isroot { o with o_bd := some be } = false)
    (hnum : no_user_mod_shortcut env desc (ACL_LEVEL access) = false)
    (hacl : be.be_acl ≠ []) :
    ∃ l r m, access_rules env { o with o_bd := some be } e desc val false none = some l ∧
      access_allowed_mask env (some o) e desc val access none true = some r ∧
      r.maskp = some m ∧ (r.ret = 1 ∨ r.ret = 0) ∧
      (r.ret = 1 ↔
        l.control ≠ .ACL_BREAK ∧ ACL_GRANT m (effective_access (some o) access) = true) := by
  obtain ⟨l, hl, hfs, _⟩ := access_rules_null_total env { o with o_bd := some be } e desc val
  have hacl' : be.be_acl.isEmpty = false := by
    cases hb : be.be_acl with
    | nil => exact absurd hb hacl
    | cons _ _ => rfl
  have hg := acl_grant_none _ (effective_access_level (some o) access hlevel)
  have hcall : access_allowed_mask env (some o) e desc val access none true =
      (if ACL_IS_INVALID l.mask then
        some ⟨0, some ACL_PRIV_NONE, state_done l.state l.a 0⟩
      else if l.control = .ACL_BREAK then some ⟨0, some l.mask, state_done l.state l.a 0⟩
      else some ⟨if ACL_GRANT l.mask (effective_access (some o) access) then 1 else 0,
        some l.mask,
        state_done l.state l.a
          (if ACL_GRANT l.mask (effective_access (some o) access) then 1 else 0)⟩) := by
    simp [access_allowed_mask, hlevel, state_answer, st_same_attr, state_enter, hbe, hroot, hnum,
      hacl', hl, hfs, hg]
  by_cases hinv : ACL_IS_INVALID l.mask = true
  · refine ⟨l, ⟨0, some ACL_PRIV_NONE, state_done l.state l.a 0⟩, ACL_PRIV_NONE, hl, ?_, rfl,
      Or.inr rfl, ?_⟩
    · rw [hcall, if_pos hinv]
    · simp [hg]
  · by_cases hbrk : l.control = .ACL_BREAK
    · refine ⟨l, ⟨0, some l.mask, state_done l.state l.a 0⟩, l.mask, hl, ?_, rfl, Or.inr rfl, ?_⟩
      · rw [hcall, if_neg hinv, if_pos hbrk]
      · simp [hbrk]
    · refine ⟨l, ⟨if ACL_GRANT l.mask (effective_access (some o) access) then 1 else 0,
          some l.mask, state_done l.state l.a
            (if ACL_GRANT l.mask (effective_access (some o) access) then 1 else 0)⟩,
        l.mask, hl, ?_, rfl, ?_, ?_⟩
      · rw [hcall, if_neg hinv, if_neg hbrk]
      · by_cases hgr : ACL_GRANT l.mask (effective_access (some o) access) = true
        · simp [hgr]
        · simp [hgr]
      · by_cases hgr : ACL_GRANT l.mask (effective_access (some o) access) = true
        · simp [hgr, hbrk]
        · simp [hgr]

/-- Witness of C5: under the policy `to attrs=cn by * read` no rule applies to
`mail`; READ on `mail` is denied and the mask written is `ACL_PRIV_NONE`. -/
theorem access_allowed_mask_no_rule_witness :
    ACL_LEVEL ACL_READ > ACL_NONE ∧
    op_backend env0 (op_b acl_cn_only) = some (be_of acl_cn_only) ∧
    env0.be_isroot { op_b acl_cn_only with o_bd := some (be_of acl_cn_only) } = false ∧
    no_user_mod_shortcut env0 ad_mail (ACL_LEVEL ACL_READ) = false ∧
    (be_of acl_cn_only).be_acl ≠ [] ∧
    (slap_acl_get env0 none 0 { op_b acl_cn_only with o_bd := some (be_of acl_cn_only) } entry0
      ad_mail none MAXREMATCHES matches_zero none).a = none ∧
    ∃ st, access_allowed_mask env0 (some (op_b acl_cn_only)) entry0 ad_mail none ACL_READ
      (some ACL_STATE_INIT) true = some ⟨0, if true then some ACL_PRIV_NONE else none, st⟩ :=
  ⟨by decide, by decide, by decide, by decide, by decide, by decide,
    access_allowed_mask_no_rule env0 (op_b acl_cn_only) (be_of acl_cn_only) entry0 ad_mail none
      ACL_READ (some ACL_STATE_INIT) true (by decide) (Or.inr rfl) (by decide) (by decide)
      (by decide) (by decide) (by decide)⟩

/-- Counterexample to C2 as stated: under the policy `to * by * read break` the
only rule ends with BREAK and no further rule matches; for `uid=b,dc=x` (not
root), without a state cache, `access_allowed_mask` returns 0 (deny) for READ
although the mask it writes, `ACL_LVL_READ`, contains the READ privilege. -/
theorem break_denies_despite_mask :
    env0.be_isroot (op_b acl_read_break) = false ∧
    (be_of acl_read_break).be_acl ≠ [] ∧
    ret_of (access_allowed_mask env0 (some (op_b acl_read_break)) entry0 ad_cn none ACL_READ
      none true) = some 0 ∧
    mask_of (access_allowed_mask env0 (some (op_b acl_read_break)) entry0 ad_cn none ACL_READ
      none true) = some ACL_LVL_READ ∧
    ACL_GRANT ACL_LVL_READ ACL_READ = true := by
  decide

/-- Witness of C2 (amended): the request READ on `cn` by `uid=b,dc=x` under the
policy `to * by * read`. -/
theorem access_allowed_mask_grant_iff_witness :
    ACL_LEVEL ACL_READ > ACL_NONE ∧
    op_backend env0 (op_b acl_read) = some (be_of acl_read) ∧
    env0.be_isroot { op_b acl_read with o_bd := some (be_of acl_read) } = false ∧
    no_user_mod_shortcut env0 ad_cn (ACL_LEVEL ACL_READ) = false ∧
    (be_of acl_read).be_acl ≠ [] ∧
    ∃ l r m, access_rules env0 { op_b acl_read with o_bd := some (be_of acl_read) } entry0 ad_cn
        none false none = some l ∧
      access_allowed_mask env0 (some (op_b acl_read)) entry0 ad_cn none ACL_READ none true
        = some r ∧
      r.maskp = some m ∧ (r.ret = 1 ∨ r.ret = 0) ∧
      (r.ret = 1 ↔
        l.control ≠ .ACL_BREAK ∧
          ACL_GRANT m (effective_access (some (op_b acl_read)) ACL_READ) = true) :=
  ⟨by decide, by decide, by decide, by decide, by decide,
    access_allowed_mask_grant_iff env0 (op_b acl_read) (be_of acl_read) entry0 ad_cn none ACL_READ
      (by decide) (by decide) (by decide) (by decide) (by decide)⟩

/-! ### The key of the state cache -/

theorem state_done_flags (s : Option AccessControlState) (a : Option Nat) (ret : Int)
    (st : AccessControlState) (h : state_done s a ret = some st) :
    st.as_recorded &&& ACL_STATE_RECORDED_NV ≠ 0 ∧ st.as_recorded &&& ACL_STATE_RECORDED_VD ≠ 0 := by
  have key : ∀ x : Nat, (x ||| ACL_STATE_RECORDED) &&& ACL_STATE_RECORDED_NV ≠ 0 ∧
      (x ||| ACL_STATE_RECORDED) &&& ACL_STATE_RECORDED_VD ≠ 0 := by
    intro x
    constructor
    · intro h0
      have := congrArg (fun n => Nat.testBit n 1) h0
      have h31 : Nat.testBit 3 1 = true := by decide
      have h21 : Nat.testBit 2 1 = true := by decide
      simp [Nat.testBit_and, Nat.testBit_or, ACL_STATE_RECORDED, ACL_STATE_RECORDED_NV, h31,
        h21] at this
    · intro h0
      have := congrArg (fun n => Nat.testBit n 0) h0
      simp [Nat.testBit_and, Nat.testBit_or, ACL_STATE_RECORDED, ACL_STATE_RECORDED_VD] at this
  unfold state_done at h
  cases s with
  | none => simp at h
  | some s0 =>
    simp only at h
    split_ifs at h <;> simp only [Option.some.injEq] at h <;> subst h <;> exact key _

theorem access_allowed_mask_state_done (env : Env) (op : Option Operation) (e : Entry)
    (desc : AttributeDescription) (val : Option berval) (access : slap_access_t)
    (state : Option AccessControlState) (maskp : Bool) (r : AccessResult)
    (hc : state_answer state desc val = none)
    (h : access_allowed_mask env op e desc val access state maskp = some r) :
    ∃ s a ret, r.state = state_done s a ret := by
  by_cases hlevel : ACL_LEVEL access > ACL_NONE
  swap
  · simp [access_allowed_mask, hlevel] at h
  cases op with
  | none =>
    simp [access_allowed_mask, hlevel, hc] at h
    subst h
    exact ⟨_, _, _, rfl⟩
  | some o =>
    cases hb : op_backend env o with
    | none => simp [access_allowed_mask, hlevel, hc, hb] at h
    | some be =>
      cases hroot : env.be_isroot { o with o_bd := some be } with
      | true =>
        simp [access_allowed_mask, hlevel, hc, hb, hroot] at h
        subst h
        exact ⟨_, _, _, rfl⟩
      | false =>
        cases hnum : no_user_mod_shortcut env desc (ACL_LEVEL access) with
        | true =>
          simp [access_allowed_mask, hlevel, hc, hb, hroot, hnum] at h
          subst h
          exact ⟨_, _, _, rfl⟩
        | false =>
          cases hacl : be.be_acl.isEmpty with
          | true =>
            simp only [access_allowed_mask, hlevel, hc, hb, hroot, hnum, hacl, not_true_eq_false,
              if_false, if_true, Bool.false_eq_true, Option.some.injEq] at h
            subst h
            exact ⟨_, _, _, rfl⟩
          | false =>
            cases hl : access_rules env { o with o_bd := some be } e desc val
                (st_same_attr state desc) (state_enter state desc) with
            | none =>
              simp [access_allowed_mask, hlevel, hc, hb, hroot, hnum, hacl, hl] at h
            | some l =>
              cases hf : l.from_state with
              | some x =>
                simp only [access_allowed_mask, hlevel, hc, hb, hroot, hnum, hacl, hl, hf,
                  not_true_eq_false, if_false, Bool.false_eq_true, Option.some.injEq] at h
                subst h
                exact ⟨_, _, _, rfl⟩
              | none =>
                simp only [access_allowed_mask, hlevel, hc, hb, hroot, hnum, hacl, hl, hf,
                  not_true_eq_false, if_false, Bool.false_eq_true] at h
                split_ifs at h <;> simp only [Option.some.injEq] at h <;> subst h <;>
                  exact ⟨_, _, _, rfl⟩

/-- C6 (amended): `access_allowed_mask` returns a recorded answer without
evaluating the policy only when the cache's attribute description is identical
to the requested one and a flag of `as_recorded` fits the call: the NV flag for
a call without a value, or the VD flag for a call with a value when no
value-dependent rule was recorded (`as_vd_acl` is NULL); the answer returned is
`as_result` and the state is left as it is. When the cached attribute
description differs, the call behaves as on the initial state (the state is
reset before evaluation). Every call that is not answered from the cache leaves
both flags set, whether or not it carried a value. -/
theorem state_answer_key (env : Env) (op : Option Operation) (e : Entry)
    (desc : AttributeDescription) (val : Option berval) (access : slap_access_t)
    (st : AccessControlState) (maskp : Bool)
    (hlevel : ACL_LEVEL access > ACL_NONE) :
    (∀ r : Int, state_answer (some st) desc val = some r →
      st.as_vd_ad = some desc ∧ r = st.as_result ∧
      ((st.as_recorded &&& ACL_STATE_RECORDED_NV ≠ 0 ∧ val = none) ∨
        (st.as_recorded &&& ACL_STATE_RECORDED_VD ≠ 0 ∧ val ≠ none ∧ st.as_vd_acl = none)) ∧
      access_allowed_mask env op e desc val access (some st) maskp =
        some ⟨r, if maskp then some ACL_PRIV_INVALID else none, some st⟩) ∧
    (st.as_vd_ad ≠ some desc →
      access_allowed_mask env op e desc val access (some st) maskp =
        access_allowed_mask env op e desc val access (some ACL_STATE_INIT) maskp) ∧
    (∀ (r : AccessResult) (st1 : AccessControlState),
      state_answer (some st) desc val = none →
      access_allowed_mask env op e desc val access (some st) maskp = some r →
      r.state = some st1 →
      st1.as_recorded &&& ACL_STATE_RECORDED_NV ≠ 0 ∧
        st1.as_recorded &&& ACL_STATE_RECORDED_VD ≠ 0) := by
  refine ⟨?_, ?_, ?_⟩
  · intro r hr
    have hcall : access_allowed_mask env op e desc val access (some st) maskp =
        some ⟨r, if maskp then some ACL_PRIV_INVALID else none, some st⟩ := by
      simp [access_allowed_mask, hlevel, hr]
    unfold state_answer at hr
    simp only at hr
    split_ifs at hr with h1 h2 h3 h4
    · simp only [Option.some.injEq] at hr
      exact ⟨h1, hr.symm, Or.inl ⟨h3.1, by simpa using h3.2⟩, hcall⟩
    · simp only [Option.some.injEq] at hr
      refine ⟨h1, hr.symm, Or.inr ⟨h4.1, ?_, by simpa using h4.2.2⟩, hcall⟩
      intro hv
      rw [hv] at h4
      simp at h4
  · intro hne
    have h1 : state_answer (some st) desc val = none := by
      simp [state_answer, hne]
    have h2 : st_same_attr (some st) desc = false := by simp [st_same_attr, hne]
    have h3 : state_enter (some st) desc = state_enter (some ACL_STATE_INIT) desc := by
      simp [state_enter, hne, ACL_STATE_INIT]
    have h4 : st_same_attr (some ACL_STATE_INIT) desc = false := by
      simp [st_same_attr, ACL_STATE_INIT]
    simp only [access_allowed_mask, h1, h2, h3, h4, state_answer_fresh]
  · intro r st1 hc hr hst
    obtain ⟨s, a, ret, hd⟩ := access_allowed_mask_state_done env op e desc val access (some st)
      maskp r hc hr
    rw [hd] at hst
    exact state_done_flags s a ret st1 hst

/-- Counterexample to C6 as stated: under the policy
`to attrs=mail val=foo by * none`, `to attrs=mail by * read`, the answer (grant)
recorded by a READ request on `mail` without a value is returned, without
evaluating the policy, to the following request on the value `foo`, which the
policy denies; and under `to * by * read` the answer recorded by a request on
the value `foo` of `cn` is returned to the following request without a value. -/
theorem recorded_answer_crosses_value_dependence :
    state_after (access_allowed_mask env0 (some (op_b acl_mail_val)) entry0 ad_mail none
      ACL_READ (some ACL_STATE_INIT) false) = some state_recorded_mail ∧
    state_answer (some state_recorded_mail) ad_mail (some (BER_BVC "foo")) = some 1 ∧
    ret_of (access_allowed_mask env0 (some (op_b acl_mail_val)) entry0 ad_mail
      (some (BER_BVC "foo")) ACL_READ (some state_recorded_mail) false) = some 1 ∧
    ret_of (access_allowed_mask env0 (some (op_b acl_mail_val)) entry0 ad_mail
      (some (BER_BVC "foo")) ACL_READ none false) = some 0 ∧
    state_answer (state_after (access_allowed_mask env0 (some (op_b acl_read)) entry0 ad_cn
      (some (BER_BVC "foo")) ACL_READ (some ACL_STATE_INIT) false)) ad_cn none = some 1 := by
  decide

/-- Witness of C6 (amended): the recorded state `state_recorded_mail` answers a
request on a value of `mail`, and is reset by a request on `cn`. -/
theorem state_answer_key_witness :
    ACL_LEVEL ACL_READ > ACL_NONE ∧
    state_answer (some state_recorded_mail) ad_mail (some (BER_BVC "foo")) = some 1 ∧
    access_allowed_mask env0 (some (op_b acl_mail_val)) entry0 ad_mail (some (BER_BVC "foo"))
      ACL_READ (some state_recorded_mail) false =
      some ⟨1, if false then some ACL_PRIV_INVALID else none, some state_recorded_mail⟩ ∧
    state_recorded_mail.as_vd_ad ≠ some ad_cn ∧
    access_allowed_mask env0 (some (op_b acl_mail_val)) entry0 ad_cn none ACL_READ
      (some state_recorded_mail) false =
      access_allowed_mask env0 (some (op_b acl_mail_val)) entry0 ad_cn none ACL_READ
        (some ACL_STATE_INIT) false :=
  ⟨by decide, by decide,
    ((state_answer_key env0 (some (op_b acl_mail_val)) entry0 ad_mail (some (BER_BVC "foo"))
      ACL_READ state_recorded_mail false (by decide)).1 1 (by decide)).2.2.2,
    by decide,
    (state_answer_key env0 (some (op_b acl_mail_val)) entry0 ad_cn none ACL_READ
      state_recorded_mail false (by decide)).2.1 (by decide)⟩

theorem or_and_self_right (x p : Nat) : (x ||| p) &&& p = p := by
  apply Nat.eq_of_testBit_eq
  intro i
  simp only [Nat.testBit_and, Nat.testBit_or]
  cases x.testBit i <;> cases p.testBit i <;> rfl

theorem and_priv_mask_idem (x : Nat) : (x &&& ACL_PRIV_MASK) &&& ACL_PRIV_MASK = x &&& ACL_PRIV_MASK := by
  rw [Nat.and_assoc, Nat.and_self]

theorem acl_is_additive_or (x : slap_mask_t) : ACL_IS_ADDITIVE (x ||| ACL_PRIV_ADDITIVE) = true := by
  simp only [ACL_IS_ADDITIVE, ACL_PRIV_ISSET, or_and_self_right, beq_self_eq_true]

theorem acl_is_subtractive_or (x : slap_mask_t) :
    ACL_IS_SUBTRACTIVE (x ||| ACL_PRIV_SUBSTRACTIVE) = true := by
  simp only [ACL_IS_SUBTRACTIVE, ACL_PRIV_ISSET, or_and_self_right, beq_self_eq_true]

theorem and_priv_mask_flags (x : slap_mask_t) :
    ACL_IS_ADDITIVE (x &&& ACL_PRIV_MASK) = false ∧
    ACL_IS_SUBTRACTIVE (x &&& ACL_PRIV_MASK) = false := by
  have h1 : ACL_PRIV_MASK &&& ACL_PRIV_ADDITIVE = 0 := by decide
  have h2 : ACL_PRIV_MASK &&& ACL_PRIV_SUBSTRACTIVE = 0 := by decide
  constructor
  · simp only [ACL_IS_ADDITIVE, ACL_PRIV_ISSET, Nat.and_assoc, h1, Nat.and_zero]
    decide
  · simp only [ACL_IS_SUBTRACTIVE, ACL_PRIV_ISSET, Nat.and_assoc, h2, Nat.and_zero]
    decide

/-- The mask composer leaves neither flag set, and a mask inside the privilege
bit space unless the effect is absolute, in which case it leaves the effect. -/
theorem acl_mask_apply_hygiene (mask modmask : slap_mask_t) :
    ACL_IS_ADDITIVE (acl_mask_apply mask modmask) = false ∧
    ACL_IS_SUBTRACTIVE (acl_mask_apply mask modmask) = false ∧
    (acl_mask_apply mask modmask &&& ACL_PRIV_MASK = acl_mask_apply mask modmask ∨
      (ACL_IS_ADDITIVE modmask = false ∧ ACL_IS_SUBTRACTIVE modmask = false ∧
        acl_mask_apply mask modmask = modmask)) := by
  cases hadd : ACL_IS_ADDITIVE modmask with
  | true =>
    rw [acl_mask_apply_additive mask modmask hadd]
    exact ⟨(and_priv_mask_flags _).1, (and_priv_mask_flags _).2, Or.inl (and_priv_mask_idem _)⟩
  | false =>
    cases hsub : ACL_IS_SUBTRACTIVE modmask with
    | true =>
      rw [acl_mask_apply_subtractive mask modmask hadd hsub]
      exact ⟨(and_priv_mask_flags _).1, (and_priv_mask_flags _).2, Or.inl (and_priv_mask_idem _)⟩
    | false =>
      have h : acl_mask_apply mask modmask = modmask := by
        unfold acl_mask_apply
        simp [hadd, hsub]
      rw [h]
      exact ⟨hadd, hsub, Or.inr ⟨rfl, rfl, rfl⟩⟩

/-- The effect of a clause that matches is its configured effect mask, unless
it comes from the ACI attribute, in which case it carries a flag. -/
theorem acl_mask_who_modmask (env : Env) (a : AccessControl) (ai : Nat) (b : Access) (bi : Nat)
    (i : Int) (mask : slap_mask_t) (op : Operation) (e : Entry) (desc : AttributeDescription)
    (val : Option berval) (nmatch : Int) (ms : List regmatch_t) (count : Int)
    (state : Option AccessControlState) (m : slap_mask_t)
    (h : (acl_mask_who env a ai b bi i mask op e desc val nmatch ms count state).modmask
      = some m) :
    m = b.a_access_mask ∨ ACL_IS_ADDITIVE m = true ∨ ACL_IS_SUBTRACTIVE m = true := by
  unfold acl_mask_who at h
  split_ifs at h
  simp only at h
  unfold who_aci at h
  split at h
  · left
    simpa using h.symm
  · right
    simp only at h
    split_ifs at h
    all_goals
      simp only [Option.some.injEq] at h
      subst h
      first
        | exact Or.inl (acl_is_additive_or _)
        | exact Or.inr (acl_is_subtractive_or _)

/-! ### Mask hygiene, exhaustion and the unconfigured clause -/

theorem slap_acl_mask_loop_hygiene (env : Env) (a : AccessControl) (ai : Nat) (op : Operation)
    (e : Entry) (desc : AttributeDescription) (val : Option berval) (nmatch : Int)
    (ms : List regmatch_t) (count : Int) (bs : List Access) :
    ∀ (bi : Nat) (i : Int) (mask : slap_mask_t) (state : Option AccessControlState),
      ACL_IS_ADDITIVE
        (slap_acl_mask_loop env a ai op e desc val nmatch ms count bs bi i mask state).mask
          = false ∧
      ACL_IS_SUBTRACTIVE
        (slap_acl_mask_loop env a ai op e desc val nmatch ms count bs bi i mask state).mask
          = false ∧
      ((slap_acl_mask_loop env a ai op e desc val nmatch ms count bs bi i mask state).mask
          &&& ACL_PRIV_MASK
        = (slap_acl_mask_loop env a ai op e desc val nmatch ms count bs bi i mask state).mask ∨
       ∃ b ∈ bs, ACL_IS_ADDITIVE b.a_access_mask = false ∧
         ACL_IS_SUBTRACTIVE b.a_access_mask = false ∧
         (slap_acl_mask_loop env a ai op e desc val nmatch ms count bs bi i mask state).mask
           = b.a_access_mask) := by
  induction bs with
  | nil =>
    intro bi i mask state
    rw [slap_acl_mask_loop]
    have h1 : ACL_IS_ADDITIVE ACL_PRIV_NONE = false := by decide
    have h2 : ACL_IS_SUBTRACTIVE ACL_PRIV_NONE = false := by decide
    have h3 : ACL_PRIV_NONE &&& ACL_PRIV_MASK = ACL_PRIV_NONE := by decide
    exact ⟨h1, h2, Or.inl h3⟩
  | cons b bs ih =>
    intro bi i mask state
    have lift : ∀ r : slap_mask_t,
        (ACL_IS_ADDITIVE r = false ∧ ACL_IS_SUBTRACTIVE r = false ∧
          (r &&& ACL_PRIV_MASK = r ∨ ∃ b ∈ bs, ACL_IS_ADDITIVE b.a_access_mask = false ∧
            ACL_IS_SUBTRACTIVE b.a_access_mask = false ∧ r = b.a_access_mask)) →
        (ACL_IS_ADDITIVE r = false ∧ ACL_IS_SUBTRACTIVE r = false ∧
          (r &&& ACL_PRIV_MASK = r ∨ ∃ c ∈ b :: bs, ACL_IS_ADDITIVE c.a_access_mask = false ∧
            ACL_IS_SUBTRACTIVE c.a_access_mask = false ∧ r = c.a_access_mask)) := by
      rintro r ⟨h1, h2, h3⟩
      refine ⟨h1, h2, ?_⟩
      rcases h3 with h3 | ⟨c, hc, h3⟩
      · exact Or.inl h3
      · exact Or.inr ⟨c, List.mem_cons_of_mem _ hc, h3⟩
    have last : ∀ m : slap_mask_t,
        (acl_mask_who env a ai b bi i mask op e desc val nmatch ms count state).modmask
          = some m →
        (ACL_IS_ADDITIVE (acl_mask_apply mask m) = false ∧
          ACL_IS_SUBTRACTIVE (acl_mask_apply mask m) = false ∧
          (acl_mask_apply mask m &&& ACL_PRIV_MASK = acl_mask_apply mask m ∨
            ∃ c ∈ b :: bs, ACL_IS_ADDITIVE c.a_access_mask = false ∧
            ACL_IS_SUBTRACTIVE c.a_access_mask = false ∧
            acl_mask_apply mask m = c.a_access_mask)) := by
      intro m hm
      obtain ⟨h1, h2, h3⟩ := acl_mask_apply_hygiene mask m
      refine ⟨h1, h2, ?_⟩
      rcases h3 with h3 | ⟨ha, hs, h3⟩
      · exact Or.inl h3
      · rcases acl_mask_who_modmask env a ai b bi i mask op e desc val nmatch ms count state m hm
          with hb | hb | hb
        · subst hb
          exact Or.inr ⟨b, List.mem_cons_self _ _, ha, hs, h3⟩
        · rw [ha] at hb; cases hb
        · rw [hs] at hb; cases hb
    rw [slap_acl_mask_loop]
    split
    · exact lift _ (ih _ _ _ _)
    · next m hm =>
      split_ifs
      · exact lift _ (ih _ _ _ _)
      · exact last m hm
      · exact last m hm

theorem slap_acl_mask_eq_loop (env : Env) (a : AccessControl) (ai : Nat) (mask : slap_mask_t)
    (op : Operation) (e : Entry) (desc : AttributeDescription) (val : Option berval)
    (nmatch : Int) (ms : List regmatch_t) (count : Int) (state : Option AccessControlState) :
    slap_acl_mask env a ai mask op e desc val nmatch ms count state =
      slap_acl_mask_loop env a ai op e desc val nmatch ms count (slap_acl_mask_clauses a ai state)
        (slap_acl_mask_first ai state) (slap_acl_mask_start ai state).2 mask state := by
  unfold slap_acl_mask slap_acl_mask_clauses slap_acl_mask_first
  cases (slap_acl_mask_start ai state).1 <;> rfl

theorem slap_acl_mask_clauses_mem (a : AccessControl) (ai : Nat)
    (state : Option AccessControlState) (b : Access) (h : b ∈ slap_acl_mask_clauses a ai state) :
    b ∈ a.acl_access := by
  unfold slap_acl_mask_clauses at h
  split at h
  · cases h
  · exact List.mem_of_mem_drop h

/-- C11 (amended): the mask left by `slap_acl_mask` has neither the ADDITIVE
nor the SUBTRACTIVE flag, and it has no bit outside `ACL_PRIV_MASK` unless it
is the effect mask of a clause of the rule with an absolute effect (neither
flag), which is stored as it is. -/
theorem slap_acl_mask_hygiene (env : Env) (a : AccessControl) (ai : Nat) (mask : slap_mask_t)
    (op : Operation) (e : Entry) (desc : AttributeDescription) (val : Option berval)
    (nmatch : Int) (ms : List regmatch_t) (count : Int) (state : Option AccessControlState) :
    ACL_IS_ADDITIVE (slap_acl_mask env a ai mask op e desc val nmatch ms count state).mask
      = false ∧
    ACL_IS_SUBTRACTIVE (slap_acl_mask env a ai mask op e desc val nmatch ms count state).mask
      = false ∧
    ((slap_acl_mask env a ai mask op e desc val nmatch ms count state).mask &&& ACL_PRIV_MASK
        = (slap_acl_mask env a ai mask op e desc val nmatch ms count state).mask ∨
     ∃ b ∈ a.acl_access, ACL_IS_ADDITIVE b.a_access_mask = false ∧
       ACL_IS_SUBTRACTIVE b.a_access_mask = false ∧
       (slap_acl_mask env a ai mask op e desc val nmatch ms count state).mask
         = b.a_access_mask) := by
  rw [slap_acl_mask_eq_loop]
  obtain ⟨h1, h2, h3⟩ := slap_acl_mask_loop_hygiene env a ai op e desc val nmatch ms count
    (slap_acl_mask_clauses a ai state) (slap_acl_mask_first ai state)
    (slap_acl_mask_start ai state).2 mask state
  refine ⟨h1, h2, ?_⟩
  rcases h3 with h3 | ⟨b, hb, h3⟩
  · exact Or.inl h3
  · exact Or.inr ⟨b, slap_acl_mask_clauses_mem a ai state b hb, h3⟩

/-- C11 (counterexample): under the rule `to * by * read` the mask left by
`slap_acl_mask` is `ACL_LVL_READ`, whose level flag (bit 12) lies outside
`ACL_PRIV_MASK`. -/
theorem absolute_effect_keeps_level_flag :
    (slap_acl_mask env0 (to_any [by_any ACL_LVL_READ .ACL_STOP]) 0 ACL_PRIV_NONE (op_b acl_read)
      entry0 ad_mail none 100 matches_zero 1 none).mask = ACL_LVL_READ ∧
    ACL_LVL_READ &&& ACL_PRIV_MASK ≠ ACL_LVL_READ ∧
    ACL_LVL_READ.testBit 12 = true ∧ ACL_PRIV_MASK.testBit 12 = false := by
  decide

theorem slap_acl_mask_loop_exhausted (env : Env) (a : AccessControl) (ai : Nat) (op : Operation)
    (e : Entry) (desc : AttributeDescription) (val : Option berval) (nmatch : Int)
    (ms : List regmatch_t) (count : Int) (bs : List Access) :
    ∀ (bi : Nat) (i : Int) (mask : slap_mask_t) (state : Option AccessControlState),
      no_clause_ends env a ai op e desc val nmatch ms count bs bi i mask state = true →
      (slap_acl_mask_loop env a ai op e desc val nmatch ms count bs bi i mask state).control
          = .ACL_STOP ∧
      (slap_acl_mask_loop env a ai op e desc val nmatch ms count bs bi i mask state).mask
          = ACL_PRIV_NONE := by
  induction bs with
  | nil => intro bi i mask state _; exact ⟨rfl, rfl⟩
  | cons b bs ih =>
    intro bi i mask state h
    rw [no_clause_ends] at h
    rw [slap_acl_mask_loop]
    split
    · next hm =>
      rw [hm] at h
      exact ih _ _ _ _ h
    · next m hm =>
      rw [hm] at h
      simp only [Bool.and_eq_true, decide_eq_true_eq] at h
      rw [if_pos h.1]
      exact ih _ _ _ _ h.2

/-- C12: when no clause ends the evaluation (each clause `slap_acl_mask` walks
mismatches or matches with the verdict CONTINUE), `slap_acl_mask` returns STOP
and leaves the cleared mask `ACL_PRIV_NONE`, whatever the CONTINUE clauses had
accumulated. -/
theorem slap_acl_mask_exhausted (env : Env) (a : AccessControl) (ai : Nat) (mask : slap_mask_t)
    (op : Operation) (e : Entry) (desc : AttributeDescription) (val : Option berval)
    (nmatch : Int) (ms : List regmatch_t) (count : Int) (state : Option AccessControlState)
    (h : no_clause_ends env a ai op e desc val nmatch ms count (slap_acl_mask_clauses a ai state)
      (slap_acl_mask_first ai state) (slap_acl_mask_start ai state).2 mask state = true) :
    (slap_acl_mask env a ai mask op e desc val nmatch ms count state).control = .ACL_STOP ∧
    (slap_acl_mask env a ai mask op e desc val nmatch ms count state).mask = ACL_PRIV_NONE := by
  rw [slap_acl_mask_eq_loop]
  exact slap_acl_mask_loop_exhausted env a ai op e desc val nmatch ms count _ _ _ _ _ h

theorem slap_acl_mask_exhausted_witness :
    no_clause_ends env0 rule_continue 0 (op_b [rule_continue]) entry0 ad_mail none 100
      matches_zero 1 (slap_acl_mask_clauses rule_continue 0 none) (slap_acl_mask_first 0 none)
      (slap_acl_mask_start 0 none).2 ACL_LVL_WRITE none = true ∧
    (slap_acl_mask env0 rule_continue 0 ACL_LVL_WRITE (op_b [rule_continue]) entry0 ad_mail none
      100 matches_zero 1 none).control = .ACL_STOP ∧
    (slap_acl_mask env0 rule_continue 0 ACL_LVL_WRITE (op_b [rule_continue]) entry0 ad_mail none
      100 matches_zero 1 none).mask = ACL_PRIV_NONE :=
  ⟨by decide, slap_acl_mask_exhausted env0 rule_continue 0 ACL_LVL_WRITE (op_b [rule_continue])
    entry0 ad_mail none 100 matches_zero 1 none (by decide)⟩

theorem acl_mask_who_unconfigured (env : Env) (a : AccessControl) (ai : Nat) (b : Access)
    (bi : Nat) (i : Int) (mask : slap_mask_t) (op : Operation) (e : Entry)
    (desc : AttributeDescription) (val : Option berval) (nmatch : Int) (ms : List regmatch_t)
    (count : Int) (state : Option AccessControlState) (hb : who_unconfigured b = true) :
    acl_mask_who env a ai b bi i mask op e desc val nmatch ms count state
      = ⟨some b.a_access_mask, state, i⟩ := by
  simp only [who_unconfigured, Bool.and_eq_true, decide_eq_true_eq, Option.isNone_iff_eq_none,
    Access.a_dn_at, Access.a_realdn_at] at hb
  obtain ⟨⟨⟨⟨⟨⟨⟨⟨⟨⟨⟨h1, h2⟩, h3⟩, h4⟩, h5⟩, h6⟩, h7⟩, h8⟩, h9⟩, h10⟩, h11⟩, h12⟩ := hb
  simp [acl_mask_who, who_dn, who_realdn, who_sockurl, who_domain, who_peername, who_sockname,
    who_dnattr, who_group, who_set, who_ssf, who_aci, h1, h2, h3, h4, h5, h6, h7, h8, h9, h10,
    h11, h12]

/-- C13: a who clause with no dimension configured matches every requester:
when the rule `a` starts with such a clause `b`, whose effect mask `m` is
absolute and whose verdict is STOP, the clause loop on the clauses of `a`
returns STOP with the mask `m` for every operation, entry, running mask and
state, and so does `slap_acl_mask` whenever it starts from the first clause. -/
theorem slap_acl_mask_unconfigured_clause (env : Env) (a : AccessControl) (ai : Nat)
    (mask : slap_mask_t) (op : Operation) (e : Entry) (desc : AttributeDescription)
    (val : Option berval) (nmatch : Int) (ms : List regmatch_t) (count : Int)
    (state : Option AccessControlState) (b : Access) (bs : List Access) (m : slap_mask_t)
    (ha : a.acl_access = b :: bs) (hb : who_unconfigured b = true) (hm : b.a_access_mask = m)
    (hadd : ACL_IS_ADDITIVE m = false) (hsub : ACL_IS_SUBTRACTIVE m = false)
    (ht : b.a_type = .ACL_STOP) :
    (∀ (i : Int), slap_acl_mask_loop env a ai op e desc val nmatch ms count a.acl_access 0 i mask
      state = ⟨.ACL_STOP, m, state⟩) ∧
    ((slap_acl_mask_start ai state).1 = some 0 →
      slap_acl_mask env a ai mask op e desc val nmatch ms count state
        = ⟨.ACL_STOP, m, state⟩) := by
  have hloop : ∀ (i : Int), slap_acl_mask_loop env a ai op e desc val nmatch ms count
      a.acl_access 0 i mask state = ⟨.ACL_STOP, m, state⟩ := by
    intro i
    rw [ha, slap_acl_mask_loop]
    simp only [acl_mask_who_unconfigured env a ai b 0 i mask op e desc val nmatch ms count state
      hb, ht, hm]
    have happ : acl_mask_apply mask m = m := by
      unfold acl_mask_apply
      simp [hadd, hsub]
    simp [happ]
  refine ⟨hloop, ?_⟩
  intro hs
  unfold slap_acl_mask
  rw [hs]
  exact hloop _

theorem slap_acl_mask_unconfigured_clause_witness :
    who_unconfigured (by_any ACL_LVL_READ .ACL_STOP) = true ∧
    ACL_IS_ADDITIVE ACL_LVL_READ = false ∧ ACL_IS_SUBTRACTIVE ACL_LVL_READ = false ∧
    ((∀ (i : Int), slap_acl_mask_loop env0 (to_any [by_any ACL_LVL_READ .ACL_STOP]) 0
      (op_b acl_read) entry0 ad_mail none 100 matches_zero 1
      (to_any [by_any ACL_LVL_READ .ACL_STOP]).acl_access 0 i ACL_PRIV_NONE none
        = ⟨.ACL_STOP, ACL_LVL_READ, none⟩) ∧
    ((slap_acl_mask_start 0 none).1 = some 0 →
      slap_acl_mask env0 (to_any [by_any ACL_LVL_READ .ACL_STOP]) 0 ACL_PRIV_NONE (op_b acl_read)
        entry0 ad_mail none 100 matches_zero 1 none = ⟨.ACL_STOP, ACL_LVL_READ, none⟩)) :=
  ⟨by decide, by decide, by decide,
    slap_acl_mask_unconfigured_clause env0 (to_any [by_any ACL_LVL_READ .ACL_STOP]) 0
      ACL_PRIV_NONE (op_b acl_read) entry0 ad_mail none 100 matches_zero 1 none
      (by_any ACL_LVL_READ .ACL_STOP) [] ACL_LVL_READ rfl (by decide) rfl (by decide)
      (by decide) rfl⟩

/-! ### The DN dimension: ANONYMOUS, USERS and SELF -/

/-- C14: in `acl_mask_dn`, the style ANONYMOUS matches (returns 0) iff the
operation DN is empty, the style USERS matches iff it is not empty, and so
exactly one of the two matches a given requester. -/
theorem acl_mask_dn_anonymous_users (env : Env) (e : Entry) (a : AccessControl) (nmatch : Int)
    (ms : List regmatch_t) (ba bu : slap_dn_access) (opndn : berval)
    (ha : ba.a_style = .ACL_STYLE_ANONYMOUS) (hu : bu.a_style = .ACL_STYLE_USERS) :
    (acl_mask_dn env e a nmatch ms ba opndn = 0 ↔ BER_BVISEMPTY opndn = true) ∧
    (acl_mask_dn env e a nmatch ms bu opndn = 0 ↔ BER_BVISEMPTY opndn = false) ∧
    (acl_mask_dn env e a nmatch ms ba opndn = 0 ↔ acl_mask_dn env e a nmatch ms bu opndn ≠ 0) := by
  unfold acl_mask_dn
  rw [ha, hu]
  cases BER_BVISEMPTY opndn <;> simp

theorem acl_mask_dn_anonymous_users_witness :
    (acl_mask_dn env0 entry0 (to_any []) 100 matches_zero (dn_style .ACL_STYLE_ANONYMOUS 0)
      (BER_BVC "uid=b,dc=x") = 0 ↔ BER_BVISEMPTY (BER_BVC "uid=b,dc=x") = true) ∧
    (acl_mask_dn env0 entry0 (to_any []) 100 matches_zero (dn_style .ACL_STYLE_USERS 0)
      (BER_BVC "uid=b,dc=x") = 0 ↔ BER_BVISEMPTY (BER_BVC "uid=b,dc=x") = false) ∧
    (acl_mask_dn env0 entry0 (to_any []) 100 matches_zero (dn_style .ACL_STYLE_ANONYMOUS 0)
      (BER_BVC "uid=b,dc=x") = 0 ↔
     acl_mask_dn env0 entry0 (to_any []) 100 matches_zero (dn_style .ACL_STYLE_USERS 0)
      (BER_BVC "uid=b,dc=x") ≠ 0) :=
  acl_mask_dn_anonymous_users env0 entry0 (to_any []) 100 matches_zero
    (dn_style .ACL_STYLE_ANONYMOUS 0) (dn_style .ACL_STYLE_USERS 0) (BER_BVC "uid=b,dc=x") rfl rfl

theorem self_walk_empty (env : Env) (k : Nat) (d : berval) (hd : BER_BVISEMPTY d = true) :
    self_walk env k d = d := by
  cases k with
  | zero => rfl
  | succ k => rw [self_walk, if_pos hd]

theorem iterate_parent_empty (env : Env)
    (hpe : ∀ d, BER_BVISEMPTY d = true → BER_BVISEMPTY (env.dnParent d) = true) (k : Nat) :
    ∀ d, BER_BVISEMPTY d = true → BER_BVISEMPTY (env.dnParent^[k] d) = true := by
  induction k with
  | zero => intro d hd; exact hd
  | succ k ih =>
    intro d hd
    rw [Function.iterate_succ_apply]
    exact ih _ (hpe d hd)

/-- The loop of the SELF style against the iterated parent: both are empty
together, and they are equal when they are not. -/
theorem self_walk_iterate (env : Env)
    (hpe : ∀ d, BER_BVISEMPTY d = true → BER_BVISEMPTY (env.dnParent d) = true) (k : Nat) :
    ∀ d, BER_BVISEMPTY (self_walk env k d) = BER_BVISEMPTY (env.dnParent^[k] d) ∧
      (BER_BVISEMPTY (env.dnParent^[k] d) = false → self_walk env k d = env.dnParent^[k] d) := by
  induction k with
  | zero => intro d; exact ⟨rfl, fun _ => rfl⟩
  | succ k ih =>
    intro d
    rw [self_walk, Function.iterate_succ_apply]
    cases hd : BER_BVISEMPTY d with
    | true =>
      have h := iterate_parent_empty env hpe k _ (hpe d hd)
      simp only [if_true]
      rw [h, hd]
      exact ⟨rfl, fun hh => by cases hh⟩
    | false =>
      simp only [Bool.false_eq_true, if_false]
      exact ih _

theorem bvisempty_iff_str (d : berval) : BER_BVISEMPTY d = true ↔ d.str = [] := by
  simp [BER_BVISEMPTY, berval.bv_len, berval.str]

theorem bvisnull_str (d : berval) (h : BER_BVISNULL d = true) : d.str = [] := by
  cases d with
  | mk v =>
    cases v with
    | none => rfl
    | some l => simp [BER_BVISNULL] at h

/-- The SELF branch of `acl_mask_dn`, as the conjunction of its tests. -/
theorem acl_mask_dn_self_tests (env : Env) (e : Entry) (a : AccessControl) (nmatch : Int)
    (ms : List regmatch_t) (b : slap_dn_access) (opndn : berval)
    (hs : b.a_style = .ACL_STYLE_SELF) :
    acl_mask_dn env e a nmatch ms b opndn = 0 ↔
      BER_BVISEMPTY opndn = false ∧ BER_BVISNULL e.e_nname = false ∧
      BER_BVISEMPTY (self_walk env
        (if b.a_self_level < 0 then - b.a_self_level else b.a_self_level).toNat
        (if b.a_self_level < 0 then e.e_nname else opndn)) = false ∧
      env.dn_match (self_walk env
        (if b.a_self_level < 0 then - b.a_self_level else b.a_self_level).toNat
        (if b.a_self_level < 0 then e.e_nname else opndn))
        (if b.a_self_level < 0 then opndn else e.e_nname) = true := by
  unfold acl_mask_dn
  rw [hs]
  simp only [reduceCtorEq, if_false]
  cases BER_BVISEMPTY opndn <;> cases BER_BVISNULL e.e_nname <;> simp

/-- C15: in `acl_mask_dn` with the style SELF and the level `n`, when
`dn_match` is equality of the bytes and the parent of the empty DN is empty:
for `n ≥ 0` the clause matches (returns 0) iff the operation DN is not empty
and its `n`-th parent is a non-empty DN equal to the DN of the target; for
`n < 0` it matches iff the `|n|`-th parent of the DN of the target is a
non-empty DN equal to the operation DN. So it fails when the `|n|`-th parent
of the walked DN is empty (the DN has `|n|` or fewer RDNs), and for `n = 0` it
is equality of the non-empty requester DN and the DN of the target. -/
theorem acl_mask_dn_self (env : Env) (e : Entry) (a : AccessControl) (nmatch : Int)
    (ms : List regmatch_t) (b : slap_dn_access) (opndn : berval)
    (hdm : ∀ x y, env.dn_match x y = true ↔ x.str = y.str)
    (hpe : ∀ d, BER_BVISEMPTY d = true → BER_BVISEMPTY (env.dnParent d) = true)
    (hs : b.a_style = .ACL_STYLE_SELF) :
    (0 ≤ b.a_self_level →
      (acl_mask_dn env e a nmatch ms b opndn = 0 ↔
        BER_BVISEMPTY opndn = false ∧
        BER_BVISEMPTY (env.dnParent^[b.a_self_level.toNat] opndn) = false ∧
        (env.dnParent^[b.a_self_level.toNat] opndn).str = e.e_nname.str)) ∧
    (b.a_self_level < 0 →
      (acl_mask_dn env e a nmatch ms b opndn = 0 ↔
        BER_BVISEMPTY (env.dnParent^[b.a_self_level.natAbs] e.e_nname) = false ∧
        (env.dnParent^[b.a_self_level.natAbs] e.e_nname).str = opndn.str)) ∧
    (BER_BVISEMPTY (env.dnParent^[b.a_self_level.natAbs]
        (if b.a_self_level < 0 then e.e_nname else opndn)) = true →
      acl_mask_dn env e a nmatch ms b opndn ≠ 0) ∧
    (b.a_self_level = 0 →
      (acl_mask_dn env e a nmatch ms b opndn = 0 ↔
        BER_BVISEMPTY opndn = false ∧ opndn.str = e.e_nname.str)) := by
  have key := acl_mask_dn_self_tests env e a nmatch ms b opndn hs
  have hne : ∀ d : berval, BER_BVISEMPTY d = false ↔ d.str ≠ [] := by
    intro d
    have hd := bvisempty_iff_str d
    cases hb : BER_BVISEMPTY d with
    | true => simp [hd.mp hb]
    | false =>
      simp only [true_iff]
      intro hstr
      rw [hd.mpr hstr] at hb
      cases hb
  have hnull : ∀ d : berval, d.str ≠ [] → BER_BVISNULL d = false := by
    intro d hd
    cases hn : BER_BVISNULL d with
    | false => rfl
    | true => exact absurd (bvisnull_str d hn) hd
  have hpos : 0 ≤ b.a_self_level →
      (acl_mask_dn env e a nmatch ms b opndn = 0 ↔
        BER_BVISEMPTY opndn = false ∧
        BER_BVISEMPTY (env.dnParent^[b.a_self_level.toNat] opndn) = false ∧
        (env.dnParent^[b.a_self_level.toNat] opndn).str = e.e_nname.str) := by
    intro hn
    have hlt : ¬ b.a_self_level < 0 := not_lt.mpr hn
    rw [key]
    simp only [hlt, if_false]
    obtain ⟨w1, w2⟩ := self_walk_iterate env hpe b.a_self_level.toNat opndn
    rw [w1]
    constructor
    · rintro ⟨h1, _, h3, h4⟩
      rw [w2 h3, hdm] at h4
      exact ⟨h1, h3, h4⟩
    · rintro ⟨h1, h3, h4⟩
      refine ⟨h1, hnull _ ?_, h3, ?_⟩
      · rw [← h4]; exact (hne _).mp h3
      · rw [w2 h3, hdm]; exact h4
  have hneg : b.a_self_level < 0 →
      (acl_mask_dn env e a nmatch ms b opndn = 0 ↔
        BER_BVISEMPTY (env.dnParent^[b.a_self_level.natAbs] e.e_nname) = false ∧
        (env.dnParent^[b.a_self_level.natAbs] e.e_nname).str = opndn.str) := by
    intro hn
    rw [key]
    simp only [hn, if_true]
    have hk : (- b.a_self_level).toNat = b.a_self_level.natAbs := by omega
    rw [hk]
    obtain ⟨w1, w2⟩ := self_walk_iterate env hpe b.a_self_level.natAbs e.e_nname
    rw [w1]
    constructor
    · rintro ⟨_, _, h3, h4⟩
      rw [w2 h3, hdm] at h4
      exact ⟨h3, h4⟩
    · rintro ⟨h3, h4⟩
      have hw : (env.dnParent^[b.a_self_level.natAbs] e.e_nname).str ≠ [] := (hne _).mp h3
      refine ⟨(hne _).mpr (h4 ▸ hw), ?_, h3, ?_⟩
      · cases hn0 : BER_BVISNULL e.e_nname with
        | false => rfl
        | true =>
          have he : BER_BVISEMPTY e.e_nname = true :=
            (bvisempty_iff_str _).mpr (bvisnull_str _ hn0)
          rw [iterate_parent_empty env hpe _ _ he] at h3
          cases h3
      · rw [w2 h3, hdm]; exact h4
  refine ⟨hpos, hneg, ?_, ?_⟩
  · intro hemp h0
    by_cases hn : b.a_self_level < 0
    · rw [if_pos hn] at hemp
      rw [((hneg hn).mp h0).1] at hemp
      cases hemp
    · rw [if_neg hn] at hemp
      have hk : b.a_self_level.natAbs = b.a_self_level.toNat := by omega
      rw [hk, ((hpos (not_lt.mp hn)).mp h0).2.1] at hemp
      cases hemp
  · intro hz
    have h := hpos (le_of_eq hz.symm)
    rw [hz] at h
    simp only [Int.toNat_zero, Function.iterate_zero, id_eq] at h
    rw [h]
    constructor
    · rintro ⟨h1, _, h3⟩; exact ⟨h1, h3⟩
    · rintro ⟨h1, h3⟩; exact ⟨h1, h1, h3⟩

theorem env_rdn_dn_match (x y : berval) : env_rdn.dn_match x y = true ↔ x.str = y.str := by
  simp [env_rdn, env0]

theorem env_rdn_parent_empty (d : berval) (hd : BER_BVISEMPTY d = true) :
    BER_BVISEMPTY (env_rdn.dnParent d) = true := by
  have h := (bvisempty_iff_str d).mp hd
  simp [env_rdn, BER_BVISEMPTY, berval.bv_len, h]

theorem acl_mask_dn_self_witness :
    acl_mask_dn env_rdn (entry_of "dc=x") (to_any []) 100 matches_zero
        (dn_style .ACL_STYLE_SELF 1) (BER_BVC "uid=b,dc=x") = 0 ↔
      BER_BVISEMPTY (BER_BVC "uid=b,dc=x") = false ∧
      BER_BVISEMPTY (env_rdn.dnParent^[(dn_style .ACL_STYLE_SELF 1).a_self_level.toNat]
        (BER_BVC "uid=b,dc=x")) = false ∧
      (env_rdn.dnParent^[(dn_style .ACL_STYLE_SELF 1).a_self_level.toNat]
        (BER_BVC "uid=b,dc=x")).str = (entry_of "dc=x").e_nname.str :=
  (acl_mask_dn_self env_rdn (entry_of "dc=x") (to_any []) 100 matches_zero
    (dn_style .ACL_STYLE_SELF 1) (BER_BVC "uid=b,dc=x") env_rdn_dn_match env_rdn_parent_empty
    rfl).1 (by decide)

/-! ### The entry DN predicate of the rule selector -/

theorem sep_char_at (junk : Indeterminate) (s : List Nat) (p : Nat) (h : p < s.length) :
    DN_SEPARATOR (char_at junk s ((s.length : Int) - (p : Int) - 1)) = true ↔
      s[s.length - p - 1]? = some 44 := by
  have hi : ((s.length : Int) - (p : Int) - 1) = ((s.length - p - 1 : Nat) : Int) := by omega
  have hlt : s.length - p - 1 < s.length := by omega
  rw [hi]
  unfold char_at DN_SEPARATOR
  simp only [Int.toNat_ofNat, hlt, dif_pos]
  rw [if_neg (by omega)]
  rw [List.getElem?_eq_getElem hlt]
  simp

theorem suffix_iff_cmp (s pat : List Nat) :
    pat <:+ s ↔ pat.length ≤ s.length ∧
      (pat == s.drop ((s.length : Int) - (pat.length : Int)).toNat) = true := by
  have hk : ((s.length : Int) - (pat.length : Int)).toNat = s.length - pat.length := by omega
  rw [hk, beq_iff_eq]
  constructor
  · intro h
    exact ⟨h.length_le, List.suffix_iff_eq_drop.mp h⟩
  · rintro ⟨_, h⟩
    exact List.suffix_iff_eq_drop.mpr h

/-- The structural entry DN predicate, style by style, in terms of the bytes
of the target DN and of the pattern. -/
theorem acl_get_dn_structural_cases (env : Env) (a : AccessControl) (e : Entry) :
    (a.acl_dn_style = .ACL_STYLE_BASE →
      (acl_get_dn_structural env a e = true ↔ e.e_ndn = a.acl_dn_pat.str)) ∧
    (a.acl_dn_style = .ACL_STYLE_ONE →
      (acl_get_dn_structural env a e = true ↔
        a.acl_dn_pat.bv_len < e.e_nname.bv_len ∧ a.acl_dn_pat.str <:+ e.e_ndn ∧
        (0 < a.acl_dn_pat.bv_len →
          e.e_ndn[e.e_nname.bv_len - a.acl_dn_pat.bv_len - 1]? = some 44) ∧
        env.dn_rdnlen e.e_nname = (e.e_nname.bv_len : Int) - (a.acl_dn_pat.bv_len : Int) -
          (if 0 < a.acl_dn_pat.bv_len then 1 else 0))) ∧
    (a.acl_dn_style = .ACL_STYLE_SUBTREE →
      (acl_get_dn_structural env a e = true ↔
        a.acl_dn_pat.str <:+ e.e_ndn ∧
        (a.acl_dn_pat.bv_len < e.e_nname.bv_len →
          e.e_ndn[e.e_nname.bv_len - a.acl_dn_pat.bv_len - 1]? = some 44))) ∧
    (a.acl_dn_style = .ACL_STYLE_CHILDREN →
      (acl_get_dn_structural env a e = true ↔
        a.acl_dn_pat.bv_len < e.e_nname.bv_len ∧ a.acl_dn_pat.str <:+ e.e_ndn ∧
        e.e_ndn[e.e_nname.bv_len - a.acl_dn_pat.bv_len - 1]? = some 44)) := by
  have hsuf := suffix_iff_cmp e.e_ndn a.acl_dn_pat.str
  have hsep := sep_char_at env.junk e.e_ndn a.acl_dn_pat.bv_len
  have hlen : e.e_ndn.length = e.e_nname.bv_len := rfl
  have hplen : a.acl_dn_pat.str.length = a.acl_dn_pat.bv_len := rfl
  rw [hlen] at hsep
  rw [hlen, hplen] at hsuf
  refine ⟨?_, ?_, ?_, ?_⟩
  · intro hs
    unfold acl_get_dn_structural
    simp only [hs, if_true]
    by_cases h1 : (e.e_nname.bv_len : Int) < (a.acl_dn_pat.bv_len : Int)
    · simp only [h1, if_true, Bool.false_eq_true, false_iff]
      intro heq
      have := congrArg List.length heq
      rw [hlen, hplen] at this
      omega
    · simp only [h1, if_false]
      by_cases h2 : (e.e_nname.bv_len : Int) = (a.acl_dn_pat.bv_len : Int)
      · simp only [h2, ne_eq, not_true_eq_false, if_false, sub_self, Int.toNat_zero,
          List.drop_zero, beq_iff_eq]
        exact eq_comm
      · simp only [ne_eq, h2, not_false_eq_true, if_true, Bool.false_eq_true, false_iff]
        intro heq
        have := congrArg List.length heq
        rw [hlen, hplen] at this
        omega
  · intro hs
    unfold acl_get_dn_structural
    simp only [hs, reduceCtorEq, if_false, if_true]
    by_cases h1 : (e.e_nname.bv_len : Int) ≤ (a.acl_dn_pat.bv_len : Int)
    · have h0 : ¬ a.acl_dn_pat.bv_len < e.e_nname.bv_len := by omega
      by_cases h1' : (e.e_nname.bv_len : Int) < (a.acl_dn_pat.bv_len : Int)
      · simp [h1', h0]
      · simp [h1', h1, h0]
    · have h0 : a.acl_dn_pat.bv_len < e.e_nname.bv_len := by omega
      have h1' : ¬ (e.e_nname.bv_len : Int) < (a.acl_dn_pat.bv_len : Int) := by omega
      have hsep' := hsep h0
      have hsuf' : a.acl_dn_pat.str <:+ e.e_ndn ↔
          (a.acl_dn_pat.str == e.e_ndn.drop
            ((e.e_nname.bv_len : Int) - (a.acl_dn_pat.bv_len : Int)).toNat) = true := by
        rw [hsuf]
        constructor
        · exact fun h => h.2
        · exact fun h => ⟨by omega, h⟩
      simp only [h1', h1, if_false, h0, true_and]
      rw [hsuf', ← hsep']
      by_cases hp : (a.acl_dn_pat.bv_len : Int) > 0
      · have hp' : 0 < a.acl_dn_pat.bv_len := by omega
        simp only [hp, hp', true_and, if_true, forall_true_left]
        cases DN_SEPARATOR (char_at env.junk e.e_ndn
          ((e.e_nname.bv_len : Int) - (a.acl_dn_pat.bv_len : Int) - 1)) <;>
        by_cases hr : env.dn_rdnlen e.e_nname =
          (e.e_nname.bv_len : Int) - (a.acl_dn_pat.bv_len : Int) - 1 <;>
        simp [hr]
      · have hp' : ¬ 0 < a.acl_dn_pat.bv_len := by omega
        simp only [hp, hp', false_and, if_false, false_implies, true_and]
        by_cases hr : env.dn_rdnlen e.e_nname =
          (e.e_nname.bv_len : Int) - (a.acl_dn_pat.bv_len : Int) - 0 <;>
        simp [hr, and_comm]
  · intro hs
    unfold acl_get_dn_structural
    simp only [hs, reduceCtorEq, if_false, if_true]
    by_cases h1' : (e.e_nname.bv_len : Int) < (a.acl_dn_pat.bv_len : Int)
    · have hns : ¬ a.acl_dn_pat.str <:+ e.e_ndn := by
        intro h
        have := h.length_le
        rw [hlen, hplen] at this
        omega
      simp [h1', hns]
    · have hsuf' : a.acl_dn_pat.str <:+ e.e_ndn ↔
          (a.acl_dn_pat.str == e.e_ndn.drop
            ((e.e_nname.bv_len : Int) - (a.acl_dn_pat.bv_len : Int)).toNat) = true := by
        rw [hsuf]
        constructor
        · exact fun h => h.2
        · exact fun h => ⟨by omega, h⟩
      simp only [h1', if_false]
      rw [hsuf']
      by_cases h0 : a.acl_dn_pat.bv_len < e.e_nname.bv_len
      · have h0' : (e.e_nname.bv_len : Int) > (a.acl_dn_pat.bv_len : Int) := by omega
        rw [← hsep h0]
        simp only [h0', true_and, h0, forall_true_left]
        cases DN_SEPARATOR (char_at env.junk e.e_ndn
          ((e.e_nname.bv_len : Int) - (a.acl_dn_pat.bv_len : Int) - 1)) <;> simp
      · have h0' : ¬ (e.e_nname.bv_len : Int) > (a.acl_dn_pat.bv_len : Int) := by omega
        simp [h0', h0]
  · intro hs
    unfold acl_get_dn_structural
    simp only [hs, reduceCtorEq, if_false, if_true]
    by_cases h1 : (e.e_nname.bv_len : Int) ≤ (a.acl_dn_pat.bv_len : Int)
    · have h0 : ¬ a.acl_dn_pat.bv_len < e.e_nname.bv_len := by omega
      by_cases h1' : (e.e_nname.bv_len : Int) < (a.acl_dn_pat.bv_len : Int)
      · simp [h1', h0]
      · simp [h1', h1, h0]
    · have h0 : a.acl_dn_pat.bv_len < e.e_nname.bv_len := by omega
      have h1' : ¬ (e.e_nname.bv_len : Int) < (a.acl_dn_pat.bv_len : Int) := by omega
      have hsuf' : a.acl_dn_pat.str <:+ e.e_ndn ↔
          (a.acl_dn_pat.str == e.e_ndn.drop
            ((e.e_nname.bv_len : Int) - (a.acl_dn_pat.bv_len : Int)).toNat) = true := by
        rw [hsuf]
        constructor
        · exact fun h => h.2
        · exact fun h => ⟨by omega, h⟩
      simp only [h1', h1, if_false, h0, true_and]
      rw [hsuf', ← hsep h0]
      cases DN_SEPARATOR (char_at env.junk e.e_ndn
        ((e.e_nname.bv_len : Int) - (a.acl_dn_pat.bv_len : Int) - 1)) <;> simp

/-- A rule is returned by `slap_acl_get` exactly when its four predicates
hold, on the match array it is given. -/
theorem slap_acl_get_rule_matched (env : Env) (a : AccessControl) (ai : Nat) (count : Int)
    (e : Entry) (desc : AttributeDescription) (val : Option berval) (nmatch : Nat)
    (ms : List regmatch_t) (state : Option AccessControlState) :
    (slap_acl_get_rule env a ai count e desc val nmatch ms state).matched =
      ((acl_get_dn env a e nmatch ms).1 && acl_get_attrs env a desc &&
        (if a.acl_attrval.bv_len ≠ 0 then
          match val with
          | none => false
          | some v => acl_get_val env a desc v
         else true) &&
        acl_get_filter env a e) := by
  unfold slap_acl_get_rule
  cases val with
  | none =>
    cases (acl_get_dn env a e nmatch ms).1 <;> cases acl_get_attrs env a desc <;>
      cases acl_get_filter env a e <;> by_cases hv : a.acl_attrval.bv_len = 0 <;> simp [hv]
  | some v =>
    cases (acl_get_dn env a e nmatch ms).1 <;> cases acl_get_attrs env a desc <;>
      cases acl_get_filter env a e <;> cases hval : acl_get_val env a desc v <;>
      by_cases hv : a.acl_attrval.bv_len = 0 <;> simp [hv, hval]

theorem acl_get_dn_not_regex (env : Env) (a : AccessControl) (e : Entry) (nmatch : Nat)
    (ms : List regmatch_t) (hs : a.acl_dn_style ≠ .ACL_STYLE_REGEX) :
    (acl_get_dn env a e nmatch ms).1 = acl_get_dn_structural env a e := by
  unfold acl_get_dn
  rw [if_pos (Or.inr hs), if_neg hs]

/-- C16: in `slap_acl_get`, the entry DN predicate of a rule of style ONE
holds exactly when the target DN is strictly longer than the pattern, ends
with the pattern, has a DN separator right before that tail when the pattern
is not empty, and `dn_rdnlen` of the target is the number of bytes that
remain; so a rule of style ONE is returned only if all of this holds, and
never for a target DN equal to the pattern. -/
theorem slap_acl_get_one (env : Env) (a : AccessControl) (ai : Nat) (count : Int)
    (e : Entry) (desc : AttributeDescription) (val : Option berval) (nmatch : Nat)
    (ms : List regmatch_t) (state : Option AccessControlState)
    (hs : a.acl_dn_style = .ACL_STYLE_ONE) :
    ((acl_get_dn env a e nmatch ms).1 = true ↔
      a.acl_dn_pat.bv_len < e.e_nname.bv_len ∧ a.acl_dn_pat.str <:+ e.e_ndn ∧
      (0 < a.acl_dn_pat.bv_len →
        e.e_ndn[e.e_nname.bv_len - a.acl_dn_pat.bv_len - 1]? = some 44) ∧
      env.dn_rdnlen e.e_nname = (e.e_nname.bv_len : Int) - (a.acl_dn_pat.bv_len : Int) -
        (if 0 < a.acl_dn_pat.bv_len then 1 else 0)) ∧
    ((slap_acl_get_rule env a ai count e desc val nmatch ms state).matched = true →
      (acl_get_dn env a e nmatch ms).1 = true) ∧
    (e.e_ndn = a.acl_dn_pat.str →
      (slap_acl_get_rule env a ai count e desc val nmatch ms state).matched = false) := by
  have hd := acl_get_dn_not_regex env a e nmatch ms (by rw [hs]; decide)
  have hc := (acl_get_dn_structural_cases env a e).2.1 hs
  have hm := slap_acl_get_rule_matched env a ai count e desc val nmatch ms state
  refine ⟨by rw [hd]; exact hc, ?_, ?_⟩
  · intro h
    rw [hm] at h
    simp only [Bool.and_eq_true] at h
    exact h.1.1.1
  · intro heq
    have hlen : e.e_nname.bv_len = a.acl_dn_pat.bv_len := congrArg List.length heq
    cases hdn : (acl_get_dn env a e nmatch ms).1 with
    | false => rw [hm, hdn]; rfl
    | true =>
      rw [hd] at hdn
      have := (hc.mp hdn).1
      omega

theorem slap_acl_get_one_witness :
    (slap_acl_get_rule env_rdn (to_dn .ACL_STYLE_ONE "dc=x" []) 0 1 (entry_of "uid=a,dc=x")
      ad_mail none 100 matches_zero none).matched = true ∧
    ((acl_get_dn env_rdn (to_dn .ACL_STYLE_ONE "dc=x" []) (entry_of "uid=a,dc=x") 100
      matches_zero).1 = true ↔
      (to_dn .ACL_STYLE_ONE "dc=x" []).acl_dn_pat.bv_len < (entry_of "uid=a,dc=x").e_nname.bv_len ∧
      (to_dn .ACL_STYLE_ONE "dc=x" []).acl_dn_pat.str <:+ (entry_of "uid=a,dc=x").e_ndn ∧
      (0 < (to_dn .ACL_STYLE_ONE "dc=x" []).acl_dn_pat.bv_len →
        (entry_of "uid=a,dc=x").e_ndn[(entry_of "uid=a,dc=x").e_nname.bv_len -
          (to_dn .ACL_STYLE_ONE "dc=x" []).acl_dn_pat.bv_len - 1]? = some 44) ∧
      env_rdn.dn_rdnlen (entry_of "uid=a,dc=x").e_nname =
        ((entry_of "uid=a,dc=x").e_nname.bv_len : Int) -
          ((to_dn .ACL_STYLE_ONE "dc=x" []).acl_dn_pat.bv_len : Int) -
          (if 0 < (to_dn .ACL_STYLE_ONE "dc=x" []).acl_dn_pat.bv_len then 1 else 0)) :=
  ⟨by decide, (slap_acl_get_one env_rdn (to_dn .ACL_STYLE_ONE "dc=x" []) 0 1
    (entry_of "uid=a,dc=x") ad_mail none 100 matches_zero none rfl).1⟩

/-- The entry DN predicate of style SUBTREE in the words of the bytes: the
target DN is the pattern, or it ends with a separator followed by the pattern. -/
theorem acl_get_dn_subtree (env : Env) (a : AccessControl) (e : Entry) (nmatch : Nat)
    (ms : List regmatch_t) (hs : a.acl_dn_style = .ACL_STYLE_SUBTREE) :
    (acl_get_dn env a e nmatch ms).1 = true ↔
      (e.e_ndn = a.acl_dn_pat.str ∨ ∃ pre, e.e_ndn = pre ++ 44 :: a.acl_dn_pat.str) := by
  rw [acl_get_dn_not_regex env a e nmatch ms (by rw [hs]; decide),
    (acl_get_dn_structural_cases env a e).2.2.1 hs]
  have hlen : e.e_ndn.length = e.e_nname.bv_len := rfl
  have hplen : a.acl_dn_pat.str.length = a.acl_dn_pat.bv_len := rfl
  constructor
  · rintro ⟨⟨pre, hpre⟩, hsep⟩
    by_cases h0 : a.acl_dn_pat.bv_len < e.e_nname.bv_len
    · right
      have hs44 := hsep h0
      have hl : e.e_nname.bv_len = pre.length + a.acl_dn_pat.bv_len := by
        rw [← hlen, ← hpre, List.length_append, hplen]
      have hpl : 0 < pre.length := by omega
      have hidx : e.e_nname.bv_len - a.acl_dn_pat.bv_len - 1 = pre.length - 1 := by omega
      rw [hidx, ← hpre, List.getElem?_append_left (by omega)] at hs44
      refine ⟨pre.dropLast, ?_⟩
      rw [← hpre]
      have hlast : pre = pre.dropLast ++ [44] := by
        have hne : pre ≠ [] := by
          intro h; rw [h] at hpl; simp at hpl
        have h1 := (List.dropLast_append_getLast hne).symm
        have h2 : pre.getLast hne = 44 := by
          rw [List.getLast_eq_getElem]
          rw [List.getElem?_eq_getElem (by omega)] at hs44
          exact Option.some.inj hs44
        rw [h2] at h1
        exact h1
      conv_lhs => rw [hlast]
      simp
    · left
      have hl : pre.length + a.acl_dn_pat.bv_len = e.e_nname.bv_len := by
        rw [← hlen, ← hpre, List.length_append, hplen]
      have hp0 : pre = [] := List.eq_nil_of_length_eq_zero (by omega)
      rw [← hpre, hp0]
      rfl
  · rintro (heq | ⟨pre, hpre⟩)
    · refine ⟨by rw [heq], ?_⟩
      intro h0
      have := congrArg List.length heq
      rw [hlen, hplen] at this
      omega
    · refine ⟨⟨pre ++ [44], by rw [hpre]; simp⟩, ?_⟩
      intro _
      have hl : e.e_nname.bv_len = pre.length + 1 + a.acl_dn_pat.bv_len := by
        rw [← hlen, hpre, List.length_append, List.length_cons, hplen]; omega
      have hidx : e.e_nname.bv_len - a.acl_dn_pat.bv_len - 1 = pre.length := by omega
      rw [hidx, hpre, List.getElem?_append_right (le_refl _)]
      simp

/-- C17 (evaluation): the rule `to dn.subtree="" by * read` does not pass the
entry DN predicate for the target `dc=x`, and `slap_acl_get` finds no rule for
it; the rule of style ONE with the same empty pattern is found. -/
theorem subtree_of_root_excludes_descendants :
    (acl_get_dn env_rdn (to_dn .ACL_STYLE_SUBTREE "" [by_any ACL_LVL_READ .ACL_STOP])
      (entry_of "dc=x") 100 matches_zero).1 = false ∧
    (slap_acl_get env_rdn none 0 (op_b acl_root_subtree) (entry_of "dc=x") ad_mail none 100
      matches_zero none).a = none ∧
    (acl_get_dn env_rdn (to_dn .ACL_STYLE_SUBTREE "" [by_any ACL_LVL_READ .ACL_STOP])
      (entry_of "") 100 matches_zero).1 = true ∧
    (acl_get_dn env_rdn (to_dn .ACL_STYLE_ONE "" [by_any ACL_LVL_READ .ACL_STOP])
      (entry_of "dc=x") 100 matches_zero).1 = true := by
  decide

/-- C18: in `slap_acl_get`, for every target DN and pattern the entry DN
predicate of style CHILDREN holds iff the one of style SUBTREE holds and the
target DN is strictly longer than the pattern (which, under SUBTREE, is to say
that it differs from the pattern), and the one of style BASE holds iff the
target DN equals the pattern byte for byte. -/
theorem acl_get_dn_children_base (env : Env) (a : AccessControl) (e : Entry) (nmatch : Nat)
    (ms : List regmatch_t) :
    ((acl_get_dn env { a with acl_dn_style := .ACL_STYLE_CHILDREN } e nmatch ms).1 = true ↔
      (acl_get_dn env { a with acl_dn_style := .ACL_STYLE_SUBTREE } e nmatch ms).1 = true ∧
      a.acl_dn_pat.bv_len < e.e_nname.bv_len) ∧
    ((acl_get_dn env { a with acl_dn_style := .ACL_STYLE_SUBTREE } e nmatch ms).1 = true →
      (a.acl_dn_pat.bv_len < e.e_nname.bv_len ↔ e.e_ndn ≠ a.acl_dn_pat.str)) ∧
    ((acl_get_dn env { a with acl_dn_style := .ACL_STYLE_BASE } e nmatch ms).1 = true ↔
      e.e_ndn = a.acl_dn_pat.str) := by
  have hc := (acl_get_dn_structural_cases env { a with acl_dn_style := .ACL_STYLE_CHILDREN }
    e).2.2.2 rfl
  have hsb := (acl_get_dn_structural_cases env { a with acl_dn_style := .ACL_STYLE_SUBTREE }
    e).2.2.1 rfl
  have hb := (acl_get_dn_structural_cases env { a with acl_dn_style := .ACL_STYLE_BASE } e).1 rfl
  rw [acl_get_dn_not_regex env _ e nmatch ms (fun h => by cases h),
    acl_get_dn_not_regex env _ e nmatch ms (fun h => by cases h),
    acl_get_dn_not_regex env _ e nmatch ms (fun h => by cases h), hc, hsb, hb]
  have hlen : e.e_ndn.length = e.e_nname.bv_len := rfl
  have hplen : a.acl_dn_pat.str.length = a.acl_dn_pat.bv_len := rfl
  refine ⟨?_, ?_, Iff.rfl⟩
  · constructor
    · rintro ⟨h1, h2, h3⟩
      exact ⟨⟨h2, fun _ => h3⟩, h1⟩
    · rintro ⟨⟨h2, h3⟩, h1⟩
      exact ⟨h1, h2, h3 h1⟩
  · rintro ⟨⟨pre, hpre⟩, _⟩
    have hl : pre.length + a.acl_dn_pat.bv_len = e.e_nname.bv_len := by
      rw [← hlen, ← hpre, List.length_append, hplen]
    constructor
    · intro h heq
      have := congrArg List.length heq
      rw [hlen, hplen] at this
      omega
    · intro hne
      by_contra hlt
      have hp0 : pre = [] := List.eq_nil_of_length_eq_zero (by omega)
      rw [hp0] at hpre
      exact hne hpre.symm

theorem acl_get_dn_children_base_witness :
    (acl_get_dn env_rdn { to_dn .ACL_STYLE_REGEX "dc=x" [] with
      acl_dn_style := .ACL_STYLE_SUBTREE } (entry_of "uid=a,dc=x") 100 matches_zero).1 = true ∧
    ((to_dn .ACL_STYLE_REGEX "dc=x" []).acl_dn_pat.bv_len < (entry_of "uid=a,dc=x").e_nname.bv_len ↔
      (entry_of "uid=a,dc=x").e_ndn ≠ (to_dn .ACL_STYLE_REGEX "dc=x" []).acl_dn_pat.str) :=
  ⟨by decide, (acl_get_dn_children_base env_rdn (to_dn .ACL_STYLE_REGEX "dc=x" [])
    (entry_of "uid=a,dc=x") 100 matches_zero).2.1 (by decide)⟩

/-! ### First match in `slap_acl_get` -/

theorem acl_get_dn_fst_indep (env : Env)
    (hreg : ∀ re s n ms ms', (env.regexec re s n ms).1 = (env.regexec re s n ms').1)
    (a : AccessControl) (e : Entry) (nmatch : Nat) (ms ms' : List regmatch_t) :
    (acl_get_dn env a e nmatch ms).1 = (acl_get_dn env a e nmatch ms').1 := by
  unfold acl_get_dn
  split_ifs
  · simp only [hreg a.acl_dn_re e.e_ndn nmatch ms ms']
  · rfl
  · rfl

theorem slap_acl_get_rule_accepts (env : Env)
    (hreg : ∀ re s n ms ms', (env.regexec re s n ms).1 = (env.regexec re s n ms').1)
    (a : AccessControl) (ai : Nat) (count : Int) (e : Entry) (desc : AttributeDescription)
    (val : Option berval) (nmatch : Nat) (ms : List regmatch_t)
    (state : Option AccessControlState) :
    (slap_acl_get_rule env a ai count e desc val nmatch ms state).matched =
      rule_accepts env a e desc val nmatch := by
  rw [slap_acl_get_rule_matched, acl_get_dn_fst_indep env hreg a e nmatch ms matches_zero]
  rfl

theorem slap_acl_get_loop_first (env : Env)
    (hreg : ∀ re s n ms ms', (env.regexec re s n ms).1 = (env.regexec re s n ms').1)
    (e : Entry) (desc : AttributeDescription) (val : Option berval) (nmatch : Nat)
    (rules : List AccessControl) :
    ∀ (ai : Nat) (count : Int) (ms : List regmatch_t) (state : Option AccessControlState),
      (slap_acl_get_loop env e desc val nmatch rules ai count ms state).a =
        first_accepting env e desc val nmatch rules ai := by
  induction rules with
  | nil => intro ai count ms state; rfl
  | cons a rest ih =>
    intro ai count ms state
    rw [slap_acl_get_loop, first_accepting]
    simp only [slap_acl_get_rule_accepts env hreg]
    split_ifs
    · rfl
    · exact ih _ _ _ _

theorem slap_acl_get_loop_count (env : Env) (e : Entry) (desc : AttributeDescription)
    (val : Option berval) (nmatch : Nat) (rules : List AccessControl) :
    ∀ (ai : Nat) (count : Int) (ms : List regmatch_t) (state : Option AccessControlState),
      (slap_acl_get_loop env e desc val nmatch rules ai count ms state).count =
        count + (match (slap_acl_get_loop env e desc val nmatch rules ai count ms state).a with
          | some k => (k : Int) + 1 - (ai : Int)
          | none => (rules.length : Int)) := by
  induction rules with
  | nil => intro ai count ms state; simp [slap_acl_get_loop]
  | cons a rest ih =>
    intro ai count ms state
    rw [slap_acl_get_loop]
    split_ifs
    · simp
    · rw [ih]
      generalize (slap_acl_get_loop env e desc val nmatch rest (ai + 1) (count + 1)
        (slap_acl_get_rule env a ai (count + 1) e desc val nmatch ms state).rmatches
        (slap_acl_get_rule env a ai (count + 1) e desc val nmatch ms state).state).a = x
      cases x with
      | none =>
        show count + 1 + (rest.length : Int) = count + ((a :: rest).length : Int)
        rw [List.length_cons]
        push_cast
        ring
      | some k =>
        show count + 1 + ((k : Int) + 1 - ((ai + 1 : Nat) : Int)) = count + ((k : Int) + 1 - (ai : Int))
        push_cast
        ring

theorem first_accepting_some (env : Env) (e : Entry) (desc : AttributeDescription)
    (val : Option berval) (nmatch : Nat) (rules : List AccessControl) :
    ∀ (ai k : Nat), first_accepting env e desc val nmatch rules ai = some k ↔
      ∃ i, k = ai + i ∧ ∃ a, rules[i]? = some a ∧ rule_accepts env a e desc val nmatch = true ∧
        ∀ j a', j < i → rules[j]? = some a' → rule_accepts env a' e desc val nmatch = false := by
  induction rules with
  | nil =>
    intro ai k
    simp [first_accepting]
  | cons a rest ih =>
    intro ai k
    rw [first_accepting]
    cases hacc : rule_accepts env a e desc val nmatch with
    | true =>
      simp only [if_true, Option.some.injEq]
      constructor
      · intro h
        exact ⟨0, by omega, a, by simp, hacc, fun j a' hj => absurd hj (Nat.not_lt_zero _)⟩
      · rintro ⟨i, hk, a1, h1, _, h3⟩
        cases i with
        | zero => omega
        | succ i =>
          have := h3 0 a (Nat.succ_pos _) (by simp)
          rw [hacc] at this
          cases this
    | false =>
      simp only [Bool.false_eq_true, if_false]
      rw [ih]
      constructor
      · rintro ⟨i, hk, a1, h1, h2, h3⟩
        refine ⟨i + 1, by omega, a1, by simpa using h1, h2, ?_⟩
        intro j a' hj hja
        cases j with
        | zero =>
          simp only [List.getElem?_cons_zero, Option.some.injEq] at hja
          rw [← hja]; exact hacc
        | succ j =>
          exact h3 j a' (by omega) (by simpa using hja)
      · rintro ⟨i, hk, a1, h1, h2, h3⟩
        cases i with
        | zero =>
          simp only [List.getElem?_cons_zero, Option.some.injEq] at h1
          rw [← h1, hacc] at h2
          cases h2
        | succ i =>
          refine ⟨i, by omega, a1, by simpa using h1, h2, ?_⟩
          intro j a' hj hja
          exact h3 (j + 1) a' (by omega) (by simpa using hja)

theorem first_accepting_none (env : Env) (e : Entry) (desc : AttributeDescription)
    (val : Option berval) (nmatch : Nat) (rules : List AccessControl) :
    ∀ (ai : Nat), first_accepting env e desc val nmatch rules ai = none ↔
      ∀ (j : Nat) a', rules[j]? = some a' → rule_accepts env a' e desc val nmatch = false := by
  induction rules with
  | nil => intro ai; simp [first_accepting]
  | cons a rest ih =>
    intro ai
    rw [first_accepting]
    cases hacc : rule_accepts env a e desc val nmatch with
    | true =>
      simp only [if_true, reduceCtorEq, false_iff]
      intro h
      have := h 0 a (by simp)
      rw [hacc] at this
      cases this
    | false =>
      simp only [Bool.false_eq_true, if_false]
      rw [ih]
      constructor
      · intro h j a' hja
        cases j with
        | zero =>
          simp only [List.getElem?_cons_zero, Option.some.injEq] at hja
          rw [← hja]; exact hacc
        | succ j => exact h j a' (by simpa using hja)
      · intro h j a' hja
        exact h (j + 1) a' (by simpa using hja)

/-- C19: when the return code of `regexec` does not depend on the content of
the match array it is given, `slap_acl_get` returns the first rule, in the
order of the policy list and from the head for a NULL cursor or from the rule
after the cursor otherwise, whose entry DN predicate, attribute list, value
predicate and filter accept the request (every rule examined before it fails
one of them), or NULL when no such rule is left; and the rule counter grows by
the number of rules examined. -/
theorem slap_acl_get_first_match (env : Env)
    (hreg : ∀ re s n ms ms', (env.regexec re s n ms).1 = (env.regexec re s n ms').1)
    (c : Option Nat) (count : Int) (op : Operation) (e : Entry) (desc : AttributeDescription)
    (val : Option berval) (nmatch : Nat) (ms : List regmatch_t)
    (state : Option AccessControlState) :
    (∀ k, (slap_acl_get env c count op e desc val nmatch ms state).a = some k ↔
      cursor_next c ≤ k ∧ ∃ a, (op_acl env op)[k]? = some a ∧
        rule_accepts env a e desc val nmatch = true ∧
        ∀ (j : Nat) a', cursor_next c ≤ j → j < k → (op_acl env op)[j]? = some a' →
          rule_accepts env a' e desc val nmatch = false) ∧
    ((slap_acl_get env c count op e desc val nmatch ms state).a = none ↔
      ∀ (j : Nat) a', cursor_next c ≤ j → (op_acl env op)[j]? = some a' →
        rule_accepts env a' e desc val nmatch = false) ∧
    (slap_acl_get env c count op e desc val nmatch ms state).count =
      count + (match (slap_acl_get env c count op e desc val nmatch ms state).a with
        | some k => (k : Int) + 1 - (cursor_next c : Int)
        | none => (((op_acl env op).length - cursor_next c : Nat) : Int)) := by
  unfold slap_acl_get
  refine ⟨?_, ?_, ?_⟩
  · intro k
    rw [slap_acl_get_loop_first env hreg, first_accepting_some]
    constructor
    · rintro ⟨i, hk, a, h1, h2, h3⟩
      rw [List.getElem?_drop] at h1
      refine ⟨by omega, a, by rw [hk]; exact h1, h2, ?_⟩
      intro j a' hj1 hj2 hja
      refine h3 (j - cursor_next c) a' (by omega) ?_
      rw [List.getElem?_drop]
      have : cursor_next c + (j - cursor_next c) = j := by omega
      rw [this]; exact hja
    · rintro ⟨hk, a, h1, h2, h3⟩
      refine ⟨k - cursor_next c, by omega, a, ?_, h2, ?_⟩
      · rw [List.getElem?_drop]
        have : cursor_next c + (k - cursor_next c) = k := by omega
        rw [this]; exact h1
      · intro j a' hj hja
        rw [List.getElem?_drop] at hja
        exact h3 (cursor_next c + j) a' (by omega) (by omega) hja
  · rw [slap_acl_get_loop_first env hreg, first_accepting_none]
    constructor
    · intro h j a' hj hja
      refine h (j - cursor_next c) a' ?_
      rw [List.getElem?_drop]
      have : cursor_next c + (j - cursor_next c) = j := by omega
      rw [this]; exact hja
    · intro h j a' hja
      rw [List.getElem?_drop] at hja
      exact h (cursor_next c + j) a' (by omega) hja
  · rw [slap_acl_get_loop_count, List.length_drop]

theorem slap_acl_get_first_match_witness :
    (slap_acl_get env0 none 0 (op_b acl_four) entry0 ad_mail none 100 matches_zero none).a
      = some 2 ∧
    (slap_acl_get env0 (some 2) 3 (op_b acl_four) entry0 ad_mail none 100 matches_zero none).a
      = some 3 ∧
    (slap_acl_get env0 none 0 (op_b acl_four) entry0 ad_mail none 100 matches_zero none).count =
      0 + (match (slap_acl_get env0 none 0 (op_b acl_four) entry0 ad_mail none 100 matches_zero
          none).a with
        | some k => (k : Int) + 1 - (cursor_next none : Int)
        | none => (((op_acl env0 (op_b acl_four)).length - cursor_next none : Nat) : Int)) :=
  ⟨by decide, by decide,
    (slap_acl_get_first_match env0 (fun _ _ _ _ _ => rfl) none 0 (op_b acl_four) entry0 ad_mail
      none 100 matches_zero none).2.2⟩

/-! ### The expander `string_expand` -/

theorem cast_range_map (f : Int → Nat) (l : List Nat) :
    List.map f (l >>= fun a => pure (a : Int)) = l.map (fun (k : Nat) => f (k : Int)) := by
  induction l with
  | nil => rfl
  | cons x xs ih =>
    simp only [List.map_cons]
    rw [← ih]
    rfl

theorem string_expand_copy_eq (junk : Indeterminate) (cap : Nat) (source : List Nat) (i l : Int)
    (out : List Nat) :
    string_expand_copy junk cap source i l out =
      out ++ (List.range (min (cap - out.length) (l - i).toNat)).map
        (fun (k : Nat) => char_at junk source (i + (k : Int))) := by
  unfold string_expand_copy
  rw [cast_range_map (fun k => char_at junk source (i + k))]

theorem match_bytes_length (junk : Indeterminate) (source : List Nat) (ms : List regmatch_t)
    (n : Nat) :
    (match_bytes junk source ms n).length =
      ((match_at ms n).rm_eo - (match_at ms n).rm_so).toNat := by
  unfold match_bytes
  rw [List.length_map, List.length_range]

theorem string_expand_copy_fit (junk : Indeterminate) (cap : Nat) (source : List Nat)
    (ms : List regmatch_t) (n : Nat) (out : List Nat)
    (h : out.length + (match_bytes junk source ms n).length ≤ cap) :
    string_expand_copy junk cap source (match_at ms n).rm_so (match_at ms n).rm_eo out =
      out ++ match_bytes junk source ms n := by
  rw [match_bytes_length] at h
  rw [string_expand_copy_eq, Nat.min_eq_right (by omega)]
  rfl

theorem int_wrap_fits (x : Int) (h0 : 0 ≤ x) (h1 : x ≤ INT_MAX) : int_wrap x = x := by
  unfold INT_MAX at h1
  unfold int_wrap
  omega

theorem match_read_nat (junk : Indeterminate) (ms : List regmatch_t) (k : Nat) :
    match_read junk ms (k : Int) = match_at ms k := by
  unfold match_read
  simp

theorem foldl_digits_le (ds : List Nat) :
    ∀ (m : Nat), m ≤ ds.foldl (fun n x => 10 * n + x) m := by
  induction ds with
  | nil => intro m; exact le_refl _
  | cons x ds ih =>
    intro m
    have := ih (10 * m + x)
    simp only [List.foldl_cons]
    omega

/-- The scan of the digits of a `${...}` reference up to the closing brace,
when the number named fits in an `int`. -/
theorem string_expand_loop_digits (junk : Indeterminate) (cap : Nat) (source : List Nat)
    (nmatch : Int) (ms : List regmatch_t) (rest out : List Nat) (ds : List Nat) :
    ∀ (m : Nat), (∀ x ∈ ds, x ≤ 9) →
      ((ds.foldl (fun n x => 10 * n + x) m : Nat) : Int) ≤ INT_MAX →
      string_expand_loop junk cap source nmatch ms
          (ds.map (fun x => 48 + x) ++ 125 :: rest) 3 (m : Int) out =
        if ((ds.foldl (fun n x => 10 * n + x) m : Nat) : Int) ≥ nmatch then (1, out)
        else string_expand_loop junk cap source nmatch ms rest 0 0
          (string_expand_copy junk cap source
            (match_at ms (ds.foldl (fun n x => 10 * n + x) m)).rm_so
            (match_at ms (ds.foldl (fun n x => 10 * n + x) m)).rm_eo out) := by
  induction ds with
  | nil =>
    intro m _ _
    simp [string_expand_loop, match_read_nat]
  | cons x ds ih =>
    intro m hds hmax
    have hx : x ≤ 9 := hds x (List.mem_cons_self _ _)
    have hrest : ∀ y ∈ ds, y ≤ 9 := fun y hy => hds y (List.mem_cons_of_mem _ hy)
    have h0 : ¬ (48 + x = 0) := by omega
    have h125 : ¬ (48 + x = 125) := by omega
    have hdig : 48 ≤ 48 + x ∧ 48 + x ≤ 57 := by omega
    simp only [List.foldl_cons] at hmax
    have hle := foldl_digits_le ds (10 * m + x)
    have hn : int_wrap (10 * (m : Int) + (((48 + x : Nat) : Int) - 48))
        = ((10 * m + x : Nat) : Int) := by
      have he : (10 * (m : Int) + (((48 + x : Nat) : Int) - 48)) = ((10 * m + x : Nat) : Int) := by
        push_cast; ring
      rw [he]
      exact int_wrap_fits _ (Int.natCast_nonneg _) (le_trans (Int.ofNat_le.mpr hle) hmax)
    rw [List.map_cons, List.cons_append, string_expand_loop]
    simp only [if_true, h0, h125, if_false, hdig, and_self]
    rw [hn, ih (10 * m + x) hrest hmax]
    rfl

/-- One piece of a well-formed pattern, from the idle state with room left. -/
theorem string_expand_loop_token (junk : Indeterminate) (cap : Nat) (source : List Nat)
    (nmatch : Int) (ms : List regmatch_t) (t : PatToken) (rest out : List Nat) (n : Int)
    (hok : t.ok nmatch = true) (hroom : out.length < cap)
    (hfit : out.length + (t.expand junk source ms).length ≤ cap) :
    string_expand_loop junk cap source nmatch ms (t.render ++ rest) 0 n out =
      string_expand_loop junk cap source nmatch ms rest 0 0 (out ++ t.expand junk source ms) := by
  cases t with
  | lit c =>
    simp only [PatToken.ok, decide_eq_true_eq] at hok
    simp [PatToken.render, PatToken.expand, string_expand_loop, hroom, hok]
  | ref d =>
    simp only [PatToken.ok, Bool.and_eq_true, decide_eq_true_eq] at hok
    obtain ⟨hd, hn⟩ := hok
    have h36 : ¬ (48 + d = 36) := by omega
    have h123 : ¬ (48 + d = 123) := by omega
    have hdig : 48 ≤ 48 + d ∧ 48 + d ≤ 57 := by omega
    have hge : ¬ ((((48 + d : Nat) : Int) - 48) ≥ nmatch) := by
      push_cast; omega
    have hsub : 48 + d - 48 = d := by omega
    simp only [PatToken.expand] at hfit ⊢
    simp only [PatToken.render, List.cons_append, List.nil_append]
    rw [string_expand_loop]
    simp only [hroom, OfNat.zero_ne_ofNat, if_false, not_true_eq_false, ne_eq, not_true, if_true]
    rw [string_expand_loop]
    simp only [hroom, OfNat.one_ne_ofNat, if_false, not_true_eq_false, ne_eq, one_ne_zero,
      not_false_eq_true, if_true, h36, h123, and_false, hdig, and_self, hge, hsub]
    rw [string_expand_copy_fit junk cap source ms d out hfit]
  | bref d ds =>
    simp only [PatToken.ok, Bool.and_eq_true, decide_eq_true_eq, List.all_eq_true] at hok
    obtain ⟨⟨⟨hd, hds⟩, hn⟩, hmax⟩ := hok
    have hmax' : ((ds.foldl (fun n x => 10 * n + x) d : Nat) : Int) ≤ INT_MAX := hmax
    have h36 : ¬ (48 + d = 36) := by omega
    have h123 : ¬ (48 + d = 123) := by omega
    have hdig : 48 ≤ 48 + d ∧ 48 + d ≤ 57 := by omega
    have hcast : (((48 + d : Nat) : Int) - 48) = ((d : Nat) : Int) := by
      push_cast; ring
    simp only [PatToken.expand] at hfit ⊢
    have hstep : string_expand_loop junk cap source nmatch ms
        ((PatToken.bref d ds).render ++ rest) 0 n out =
        string_expand_loop junk cap source nmatch ms
          (ds.map (fun x => 48 + x) ++ 125 :: rest) 3 (d : Int) out := by
      simp [PatToken.render, string_expand_loop, hroom, h36, h123, hdig]
    rw [hstep]
    rw [string_expand_loop_digits junk cap source nmatch ms rest out ds d hds hmax']
    have hn' : ¬ (((ds.foldl (fun n x => 10 * n + x) d : Nat) : Int) ≥ nmatch) := by
      simp only [PatToken.index] at hn
      omega
    rw [if_neg hn']
    have hfit' : out.length + (match_bytes junk source ms
        (ds.foldl (fun n x => 10 * n + x) d)).length ≤ cap := hfit
    rw [string_expand_copy_fit junk cap source ms _ out hfit']
    rfl

theorem render_cons (t : PatToken) : ∃ c rest, t.render = c :: rest := by
  cases t with
  | lit c => exact ⟨c, [], rfl⟩
  | ref d => exact ⟨36, [48 + d], rfl⟩
  | bref d ds => exact ⟨36, _, rfl⟩

/-- The loop of `string_expand` on a well-formed pattern whose expansion fits
what is left of the buffer. -/
theorem string_expand_loop_spec (junk : Indeterminate) (cap : Nat) (source : List Nat)
    (nmatch : Int) (ms : List regmatch_t) (ts : List PatToken) :
    ∀ (out : List Nat) (n : Int), (∀ t ∈ ts, t.ok nmatch = true) →
      out.length + (expand_spec junk source ms ts).length ≤ cap →
      string_expand_loop junk cap source nmatch ms (render_pattern ts) 0 n out =
        (0, out ++ expand_spec junk source ms ts) := by
  induction ts with
  | nil =>
    intro out n _ _
    simp [render_pattern, expand_spec, string_expand_loop]
  | cons t ts ih =>
    intro out n hok hfit
    rw [expand_spec, List.length_append] at hfit
    rw [render_pattern, expand_spec]
    by_cases hroom : out.length < cap
    · rw [string_expand_loop_token junk cap source nmatch ms t (render_pattern ts) out n
        (hok t (List.mem_cons_self _ _)) hroom (by omega),
        ih (out ++ t.expand junk source ms) 0
          (fun t' ht' => hok t' (List.mem_cons_of_mem _ ht'))
          (by rw [List.length_append]; omega),
        List.append_assoc]
    · obtain ⟨c, rest, hc⟩ := render_cons t
      have h1 : t.expand junk source ms = [] := List.eq_nil_of_length_eq_zero (by omega)
      have h2 : expand_spec junk source ms ts = [] := List.eq_nil_of_length_eq_zero (by omega)
      rw [hc, List.cons_append, string_expand_loop, h1, h2]
      simp [hroom]

/-- C20 (amended): on a pattern made of bytes other than `$` and of references
`$N` (one digit) or `${N}` (a decimal number) with `N < nmatch`, whose
expansion is shorter than the capacity `bv_len` passed in (one byte of it is
kept back), `string_expand` returns 0 and produces the pattern with each
reference replaced by the bytes `source[matches[N].rm_so .. matches[N].rm_eo)`
and every other byte copied in order. -/
theorem string_expand_spec (junk : Indeterminate) (bv_len : Nat) (ts : List PatToken)
    (source : List Nat) (nmatch : Int) (ms : List regmatch_t)
    (hok : ∀ t ∈ ts, t.ok nmatch = true)
    (hfit : (expand_spec junk source ms ts).length < bv_len) :
    string_expand junk bv_len ⟨some (render_pattern ts)⟩ source nmatch ms =
      (0, expand_spec junk source ms ts) := by
  unfold string_expand
  have h := string_expand_loop_spec junk (bv_len - 1) source nmatch ms ts [] 0 hok
    (by simp only [List.length_nil]; omega)
  simpa [berval.str] using h

theorem string_expand_spec_witness :
    render_pattern [.lit 99, .lit 110, .lit 61, .ref 1, .lit 44, .bref 2 []]
      = bytes "cn=$1,$\x7b2\x7d" ∧
    expand_spec junk0 (bytes "uid=a,dc=x") [⟨0, 10⟩, ⟨4, 5⟩, ⟨7, 10⟩]
      [.lit 99, .lit 110, .lit 61, .ref 1, .lit 44, .bref 2 []] = bytes "cn=a,c=x" ∧
    string_expand junk0 (ACL_BUF_SIZE - 1)
      ⟨some (render_pattern [.lit 99, .lit 110, .lit 61, .ref 1, .lit 44, .bref 2 []])⟩
      (bytes "uid=a,dc=x") 3 [⟨0, 10⟩, ⟨4, 5⟩, ⟨7, 10⟩] =
      (0, expand_spec junk0 (bytes "uid=a,dc=x") [⟨0, 10⟩, ⟨4, 5⟩, ⟨7, 10⟩]
        [.lit 99, .lit 110, .lit 61, .ref 1, .lit 44, .bref 2 []]) :=
  ⟨by decide, by decide,
    string_expand_spec junk0 (ACL_BUF_SIZE - 1)
      [.lit 99, .lit 110, .lit 61, .ref 1, .lit 44, .bref 2 []] (bytes "uid=a,dc=x") 3
      [⟨0, 10⟩, ⟨4, 5⟩, ⟨7, 10⟩] (by decide) (by decide)⟩

/-- On a pattern without `$` the loop of `string_expand` copies the bytes
until the buffer is full and stops there with success. -/
theorem string_expand_loop_literal (junk : Indeterminate) (cap : Nat) (source : List Nat)
    (nmatch : Int) (ms : List regmatch_t) (pat : List Nat) :
    ∀ (out : List Nat) (n : Int), (∀ c ∈ pat, c ≠ 36) →
      string_expand_loop junk cap source nmatch ms pat 0 n out =
        (0, out ++ pat.take (cap - out.length)) := by
  induction pat with
  | nil =>
    intro out n _
    simp [string_expand_loop]
  | cons c rest ih =>
    intro out n hlit
    have hc : c ≠ 36 := hlit c (List.mem_cons_self _ _)
    rw [string_expand_loop]
    by_cases hroom : out.length < cap
    · have hk : cap - out.length = (cap - (out ++ [c]).length) + 1 := by
        rw [List.length_append, List.length_singleton]; omega
      simp only [OfNat.zero_ne_ofNat, if_false, hroom, not_true_eq_false, ne_eq, not_true, hc]
      rw [ih (out ++ [c]) 0 (fun c' hc' => hlit c' (List.mem_cons_of_mem _ hc')), hk,
        List.take_succ_cons, List.append_assoc]
      rfl
    · have hk : cap - out.length = 0 := by omega
      simp [hroom, hk]

theorem render_pattern_lit (l : List Nat) : render_pattern (l.map PatToken.lit) = l := by
  induction l with
  | nil => rfl
  | cons c rest ih => simp [render_pattern, PatToken.render, ih]

theorem expand_spec_lit (junk : Indeterminate) (source : List Nat) (ms : List regmatch_t)
    (l : List Nat) : expand_spec junk source ms (l.map PatToken.lit) = l := by
  induction l with
  | nil => rfl
  | cons c rest ih => simp [expand_spec, PatToken.expand, ih]

/-- C20 (counterexample): a pattern of 1023 bytes `a` has an expansion of 1023
bytes, which fits the capacity `ACL_BUF_SIZE - 1` passed at every call site;
`string_expand` returns 0 and produces 1022 bytes only. -/
theorem string_expand_truncates_at_capacity :
    (∀ t ∈ (List.replicate 1023 97).map PatToken.lit, t.ok 1 = true) ∧
    (expand_spec junk0 [] matches_zero ((List.replicate 1023 97).map PatToken.lit)).length
      = ACL_BUF_SIZE - 1 ∧
    string_expand junk0 (ACL_BUF_SIZE - 1)
      ⟨some (render_pattern ((List.replicate 1023 97).map PatToken.lit))⟩ [] 1 matches_zero
      = (0, List.replicate 1022 97) ∧
    List.replicate 1022 97 ≠
      expand_spec junk0 [] matches_zero ((List.replicate 1023 97).map PatToken.lit) := by
  have hlit : ∀ c ∈ List.replicate 1023 97, c ≠ 36 := by
    intro c hc
    rw [List.eq_of_mem_replicate hc]
    decide
  refine ⟨?_, ?_, ?_, ?_⟩
  · intro t ht
    obtain ⟨c, hc, rfl⟩ := List.mem_map.mp ht
    simp only [PatToken.ok, decide_eq_true_eq]
    exact hlit c hc
  · rw [expand_spec_lit, List.length_replicate]
    rfl
  · unfold string_expand
    rw [render_pattern_lit]
    have h := string_expand_loop_literal junk0 (ACL_BUF_SIZE - 1 - 1) [] 1 matches_zero
      (List.replicate 1023 97) [] 0 hlit
    simp only [berval.str, Option.getD_some]
    rw [h, List.nil_append, List.take_replicate]
    rfl
  · rw [expand_spec_lit]
    intro h
    have := congrArg List.length h
    rw [List.length_replicate, List.length_replicate] at this
    omega

/-! ### The expander at and beyond the capacity -/

/-- Once the buffer is full the idle loop of `string_expand` stops with
success, whatever is left of the pattern. -/
theorem string_expand_loop_full (junk : Indeterminate) (cap : Nat) (source : List Nat)
    (nmatch : Int) (ms : List regmatch_t) (pat : List Nat) (n : Int) (out : List Nat)
    (hfull : ¬ out.length < cap) :
    string_expand_loop junk cap source nmatch ms pat 0 n out = (0, out) := by
  cases pat with
  | nil => simp [string_expand_loop]
  | cons c rest =>
    rw [string_expand_loop]
    simp [hfull]

/-- The number `n` is not read in the idle state. -/
theorem string_expand_loop_idle (junk : Indeterminate) (cap : Nat) (source : List Nat)
    (nmatch : Int) (ms : List regmatch_t) (pat : List Nat) (n : Int) (out : List Nat) :
    string_expand_loop junk cap source nmatch ms pat 0 n out =
      string_expand_loop junk cap source nmatch ms pat 0 0 out := by
  cases pat with
  | nil => simp [string_expand_loop]
  | cons c rest =>
    rw [string_expand_loop, string_expand_loop]
    simp

/-- A well-formed prefix of a pattern whose expansion leaves room in the
buffer is replaced by its expansion. -/
theorem string_expand_loop_leading (junk : Indeterminate) (cap : Nat) (source : List Nat)
    (nmatch : Int) (ms : List regmatch_t) (rest : List Nat) (ts : List PatToken) :
    ∀ (out : List Nat) (n : Int), (∀ t ∈ ts, t.ok nmatch = true) →
      out.length + (expand_spec junk source ms ts).length < cap →
      string_expand_loop junk cap source nmatch ms (render_pattern ts ++ rest) 0 n out =
        string_expand_loop junk cap source nmatch ms rest 0 0
          (out ++ expand_spec junk source ms ts) := by
  induction ts with
  | nil =>
    intro out n _ _
    simp only [render_pattern, expand_spec, List.nil_append, List.append_nil]
    exact string_expand_loop_idle junk cap source nmatch ms rest n out
  | cons t ts ih =>
    intro out n hok hfit
    rw [expand_spec, List.length_append] at hfit
    rw [render_pattern, expand_spec, List.append_assoc,
      string_expand_loop_token junk cap source nmatch ms t (render_pattern ts ++ rest) out n
        (hok t (List.mem_cons_self _ _)) (by omega) (by omega),
      ih (out ++ t.expand junk source ms) 0
        (fun t' ht' => hok t' (List.mem_cons_of_mem _ ht'))
        (by rw [List.length_append]; omega),
      List.append_assoc]

/-- A lone `$` at the end of a well-formed pattern is kept when the expansion
with it is shorter than the capacity passed in. -/
theorem string_expand_lone_dollar (junk : Indeterminate) (bv_len : Nat) (ts : List PatToken)
    (source : List Nat) (nmatch : Int) (ms : List regmatch_t)
    (hok : ∀ t ∈ ts, t.ok nmatch = true)
    (hfit : (expand_spec junk source ms ts).length + 1 < bv_len) :
    string_expand junk bv_len ⟨some (render_pattern ts ++ [36])⟩ source nmatch ms =
      (0, expand_spec junk source ms ts ++ [36]) := by
  unfold string_expand
  have h := string_expand_loop_leading junk (bv_len - 1) source nmatch ms [36] ts [] 0 hok
    (by simp only [List.length_nil]; omega)
  simp only [berval.str, Option.getD_some]
  rw [h, List.nil_append, string_expand_loop]
  have hroom : (expand_spec junk source ms ts).length < bv_len - 1 := by omega
  simp [hroom, string_expand_loop]

/-- A run of bytes other than `$` that fits what is left of the buffer is
copied. -/
theorem string_expand_loop_literal_run (junk : Indeterminate) (cap : Nat) (source : List Nat)
    (nmatch : Int) (ms : List regmatch_t) (rest : List Nat) (lits : List Nat) :
    ∀ (out : List Nat) (n : Int), (∀ c ∈ lits, c ≠ 36) → out.length + lits.length ≤ cap →
      string_expand_loop junk cap source nmatch ms (lits ++ rest) 0 n out =
        string_expand_loop junk cap source nmatch ms rest 0 0 (out ++ lits) := by
  induction lits with
  | nil =>
    intro out n _ _
    simp only [List.nil_append, List.append_nil]
    exact string_expand_loop_idle junk cap source nmatch ms rest n out
  | cons c cs ih =>
    intro out n hlit hfit
    have hc : c ≠ 36 := hlit c (List.mem_cons_self _ _)
    rw [List.length_cons] at hfit
    have hroom : out.length < cap := by omega
    rw [List.cons_append, string_expand_loop]
    simp only [OfNat.zero_ne_ofNat, if_false, hroom, not_true_eq_false, ne_eq, not_true, hc]
    rw [ih (out ++ [c]) 0 (fun c' hc' => hlit c' (List.mem_cons_of_mem _ hc'))
      (by rw [List.length_append, List.length_singleton]; omega), List.append_assoc]
    rfl

/-- C21 (evaluation): the pattern of 1022 bytes `a` followed by a lone `$` has
an expansion of 1023 bytes, the capacity passed at every call site;
`string_expand` returns 0 and the 1022 bytes without the `$`, while `abc$`
gives `abc$`. -/
theorem string_expand_drops_lone_dollar :
    string_expand junk0 (ACL_BUF_SIZE - 1) ⟨some (List.replicate 1022 97 ++ [36])⟩ [] 1
      matches_zero = (0, List.replicate 1022 97) ∧
    (List.replicate 1022 97 ++ [36]).length = ACL_BUF_SIZE - 1 ∧
    string_expand junk0 (ACL_BUF_SIZE - 1) (BER_BVC "abc$") [] 1 matches_zero
      = (0, bytes "abc$") := by
  have hlit : ∀ c ∈ List.replicate 1022 97, c ≠ 36 := by
    intro c hc
    rw [List.eq_of_mem_replicate hc]
    decide
  refine ⟨?_, ?_, by decide⟩
  · unfold string_expand
    simp only [berval.str, Option.getD_some]
    rw [string_expand_loop_literal_run junk0 (ACL_BUF_SIZE - 1 - 1) [] 1 matches_zero [36]
      (List.replicate 1022 97) [] 0 hlit
      (by rw [List.length_replicate]; decide)]
    rw [string_expand_loop_full junk0 _ [] 1 matches_zero [36] 0 _
      (by rw [List.nil_append, List.length_replicate]; decide)]
    rfl
  · rw [List.length_append, List.length_replicate]
    rfl

theorem match_bytes_take (junk : Indeterminate) (source : List Nat) (ms : List regmatch_t)
    (n k : Nat) :
    (match_bytes junk source ms n).take k =
      (List.range (min k ((match_at ms n).rm_eo - (match_at ms n).rm_so).toNat)).map
        (fun (j : Nat) => char_at junk source ((match_at ms n).rm_so + (j : Int))) := by
  unfold match_bytes
  rw [← List.map_take, List.take_range]

theorem string_expand_copy_trunc (junk : Indeterminate) (cap : Nat) (source : List Nat)
    (ms : List regmatch_t) (n : Nat) (out : List Nat) :
    string_expand_copy junk cap source (match_at ms n).rm_so (match_at ms n).rm_eo out =
      out ++ (match_bytes junk source ms n).take (cap - out.length) := by
  rw [string_expand_copy_eq, match_bytes_take]

/-- One piece of a well-formed pattern, from the idle state with room left:
what fits of its expansion is written. -/
theorem string_expand_loop_token_trunc (junk : Indeterminate) (cap : Nat) (source : List Nat)
    (nmatch : Int) (ms : List regmatch_t) (t : PatToken) (rest out : List Nat) (n : Int)
    (hok : t.ok nmatch = true) (hroom : out.length < cap) :
    string_expand_loop junk cap source nmatch ms (t.render ++ rest) 0 n out =
      string_expand_loop junk cap source nmatch ms rest 0 0
        (out ++ (t.expand junk source ms).take (cap - out.length)) := by
  cases t with
  | lit c =>
    simp only [PatToken.ok, decide_eq_true_eq] at hok
    have hk : cap - out.length = (cap - out.length - 1) + 1 := by omega
    simp only [PatToken.expand]
    rw [hk, List.take_succ_cons, List.take_nil]
    simp [PatToken.render, string_expand_loop, hroom, hok]
  | ref d =>
    simp only [PatToken.ok, Bool.and_eq_true, decide_eq_true_eq] at hok
    obtain ⟨hd, hn⟩ := hok
    have h36 : ¬ (48 + d = 36) := by omega
    have h123 : ¬ (48 + d = 123) := by omega
    have hdig : 48 ≤ 48 + d ∧ 48 + d ≤ 57 := by omega
    have hge : ¬ ((((48 + d : Nat) : Int) - 48) ≥ nmatch) := by
      push_cast; omega
    have hsub : 48 + d - 48 = d := by omega
    simp only [PatToken.expand]
    simp only [PatToken.render, List.cons_append, List.nil_append]
    rw [string_expand_loop]
    simp only [hroom, OfNat.zero_ne_ofNat, if_false, not_true_eq_false, ne_eq, not_true, if_true]
    rw [string_expand_loop]
    simp only [hroom, OfNat.one_ne_ofNat, if_false, not_true_eq_false, ne_eq, one_ne_zero,
      not_false_eq_true, if_true, h36, h123, and_false, hdig, and_self, hge, hsub]
    rw [string_expand_copy_trunc]
  | bref d ds =>
    simp only [PatToken.ok, Bool.and_eq_true, decide_eq_true_eq, List.all_eq_true] at hok
    obtain ⟨⟨⟨hd, hds⟩, hn⟩, hmax⟩ := hok
    have hmax' : ((ds.foldl (fun n x => 10 * n + x) d : Nat) : Int) ≤ INT_MAX := hmax
    have h36 : ¬ (48 + d = 36) := by omega
    have h123 : ¬ (48 + d = 123) := by omega
    have hdig : 48 ≤ 48 + d ∧ 48 + d ≤ 57 := by omega
    simp only [PatToken.expand]
    have hstep : string_expand_loop junk cap source nmatch ms
        ((PatToken.bref d ds).render ++ rest) 0 n out =
        string_expand_loop junk cap source nmatch ms
          (ds.map (fun x => 48 + x) ++ 125 :: rest) 3 (d : Int) out := by
      simp [PatToken.render, string_expand_loop, hroom, h36, h123, hdig]
    rw [hstep, string_expand_loop_digits junk cap source nmatch ms rest out ds d hds hmax']
    have hn' : ¬ (((ds.foldl (fun n x => 10 * n + x) d : Nat) : Int) ≥ nmatch) := by
      simp only [PatToken.index] at hn
      omega
    rw [if_neg hn', string_expand_copy_trunc]
    rfl

/-- The loop of `string_expand` on a well-formed pattern of any length: it
ends with success and has written what fits of the expansion. -/
theorem string_expand_loop_trunc (junk : Indeterminate) (cap : Nat) (source : List Nat)
    (nmatch : Int) (ms : List regmatch_t) (ts : List PatToken) :
    ∀ (out : List Nat) (n : Int), (∀ t ∈ ts, t.ok nmatch = true) →
      string_expand_loop junk cap source nmatch ms (render_pattern ts) 0 n out =
        (0, out ++ (expand_spec junk source ms ts).take (cap - out.length)) := by
  induction ts with
  | nil =>
    intro out n _
    simp [render_pattern, expand_spec, string_expand_loop]
  | cons t ts ih =>
    intro out n hok
    by_cases hroom : out.length < cap
    · rw [render_pattern, expand_spec,
        string_expand_loop_token_trunc junk cap source nmatch ms t (render_pattern ts) out n
          (hok t (List.mem_cons_self _ _)) hroom,
        ih _ 0 (fun t' ht' => hok t' (List.mem_cons_of_mem _ ht')),
        List.append_assoc, List.take_append_eq_append_take, List.length_append,
        List.length_take]
      have hlen : cap - (out.length + min (cap - out.length) (t.expand junk source ms).length) =
          cap - out.length - (t.expand junk source ms).length := by omega
      rw [hlen]
    · have hk : cap - out.length = 0 := by omega
      rw [string_expand_loop_full junk cap source nmatch ms _ n out hroom, hk, List.take_zero,
        List.append_nil]

/-- C24 (amended): on a well-formed pattern (bytes other than `$` and
references `$N`, `${N}` with `N < nmatch`) of any length, `string_expand`
returns 0 and produces the first `bv_len - 1` bytes of the expansion: an
expansion that exceeds the buffer is cut there and reported as a success. -/
theorem string_expand_truncates (junk : Indeterminate) (bv_len : Nat) (ts : List PatToken)
    (source : List Nat) (nmatch : Int) (ms : List regmatch_t)
    (hok : ∀ t ∈ ts, t.ok nmatch = true) :
    string_expand junk bv_len ⟨some (render_pattern ts)⟩ source nmatch ms =
      (0, (expand_spec junk source ms ts).take (bv_len - 1)) := by
  unfold string_expand
  have h := string_expand_loop_trunc junk (bv_len - 1) source nmatch ms ts [] 0 hok
  simpa [berval.str] using h

theorem string_expand_truncates_witness :
    string_expand junk0 4 ⟨some (render_pattern [.lit 99, .ref 1, .lit 44])⟩
      (bytes "uid=a,dc=x") 3 [⟨0, 10⟩, ⟨0, 5⟩, ⟨7, 10⟩] =
      (0, (expand_spec junk0 (bytes "uid=a,dc=x") [⟨0, 10⟩, ⟨0, 5⟩, ⟨7, 10⟩]
        [.lit 99, .ref 1, .lit 44]).take (4 - 1)) ∧
    (expand_spec junk0 (bytes "uid=a,dc=x") [⟨0, 10⟩, ⟨0, 5⟩, ⟨7, 10⟩]
        [.lit 99, .ref 1, .lit 44]).take (4 - 1) = bytes "cui" :=
  ⟨string_expand_truncates junk0 4 [.lit 99, .ref 1, .lit 44] (bytes "uid=a,dc=x") 3
    [⟨0, 10⟩, ⟨0, 5⟩, ⟨7, 10⟩] (by decide), by decide⟩

/-- C24 (counterexample): a pattern of 2000 bytes `a` exceeds the buffer of
`ACL_BUF_SIZE` bytes; `string_expand` returns 0, not an error, with the first
1022 bytes. -/
theorem string_expand_overflow_succeeds :
    ACL_BUF_SIZE < (expand_spec junk0 [] matches_zero
      ((List.replicate 2000 97).map PatToken.lit)).length ∧
    string_expand junk0 (ACL_BUF_SIZE - 1)
      ⟨some (render_pattern ((List.replicate 2000 97).map PatToken.lit))⟩ [] 1 matches_zero
      = (0, List.replicate 1022 97) := by
  have hlit : ∀ c ∈ List.replicate 2000 97, c ≠ 36 := by
    intro c hc
    rw [List.eq_of_mem_replicate hc]
    decide
  refine ⟨?_, ?_⟩
  · rw [expand_spec_lit, List.length_replicate]
    decide
  · unfold string_expand
    rw [render_pattern_lit]
    have h := string_expand_loop_literal junk0 (ACL_BUF_SIZE - 1 - 1) [] 1 matches_zero
      (List.replicate 2000 97) [] 0 hlit
    simp only [berval.str, Option.getD_some]
    rw [h, List.nil_append, List.take_replicate]
    rfl

theorem string_expand_copy_length (junk : Indeterminate) (cap : Nat) (source : List Nat)
    (i l : Int) (out : List Nat) (h : out.length ≤ cap) :
    (string_expand_copy junk cap source i l out).length ≤ cap := by
  rw [string_expand_copy_eq, List.length_append, List.length_map, List.length_range]
  omega

/-- The loop of `string_expand` never holds more than `cap` bytes, plus the
lone `$` appended after it. -/
theorem string_expand_loop_bound (junk : Indeterminate) (cap : Nat) (source : List Nat)
    (nmatch : Int) (ms : List regmatch_t) (pat : List Nat) :
    ∀ (flag : Nat) (n : Int) (out : List Nat), out.length ≤ cap →
      (string_expand_loop junk cap source nmatch ms pat flag n out).2.length ≤ cap + 1 := by
  induction pat with
  | nil =>
    intro flag n out h
    rw [string_expand_loop]
    split_ifs <;> simp <;> omega
  | cons c rest ih =>
    intro flag n out h
    have hcopy := fun (i l : Int) => string_expand_copy_length junk cap source i l out h
    rw [string_expand_loop]
    split_ifs
    all_goals first
      | exact ih _ _ _ h
      | exact ih _ _ _ (hcopy _ _)
      | exact ih _ _ _ (by rw [List.length_append, List.length_singleton]; omega)
      | (simp only [List.length_append, List.length_singleton]; omega)

/-- C23: for every pattern, source and match array, the output of
`string_expand` is never longer than the capacity `bv_len` passed in (a
positive number: `ACL_BUF_SIZE - 1` at every call site), so that with its
terminator it fits a buffer of `bv_len + 1` bytes, `ACL_BUF_SIZE` at the call
sites. -/
theorem string_expand_bounded (junk : Indeterminate) (bv_len : Nat) (pat : berval)
    (source : List Nat) (nmatch : Int) (ms : List regmatch_t) (hpos : 0 < bv_len) :
    (string_expand junk bv_len pat source nmatch ms).2.length ≤ bv_len ∧
    (string_expand junk (ACL_BUF_SIZE - 1) pat source nmatch ms).2.length + 1 ≤ ACL_BUF_SIZE := by
  have h1 := string_expand_loop_bound junk (bv_len - 1) source nmatch ms pat.str 0 0 []
    (Nat.zero_le _)
  have h2 := string_expand_loop_bound junk (ACL_BUF_SIZE - 1 - 1) source nmatch ms pat.str 0 0 []
    (Nat.zero_le _)
  have hb : ACL_BUF_SIZE - 1 - 1 + 1 + 1 = ACL_BUF_SIZE := by decide
  unfold string_expand
  constructor
  · omega
  · omega

theorem string_expand_bounded_witness :
    (string_expand junk0 (ACL_BUF_SIZE - 1) (BER_BVC "cn=$1,$$,$") (bytes "uid=a,dc=x") 3
      [⟨0, 10⟩, ⟨4, 5⟩, ⟨7, 10⟩]).2.length ≤ ACL_BUF_SIZE - 1 ∧
    (string_expand junk0 (ACL_BUF_SIZE - 1) (BER_BVC "cn=$1,$$,$") (bytes "uid=a,dc=x") 3
      [⟨0, 10⟩, ⟨4, 5⟩, ⟨7, 10⟩]).2.length + 1 ≤ ACL_BUF_SIZE :=
  string_expand_bounded junk0 (ACL_BUF_SIZE - 1) (BER_BVC "cn=$1,$$,$") (bytes "uid=a,dc=x") 3
    [⟨0, 10⟩, ⟨4, 5⟩, ⟨7, 10⟩] (by decide)

/-- Inside `${N` without a closing brace the scan runs to the end of the
pattern and fails. -/
theorem string_expand_loop_unclosed (junk : Indeterminate) (cap : Nat) (source : List Nat)
    (nmatch : Int) (ms : List regmatch_t) (tail : List Nat) :
    ∀ (n : Int) (out : List Nat), 125 ∉ tail →
      string_expand_loop junk cap source nmatch ms tail 3 n out = (1, out) := by
  induction tail with
  | nil => intro n out _; simp [string_expand_loop]
  | cons c rest ih =>
    intro n out h
    have hc : ¬ c = 125 := fun hc => h (by rw [hc]; exact List.mem_cons_self _ _)
    have hr : 125 ∉ rest := fun hr => h (List.mem_cons_of_mem _ hr)
    rw [string_expand_loop]
    simp only [if_true, hc, if_false]
    split_ifs
    · rfl
    · exact ih _ _ hr
    · exact ih _ _ hr

/-- The loop of `string_expand` reads `matches[n]` only for `n < nmatch`: two
match arrays that agree below `nmatch` give the same run. -/
theorem string_expand_loop_reads (junk : Indeterminate) (cap : Nat) (source : List Nat)
    (nmatch : Int) (ms ms' : List regmatch_t)
    (hms : ∀ k : Nat, (k : Int) < nmatch → match_at ms k = match_at ms' k) (pat : List Nat) :
    ∀ (flag : Nat) (n : Int) (out : List Nat),
      string_expand_loop junk cap source nmatch ms pat flag n out =
        string_expand_loop junk cap source nmatch ms' pat flag n out := by
  have hread : ∀ n : Int, ¬ n ≥ nmatch → match_read junk ms n = match_read junk ms' n := by
    intro n hn
    unfold match_read
    by_cases h0 : n < 0
    · rw [if_pos h0, if_pos h0]
    · rw [if_neg h0, if_neg h0]
      exact hms n.toNat (by rw [Int.toNat_of_nonneg (by omega)]; omega)
  induction pat with
  | nil =>
    intro flag n out
    rw [string_expand_loop, string_expand_loop]
  | cons c rest ih =>
    intro flag n out
    rw [string_expand_loop, string_expand_loop]
    by_cases h3 : flag = 3
    · simp only [h3, if_true]
      split_ifs with h0 h125 hge hdig
      · rfl
      · rfl
      · rw [hread n hge]
        exact ih _ _ _
      · exact ih _ _ _
      · exact ih _ _ _
    · simp only [h3, if_false]
      split_ifs
      all_goals first
        | rfl
        | exact ih _ _ _
        | (have hk : (((c - 48 : Nat)) : Int) < nmatch := by omega
           rw [hms (c - 48) hk]
           exact ih _ _ _)

/-- A well-formed part of a pattern whose expansion fills what is left of the
buffer: what fits of the expansion is written and the loop stops with success,
whatever follows in the pattern. -/
theorem string_expand_loop_filled (junk : Indeterminate) (cap : Nat) (source : List Nat)
    (nmatch : Int) (ms : List regmatch_t) (rest : List Nat) (ts : List PatToken) :
    ∀ (out : List Nat) (n : Int), (∀ t ∈ ts, t.ok nmatch = true) →
      cap ≤ out.length + (expand_spec junk source ms ts).length →
      string_expand_loop junk cap source nmatch ms (render_pattern ts ++ rest) 0 n out =
        (0, out ++ (expand_spec junk source ms ts).take (cap - out.length)) := by
  induction ts with
  | nil =>
    intro out n _ hfull
    simp only [expand_spec, List.length_nil, Nat.add_zero] at hfull
    have hk : cap - out.length = 0 := by omega
    rw [render_pattern, List.nil_append,
      string_expand_loop_full junk cap source nmatch ms rest n out (by omega), hk,
      List.take_zero, List.append_nil]
  | cons t ts ih =>
    intro out n hok hfull
    rw [expand_spec, List.length_append] at hfull
    by_cases hroom : out.length < cap
    · rw [render_pattern, expand_spec, List.append_assoc,
        string_expand_loop_token_trunc junk cap source nmatch ms t (render_pattern ts ++ rest)
          out n (hok t (List.mem_cons_self _ _)) hroom,
        ih _ 0 (fun t' ht' => hok t' (List.mem_cons_of_mem _ ht'))
          (by rw [List.length_append, List.length_take]; omega),
        List.append_assoc, List.take_append_eq_append_take, List.length_append,
        List.length_take]
      have hlen : cap - (out.length + min (cap - out.length) (t.expand junk source ms).length) =
          cap - out.length - (t.expand junk source ms).length := by omega
      rw [hlen]
    · have hk : cap - out.length = 0 := by omega
      rw [string_expand_loop_full junk cap source nmatch ms _ n out hroom, hk, List.take_zero,
        List.append_nil]

/-- The wrap-around of `int`: a number of ten digits or more does not keep its
value. -/
theorem int_wrap_overflow :
    int_wrap 2147483647 = 2147483647 ∧ int_wrap 2147483648 = -2147483648 ∧
      int_wrap 4294967296 = 0 := by
  decide

/-- A reference of ten digits: the number 4294967296 wraps to 0 in the `int`
`n`, so with one match slot the reference is taken for the match 0. -/
theorem string_expand_wrapped_reference :
    string_expand junk0 (ACL_BUF_SIZE - 1) (BER_BVC "x$\x7b4294967296\x7dy") (bytes "abc") 1
      [⟨0, 3⟩] = (0, bytes "xabcy") := by
  decide

/-- C22 (amended): while fewer than `bv_len - 1` bytes are written after a
well-formed part of the pattern, `string_expand` returns 1 when it meets a
reference `$N` with `N ≥ nmatch`, a reference `${N}` with `N ≥ nmatch` (`N` at
most `INT_MAX`), or a `${N` that no `}` closes. When the expansion of the
well-formed part has `bv_len - 1` bytes or more, what follows it is not
examined: `string_expand` returns 0 with the first `bv_len - 1` bytes of that
expansion. And `matches[N]` is read only for `N < nmatch`: match arrays that
agree below `nmatch` give the same result, for every pattern. -/
theorem string_expand_reference_errors (junk : Indeterminate) (bv_len : Nat)
    (ts : List PatToken) (source : List Nat) (nmatch : Int) (ms : List regmatch_t)
    (d : Nat) (ds rest : List Nat)
    (hpos : 0 < bv_len) (hok : ∀ t ∈ ts, t.ok nmatch = true)
    (hd : d ≤ 9) (hds : ∀ x ∈ ds, x ≤ 9) :
    ((expand_spec junk source ms ts).length + 1 < bv_len → (d : Int) ≥ nmatch →
      string_expand junk bv_len ⟨some (render_pattern ts ++ 36 :: (48 + d) :: rest)⟩ source
        nmatch ms = (1, expand_spec junk source ms ts)) ∧
    ((expand_spec junk source ms ts).length + 1 < bv_len →
      ((PatToken.bref d ds).index : Int) ≥ nmatch →
      ((PatToken.bref d ds).index : Int) ≤ INT_MAX →
      string_expand junk bv_len ⟨some (render_pattern ts ++ (PatToken.bref d ds).render ++ rest)⟩
        source nmatch ms = (1, expand_spec junk source ms ts)) ∧
    ((expand_spec junk source ms ts).length + 1 < bv_len → 125 ∉ rest →
      string_expand junk bv_len ⟨some (render_pattern ts ++ 36 :: 123 :: (48 + d) :: rest)⟩
        source nmatch ms = (1, expand_spec junk source ms ts)) ∧
    (bv_len ≤ (expand_spec junk source ms ts).length + 1 →
      string_expand junk bv_len ⟨some (render_pattern ts ++ rest)⟩ source nmatch ms =
        (0, (expand_spec junk source ms ts).take (bv_len - 1))) ∧
    (∀ (pat : berval) (ms' : List regmatch_t),
      (∀ k : Nat, (k : Int) < nmatch → match_at ms k = match_at ms' k) →
      string_expand junk bv_len pat source nmatch ms =
        string_expand junk bv_len pat source nmatch ms') := by
  have _ := hpos
  have hpre := fun (hfit : (expand_spec junk source ms ts).length + 1 < bv_len)
      (rest' : List Nat) =>
    string_expand_loop_leading junk (bv_len - 1) source nmatch ms rest' ts [] 0 hok
      (by simp only [List.length_nil]; omega)
  have h36 : ¬ (48 + d = 36) := by omega
  have h123 : ¬ (48 + d = 123) := by omega
  have hdig : 48 ≤ 48 + d ∧ 48 + d ≤ 57 := by omega
  refine ⟨?_, ?_, ?_, ?_, ?_⟩
  · intro hfit hge
    have hroom : (expand_spec junk source ms ts).length < bv_len - 1 := by omega
    unfold string_expand
    simp only [berval.str, Option.getD_some]
    rw [hpre hfit, List.nil_append]
    simp [string_expand_loop, hroom, h36, h123, hdig]
    intro hlt
    omega
  · intro hfit hge hmax
    have hroom : (expand_spec junk source ms ts).length < bv_len - 1 := by omega
    unfold string_expand
    simp only [berval.str, Option.getD_some]
    rw [List.append_assoc, hpre hfit, List.nil_append]
    have hstep : string_expand_loop junk (bv_len - 1) source nmatch ms
        ((PatToken.bref d ds).render ++ rest) 0 0 (expand_spec junk source ms ts) =
        string_expand_loop junk (bv_len - 1) source nmatch ms
          (ds.map (fun x => 48 + x) ++ 125 :: rest) 3 (d : Int)
          (expand_spec junk source ms ts) := by
      simp [PatToken.render, string_expand_loop, hroom, h36, h123, hdig]
    simp only [PatToken.index] at hge hmax
    rw [hstep, string_expand_loop_digits junk (bv_len - 1) source nmatch ms rest _ ds d hds hmax]
    rw [if_pos hge]
  · intro hfit hclose
    have hroom : (expand_spec junk source ms ts).length < bv_len - 1 := by omega
    unfold string_expand
    simp only [berval.str, Option.getD_some]
    rw [hpre hfit, List.nil_append]
    have hstep : string_expand_loop junk (bv_len - 1) source nmatch ms
        (36 :: 123 :: (48 + d) :: rest) 0 0 (expand_spec junk source ms ts) =
        string_expand_loop junk (bv_len - 1) source nmatch ms rest 3 (d : Int)
          (expand_spec junk source ms ts) := by
      simp [string_expand_loop, hroom, h36, h123, hdig]
    rw [hstep, string_expand_loop_unclosed junk (bv_len - 1) source nmatch ms rest _ _ hclose]
  · intro hfull
    unfold string_expand
    simp only [berval.str, Option.getD_some]
    have h := string_expand_loop_filled junk (bv_len - 1) source nmatch ms rest ts [] 0 hok
      (by simp only [List.length_nil]; omega)
    simpa using h
  · intro pat ms' hms
    unfold string_expand
    exact string_expand_loop_reads junk (bv_len - 1) source nmatch ms ms' hms pat.str 0 0 []

theorem string_expand_reference_errors_witness :
    (string_expand junk0 (ACL_BUF_SIZE - 1)
      ⟨some (render_pattern [.lit 99, .lit 110, .lit 61] ++ 36 :: (48 + 5) :: bytes ",dc=x")⟩
      (bytes "uid=a,dc=x") 3 [⟨0, 10⟩, ⟨4, 5⟩, ⟨7, 10⟩] =
      (1, expand_spec junk0 (bytes "uid=a,dc=x") [⟨0, 10⟩, ⟨4, 5⟩, ⟨7, 10⟩]
        [.lit 99, .lit 110, .lit 61])) ∧
    (string_expand junk0 (ACL_BUF_SIZE - 1)
      ⟨some (render_pattern [.lit 99, .lit 110, .lit 61] ++ (PatToken.bref 1 [2]).render ++
        bytes ",dc=x")⟩
      (bytes "uid=a,dc=x") 3 [⟨0, 10⟩, ⟨4, 5⟩, ⟨7, 10⟩] =
      (1, expand_spec junk0 (bytes "uid=a,dc=x") [⟨0, 10⟩, ⟨4, 5⟩, ⟨7, 10⟩]
        [.lit 99, .lit 110, .lit 61])) :=
  ⟨(string_expand_reference_errors junk0 (ACL_BUF_SIZE - 1) [.lit 99, .lit 110, .lit 61]
      (bytes "uid=a,dc=x") 3 [⟨0, 10⟩, ⟨4, 5⟩, ⟨7, 10⟩] 5 [] (bytes ",dc=x") (by decide)
      (by decide) (by decide) (by decide)).1 (by decide) (by decide),
   (string_expand_reference_errors junk0 (ACL_BUF_SIZE - 1) [.lit 99, .lit 110, .lit 61]
      (bytes "uid=a,dc=x") 3 [⟨0, 10⟩, ⟨4, 5⟩, ⟨7, 10⟩] 1 [2] (bytes ",dc=x") (by decide)
      (by decide) (by decide) (by decide)).2.1 (by decide) (by decide) (by decide)⟩

/-- C22 (counterexample): with `nmatch = 1`, the pattern of 1022 bytes `a`
followed by the out-of-range reference `$9` makes `string_expand` return 0:
the buffer is full before the reference is read. -/
theorem string_expand_unreported_references :
    string_expand junk0 (ACL_BUF_SIZE - 1) ⟨some (List.replicate 1022 97 ++ [36, 57])⟩ [] 1
      matches_zero = (0, List.replicate 1022 97) := by
  have hlit : ∀ c ∈ List.replicate 1022 97, c ≠ 36 := by
    intro c hc
    rw [List.eq_of_mem_replicate hc]
    decide
  unfold string_expand
  simp only [berval.str, Option.getD_some]
  rw [string_expand_loop_literal_run junk0 (ACL_BUF_SIZE - 1 - 1) [] 1 matches_zero [36, 57]
    (List.replicate 1022 97) [] 0 hlit
    (by rw [List.length_replicate]; decide)]
  rw [string_expand_loop_full junk0 _ [] 1 matches_zero [36, 57] 0 _
    (by rw [List.nil_append, List.length_replicate]; decide)]
  rfl

/-! ### ACI values: the five fields, the scope and the subject -/

theorem char_at_lt (junk : Indeterminate) (buf : List Nat) (p : Nat) (h : p < buf.length) :
    char_at junk buf (p : Int) = buf[p] := by
  unfold char_at
  rw [if_neg (by omega)]
  simp only [Int.toNat_ofNat, h, dif_pos]
  rfl

/-- The inner loop of `aci_get_part` on the rest of a buffer: when it finds a
separator, one separator less is left. -/
theorem aci_skip_field_count (junk : Indeterminate) (buf : List Nat) (sep : Nat) :
    ∀ (len p : Nat), p + len = buf.length →
      ∀ len1 p1, aci_skip_field junk buf sep len p = some (len1, p1) →
        p1 + len1 = buf.length ∧ (buf.drop p).count sep = (buf.drop p1).count sep + 1 := by
  intro len
  induction len with
  | zero =>
    intro p _ len1 p1 h
    simp [aci_skip_field] at h
  | succ len ih =>
    intro p hp len1 p1 h
    have hlt : p < buf.length := by omega
    have hdrop : buf.drop p = buf[p] :: buf.drop (p + 1) := List.drop_eq_getElem_cons hlt
    rw [aci_skip_field, char_at_lt junk buf p hlt] at h
    by_cases hc : buf[p] = sep
    · rw [if_neg (by simp [hc])] at h
      simp only [Option.some.injEq, Prod.mk.injEq] at h
      obtain ⟨h1, h2⟩ := h
      subst h1 h2
      refine ⟨by omega, ?_⟩
      rw [hdrop, hc, List.count_cons_self]
    · rw [if_pos hc] at h
      obtain ⟨h1, h2⟩ := ih (p + 1) (by omega) len1 p1 h
      refine ⟨h1, ?_⟩
      rw [hdrop, List.count_cons_of_ne (fun h => hc h.symm), h2]

/-- The outer loop of `aci_get_part` fails when the rest of the buffer holds
fewer separators than fields to pass. -/
theorem aci_skip_fields_count (junk : Indeterminate) (buf : List Nat) (sep : Nat) :
    ∀ (ix len p : Nat), p + len = buf.length → (buf.drop p).count sep < ix →
      aci_skip_fields junk buf sep ix len p = none := by
  intro ix
  induction ix with
  | zero => intro len p _ h; exact absurd h (Nat.not_lt_zero _)
  | succ ix ih =>
    intro len p hp h
    rw [aci_skip_fields]
    cases hf : aci_skip_field junk buf sep len p with
    | none => rfl
    | some r =>
      obtain ⟨len1, p1⟩ := r
      obtain ⟨h1, h2⟩ := aci_skip_field_count junk buf sep len p hp len1 p1 hf
      exact ih len1 p1 h1 (by omega)

/-- C25: `aci_mask` returns 0 and leaves `*grant` and `*deny` as they were for
every ACI value with fewer than four `#`, whatever the requester, the entry,
the attribute (of non-NULL name, as the code asserts), the value and the
asserted scope. -/
theorem aci_mask_needs_five_fields (env : Env) (op : Operation) (e : Entry)
    (desc : AttributeDescription) (val : Option berval) (aci : berval) (nmatch : Int)
    (ms : List regmatch_t) (grant0 deny0 : slap_access_t) (asserted_scope : Nat)
    (hname : BER_BVISNULL desc.ad_cname = false) (h : aci.str.count 35 < 4) :
    aci_mask env op e desc val aci nmatch ms grant0 deny0 asserted_scope
      = (0, grant0, deny0) := by
  have hskip : aci_skip_fields env.junk aci.str 35 4 aci.bv_len 0 = none :=
    aci_skip_fields_count env.junk aci.str 35 4 aci.bv_len 0 (by simp [berval.bv_len, berval.str])
      (by simpa using h)
  have _ := hname
  have h4 : (4 : Int).toNat = 4 := rfl
  have hpart : (aci_get_part env.junk aci.slice 4 35 false).1 < 0 := by
    unfold aci_get_part
    simp only [berval.slice, h4, hskip]
    show (-1 : Int) < 0
    decide
  unfold aci_mask
  simp only [hpart, if_true]

theorem aci_mask_needs_five_fields_witness :
    BER_BVISNULL ad_mail.ad_cname = false ∧
    (BER_BVC "1.1#entry#grant;r;[all]#public").str.count 35 < 4 ∧
    aci_mask env0 (op_a []) (entry_aci "dc=y,dc=x" []) ad_mail none
      (BER_BVC "1.1#entry#grant;r;[all]#public") 100 matches_zero 0 0 SLAP_ACI_SCOPE_ENTRY
      = (0, 0, 0) :=
  ⟨by decide, by decide,
    aci_mask_needs_five_fields env0 (op_a []) (entry_aci "dc=y,dc=x" []) ad_mail none
      (BER_BVC "1.1#entry#grant;r;[all]#public") 100 matches_zero 0 0 SLAP_ACI_SCOPE_ENTRY
      (by decide) (by decide)⟩

/-- C26: `aci_mask` returns 0 unless the scope field of the ACI value (its
second `#`-separated field, without the spaces around it) subsumes the
asserted scope: for the asserted scope ENTRY the field is `entry` or `subtree`
up to case, for CHILDREN it is `children` or `subtree`, and no other asserted
scope passes. -/
theorem aci_mask_scope (env : Env) (op : Operation) (e : Entry) (desc : AttributeDescription)
    (val : Option berval) (aci : berval) (nmatch : Int) (ms : List regmatch_t)
    (grant0 deny0 : slap_access_t) (asserted_scope : Nat)
    (hname : BER_BVISNULL desc.ad_cname = false)
    (h : (aci_mask env op e desc val aci nmatch ms grant0 deny0 asserted_scope).1 ≠ 0) :
    (asserted_scope = SLAP_ACI_SCOPE_ENTRY ∧
      (strcaseeq (aci_get_part env.junk aci.slice 1 35 true).2.str (bytes "entry") = true ∨
       strcaseeq (aci_get_part env.junk aci.slice 1 35 true).2.str (bytes "subtree") = true)) ∨
    (asserted_scope = SLAP_ACI_SCOPE_CHILDREN ∧
      (strcaseeq (aci_get_part env.junk aci.slice 1 35 true).2.str (bytes "children") = true ∨
       strcaseeq (aci_get_part env.junk aci.slice 1 35 true).2.str (bytes "subtree") = true)) := by
  have _ := hname
  unfold aci_mask at h
  simp only at h
  by_cases h4 : (aci_get_part env.junk aci.slice 4 35 false).1 < 0
  · rw [if_pos h4] at h; exact absurd rfl h
  rw [if_neg h4] at h
  by_cases h0 : (aci_get_part env.junk aci.slice 0 35 true).1 < 0
  · rw [if_pos h0] at h; exact absurd rfl h
  rw [if_neg h0] at h
  by_cases h1 : (aci_get_part env.junk aci.slice 1 35 true).1 < 0
  · rw [if_pos h1] at h; exact absurd rfl h
  rw [if_neg h1] at h
  by_cases he : asserted_scope = SLAP_ACI_SCOPE_ENTRY
  · left
    refine ⟨he, ?_⟩
    rw [if_pos he] at h
    by_contra hno
    simp only [not_or, Bool.not_eq_true] at hno
    rw [hno.1, hno.2] at h
    exact h rfl
  · rw [if_neg he] at h
    by_cases hc : asserted_scope = SLAP_ACI_SCOPE_CHILDREN
    · right
      refine ⟨hc, ?_⟩
      rw [if_pos hc] at h
      by_contra hno
      simp only [not_or, Bool.not_eq_true] at hno
      rw [hno.1, hno.2] at h
      exact h rfl
    · rw [if_neg hc] at h
      exact absurd rfl h

theorem aci_mask_scope_witness :
    (aci_get_part env0.junk (BER_BVC "1.1# Subtree #grant;r,s;[all]#public#").slice 1 35
      true).2.str = bytes "Subtree" ∧
    (aci_mask env0 (op_a []) (entry_aci "dc=y,dc=x" []) ad_mail none
      (BER_BVC "1.1#children#grant;r,s;[all]#public#") 100 matches_zero 0 0
      SLAP_ACI_SCOPE_ENTRY).1 = 0 ∧
    ((SLAP_ACI_SCOPE_ENTRY = SLAP_ACI_SCOPE_ENTRY ∧
      (strcaseeq (aci_get_part env0.junk
          (BER_BVC "1.1# Subtree #grant;r,s;[all]#public#").slice 1 35 true).2.str
          (bytes "entry") = true ∨
       strcaseeq (aci_get_part env0.junk
          (BER_BVC "1.1# Subtree #grant;r,s;[all]#public#").slice 1 35 true).2.str
          (bytes "subtree") = true)) ∨
    (SLAP_ACI_SCOPE_ENTRY = SLAP_ACI_SCOPE_CHILDREN ∧
      (strcaseeq (aci_get_part env0.junk
          (BER_BVC "1.1# Subtree #grant;r,s;[all]#public#").slice 1 35 true).2.str
          (bytes "children") = true ∨
       strcaseeq (aci_get_part env0.junk
          (BER_BVC "1.1# Subtree #grant;r,s;[all]#public#").slice 1 35 true).2.str
          (bytes "subtree") = true))) :=
  ⟨by decide, by decide,
    aci_mask_scope env0 (op_a []) (entry_aci "dc=y,dc=x" []) ad_mail none
      (BER_BVC "1.1# Subtree #grant;r,s;[all]#public#") 100 matches_zero 0 0
      SLAP_ACI_SCOPE_ENTRY (by decide) (by decide)⟩

/-- C27 (evaluation): in the ACI value `1.1#entry#grant;r;[all]#access-id #uid=a,dc=x`
the subject type is followed by a space. `aci_get_part` gives the type field
`access-id` (9 bytes from offset 24); the subject body taken one byte after it
is `#uid=a,dc=x`, not `uid=a,dc=x`: the requester `uid=a,dc=x` is not matched,
the requester `#uid=a,dc=x` is, and without the space, or with the space
before the type, `uid=a,dc=x` is matched. -/
theorem aci_subject_after_spaced_type :
    aci_get_part junk0 (BER_BVC "1.1#entry#grant;r;[all]#access-id #uid=a,dc=x").slice 3 35 true
      = (9, ⟨bytes "1.1#entry#grant;r;[all]#access-id #uid=a,dc=x", 24, 9⟩) ∧
    (⟨bytes "1.1#entry#grant;r;[all]#access-id #uid=a,dc=x", 24 + 9 + 1,
      (BER_BVC "1.1#entry#grant;r;[all]#access-id #uid=a,dc=x").bv_len - (24 + 9 + 1 - 0)⟩ :
        bvslice).str = bytes "#uid=a,dc=x" ∧
    (aci_mask env0 (op_a []) (entry_aci "dc=y,dc=x" []) ad_mail none
      (BER_BVC "1.1#entry#grant;r;[all]#access-id #uid=a,dc=x") 100 matches_zero 0 0
      SLAP_ACI_SCOPE_ENTRY).1 = 0 ∧
    (aci_mask env0 (op_of (be_of []) "#uid=a,dc=x" false) (entry_aci "dc=y,dc=x" []) ad_mail none
      (BER_BVC "1.1#entry#grant;r;[all]#access-id #uid=a,dc=x") 100 matches_zero 0 0
      SLAP_ACI_SCOPE_ENTRY).1 = 1 ∧
    (aci_mask env0 (op_a []) (entry_aci "dc=y,dc=x" []) ad_mail none
      (BER_BVC "1.1#entry#grant;r;[all]#access-id#uid=a,dc=x") 100 matches_zero 0 0
      SLAP_ACI_SCOPE_ENTRY).1 = 1 ∧
    (aci_mask env0 (op_a []) (entry_aci "dc=y,dc=x" []) ad_mail none
      (BER_BVC "1.1#entry#grant;r;[all]# access-id#uid=a,dc=x") 100 matches_zero 0 0
      SLAP_ACI_SCOPE_ENTRY).1 = 1 := by
  decide

/-! ### The ACI dimension of `slap_acl_mask` -/

/-- C29 (evaluation): the ACI value `1.1#entry#deny;r;[all]#public#` grants
nothing and denies READ (`aci_mask` leaves grant = NONE, deny = NONE|READ).
For the clause `by aci write` and the running mask NONE|READ the effect chosen
is the ADDITIVE flag alone, not SUBTRACTIVE with the denied READ; under the
policy `to * by * +r continue by aci write` the request READ is granted with
READ still in the mask. -/
theorem aci_deny_alone_is_additive :
    aci_mask env0 (op_a []) (entry_aci "dc=y,dc=x" []) ad_mail none
      (BER_BVC "1.1#entry#deny;r;[all]#public#") 100 matches_zero 0 0 SLAP_ACI_SCOPE_ENTRY
      = (1, ACL_PRIV_NONE, ACL_PRIV_NONE ||| ACL_PRIV_READ) ∧
    who_aci env0 (by_aci ACL_LVL_WRITE .ACL_STOP) (ACL_PRIV_NONE ||| ACL_PRIV_READ) (op_a [])
      (entry_aci "dc=y,dc=x" ["1.1#entry#deny;r;[all]#public#"]) ad_mail none 100 matches_zero 1
      = (some ACL_PRIV_ADDITIVE, 1) ∧
    (access_allowed_mask env0 (some (op_a acl_add_read_then_aci))
      (entry_aci "dc=y,dc=x" ["1.1#entry#deny;r;[all]#public#"]) ad_mail none ACL_READ none
      true).map (fun r => (r.ret, r.maskp)) = some (1, some (ACL_PRIV_NONE ||| ACL_PRIV_READ)) := by
  decide

/-- C30 (evaluation): the ACI value `1.1#entry#grant;r;[all]#public#` grants
READ. Under `to * by aci read` the request WRITE, which the clause mask does
not grant, leaves READ in the mask: the clause was evaluated. Under
`to * by * search continue by aci write` the request READ, which the clause
mask grants, is denied with the cleared mask: the clause was skipped, while
under `to * by aci write` alone the same request is granted. -/
theorem aci_clause_tested_against_running_mask :
    ACL_GRANT ACL_LVL_READ ACL_WRITE = false ∧
    (access_allowed_mask env0 (some (op_a acl_aci_read))
      (entry_aci "dc=y,dc=x" ["1.1#entry#grant;r;[all]#public#"]) ad_mail none ACL_WRITE none
      true).map (fun r => (r.ret, r.maskp)) = some (0, some (ACL_PRIV_NONE ||| ACL_PRIV_READ)) ∧
    ACL_GRANT ACL_LVL_WRITE ACL_READ = true ∧
    who_aci env0 (by_aci ACL_LVL_WRITE .ACL_STOP) ACL_LVL_SEARCH (op_a acl_search_then_aci)
      (entry_aci "dc=y,dc=x" ["1.1#entry#grant;r;[all]#public#"]) ad_mail none 100 matches_zero 2
      = (none, 2) ∧
    (access_allowed_mask env0 (some (op_a acl_search_then_aci))
      (entry_aci "dc=y,dc=x" ["1.1#entry#grant;r;[all]#public#"]) ad_mail none ACL_READ none
      true).map (fun r => (r.ret, r.maskp)) = some (0, some ACL_PRIV_NONE) ∧
    (access_allowed_mask env0 (some (op_a acl_aci_write))
      (entry_aci "dc=y,dc=x" ["1.1#entry#grant;r;[all]#public#"]) ad_mail none ACL_READ none
      true).map (fun r => (r.ret, r.maskp)) = some (1, some (ACL_PRIV_NONE ||| ACL_PRIV_READ)) := by
  decide

/-! ### The field parser `aci_get_part` on joined fields -/

theorem holds_len (s : bvslice) (l : List Nat) (h : holds s l) : s.len = l.length := by
  obtain ⟨pre, post, _, _, h3⟩ := h
  exact h3.symm

theorem holds_str (s : bvslice) (l : List Nat) (h : holds s l) : s.str = l := by
  obtain ⟨pre, post, h1, h2, h3⟩ := h
  unfold bvslice.str
  rw [h1, ← h2, ← h3, List.append_assoc, List.drop_left, List.take_left]

theorem holds_char (junk : Indeterminate) (buf : List Nat) (p len : Nat) (l : List Nat)
    (h : holds ⟨buf, p, len⟩ l) (i : Nat) (hi : i < l.length) :
    char_at junk buf ((p + i : Nat) : Int) = l[i] := by
  obtain ⟨pre, post, h1, h2, h3⟩ := h
  simp only at h1 h2 h3
  have hlt : p + i < buf.length := by
    rw [h1, List.length_append, List.length_append]; omega
  rw [char_at_lt junk buf (p + i) hlt]
  subst h1
  rw [List.getElem_append_left (by rw [List.length_append]; omega),
    List.getElem_append_right (by omega)]
  simp [h2]

theorem holds_head (junk : Indeterminate) (buf : List Nat) (p len : Nat) (c : Nat) (l : List Nat)
    (h : holds ⟨buf, p, len⟩ (c :: l)) : char_at junk buf (p : Int) = c := by
  have := holds_char junk buf p len (c :: l) h 0 (by simp)
  simpa using this

theorem holds_tail (buf : List Nat) (p len : Nat) (c : Nat) (l : List Nat)
    (h : holds ⟨buf, p, len⟩ (c :: l)) :
    len = l.length + 1 ∧ holds ⟨buf, p + 1, l.length⟩ l := by
  obtain ⟨pre, post, h1, h2, h3⟩ := h
  simp only at h1 h2 h3
  refine ⟨by rw [← h3]; simp, pre ++ [c], post, ?_, ?_, rfl⟩
  · simp [h1]
  · simp [h2]

theorem holds_append (buf : List Nat) (p len : Nat) (a b : List Nat)
    (h : holds ⟨buf, p, len⟩ (a ++ b)) :
    holds ⟨buf, p, a.length⟩ a ∧ holds ⟨buf, p + a.length, b.length⟩ b := by
  obtain ⟨pre, post, h1, h2, h3⟩ := h
  simp only at h1 h2 h3
  refine ⟨⟨pre, b ++ post, ?_, h2, rfl⟩, ⟨pre ++ a, post, ?_, ?_, rfl⟩⟩
  · simp [h1]
  · simp [h1]
  · simp [h2]

theorem holds_nil (buf : List Nat) (p : Nat) (h : p ≤ buf.length) : holds ⟨buf, p, 0⟩ [] :=
  ⟨buf.take p, buf.drop p, by simp, by simp [h], rfl⟩

/-- The inner loop of `aci_get_part` passes a field and its separator. -/
theorem aci_skip_field_holds (junk : Indeterminate) (buf : List Nat) (sep : Nat) (l : List Nat)
    (f : List Nat) :
    ∀ (p len : Nat), sep ∉ f → holds ⟨buf, p, len⟩ (f ++ sep :: l) →
      aci_skip_field junk buf sep len p = some (l.length, p + f.length + 1) := by
  induction f with
  | nil =>
    intro p len _ h
    simp only [List.nil_append] at h
    obtain ⟨hlen, _⟩ := holds_tail buf p len sep l h
    rw [hlen, aci_skip_field, holds_head junk buf p len sep l h]
    simp
  | cons c cs ih =>
    intro p len hs h
    have hc : c ≠ sep := fun hc => hs (by rw [hc]; exact List.mem_cons_self _ _)
    have hcs : sep ∉ cs := fun hh => hs (List.mem_cons_of_mem _ hh)
    rw [List.cons_append] at h
    obtain ⟨hlen, ht⟩ := holds_tail buf p len c _ h
    rw [hlen, aci_skip_field, holds_head junk buf p len c _ h, if_pos hc, ih (p + 1) _ hcs ht]
    simp only [List.length_cons, Option.some.injEq, Prod.mk.injEq, true_and]
    omega

/-- The inner loop of `aci_get_part` runs out on a last field. -/
theorem aci_skip_field_last (junk : Indeterminate) (buf : List Nat) (sep : Nat) (f : List Nat) :
    ∀ (p len : Nat), sep ∉ f → holds ⟨buf, p, len⟩ f →
      aci_skip_field junk buf sep len p = none := by
  induction f with
  | nil =>
    intro p len _ h
    have := holds_len _ _ h
    simp only [List.length_nil] at this
    rw [this, aci_skip_field]
  | cons c cs ih =>
    intro p len hs h
    have hc : c ≠ sep := fun hc => hs (by rw [hc]; exact List.mem_cons_self _ _)
    have hcs : sep ∉ cs := fun hh => hs (List.mem_cons_of_mem _ hh)
    obtain ⟨hlen, ht⟩ := holds_tail buf p len c _ h
    rw [hlen, aci_skip_field, holds_head junk buf p len c _ h, if_pos hc, ih (p + 1) _ hcs ht]

/-- The outer loop of `aci_get_part` passes `ix` fields of a joined list. -/
theorem aci_skip_fields_holds (junk : Indeterminate) (buf : List Nat) (sep : Nat) :
    ∀ (ix : Nat) (fields : List (List Nat)) (p len : Nat), (∀ f ∈ fields, sep ∉ f) →
      holds ⟨buf, p, len⟩ (joined sep fields) → ix < fields.length →
      ∃ p', aci_skip_fields junk buf sep ix len p
          = some ((joined sep (fields.drop ix)).length, p') ∧
        holds ⟨buf, p', (joined sep (fields.drop ix)).length⟩ (joined sep (fields.drop ix)) := by
  intro ix
  induction ix with
  | zero =>
    intro fields p len _ h _
    have hl := holds_len _ _ h
    simp only at hl
    refine ⟨p, ?_, ?_⟩
    · rw [aci_skip_fields, List.drop_zero, hl]
    · rw [List.drop_zero, ← hl]; exact h
  | succ ix ih =>
    intro fields p len hs h hix
    match fields, hs, h, hix with
    | [], _, _, hix => simp at hix
    | [f], _, _, hix => simp at hix
    | f :: g :: fs, hs, h, hix =>
      rw [joined] at h
      have hf : sep ∉ f := hs f (List.mem_cons_self _ _)
      have hsk := aci_skip_field_holds junk buf sep (joined sep (g :: fs)) f p len hf h
      have hh := (holds_append buf p len f (sep :: joined sep (g :: fs)) h).2
      have hh2 := (holds_tail buf (p + f.length) _ sep _ hh).2
      obtain ⟨p', h1, h2⟩ := ih (g :: fs) (p + f.length + 1) _
        (fun f' hf' => hs f' (List.mem_cons_of_mem _ hf')) hh2
        (by simp only [List.length_cons] at hix ⊢; omega)
      refine ⟨p', ?_, ?_⟩
      · rw [aci_skip_fields, hsk]
        simpa using h1
      · simpa using h2

/-- The outer loop of `aci_get_part` fails beyond the last field. -/
theorem aci_skip_fields_beyond (junk : Indeterminate) (buf : List Nat) (sep : Nat) :
    ∀ (ix : Nat) (fields : List (List Nat)) (p len : Nat), (∀ f ∈ fields, sep ∉ f) →
      holds ⟨buf, p, len⟩ (joined sep fields) → fields ≠ [] → fields.length ≤ ix →
      aci_skip_fields junk buf sep ix len p = none := by
  intro ix
  induction ix with
  | zero =>
    intro fields p len _ _ hne hix
    cases fields with
    | nil => exact absurd rfl hne
    | cons f fs => simp at hix
  | succ ix ih =>
    intro fields p len hs h hne hix
    match fields, hs, h, hne, hix with
    | [], _, _, hne, _ => exact absurd rfl hne
    | [f], hs, h, _, _ =>
      rw [joined] at h
      rw [aci_skip_fields, aci_skip_field_last junk buf sep f p len
        (hs f (List.mem_cons_self _ _)) h]
    | f :: g :: fs, hs, h, _, hix =>
      rw [joined] at h
      have hf : sep ∉ f := hs f (List.mem_cons_self _ _)
      have hsk := aci_skip_field_holds junk buf sep (joined sep (g :: fs)) f p len hf h
      have hh := (holds_append buf p len f (sep :: joined sep (g :: fs)) h).2
      have hh2 := (holds_tail buf (p + f.length) _ sep _ hh).2
      rw [aci_skip_fields, hsk]
      exact ih (g :: fs) (p + f.length + 1) _
        (fun f' hf' => hs f' (List.mem_cons_of_mem _ hf')) hh2 (by simp)
        (by simp only [List.length_cons] at hix ⊢; omega)

/-- The loop of `aci_get_part` that measures a field stops at its end. -/
theorem aci_field_len_holds (junk : Indeterminate) (buf : List Nat) (sep : Nat) (rest : List Nat)
    (hrest : rest = [] ∨ ∃ l, rest = sep :: l) (f : List Nat) :
    ∀ (p len : Nat), sep ∉ f → holds ⟨buf, p, len⟩ (f ++ rest) →
      aci_field_len junk buf sep len p = f.length := by
  induction f with
  | nil =>
    intro p len _ h
    simp only [List.nil_append] at h
    rcases hrest with hr | ⟨l, hr⟩
    · subst hr
      have := holds_len _ _ h
      simp only [List.length_nil] at this
      rw [this, aci_field_len]
      rfl
    · subst hr
      obtain ⟨hlen, _⟩ := holds_tail buf p len sep l h
      rw [hlen, aci_field_len, holds_head junk buf p len sep l h]
      simp
  | cons c cs ih =>
    intro p len hs h
    have hc : c ≠ sep := fun hc => hs (by rw [hc]; exact List.mem_cons_self _ _)
    have hcs : sep ∉ cs := fun hh => hs (List.mem_cons_of_mem _ hh)
    rw [List.cons_append] at h
    obtain ⟨hlen, ht⟩ := holds_tail buf p len c _ h
    rw [hlen, aci_field_len, holds_head junk buf p len c _ h, if_pos hc, ih (p + 1) _ hcs ht]
    rfl

/-- A joined list from its first field. -/
theorem joined_cons (sep : Nat) (f : List Nat) (fs : List (List Nat)) :
    ∃ rest, joined sep (f :: fs) = f ++ rest ∧ (rest = [] ∨ ∃ l, rest = sep :: l) := by
  cases fs with
  | nil => exact ⟨[], by simp [joined], Or.inl rfl⟩
  | cons g gs => exact ⟨sep :: joined sep (g :: gs), by rw [joined], Or.inr ⟨_, rfl⟩⟩

/-- The function `aci_get_part` on a slice that holds joined fields, each not
empty and free of the separator and of the space: the field of index `ix` is
returned as a slice of the buffer, and an index beyond the last field gives -1. -/
theorem aci_get_part_joined (junk : Indeterminate) (s : bvslice) (sep : Nat)
    (fields : List (List Nat)) (hs : holds s (joined sep fields))
    (hf : ∀ f ∈ fields, f ≠ [] ∧ sep ∉ f ∧ 32 ∉ f) (ix : Nat) :
    (∀ f, fields[ix]? = some f →
      ∃ off, aci_get_part junk s (ix : Int) sep true = ((f.length : Int), ⟨s.buf, off, f.length⟩) ∧
        holds ⟨s.buf, off, f.length⟩ f) ∧
    (fields ≠ [] → fields.length ≤ ix → (aci_get_part junk s (ix : Int) sep true).1 = -1) := by
  have hsep : ∀ f ∈ fields, sep ∉ f := fun f h => (hf f h).2.1
  obtain ⟨buf, off0, len0⟩ := s
  constructor
  · intro f hfix
    have hix : ix < fields.length := by
      by_contra hge
      rw [List.getElem?_eq_none (by omega)] at hfix
      cases hfix
    obtain ⟨p', h1, h2⟩ := aci_skip_fields_holds junk buf sep ix fields off0 len0 hsep hs hix
    have hdrop : fields.drop ix = f :: fields.drop (ix + 1) := by
      rw [List.drop_eq_getElem_cons hix]
      congr 1
      rw [List.getElem?_eq_getElem hix] at hfix
      exact Option.some.inj hfix
    have hmem : f ∈ fields := by
      rw [List.getElem?_eq_getElem hix] at hfix
      rw [← Option.some.inj hfix]
      exact List.getElem_mem _
    obtain ⟨hne, hfs, hsp⟩ := hf f hmem
    rw [hdrop] at h1 h2
    obtain ⟨rest, hj, hrest⟩ := joined_cons sep f (fields.drop (ix + 1))
    rw [hj] at h1 h2
    obtain ⟨c, cs, hfc⟩ := List.exists_cons_of_ne_nil hne
    have hc32 : c ≠ 32 := fun h => hsp (by rw [hfc, h]; exact List.mem_cons_self _ _)
    have hhead : char_at junk buf (p' : Int) = c := by
      have hh := h2
      rw [hfc, List.cons_append] at hh
      exact holds_head junk buf p' _ c _ hh
    have hlen1 : (f ++ rest).length = (cs ++ rest).length + 1 := by
      rw [hfc]; simp
    have hspaces : aci_skip_spaces junk buf (f ++ rest).length p' = some ((f ++ rest).length, p') := by
      rw [hlen1, aci_skip_spaces, hhead, if_neg hc32]
    have hfl := aci_field_len_holds junk buf sep rest hrest f p' _ hfs h2
    have hlast : char_at junk buf ((p' + (f.length - 1) : Nat) : Int) ≠ 32 := by
      have hlt : f.length - 1 < (f ++ rest).length := by
        rw [List.length_append]
        have : 0 < f.length := List.length_pos.mpr hne
        omega
      rw [holds_char junk buf p' _ (f ++ rest) h2 (f.length - 1) hlt]
      have hpos : 0 < f.length := List.length_pos.mpr hne
      rw [List.getElem_append_left (by omega)]
      intro h32
      exact hsp (h32 ▸ List.getElem_mem _)
    have htrim : aci_trim junk buf p' f.length = f.length := by
      have hpos : 0 < f.length := List.length_pos.mpr hne
      obtain ⟨n, hn⟩ : ∃ n, f.length = n + 1 := ⟨f.length - 1, by omega⟩
      rw [hn] at hlast ⊢
      simp only [Nat.add_sub_cancel] at hlast
      rw [aci_trim, if_neg hlast]
    refine ⟨p', ?_, (holds_append buf p' _ f rest h2).1⟩
    unfold aci_get_part
    simp only [Int.toNat_ofNat, h1, hspaces, hfl, htrim, Bool.not_true, Bool.false_eq_true,
      if_false]
  · intro hne hge
    have := aci_skip_fields_beyond junk buf sep ix fields off0 len0 hsep hs hne hge
    unfold aci_get_part
    simp only [Int.toNat_ofNat, this]

/-! ### Permission lists -/

theorem mem_joined (sep : Nat) (c : Nat) :
    ∀ (fs : List (List Nat)), c ∈ joined sep fs → c = sep ∨ ∃ f ∈ fs, c ∈ f
  | [], h => by simp [joined] at h
  | [f], h => by
    rw [joined] at h
    exact Or.inr ⟨f, List.mem_cons_self _ _, h⟩
  | f :: g :: fs, h => by
    rw [joined, List.mem_append, List.mem_cons] at h
    rcases h with h | h | h
    · exact Or.inr ⟨f, List.mem_cons_self _ _, h⟩
    · exact Or.inl h
    · rcases mem_joined sep c (g :: fs) h with h | ⟨f', hf', hc⟩
      · exact Or.inl h
      · exact Or.inr ⟨f', List.mem_cons_of_mem _ hf', hc⟩

theorem joined_ne_nil (sep : Nat) (f : List Nat) (fs : List (List Nat)) (hf : f ≠ []) :
    joined sep (f :: fs) ≠ [] := by
  obtain ⟨rest, hj, _⟩ := joined_cons sep f fs
  rw [hj]
  intro h
  exact hf (List.append_eq_nil.mp h).1

theorem joined_length (sep : Nat) :
    ∀ (fs : List (List Nat)), (∀ f ∈ fs, f ≠ []) → fs.length ≤ (joined sep fs).length
  | [], _ => by simp [joined]
  | [f], h => by
    have : 0 < f.length := List.length_pos.mpr (h f (List.mem_cons_self _ _))
    simp only [joined, List.length_singleton]
    omega
  | f :: g :: fs, h => by
    have ih := joined_length sep (g :: fs) (fun f' hf' => h f' (List.mem_cons_of_mem _ hf'))
    rw [joined, List.length_append, List.length_cons]
    simp only [List.length_cons] at ih ⊢
    omega

theorem aci_word_spec (w : List Nat) (h : aci_word w = true) :
    w ≠ [] ∧ ∀ c ∈ w, c ≠ 32 ∧ c ≠ 44 ∧ c ≠ 59 ∧ c ≠ 36 ∧ c ≠ 61 := by
  simp only [aci_word, Bool.and_eq_true, Bool.not_eq_true', List.isEmpty_eq_false,
    List.all_eq_true, decide_eq_true_eq] at h
  exact ⟨h.1, h.2⟩

/-- What `aci_get_part` needs of words joined by a separator among `,` and `=`. -/
theorem words_fields (sep : Nat) (hsep : sep = 44 ∨ sep = 61) (ws : List (List Nat))
    (hw : ∀ w ∈ ws, aci_word w = true) : ∀ f ∈ ws, f ≠ [] ∧ sep ∉ f ∧ 32 ∉ f := by
  intro f hf
  obtain ⟨h1, h2⟩ := aci_word_spec f (hw f hf)
  refine ⟨h1, ?_, fun h => (h2 32 h).1 rfl⟩
  intro h
  rcases hsep with hs | hs
  · rw [hs] at h; exact (h2 44 h).2.1 rfl
  · rw [hs] at h; exact (h2 61 h).2.2.2.2 rfl

/-- Words joined by commas form a field free of the space, of `;` and of `$`. -/
theorem joined_words (ws : List (List Nat)) (hne : ws ≠ []) (hw : ∀ w ∈ ws, aci_word w = true) :
    joined 44 ws ≠ [] ∧ 59 ∉ joined 44 ws ∧ 36 ∉ joined 44 ws ∧ 32 ∉ joined 44 ws := by
  obtain ⟨w, ws', rfl⟩ := List.exists_cons_of_ne_nil hne
  refine ⟨joined_ne_nil 44 w ws' (aci_word_spec w (hw w (List.mem_cons_self _ _))).1, ?_, ?_, ?_⟩
  · intro h
    rcases mem_joined 44 59 _ h with h | ⟨f, hf, hc⟩
    · cases h
    · exact ((aci_word_spec f (hw f hf)).2 59 hc).2.2.1 rfl
  · intro h
    rcases mem_joined 44 36 _ h with h | ⟨f, hf, hc⟩
    · cases h
    · exact ((aci_word_spec f (hw f hf)).2 36 hc).2.2.2.1 rfl
  · intro h
    rcases mem_joined 44 32 _ h with h | ⟨f, hf, hc⟩
    · cases h
    · exact ((aci_word_spec f (hw f hf)).2 32 hc).1 rfl

theorem right_step (c : Nat) (cs : List Nat) (mask : slap_access_t) :
    (if c = 99 then ACL_PRIV_SET mask ACL_PRIV_COMPARE
      else if c = 115 then ACL_PRIV_SET mask ACL_PRIV_SEARCH
      else if c = 114 then ACL_PRIV_SET mask ACL_PRIV_READ
      else if c = 119 then ACL_PRIV_SET mask ACL_PRIV_WRITE
      else if c = 120 then ACL_PRIV_SET mask ACL_PRIV_AUTH
      else mask) = mask ||| right_of (c :: cs) := by
  unfold right_of ACL_PRIV_SET
  simp only [List.head?_cons, Option.some.injEq]
  split_ifs <;> simp

/-- The loop of `aci_list_map_rights` on a rights list. -/
theorem aci_list_map_rights_loop_words (junk : Indeterminate) (s : bvslice)
    (ws : List (List Nat)) (hs : holds s (joined 44 ws)) (hne : ws ≠ [])
    (hw : ∀ w ∈ ws, aci_word w = true) :
    ∀ (fuel i : Nat) (mask : slap_access_t), i ≤ ws.length → ws.length - i < fuel →
      aci_list_map_rights_loop junk s fuel i mask =
        (ws.drop i).foldl (fun m w => m ||| right_of w) mask := by
  have hP := aci_get_part_joined junk s 44 ws hs (words_fields 44 (Or.inl rfl) ws hw)
  intro fuel
  induction fuel with
  | zero => intro i mask _ h; omega
  | succ fuel ih =>
    intro i mask hi hfuel
    rw [aci_list_map_rights_loop]
    by_cases hlt : i < ws.length
    · obtain ⟨off, hpart, hholds⟩ := (hP i).1 ws[i] (List.getElem?_eq_getElem hlt)
      obtain ⟨hwne, _⟩ := aci_word_spec ws[i] (hw _ (List.getElem_mem _))
      obtain ⟨c, cs, hc⟩ := List.exists_cons_of_ne_nil hwne
      have hpos : 0 < (ws[i]).length := List.length_pos.mpr hwne
      have hhead : char_at junk s.buf (off : Int) = c := by
        have hh := hholds
        rw [hc] at hh
        exact holds_head junk s.buf off _ c cs hh
      simp only [hpart]
      rw [if_neg (by omega), if_neg (by omega), hhead, right_step c cs mask,
        ih (i + 1) _ (by omega) (by omega), List.drop_eq_getElem_cons hlt, List.foldl_cons, hc]
    · have hge : ws.length ≤ i := by omega
      have hm := (hP i).2 hne hge
      simp only [hm]
      rw [if_pos (by decide), List.drop_eq_nil_of_le hge]
      rfl

/-- The function `aci_list_map_rights` on a rights list: NONE and the OR of
the rights. -/
theorem aci_list_map_rights_words (junk : Indeterminate) (s : bvslice)
    (ws : List (List Nat)) (hs : holds s (joined 44 ws)) (hne : ws ≠ [])
    (hw : ∀ w ∈ ws, aci_word w = true) :
    aci_list_map_rights junk s = ws.foldl (fun m w => m ||| right_of w) ACL_PRIV_NONE := by
  have hl := joined_length 44 ws (fun f hf => (aci_word_spec f (hw f hf)).1)
  rw [← holds_len s _ hs] at hl
  unfold aci_list_map_rights
  rw [aci_list_map_rights_loop_words junk s ws hs hne hw _ 0 _ (Nat.zero_le _) (by omega),
    List.drop_zero]

/-- The body of the loop of `aci_list_has_attr` on a word: the word is
compared with the attribute name. -/
theorem aci_list_has_attr_part_word (junk : Indeterminate) (b : bvslice) (a : List Nat)
    (hb : holds b a) (ha : aci_word a = true) (attr : berval) (val : Option berval) :
    aci_list_has_attr_part junk b attr val = strcaseeq attr.str a := by
  have hjoin : joined 61 [a] = a := rfl
  have hP := aci_get_part_joined junk b 61 [a] (by rw [hjoin]; exact hb)
    (words_fields 61 (Or.inr rfl) [a] (fun w hw => by
      rw [List.mem_singleton] at hw; rw [hw]; exact ha))
  have h1 := (hP 1).2 (by simp) (by simp)
  unfold aci_list_has_attr_part
  simp only [Nat.cast_one] at h1
  simp only [h1]
  rw [holds_str b a hb]
  simp

/-- The loop of `aci_list_has_attr` on an attribute list. -/
theorem aci_list_has_attr_loop_words (junk : Indeterminate) (s : bvslice)
    (ws : List (List Nat)) (hs : holds s (joined 44 ws)) (hne : ws ≠ [])
    (hw : ∀ w ∈ ws, aci_word w = true) (attr : berval) (val : Option berval) :
    ∀ (fuel i : Nat), i ≤ ws.length → ws.length - i < fuel →
      aci_list_has_attr_loop junk s attr val fuel i =
        if (ws.drop i).any (fun a => strcaseeq attr.str a) then 1 else 0 := by
  have hP := aci_get_part_joined junk s 44 ws hs (words_fields 44 (Or.inl rfl) ws hw)
  intro fuel
  induction fuel with
  | zero => intro i _ h; omega
  | succ fuel ih =>
    intro i hi hfuel
    rw [aci_list_has_attr_loop]
    by_cases hlt : i < ws.length
    · obtain ⟨off, hpart, hholds⟩ := (hP i).1 ws[i] (List.getElem?_eq_getElem hlt)
      have hpw := aci_list_has_attr_part_word junk ⟨s.buf, off, (ws[i]).length⟩ ws[i] hholds
        (hw _ (List.getElem_mem _)) attr val
      simp only [hpart, hpw]
      rw [if_neg (by omega), List.drop_eq_getElem_cons hlt, List.any_cons]
      cases hcmp : strcaseeq attr.str ws[i] with
      | true => simp
      | false =>
        simp only [Bool.false_eq_true, if_false, Bool.false_or]
        exact ih (i + 1) (by omega) (by omega)
    · have hge : ws.length ≤ i := by omega
      have hm := (hP i).2 hne hge
      simp only [hm]
      rw [if_pos (by decide), List.drop_eq_nil_of_le hge]
      rfl

/-- The function `aci_list_has_attr` on an attribute list. -/
theorem aci_list_has_attr_words (junk : Indeterminate) (s : bvslice)
    (ws : List (List Nat)) (hs : holds s (joined 44 ws)) (hne : ws ≠ [])
    (hw : ∀ w ∈ ws, aci_word w = true) (attr : berval) (val : Option berval) :
    aci_list_has_attr junk s attr val =
      if ws.any (fun a => strcaseeq attr.str a) then 1 else 0 := by
  have hl := joined_length 44 ws (fun f hf => (aci_word_spec f (hw f hf)).1)
  rw [← holds_len s _ hs] at hl
  unfold aci_list_has_attr
  rw [aci_list_has_attr_loop_words junk s ws hs hne hw attr val _ 0 (Nat.zero_le _) (by omega),
    List.drop_zero]

/-- The fields of an element by their index: rights at the odd places, attribute
lists at the even ones. -/
theorem pairs_fields_index (action : List Nat) :
    ∀ (pairs : List AciPair),
      (action :: pairs_fields pairs).length = 2 * pairs.length + 1 ∧
      ∀ (k : Nat) (hk : k < pairs.length),
        (action :: pairs_fields pairs)[2 * k + 1]? = some (joined 44 pairs[k].rights) ∧
        (action :: pairs_fields pairs)[2 * k + 2]? = some (joined 44 pairs[k].attrs)
  | [] => by simp [pairs_fields]
  | p :: ps => by
    obtain ⟨ih1, ih2⟩ := pairs_fields_index (joined 44 p.attrs) ps
    constructor
    · simp only [List.length_cons] at ih1 ⊢
      rw [pairs_fields]
      simp only [List.length_cons]
      omega
    · intro k hk
      cases k with
      | zero => simp [pairs_fields]
      | succ k =>
        have hk' : k < ps.length := by simpa using hk
        obtain ⟨h1, h2⟩ := ih2 k hk'
        have e1 : 2 * (k + 1) + 1 = (2 * k + 1) + 2 := by omega
        have e2 : 2 * (k + 1) + 2 = (2 * k + 2) + 2 := by omega
        rw [e1, e2, pairs_fields]
        simp only [List.getElem?_cons_succ, List.getElem_cons_succ] at h1 h2 ⊢
        exact ⟨h1, h2⟩

/-- The fields of a well-formed element are what `aci_get_part` needs. -/
theorem perm_fields (e : AciPerm) (he : e.ok = true) :
    ∀ f ∈ e.action :: pairs_fields e.pairs, f ≠ [] ∧ 59 ∉ f ∧ 32 ∉ f ∧ 36 ∉ f := by
  simp only [AciPerm.ok, Bool.and_eq_true, List.all_eq_true] at he
  obtain ⟨hact, hpairs⟩ := he
  have hps : ∀ (ps : List AciPair), (∀ p ∈ ps, p.ok = true) →
      ∀ f ∈ pairs_fields ps, f ≠ [] ∧ 59 ∉ f ∧ 32 ∉ f ∧ 36 ∉ f := by
    intro ps
    induction ps with
    | nil => intro _ f hf; simp [pairs_fields] at hf
    | cons p ps ih =>
      intro hok f hf
      have hp := hok p (List.mem_cons_self _ _)
      simp only [AciPair.ok, Bool.and_eq_true, Bool.not_eq_true', List.isEmpty_eq_false,
        List.all_eq_true] at hp
      obtain ⟨⟨⟨hr1, hr2⟩, ha1⟩, ha2⟩ := hp
      rw [pairs_fields, List.mem_cons, List.mem_cons] at hf
      rcases hf with hf | hf | hf
      · obtain ⟨j1, j2, j3, j4⟩ := joined_words p.rights hr1 hr2
        rw [hf]; exact ⟨j1, j2, j4, j3⟩
      · obtain ⟨j1, j2, j3, j4⟩ := joined_words p.attrs ha1 ha2
        rw [hf]; exact ⟨j1, j2, j4, j3⟩
      · exact ih (fun p' hp' => hok p' (List.mem_cons_of_mem _ hp')) f hf
  intro f hf
  rw [List.mem_cons] at hf
  rcases hf with hf | hf
  · obtain ⟨h1, h2⟩ := aci_word_spec e.action hact
    rw [hf]
    exact ⟨h1, fun h => (h2 59 h).2.2.1 rfl, fun h => (h2 32 h).1 rfl,
      fun h => (h2 36 h).2.2.2.1 rfl⟩
  · exact hps e.pairs hpairs f hf

/-- The loop of `aci_list_get_attr_rights` on a well-formed element, from the
pair of index `k`. -/
theorem aci_list_get_attr_rights_loop_perm (junk : Indeterminate) (s : bvslice) (e : AciPerm)
    (hs : holds s e.render) (he : e.ok = true) (attr : berval) (val : Option berval) :
    ∀ (fuel k : Nat) (mask : slap_access_t), k ≤ e.pairs.length → e.pairs.length - k < fuel →
      aci_list_get_attr_rights_loop junk s attr val fuel (2 * k + 1) mask =
        (e.pairs.drop k).foldl
          (fun m p => if p.names attr.str then
            m ||| p.rights.foldl (fun m w => m ||| right_of w) ACL_PRIV_NONE else m) mask := by
  have hfields := perm_fields e he
  have hP := aci_get_part_joined junk s 59 (e.action :: pairs_fields e.pairs) hs
    (fun f hf => ⟨(hfields f hf).1, (hfields f hf).2.1, (hfields f hf).2.2.1⟩)
  obtain ⟨hlen, hidx⟩ := pairs_fields_index e.action e.pairs
  have hpok : ∀ p ∈ e.pairs, p.ok = true := by
    simp only [AciPerm.ok, Bool.and_eq_true, List.all_eq_true] at he
    exact he.2
  intro fuel
  induction fuel with
  | zero => intro k mask _ h; omega
  | succ fuel ih =>
    intro k mask hk hfuel
    have hcast : ((2 * k + 1 : Nat) : Int) + 1 = ((2 * k + 2 : Nat) : Int) := by
      push_cast; ring
    have hnext : 2 * k + 1 + 2 = 2 * (k + 1) + 1 := by omega
    rw [aci_list_get_attr_rights_loop]
    simp only [hcast, hnext]
    by_cases hlt : k < e.pairs.length
    · obtain ⟨hr, ha⟩ := hidx k hlt
      obtain ⟨offa, hparta, hholdsa⟩ := (hP (2 * k + 2)).1 _ ha
      obtain ⟨offr, hpartr, hholdsr⟩ := (hP (2 * k + 1)).1 _ hr
      have hp := hpok _ (List.getElem_mem hlt)
      simp only [AciPair.ok, Bool.and_eq_true, Bool.not_eq_true', List.isEmpty_eq_false,
        List.all_eq_true] at hp
      obtain ⟨⟨⟨hr1, hr2⟩, ha1⟩, ha2⟩ := hp
      have hhas := aci_list_has_attr_words junk _ _ hholdsa ha1 ha2 attr val
      have hmap := aci_list_map_rights_words junk _ _ hholdsr hr1 hr2
      simp only [hparta, hpartr, hhas, hmap]
      rw [if_neg (by omega), List.drop_eq_getElem_cons hlt, List.foldl_cons]
      cases hn : (e.pairs[k]).names attr.str with
      | true =>
        have hn' : (e.pairs[k]).attrs.any (fun a => strcaseeq attr.str a) = true := hn
        simp only [hn', if_true, one_ne_zero, if_false]
        rw [if_neg (by omega)]
        exact ih (k + 1) _ (by omega) (by omega)
      | false =>
        have hn' : (e.pairs[k]).attrs.any (fun a => strcaseeq attr.str a) = false := hn
        simp only [hn', Bool.false_eq_true, if_false, if_true]
        exact ih (k + 1) _ (by omega) (by omega)
    · have hge : (e.action :: pairs_fields e.pairs).length ≤ 2 * k + 2 := by omega
      have hm := (hP (2 * k + 2)).2 (by simp) hge
      simp only [hm]
      rw [if_pos (by decide), List.drop_eq_nil_of_le (by omega)]
      rfl

/-- The function `aci_list_get_attr_rights` on a well-formed element: NONE and
the rights of the pairs whose attribute list names the attribute. -/
theorem aci_list_get_attr_rights_perm (junk : Indeterminate) (s : bvslice) (e : AciPerm)
    (hs : holds s e.render) (he : e.ok = true) (attr : berval) (val : Option berval) :
    aci_list_get_attr_rights junk s attr val =
      e.pairs.foldl
        (fun m p => if p.names attr.str then
          m ||| p.rights.foldl (fun m w => m ||| right_of w) ACL_PRIV_NONE else m)
        ACL_PRIV_NONE := by
  have hfields := perm_fields e he
  have hl := joined_length 59 (e.action :: pairs_fields e.pairs) (fun f hf => (hfields f hf).1)
  obtain ⟨hlen, _⟩ := pairs_fields_index e.action e.pairs
  have hsl := holds_len s _ hs
  unfold AciPerm.render at hsl
  unfold aci_list_get_attr_rights
  have h := aci_list_get_attr_rights_loop_perm junk s e hs he attr val (s.len + 2) 0 ACL_PRIV_NONE
    (Nat.zero_le _) (by omega)
  simpa using h

/-- The bytes of a well-formed element are what `aci_get_part` needs of a
field between `$`. -/
theorem render_fields (es : List AciPerm) (hok : ∀ e ∈ es, e.ok = true) :
    ∀ f ∈ es.map AciPerm.render, f ≠ [] ∧ 36 ∉ f ∧ 32 ∉ f := by
  intro f hf
  obtain ⟨e, he, rfl⟩ := List.mem_map.mp hf
  have hfields := perm_fields e (hok e he)
  refine ⟨joined_ne_nil 59 e.action _ (hfields _ (List.mem_cons_self _ _)).1, ?_, ?_⟩
  · intro h
    rcases mem_joined 59 36 _ h with h | ⟨f, hf, hc⟩
    · cases h
    · exact (hfields f hf).2.2.2 hc
  · intro h
    rcases mem_joined 59 32 _ h with h | ⟨f, hf, hc⟩
    · cases h
    · exact (hfields f hf).2.2.1 hc

theorem foldl_or_testBit {α : Type} (P : α → Bool) (g : α → Nat) (k : Nat) :
    ∀ (l : List α) (init : Nat),
      (l.foldl (fun m x => if P x then m ||| g x else m) init).testBit k =
        (init.testBit k || l.any (fun x => P x && (g x).testBit k)) := by
  intro l
  induction l with
  | nil => intro init; simp
  | cons x xs ih =>
    intro init
    rw [List.foldl_cons, ih, List.any_cons]
    cases hP : P x with
    | true => simp [Nat.testBit_or, Bool.or_assoc]
    | false => simp

theorem foldl_or_all_testBit {α : Type} (g : α → Nat) (k : Nat) (l : List α) (init : Nat) :
    (l.foldl (fun m x => m ||| g x) init).testBit k =
      (init.testBit k || l.any (fun x => (g x).testBit k)) := by
  have h := foldl_or_testBit (fun _ => true) g k l init
  simpa using h

theorem priv_none_testBit (k : Nat) : ACL_PRIV_NONE.testBit k = decide (k = 0) := by
  have h : ACL_PRIV_NONE = 2 ^ 0 := by decide
  rw [h, Nat.testBit_two_pow]
  cases k <;> simp

theorem any_or_and {α : Type} (f g h : α → Bool) (l : List α) :
    l.any (fun x => (f x || g x) && h x) =
      (l.any (fun x => f x && h x) || l.any (fun x => g x && h x)) := by
  induction l with
  | nil => rfl
  | cons x xs ih =>
    simp only [List.any_cons, ih]
    cases f x <;> cases g x <;> cases h x <;> simp [Bool.or_comm, Bool.or_left_comm]

/-- What the two calls of `aci_list_get_attr_rights` give together for an
element: NONE and the rights of the pairs that name the attribute or `[all]`. -/
theorem perm_rights_or (e : AciPerm) (attr : List Nat) :
    (e.pairs.foldl (fun m p => if p.names attr then
        m ||| p.rights.foldl (fun m w => m ||| right_of w) ACL_PRIV_NONE else m) ACL_PRIV_NONE |||
      e.pairs.foldl (fun m p => if p.names (bytes "[all]") then
        m ||| p.rights.foldl (fun m w => m ||| right_of w) ACL_PRIV_NONE else m) ACL_PRIV_NONE) =
      ACL_PRIV_NONE ||| e.rights_for attr := by
  apply Nat.eq_of_testBit_eq
  intro k
  unfold AciPerm.rights_for rights_of
  simp only [Nat.testBit_or, foldl_or_testBit, foldl_or_all_testBit, priv_none_testBit,
    Nat.zero_testBit, Bool.false_or, any_or_and]
  by_cases hk : k = 0
  · simp [hk]
  · simp [hk]

theorem grant_not_deny (a : List Nat) (h : strcaseeq (bytes "grant") a = true) :
    strcaseeq (bytes "deny") a = false := by
  unfold strcaseeq at h ⊢
  rw [beq_iff_eq] at h
  rw [← h]
  decide

/-- The loop of `aci_list_get_rights` on a well-formed permissions list, from
the element of index `i`. -/
theorem aci_list_get_rights_loop_perms (junk : Indeterminate) (s : bvslice) (es : List AciPerm)
    (hs : holds s (render_perms es)) (hne : es ≠ []) (hok : ∀ e ∈ es, e.ok = true)
    (attr : berval) (val : Option berval) :
    ∀ (fuel i : Nat) (found : Int) (grant deny : slap_access_t), i ≤ es.length →
      es.length - i < fuel →
      aci_list_get_rights_loop junk s attr val fuel i (found, grant, deny) =
        (if (es.drop i).any (fun e => strcaseeq (bytes "grant") e.action ||
            strcaseeq (bytes "deny") e.action) then 1 else found,
          (es.drop i).foldl (fun m e => if strcaseeq (bytes "grant") e.action then
            m ||| (ACL_PRIV_NONE ||| e.rights_for attr.str) else m) grant,
          (es.drop i).foldl (fun m e => if strcaseeq (bytes "deny") e.action then
            m ||| (ACL_PRIV_NONE ||| e.rights_for attr.str) else m) deny) := by
  have hP := aci_get_part_joined junk s 36 (es.map AciPerm.render) hs (render_fields es hok)
  intro fuel
  induction fuel with
  | zero => intro i found grant deny _ h; omega
  | succ fuel ih =>
    intro i found grant deny hi hfuel
    rw [aci_list_get_rights_loop]
    by_cases hlt : i < es.length
    · have hget : (es.map AciPerm.render)[i]? = some (es[i]).render := by
        rw [List.getElem?_map, List.getElem?_eq_getElem hlt]
        rfl
      obtain ⟨off, hpart, hholds⟩ := (hP i).1 _ hget
      have he := hok _ (List.getElem_mem hlt)
      have hfields := perm_fields es[i] he
      have hPe := aci_get_part_joined junk ⟨s.buf, off, (es[i]).render.length⟩ 59
        ((es[i]).action :: pairs_fields (es[i]).pairs) hholds
        (fun f hf => ⟨(hfields f hf).1, (hfields f hf).2.1, (hfields f hf).2.2.1⟩)
      obtain ⟨offa, hact, hholdsact⟩ := (hPe 0).1 (es[i]).action (by simp)
      simp only [Nat.cast_zero] at hact
      have hstr := holds_str _ _ hholdsact
      have h1 := aci_list_get_attr_rights_perm junk _ es[i] hholds he attr val
      have h2 := aci_list_get_attr_rights_perm junk _ es[i] hholds he (BER_BVC "[all]") none
      have hall : (BER_BVC "[all]").str = bytes "[all]" := rfl
      rw [hall] at h2
      simp only [hpart, hact, hstr, h1, h2, perm_rights_or]
      rw [if_neg (by omega), if_neg (by omega), List.drop_eq_getElem_cons hlt, List.any_cons,
        List.foldl_cons, List.foldl_cons]
      cases hg : strcaseeq (bytes "grant") (es[i]).action with
      | true =>
        have hd := grant_not_deny _ hg
        simp only [if_true, hd, Bool.false_eq_true, if_false, Bool.true_or]
        rw [ih (i + 1) _ _ _ (by omega) (by omega)]
        simp
      | false =>
        cases hd : strcaseeq (bytes "deny") (es[i]).action with
        | true =>
          simp only [Bool.false_eq_true, if_false, if_true, Bool.or_true, Bool.true_or]
          rw [ih (i + 1) _ _ _ (by omega) (by omega)]
          simp
        | false =>
          simp only [Bool.false_eq_true, if_false, Bool.or_self, Bool.false_or]
          exact ih (i + 1) _ _ _ (by omega) (by omega)
    · have hge : (es.map AciPerm.render).length ≤ i := by
        rw [List.length_map]; omega
      have hm := (hP i).2 (by simpa using hne) hge
      simp only [hm]
      rw [if_pos (by decide), List.drop_eq_nil_of_le (by omega)]
      simp

theorem or_fold_none (P : AciPerm → Bool) (g : AciPerm → Nat) (es : List AciPerm) :
    es.foldl (fun m e => if P e then m ||| (ACL_PRIV_NONE ||| g e) else m) ACL_PRIV_NONE =
      ACL_PRIV_NONE ||| es.foldl (fun m e => if P e then m ||| g e else m) 0 := by
  apply Nat.eq_of_testBit_eq
  intro k
  simp only [Nat.testBit_or, foldl_or_testBit, priv_none_testBit, Nat.zero_testBit,
    Bool.false_or]
  by_cases hk : k = 0
  · simp [hk]
  · simp [hk]

theorem aci_attr_name_str (attr : Option berval) :
    (match attr with
      | none => BER_BVC "[entry]"
      | some at_ =>
        if at_.bv_len = 0 || strcaseeq at_.str (bytes "entry") then BER_BVC "[entry]"
        else at_).str = aci_attr_name attr := by
  unfold aci_attr_name
  cases attr with
  | none => rfl
  | some at_ =>
    simp only
    split_ifs <;> rfl

/-- C28: on a well-formed permissions list (elements `action;rights;attr;...`
separated by `$`, rights and attribute lists separated by `,`, every word free
of spaces and `=`), `aci_list_get_rights` leaves in `*grant` the mask NONE
ORed with the rights (`c` COMPARE, `s` SEARCH, `r` READ, `w` WRITE, `x` AUTH)
of every rights/attr pair of a `grant` element whose attribute list names the
requested attribute or `[all]`, and in `*deny` the same from the `deny`
elements. For `grant;r,s;[all]` this is NONE, READ and SEARCH granted and NONE
denied, and the ACI `1.1#subtree#grant;r,s;[all]#access-id#uid=a,dc=x` with the
scope ENTRY makes `aci_mask` return 1 for the requester `uid=a,dc=x`, with
SEARCH in the grant. -/
theorem aci_list_get_rights_spec (junk : Indeterminate) (pre post : List Nat)
    (es : List AciPerm) (attr : Option berval) (val : Option berval) (hne : es ≠ [])
    (hok : ∀ e ∈ es, e.ok = true) :
    aci_list_get_rights junk ⟨pre ++ render_perms es ++ post, pre.length,
        (render_perms es).length⟩ attr val =
      (if es.any (fun e => strcaseeq (bytes "grant") e.action ||
          strcaseeq (bytes "deny") e.action) then 1 else 0,
        ACL_PRIV_NONE ||| perms_rights (bytes "grant") es (aci_attr_name attr),
        ACL_PRIV_NONE ||| perms_rights (bytes "deny") es (aci_attr_name attr)) ∧
    aci_mask env0 (op_a []) (entry_aci "dc=y,dc=x" []) ad_mail none
      (BER_BVC "1.1#subtree#grant;r,s;[all]#access-id#uid=a,dc=x") 100 matches_zero 0 0
      SLAP_ACI_SCOPE_ENTRY
      = (1, ACL_PRIV_NONE ||| ACL_PRIV_READ ||| ACL_PRIV_SEARCH, ACL_PRIV_NONE) := by
  refine ⟨?_, by decide⟩
  have hs : holds ⟨pre ++ render_perms es ++ post, pre.length, (render_perms es).length⟩
      (render_perms es) := ⟨pre, post, rfl, rfl, rfl⟩
  have hl := joined_length 36 (es.map AciPerm.render)
    (fun f hf => (render_fields es hok f hf).1)
  rw [List.length_map] at hl
  unfold aci_list_get_rights
  simp only
  have hloop := aci_list_get_rights_loop_perms junk _ es hs hne hok
    (match attr with
      | none => BER_BVC "[entry]"
      | some at_ =>
        if at_.bv_len = 0 || strcaseeq at_.str (bytes "entry") then BER_BVC "[entry]"
        else at_) val ((render_perms es).length + 2) 0 0 ACL_PRIV_NONE ACL_PRIV_NONE
    (Nat.zero_le _) (by unfold render_perms; omega)
  rw [aci_attr_name_str] at hloop
  rw [hloop, List.drop_zero, or_fold_none, or_fold_none]
  rfl

theorem aci_list_get_rights_spec_witness :
    render_perms [⟨bytes "grant", [⟨[bytes "r", bytes "s"], [bytes "[all]"]⟩]⟩,
      ⟨bytes "deny", [⟨[bytes "w"], [bytes "userPassword", bytes "mail"]⟩]⟩]
      = bytes "grant;r,s;[all]$deny;w;userPassword,mail" ∧
    (aci_list_get_rights junk0 ⟨bytes "1.1#entry#" ++
        render_perms [⟨bytes "grant", [⟨[bytes "r", bytes "s"], [bytes "[all]"]⟩]⟩,
          ⟨bytes "deny", [⟨[bytes "w"], [bytes "userPassword", bytes "mail"]⟩]⟩] ++
        bytes "#public#", (bytes "1.1#entry#").length,
        (render_perms [⟨bytes "grant", [⟨[bytes "r", bytes "s"], [bytes "[all]"]⟩]⟩,
          ⟨bytes "deny", [⟨[bytes "w"], [bytes "userPassword", bytes "mail"]⟩]⟩]).length⟩
        (some (BER_BVC "mail")) none).2 =
      (ACL_PRIV_NONE ||| ACL_PRIV_READ ||| ACL_PRIV_SEARCH, ACL_PRIV_NONE ||| ACL_PRIV_WRITE) :=
  ⟨by decide,
    (congrArg Prod.snd (aci_list_get_rights_spec junk0 (bytes "1.1#entry#") (bytes "#public#")
      [⟨bytes "grant", [⟨[bytes "r", bytes "s"], [bytes "[all]"]⟩]⟩,
        ⟨bytes "deny", [⟨[bytes "w"], [bytes "userPassword", bytes "mail"]⟩]⟩]
      (some (BER_BVC "mail")) none (by decide) (by decide)).1).trans (by decide)⟩

/-! ### The modification check `acl_check_modlist` -/

/-- C31: under the policy `to attrs=mail by * =z`, which grants WRITE_DEL and
not WRITE_ADD on `mail`, the list `[REPLACE mail [m@x]]` is allowed (1),
although the evaluator denies WRITE_ADD on the value `m@x` (0) when it is asked
without the state cache of the walk, and also through a fresh cache: the check
on the value is answered from the cache with the answer recorded for WRITE_DEL.
Under `to attrs=mail by * =a` (WRITE_ADD, not WRITE_DEL) the list is denied. -/
theorem replace_allowed_without_add_right :
    acl_check_modlist env0 (op_b acl_mail_wdel) entry0
        [mod_of LDAP_MOD_REPLACE ad_mail ["m@x"]] = some 1 ∧
    ret_of (access_allowed env0 (some (op_b acl_mail_wdel)) entry0 ad_mail
        (some (BER_BVC "m@x")) ACL_WADD none) = some 0 ∧
    ret_of (access_allowed env0 (some (op_b acl_mail_wdel)) entry0 ad_mail
        (some (BER_BVC "m@x")) ACL_WADD (some ACL_STATE_INIT)) = some 0 ∧
    ret_of (access_allowed env0 (some (op_b acl_mail_wdel)) entry0 ad_mail none ACL_WDEL
        (some ACL_STATE_INIT)) = some 1 ∧
    ret_of (access_allowed env0 (some (op_b acl_mail_wdel)) entry0 ad_mail
        (some (BER_BVC "m@x")) ACL_WADD
        (state_after (access_allowed env0 (some (op_b acl_mail_wdel)) entry0 ad_mail none
          ACL_WDEL (some ACL_STATE_INIT)))) = some 1 ∧
    acl_check_modlist env0 (op_b acl_mail_wadd) entry0
        [mod_of LDAP_MOD_REPLACE ad_mail ["m@x"]] = some 0 := by
  decide

/-- C33: under the policy `to attrs=mail by * =a`, which grants WRITE_ADD and
not WRITE_DEL on `mail`, the list `[ADD mail [m@x], DELETE mail [n@x]]` is
allowed (1), although the list `[DELETE mail [n@x]]` is denied (0) and the
evaluator denies WRITE_DEL on the value `n@x`: after the ADD the check of the
DELETE is answered from the state cache. A DELETE without values, which is
checked without the cache, is denied after the same ADD. -/
theorem delete_allowed_after_add :
    acl_check_modlist env0 (op_b acl_mail_wadd) entry0
        [mod_of LDAP_MOD_ADD ad_mail ["m@x"], mod_of LDAP_MOD_DELETE ad_mail ["n@x"]] = some 1 ∧
    acl_check_modlist env0 (op_b acl_mail_wadd) entry0
        [mod_of LDAP_MOD_DELETE ad_mail ["n@x"]] = some 0 ∧
    ret_of (access_allowed env0 (some (op_b acl_mail_wadd)) entry0 ad_mail
        (some (BER_BVC "n@x")) ACL_WDEL none) = some 0 ∧
    acl_check_modlist env0 (op_b acl_mail_wadd) entry0
        [mod_of LDAP_MOD_ADD ad_mail ["m@x"], mod_bare LDAP_MOD_DELETE 0 ad_mail] = some 0 := by
  decide

/-- The loop of `acl_check_modlist` passes over a modification that is flagged
internal, is on a no-user-modification attribute or is a SOFT-ADD, with the
state cache untouched. -/
theorem acl_check_modlist_loop_skip (env : Env) (op : Operation) (e : Entry) (m : Modifications)
    (rest : List Modifications) (st : AccessControlState) (hm : mod_skipped m = true) :
    acl_check_modlist_loop env op e (m :: rest) st = acl_check_modlist_loop env op e rest st := by
  unfold mod_skipped at hm
  rw [acl_check_modlist_loop]
  by_cases h1 : m.sml_flags &&& SLAP_MOD_INTERNAL ≠ 0
  · rw [if_pos h1]
  · rw [if_neg h1]
    cases h2 : m.sml_desc.ad_type.sat_no_user_mod with
    | true => simp
    | false =>
      have h3 : m.sml_op = SLAP_MOD_SOFTADD := by
        simp only [h2, Bool.or_false, Bool.or_eq_true, bne_iff_ne, beq_iff_eq] at hm
        rcases hm with hm | hm
        · exact absurd hm h1
        · exact hm
      have ha : SLAP_MOD_SOFTADD ≠ LDAP_MOD_REPLACE := by decide
      have hb : SLAP_MOD_SOFTADD ≠ LDAP_MOD_ADD := by decide
      have hc : SLAP_MOD_SOFTADD ≠ LDAP_MOD_DELETE := by decide
      simp [h3, ha, hb, hc]

/-- The loop of `acl_check_modlist` gives the same result on a list and on the
list without the modifications it passes over. -/
theorem acl_check_modlist_loop_filter (env : Env) (op : Operation) (e : Entry) :
    ∀ (mlist : List Modifications) (st : AccessControlState),
      acl_check_modlist_loop env op e (mlist.filter (fun m => !mod_skipped m)) st =
        acl_check_modlist_loop env op e mlist st := by
  intro mlist
  induction mlist with
  | nil => intro st; rfl
  | cons m rest ih =>
    intro st
    cases hm : mod_skipped m with
    | true =>
      rw [List.filter_cons_of_neg (by simp [hm]), acl_check_modlist_loop_skip env op e m rest st hm]
      exact ih st
    | false =>
      rw [List.filter_cons_of_pos (by simp [hm])]
      rw [acl_check_modlist_loop, acl_check_modlist_loop]
      simp only [ih]

/-- C32: for a requester that is not the root of a backend with a policy list,
`acl_check_modlist` allows (1) every list made only of modifications that are
flagged internal, target a no-user-modification attribute or are SOFT-ADDs,
and gives on every list the result it gives on the list without these
modifications: they cause no call of the evaluator, no change of the state
cache and no denial. -/
theorem acl_check_modlist_skips (env : Env) (op : Operation) (e : Entry) (be : BackendDB)
    (mlist : List Modifications) (hbe : op_backend env op = some be)
    (hroot : env.be_isroot { op with o_bd := some be } = false) (hacl : be.be_acl ≠ []) :
    ((∀ m ∈ mlist, mod_skipped m = true) → acl_check_modlist env op e mlist = some 1) ∧
    acl_check_modlist env op e (mlist.filter (fun m => !mod_skipped m)) =
      acl_check_modlist env op e mlist := by
  have hne : be.be_acl.isEmpty = false := by
    cases h : be.be_acl with
    | nil => exact absurd h hacl
    | cons a l => rfl
  have hfil : acl_check_modlist env op e (mlist.filter (fun m => !mod_skipped m)) =
      acl_check_modlist env op e mlist := by
    unfold acl_check_modlist
    simp only [hbe, hroot, hne, Bool.false_eq_true, if_false]
    exact acl_check_modlist_loop_filter env _ e mlist ACL_STATE_INIT
  refine ⟨?_, hfil⟩
  intro hall
  have hnil : mlist.filter (fun m => !mod_skipped m) = [] := by
    rw [List.filter_eq_nil_iff]
    intro m hm
    simp [hall m hm]
  rw [← hfil, hnil]
  unfold acl_check_modlist
  simp only [hbe, hroot, hne, Bool.false_eq_true, if_false]
  rfl

theorem acl_check_modlist_skips_witness :
    ((∀ m ∈ [mod_bare LDAP_MOD_REPLACE SLAP_MOD_INTERNAL ad_mail,
          mod_of LDAP_MOD_ADD ad_modifyTimestamp ["1"], mod_of SLAP_MOD_SOFTADD ad_cn ["c"]],
        mod_skipped m = true) →
      acl_check_modlist env0 (op_b acl_none) entry0
        [mod_bare LDAP_MOD_REPLACE SLAP_MOD_INTERNAL ad_mail,
          mod_of LDAP_MOD_ADD ad_modifyTimestamp ["1"], mod_of SLAP_MOD_SOFTADD ad_cn ["c"]]
        = some 1) ∧
    acl_check_modlist env0 (op_b acl_none) entry0
        ([mod_bare LDAP_MOD_REPLACE SLAP_MOD_INTERNAL ad_mail,
          mod_of LDAP_MOD_ADD ad_modifyTimestamp ["1"],
          mod_of SLAP_MOD_SOFTADD ad_cn ["c"]].filter (fun m => !mod_skipped m)) =
      acl_check_modlist env0 (op_b acl_none) entry0
        [mod_bare LDAP_MOD_REPLACE SLAP_MOD_INTERNAL ad_mail,
          mod_of LDAP_MOD_ADD ad_modifyTimestamp ["1"], mod_of SLAP_MOD_SOFTADD ad_cn ["c"]] :=
  acl_check_modlist_skips env0 (op_b acl_none) entry0 (be_of acl_none) _ rfl (by decide)
    (by decide)

/-- C39: for a requester that is not the root of a backend without policy
list, `acl_check_modlist` returns whether the default level of the backend is
WRITE or above, whatever the modification list; so with a default level below
WRITE (here READ) it denies the empty list and a list of modifications it
would pass over, which it allows when the backend has a policy list (here
`to * by * none`). -/
theorem acl_check_modlist_default (env : Env) (op : Operation) (e : Entry) (be : BackendDB)
    (mlist : List Modifications) (hbe : op_backend env op = some be)
    (hroot : env.be_isroot { op with o_bd := some be } = false) (hacl : be.be_acl = []) :
    acl_check_modlist env op e mlist = some (if be.be_dfltaccess ≥ ACL_WRITE then 1 else 0) ∧
    acl_check_modlist env0 (op_of be_dflt_read "uid=b,dc=x" false) entry0 [] = some 0 ∧
    acl_check_modlist env0 (op_of be_dflt_read "uid=b,dc=x" false) entry0
      [mod_bare LDAP_MOD_REPLACE SLAP_MOD_INTERNAL ad_mail,
        mod_of LDAP_MOD_ADD ad_modifyTimestamp ["1"], mod_of SLAP_MOD_SOFTADD ad_cn ["c"]]
      = some 0 ∧
    acl_check_modlist env0 (op_b acl_none) entry0 [] = some 1 ∧
    acl_check_modlist env0 (op_b acl_none) entry0
      [mod_bare LDAP_MOD_REPLACE SLAP_MOD_INTERNAL ad_mail,
        mod_of LDAP_MOD_ADD ad_modifyTimestamp ["1"], mod_of SLAP_MOD_SOFTADD ad_cn ["c"]]
      = some 1 := by
  refine ⟨?_, by decide, by decide, by decide, by decide⟩
  unfold acl_check_modlist
  simp only [hbe, hroot, hacl, List.isEmpty_nil, Bool.false_eq_true, if_false, if_true]

theorem acl_check_modlist_default_witness :
    acl_check_modlist env0 (op_of be_dflt_read "uid=b,dc=x" false) entry0
      [mod_of LDAP_MOD_ADD ad_mail ["m@x"]]
      = some (if be_dflt_read.be_dfltaccess ≥ ACL_WRITE then 1 else 0) :=
  (acl_check_modlist_default env0 (op_of be_dflt_read "uid=b,dc=x" false) entry0 be_dflt_read
    [mod_of LDAP_MOD_ADD ad_mail ["m@x"]] rfl (by decide) rfl).1

/-! ### The DN-attribute dimension `acl_mask_dnattr` -/

/-- C34: `acl_mask_dnattr` returns 0 (the dimension passes) or 1. An empty
requester DN fails. For a requester DN that is not empty: when it is found
among the values of the attribute in the target entry and `self` is not set,
the dimension passes; when it is found and `self` is set, it passes iff a
value is being evaluated and `value_match` finds it equal to the requester DN;
when it is not found, it passes iff `self` is set, a value is being evaluated
and `value_match` finds it equal to the requester DN. -/
theorem acl_mask_dnattr_cases (env : Env) (e : Entry) (val : Option berval) (ai bi : Nat)
    (i : Int) (ms : List regmatch_t) (count : Int) (state : Option AccessControlState)
    (bdn : slap_dn_access) (at_ : AttributeDescription) (opndn : berval)
    (hname : BER_BVISNULL at_.ad_cname = false) :
    ((acl_mask_dnattr env e val ai bi i ms count state bdn at_ opndn).1 = 0 ∨
      (acl_mask_dnattr env e val ai bi i ms count state bdn at_ opndn).1 = 1) ∧
    (BER_BVISEMPTY opndn = true →
      (acl_mask_dnattr env e val ai bi i ms count state bdn at_ opndn).1 = 1) ∧
    (BER_BVISEMPTY opndn = false →
      (dnattr_listed env at_ opndn e.e_attrs = true → bdn.a_self = false →
        (acl_mask_dnattr env e val ai bi i ms count state bdn at_ opndn).1 = 0) ∧
      (dnattr_listed env at_ opndn e.e_attrs = true → bdn.a_self = true →
        ((acl_mask_dnattr env e val ai bi i ms count state bdn at_ opndn).1 = 0 ↔
          ∃ v, val = some v ∧
            env.value_match at_ at_.ad_type.sat_equality v opndn = (LDAP_SUCCESS, 0))) ∧
      (dnattr_listed env at_ opndn e.e_attrs = false →
        ((acl_mask_dnattr env e val ai bi i ms count state bdn at_ opndn).1 = 0 ↔
          bdn.a_self = true ∧ ∃ v, val = some v ∧
            env.value_match at_ at_.ad_type.sat_equality v opndn = (LDAP_SUCCESS, 0)))) := by
  have _ := hname
  have hvm : ∀ v : berval,
      ((if (env.value_match at_ at_.ad_type.sat_equality v opndn).1 ≠ LDAP_SUCCESS ∨
          (env.value_match at_ at_.ad_type.sat_equality v opndn).2 ≠ 0 then (1 : Int) else 0) = 0
        ↔ env.value_match at_ at_.ad_type.sat_equality v opndn = (LDAP_SUCCESS, 0)) := by
    intro v
    rcases hr : env.value_match at_ at_.ad_type.sat_equality v opndn with ⟨rc, m⟩
    by_cases h1 : rc = LDAP_SUCCESS <;> by_cases h2 : m = 0 <;> simp [h1, h2]
  unfold acl_mask_dnattr
  cases hemp : BER_BVISEMPTY opndn with
  | true => simp
  | false =>
    simp only [Bool.false_eq_true, if_false]
    cases hl : dnattr_listed env at_ opndn e.e_attrs with
    | true =>
      cases hs : bdn.a_self with
      | false => simp
      | true =>
        cases val with
        | none => simp
        | some v =>
          have h := hvm v
          by_cases hc : (env.value_match at_ at_.ad_type.sat_equality v opndn).1 ≠ LDAP_SUCCESS ∨
              (env.value_match at_ at_.ad_type.sat_equality v opndn).2 ≠ 0
          · simp only [hc, if_true] at h ⊢
            simp [← h]
          · simp only [hc, if_false] at h ⊢
            simp [h.mp trivial]
    | false =>
      cases hs : bdn.a_self with
      | false => simp
      | true =>
        cases val with
        | none => simp
        | some v =>
          have h := hvm v
          by_cases hc : (env.value_match at_ at_.ad_type.sat_equality v opndn).1 ≠ LDAP_SUCCESS ∨
              (env.value_match at_ at_.ad_type.sat_equality v opndn).2 ≠ 0
          · simp only [hc, if_true] at h ⊢
            simp [← h]
          · simp only [hc, if_false] at h ⊢
            simp [h.mp trivial]

theorem acl_mask_dnattr_cases_witness :
    (acl_mask_dnattr env0 ⟨BER_BVC "cn=g,dc=x", BER_BVC "cn=g,dc=x",
        [⟨ad_member, [BER_BVC "uid=a,dc=x"]⟩]⟩ (some (BER_BVC "uid=b,dc=x")) 0 0 1 matches_zero 1
        none ⟨BER_BVNULL, .ACL_STYLE_REGEX, 0, 0, some ad_member, true, false⟩ ad_member
        (BER_BVC "uid=b,dc=x")).1 = 0 ↔
      (⟨BER_BVNULL, .ACL_STYLE_REGEX, 0, 0, some ad_member, true, false⟩ : slap_dn_access).a_self
          = true ∧
        ∃ v, some (BER_BVC "uid=b,dc=x") = some v ∧
          env0.value_match ad_member ad_member.ad_type.sat_equality v (BER_BVC "uid=b,dc=x")
            = (LDAP_SUCCESS, 0) :=
  ((acl_mask_dnattr_cases env0 ⟨BER_BVC "cn=g,dc=x", BER_BVC "cn=g,dc=x",
      [⟨ad_member, [BER_BVC "uid=a,dc=x"]⟩]⟩ (some (BER_BVC "uid=b,dc=x")) 0 0 1 matches_zero 1
      none ⟨BER_BVNULL, .ACL_STYLE_REGEX, 0, 0, some ad_member, true, false⟩ ad_member
      (BER_BVC "uid=b,dc=x") (by decide)).2.2 (by decide)).2.2 (by decide)

/-! ### The registry of dynamic ACL modules -/

theorem strcaseeq_comm (a b : List Nat) : strcaseeq a b = strcaseeq b a := by
  unfold strcaseeq
  by_cases h : a.map tolower = b.map tolower
  · simp [h]
  · have h2 : ¬ b.map tolower = a.map tolower := fun hh => h hh.symm
    simp [h, h2]

/-- C35: the registry is keyed by the name up to letter case. Registering a
module that has a mask hook and whose name differs, up to case, from every
registered name returns 0, and then `slap_dynacl_get` of that name in any
letter case returns that module (whose private data the registration has
cleared), while the modules registered before stay behind it. Registering a
module whose name equals a registered name up to case, or whose mask hook is
NULL, returns -1 and leaves the registry as it was. -/
theorem slap_dynacl_register_get (da_list : List slap_dynacl_t) (da : slap_dynacl_t) :
    ((∀ tmp ∈ da_list, strcaseeq da.da_name tmp.da_name = false) → da.da_mask.isSome = true →
      (slap_dynacl_register da_list da).1 = 0 ∧
      (slap_dynacl_register da_list da).2 = { da with da_private := none } :: da_list ∧
      ∀ name, strcaseeq name da.da_name = true →
        slap_dynacl_get (slap_dynacl_register da_list da).2 name =
          some { da with da_private := none }) ∧
    ((∃ tmp ∈ da_list, strcaseeq da.da_name tmp.da_name = true) ∨ da.da_mask = none →
      slap_dynacl_register da_list da = (-1, da_list)) := by
  constructor
  · intro hnew hmask
    have hfind : da_list.find? (fun tmp => strcaseeq da.da_name tmp.da_name) = none := by
      rw [List.find?_eq_none]
      intro tmp htmp
      simp [hnew tmp htmp]
    have hm : da.da_mask.isNone = false := by
      cases h : da.da_mask with
      | none => rw [h] at hmask; cases hmask
      | some x => rfl
    have hreg : slap_dynacl_register da_list da = (0, { da with da_private := none } :: da_list) := by
      unfold slap_dynacl_register
      rw [hfind]
      simp only [hm, Bool.false_eq_true, if_false]
    rw [hreg]
    refine ⟨rfl, rfl, ?_⟩
    intro name hname
    unfold slap_dynacl_get
    rw [List.find?_cons_of_pos]
    show strcaseeq da.da_name name = true
    rw [strcaseeq_comm]
    exact hname
  · intro h
    unfold slap_dynacl_register
    rcases h with ⟨tmp, htmp, heq⟩ | hnone
    · cases hf : da_list.find? (fun tmp => strcaseeq da.da_name tmp.da_name) with
      | some x => rfl
      | none =>
        rw [List.find?_eq_none] at hf
        exact absurd heq (hf tmp htmp)
    · cases hf : da_list.find? (fun tmp => strcaseeq da.da_name tmp.da_name) with
      | some x => rfl
      | none => simp [hnone]

theorem slap_dynacl_register_get_witness :
    ((slap_dynacl_register [dynacl_sample "set"] (dynacl_sample "aci")).1 = 0 ∧
      (slap_dynacl_register [dynacl_sample "set"] (dynacl_sample "aci")).2 =
        { dynacl_sample "aci" with da_private := none } :: [dynacl_sample "set"] ∧
      ∀ name, strcaseeq name (dynacl_sample "aci").da_name = true →
        slap_dynacl_get (slap_dynacl_register [dynacl_sample "set"] (dynacl_sample "aci")).2 name
          = some { dynacl_sample "aci" with da_private := none }) ∧
    slap_dynacl_get (slap_dynacl_register [dynacl_sample "set"] (dynacl_sample "aci")).2
      (bytes "ACI") = some { dynacl_sample "aci" with da_private := none } ∧
    slap_dynacl_register [dynacl_sample "set", dynacl_sample "aci"] (dynacl_sample "Aci")
      = (-1, [dynacl_sample "set", dynacl_sample "aci"]) :=
  ⟨(slap_dynacl_register_get [dynacl_sample "set"] (dynacl_sample "aci")).1 (by decide)
      (by decide),
    by decide,
    (slap_dynacl_register_get [dynacl_sample "set", dynacl_sample "aci"]
      (dynacl_sample "Aci")).2 (Or.inl ⟨dynacl_sample "aci", by decide, by decide⟩)⟩

/-! ### The value predicate of the rule selector on DN values -/

/-- A byte inside a string does not depend on what lies outside of it. -/
theorem char_at_inside (j1 j2 : Indeterminate) (s : List Nat) (i : Int) (h0 : 0 ≤ i)
    (h1 : i < s.length) : char_at j1 s i = char_at j2 s i := by
  have hlt : i.toNat < s.length := by omega
  have hneg : ¬ i < 0 := by omega
  unfold char_at
  simp only [hneg, if_false, hlt, dite_true]

/-- In the styles BASE, SUBTREE and CHILDREN the value predicate reads the byte
before the tail of the value only when that byte exists. -/
theorem acl_get_val_sep_index_guarded (a : AccessControl) (v : berval) (i : Int)
    (hs : a.acl_attrval_style ≠ .ACL_STYLE_ONE) (hi : acl_get_val_sep_index a v = some i) :
    0 ≤ i ∧ i < v.bv_len := by
  unfold acl_get_val_sep_index at hi
  simp only [hs, if_false] at hi
  split_ifs at hi <;> first | (cases hi; done) | (injection hi with hi; omega)

/-- When the value predicate reads no byte before the tail of the value, or
reads it inside the value, its outcome does not depend on the bytes that lie
outside the value. -/
theorem acl_get_val_structural_inside (env : Env) (j : Indeterminate) (a : AccessControl)
    (v : berval) (h : ∀ i, acl_get_val_sep_index a v = some i → 0 ≤ i ∧ i < v.bv_len) :
    acl_get_val_structural { env with junk := j } a v = acl_get_val_structural env a v := by
  unfold acl_get_val_sep_index at h
  unfold acl_get_val_structural
  simp only
  by_cases h1 : ((v.bv_len : Int) < (a.acl_attrval.bv_len : Int))
  · simp only [h1, if_true]
  · simp only [h1, if_false] at h ⊢
    by_cases h2 : a.acl_attrval_style = .ACL_STYLE_BASE
    · simp only [h2, if_true]
    · simp only [h2, if_false] at h ⊢
      by_cases h3 : a.acl_attrval_style = .ACL_STYLE_ONE
      · simp only [h3, if_true] at h ⊢
        obtain ⟨b0, b1⟩ := h _ rfl
        have hlen : (v.bv_len : Int) = (v.str.length : Int) := rfl
        rw [char_at_inside j env.junk v.str _ b0 (by rw [← hlen]; exact b1)]
      · simp only [h3, if_false] at h ⊢
        by_cases h4 : a.acl_attrval_style = .ACL_STYLE_SUBTREE
        · simp only [h4, if_true] at h ⊢
          by_cases h5 : ((v.bv_len : Int) > (a.acl_attrval.bv_len : Int))
          · simp only [h5, if_true] at h
            obtain ⟨b0, b1⟩ := h _ rfl
            have hlen : (v.bv_len : Int) = (v.str.length : Int) := rfl
            rw [char_at_inside j env.junk v.str _ b0 (by rw [← hlen]; exact b1)]
          · simp only [h5, false_and, if_false]
        · simp only [h4, if_false] at h ⊢
          by_cases h6 : a.acl_attrval_style = .ACL_STYLE_CHILDREN
          · simp only [h6, if_true] at h ⊢
            by_cases h7 : ((v.bv_len : Int) ≤ (a.acl_attrval.bv_len : Int))
            · simp only [h7, if_true]
            · simp only [h7, if_false] at h ⊢
              obtain ⟨b0, b1⟩ := h _ rfl
              have hlen : (v.bv_len : Int) = (v.str.length : Int) := rfl
              rw [char_at_inside j env.junk v.str _ b0 (by rw [← hlen]; exact b1)]
          · simp only [h6, if_false]

/-- C38: under the rule `to attrs=member val.one="dc=x"` (DN syntax), the
request on the value `dc=x`, as long as the pattern, makes the value predicate
of `slap_acl_get` read the byte of index -1 of the value: the style ONE tests
`DN_SEPARATOR( val->bv_val[vdnlen - patlen - 1] )` without the guard
`vdnlen > patlen` that the styles SUBTREE and CHILDREN have (they read no byte
here). The byte read lies outside the value, and the rule is then left for the
length of the leading RDN. -/
theorem acl_get_val_one_reads_before_value :
    acl_get_val_sep_index (to_member_val .ACL_STYLE_ONE "dc=x" []) (BER_BVC "dc=x") = some (-1) ∧
    acl_get_val_sep_index (to_member_val .ACL_STYLE_SUBTREE "dc=x" []) (BER_BVC "dc=x") = none ∧
    acl_get_val_sep_index (to_member_val .ACL_STYLE_CHILDREN "dc=x" []) (BER_BVC "dc=x") = none ∧
    acl_get_val_sep_index (to_member_val .ACL_STYLE_BASE "dc=x" []) (BER_BVC "dc=x") = none ∧
    acl_get_val env_rdn (to_member_val .ACL_STYLE_ONE "dc=x" []) ad_member (BER_BVC "dc=x") =
      acl_get_val_structural env_rdn (to_member_val .ACL_STYLE_ONE "dc=x" []) (BER_BVC "dc=x") ∧
    char_at env_rdn.junk (BER_BVC "dc=x").str (-1) = env_rdn.junk.byte ∧
    (slap_acl_get env_rdn none 0
      (op_b [to_member_val .ACL_STYLE_ONE "dc=x" [by_any ACL_LVL_READ .ACL_STOP]])
      (entry_of "cn=g,dc=x") ad_member (some (BER_BVC "dc=x")) MAXREMATCHES matches_zero none).a
      = none := by
  decide

/-! ### Mismatching clauses of `slap_acl_mask` -/

/-- The value `acl_mask_dnattr` returns does not depend on the state cache nor
on the positions and counters it records there. -/
theorem acl_mask_dnattr_ret (env : Env) (e : Entry) (val : Option berval) (ai bi : Nat)
    (i : Int) (ms : List regmatch_t) (count : Int) (state : Option AccessControlState)
    (bdn : slap_dn_access) (at_ : AttributeDescription) (opndn : berval)
    (ai1 bi1 : Nat) (i1 : Int) (count1 : Int) (state1 : Option AccessControlState) :
    (acl_mask_dnattr env e val ai bi i ms count state bdn at_ opndn).1 =
      (acl_mask_dnattr env e val ai1 bi1 i1 ms count1 state1 bdn at_ opndn).1 := by
  unfold acl_mask_dnattr
  cases val <;> simp only <;> split_ifs <;> rfl

theorem who_dnattr_ret (env : Env) (e : Entry) (val : Option berval) (ai bi : Nat)
    (i : Int) (ms : List regmatch_t) (count : Int) (state : Option AccessControlState)
    (bdn : slap_dn_access) (opndn : berval)
    (ai1 bi1 : Nat) (i1 : Int) (count1 : Int) (state1 : Option AccessControlState) :
    (who_dnattr env e val ai bi i ms count state bdn opndn).1 =
      (who_dnattr env e val ai1 bi1 i1 ms count1 state1 bdn opndn).1 := by
  unfold who_dnattr
  cases bdn.a_at with
  | none => rfl
  | some at_ => exact acl_mask_dnattr_ret ..

/-- The accumulators of the walk over the ancestors do not depend on the
counter `i`. -/
theorem aci_parent_walk_acc (env : Env) (op : Operation) (e : Entry) (desc : AttributeDescription)
    (val : Option berval) (nmatch : Int) (ms : List regmatch_t) (aci_at : AttributeDescription) :
    ∀ (fuel : Nat) (parent_ndn : berval) (acc : AciAcc) (i i1 : Int),
      (aci_parent_walk env op e desc val nmatch ms aci_at fuel parent_ndn acc i).1 =
        (aci_parent_walk env op e desc val nmatch ms aci_at fuel parent_ndn acc i1).1 := by
  intro fuel
  induction fuel with
  | zero => intro _ _ _ _; rfl
  | succ fuel ih =>
    intro parent_ndn acc i i1
    rw [aci_parent_walk, aci_parent_walk]
    by_cases h1 : BER_BVISEMPTY parent_ndn = true
    · simp only [h1, if_true]
    · simp only [h1, Bool.false_eq_true, if_false]
      by_cases h2 : (env.backend_attribute op none parent_ndn aci_at ACL_AUTH).1 = LDAP_SUCCESS
      · simp only [h2, if_true]
        cases (env.backend_attribute op none parent_ndn aci_at ACL_AUTH).2 with
        | none => exact ih _ _ _ _
        | some bvals =>
          rfl
      · simp only [h2, Bool.false_eq_true, if_false]
        by_cases h4 : (env.backend_attribute op none parent_ndn aci_at ACL_AUTH).1
            = LDAP_NO_SUCH_ATTRIBUTE
        · simp only [h4, if_true]
          exact ih _ _ _ _
        · simp only [h4, if_false]

/-- The effect the ACI dimension chooses does not depend on the counter `i`. -/
theorem who_aci_effect (env : Env) (b : Access) (mask : slap_mask_t) (op : Operation) (e : Entry)
    (desc : AttributeDescription) (val : Option berval) (nmatch : Int) (ms : List regmatch_t)
    (i i1 : Int) :
    (who_aci env b mask op e desc val nmatch ms i).1 =
      (who_aci env b mask op e desc val nmatch ms i1).1 := by
  unfold who_aci
  cases b.a_aci_at with
  | none => rfl
  | some aci_at =>
    simp only
    by_cases h1 : BER_BVISEMPTY e.e_nname = true
    · simp only [h1, if_true]
    · simp only [h1, Bool.false_eq_true, if_false]
      by_cases h2 : (!ACL_GRANT b.a_access_mask mask) = true
      · simp only [h2, if_true]
      · simp only [h2, Bool.false_eq_true, if_false]
        cases hf : e.e_attrs.find? (fun at_ => at_.a_desc = aci_at) with
        | some at_ => rfl
        | none =>
          simp only
          by_cases h3 : (⟨ACL_PRIV_NONE, ACL_PRIV_NONE, 0, 0⟩ : AciAcc).tgrant = ACL_PRIV_NONE ∧
              (⟨ACL_PRIV_NONE, ACL_PRIV_NONE, 0, 0⟩ : AciAcc).tdeny = ACL_PRIV_NONE
          · simp only [h3, and_self, if_true]
            rw [aci_parent_walk_acc env op e desc val nmatch ms aci_at _ _ _ i i1]
            split_ifs <;> rfl
          · exact absurd ⟨rfl, rfl⟩ h3

/-- The effect of a clause in the loop of `slap_acl_mask` is `clause_effect`:
it depends neither on the state cache nor on the positions and counters. -/
theorem acl_mask_who_effect (env : Env) (a : AccessControl) (ai : Nat) (b : Access) (bi : Nat)
    (i : Int) (mask : slap_mask_t) (op : Operation) (e : Entry) (desc : AttributeDescription)
    (val : Option berval) (nmatch : Int) (ms : List regmatch_t) (count : Int)
    (state : Option AccessControlState) :
    (acl_mask_who env a ai b bi i mask op e desc val nmatch ms count state).modmask =
      clause_effect env a op e desc val nmatch ms b mask := by
  have h1 := who_dnattr_ret env e val ai bi i ms count state b.a_dn op.o_ndn 0 0 0 0 none
  have h2 := who_dnattr_ret env e val ai bi i ms count
    (who_dnattr env e val ai bi i ms count state b.a_dn op.o_ndn).2 b.a_realdn (real_ndn op)
    0 0 0 0 none
  have h2' := who_dnattr_ret env e val 0 0 0 ms 0
    (who_dnattr env e val 0 0 0 ms 0 none b.a_dn op.o_ndn).2 b.a_realdn (real_ndn op)
    0 0 0 0 none
  have h3 := who_aci_effect env b mask op e desc val nmatch ms i 0
  unfold clause_effect acl_mask_who
  simp only [h1, h2, h2', h3]
  split_ifs <;> rfl

/-- The rule passed to the clause evaluator matters by its entry DN pattern
only, not by its clause list. -/
theorem acl_mask_who_rule (env : Env) (a : AccessControl) (l : List Access) (ai : Nat)
    (b : Access) (bi : Nat) (i : Int) (mask : slap_mask_t) (op : Operation) (e : Entry)
    (desc : AttributeDescription) (val : Option berval) (nmatch : Int) (ms : List regmatch_t)
    (count : Int) (state : Option AccessControlState) :
    acl_mask_who env { a with acl_access := l } ai b bi i mask op e desc val nmatch ms count state
      = acl_mask_who env a ai b bi i mask op e desc val nmatch ms count state := rfl

theorem slap_acl_mask_loop_rule (env : Env) (a : AccessControl) (l : List Access) (ai : Nat)
    (op : Operation) (e : Entry) (desc : AttributeDescription) (val : Option berval)
    (nmatch : Int) (ms : List regmatch_t) (count : Int) :
    ∀ (bs : List Access) (bi : Nat) (i : Int) (mask : slap_mask_t)
      (state : Option AccessControlState),
      slap_acl_mask_loop env { a with acl_access := l } ai op e desc val nmatch ms count bs bi i
          mask state =
        slap_acl_mask_loop env a ai op e desc val nmatch ms count bs bi i mask state := by
  intro bs
  induction bs with
  | nil => intro _ _ _ _; rfl
  | cons b bs ih =>
    intro bi i mask state
    rw [slap_acl_mask_loop, slap_acl_mask_loop]
    simp only [acl_mask_who_rule, ih]

/-- The clause loop of `slap_acl_mask` ends with the same mask and verdict on
the clauses without those that mismatch, whatever the positions, the counters
and the state cache. -/
theorem slap_acl_mask_loop_matching (env : Env) (a : AccessControl) (ai : Nat) (op : Operation)
    (e : Entry) (desc : AttributeDescription) (val : Option berval) (nmatch : Int)
    (ms : List regmatch_t) (count : Int) :
    ∀ (bs : List Access) (bi bi1 : Nat) (i i1 : Int) (mask : slap_mask_t)
      (state state1 : Option AccessControlState),
      (slap_acl_mask_loop env a ai op e desc val nmatch ms count
          (matching_clauses env a op e desc val nmatch ms bs mask) bi1 i1 mask state1).mask =
        (slap_acl_mask_loop env a ai op e desc val nmatch ms count bs bi i mask state).mask ∧
      (slap_acl_mask_loop env a ai op e desc val nmatch ms count
          (matching_clauses env a op e desc val nmatch ms bs mask) bi1 i1 mask state1).control =
        (slap_acl_mask_loop env a ai op e desc val nmatch ms count bs bi i mask state).control := by
  intro bs
  induction bs with
  | nil => intro _ _ _ _ _ _ _; exact ⟨rfl, rfl⟩
  | cons b bs ih =>
    intro bi bi1 i i1 mask state state1
    have hw := acl_mask_who_effect env a ai b bi i mask op e desc val nmatch ms count state
    have hw1 := acl_mask_who_effect env a ai b bi1 i1 mask op e desc val nmatch ms count state1
    rw [matching_clauses]
    cases hc : clause_effect env a op e desc val nmatch ms b mask with
    | none =>
      rw [hc] at hw
      simp only
      rw [slap_acl_mask_loop]
      simp only [hw]
      exact ih _ _ _ _ _ _ _
    | some modmask =>
      rw [hc] at hw hw1
      simp only
      by_cases ht : b.a_type = .ACL_CONTINUE
      · rw [slap_acl_mask_loop, slap_acl_mask_loop]
        simp only [hw, hw1, ht, if_true]
        exact ih _ _ _ _ _ _ _
      · rw [slap_acl_mask_loop, slap_acl_mask_loop]
        simp only [hw, hw1, ht, if_false]
        split_ifs <;> exact ⟨rfl, rfl⟩

/-- C37: in `slap_acl_mask`, a clause that mismatches leaves the running mask
as it is and the evaluation goes on with the next clause; so the loop over the
clauses ends with the same mask and the same verdict as the loop over the
clauses without the mismatching ones (from any position, counter and state
cache), and `slap_acl_mask`, when it starts at the head of the rule (the state
cache is NULL or holds no clause of this rule to resume from), gives on every
rule the mask and verdict it gives on the rule without its mismatching
clauses. -/
theorem slap_acl_mask_without_mismatches (env : Env) (a : AccessControl) (ai : Nat)
    (mask : slap_mask_t) (op : Operation) (e : Entry) (desc : AttributeDescription)
    (val : Option berval) (nmatch : Int) (ms : List regmatch_t) (count : Int) (b : Access)
    (bs : List Access) (bi bi1 : Nat) (i i1 : Int) (state state1 : Option AccessControlState) :
    (clause_effect env a op e desc val nmatch ms b mask = none →
      ∃ i2 state2,
        slap_acl_mask_loop env a ai op e desc val nmatch ms count (b :: bs) bi i mask state =
          slap_acl_mask_loop env a ai op e desc val nmatch ms count bs (bi + 1) i2 mask state2) ∧
    ((slap_acl_mask_loop env a ai op e desc val nmatch ms count
          (matching_clauses env a op e desc val nmatch ms bs mask) bi1 i1 mask state1).mask =
        (slap_acl_mask_loop env a ai op e desc val nmatch ms count bs bi i mask state).mask ∧
      (slap_acl_mask_loop env a ai op e desc val nmatch ms count
          (matching_clauses env a op e desc val nmatch ms bs mask) bi1 i1 mask state1).control =
        (slap_acl_mask_loop env a ai op e desc val nmatch ms count bs bi i mask state).control) ∧
    ((slap_acl_mask_start ai state).1 = some 0 →
      (slap_acl_mask env
          { a with acl_access := matching_clauses env a op e desc val nmatch ms a.acl_access mask }
          ai mask op e desc val nmatch ms count state).mask =
        (slap_acl_mask env a ai mask op e desc val nmatch ms count state).mask ∧
      (slap_acl_mask env
          { a with acl_access := matching_clauses env a op e desc val nmatch ms a.acl_access mask }
          ai mask op e desc val nmatch ms count state).control =
        (slap_acl_mask env a ai mask op e desc val nmatch ms count state).control) := by
  refine ⟨?_, slap_acl_mask_loop_matching env a ai op e desc val nmatch ms count bs bi bi1 i i1
    mask state state1, ?_⟩
  · intro hc
    have hw := acl_mask_who_effect env a ai b bi i mask op e desc val nmatch ms count state
    rw [hc] at hw
    refine ⟨(acl_mask_who env a ai b bi i mask op e desc val nmatch ms count state).i + 1,
      (acl_mask_who env a ai b bi i mask op e desc val nmatch ms count state).state, ?_⟩
    rw [slap_acl_mask_loop]
    simp only [hw]
  · intro hstart
    have hl := slap_acl_mask_loop_matching env a ai op e desc val nmatch ms count a.acl_access
      0 0 (slap_acl_mask_start ai state).2 (slap_acl_mask_start ai state).2 mask state state
    unfold slap_acl_mask
    simp only [hstart, List.drop_zero]
    rw [slap_acl_mask_loop_rule]
    exact hl

theorem slap_acl_mask_without_mismatches_witness :
    ∃ i2 state2,
      slap_acl_mask_loop env_rdn (to_any []) 0 (op_b []) entry0 ad_mail none 100 matches_zero 1
          (by_dn .ACL_STYLE_BASE "uid=a,dc=x" ACL_LVL_WRITE .ACL_STOP ::
            [by_any ACL_LVL_READ .ACL_STOP]) 0 1 ACL_PRIV_NONE none =
        slap_acl_mask_loop env_rdn (to_any []) 0 (op_b []) entry0 ad_mail none 100 matches_zero 1
          [by_any ACL_LVL_READ .ACL_STOP] (0 + 1) i2 ACL_PRIV_NONE state2 :=
  (slap_acl_mask_without_mismatches env_rdn (to_any []) 0 ACL_PRIV_NONE (op_b []) entry0 ad_mail
    none 100 matches_zero 1 (by_dn .ACL_STYLE_BASE "uid=a,dc=x" ACL_LVL_WRITE .ACL_STOP)
    [by_any ACL_LVL_READ .ACL_STOP] 0 0 1 1 none none).1 (by decide)

/-! ### The DN dimension: LEVEL -/

/-- The loop of the LEVEL style against the iterated parent: it comes to its
end iff no DN met on the way is empty and no parent taken is shorter than the
pattern, and then yields the `n`-th parent. -/
theorem level_walk_iterate (env : Env) (patlen : Nat) (n : Nat) :
    ∀ (d x : berval), level_walk env patlen n d = some x ↔
      (∀ k, k < n → BER_BVISEMPTY (env.dnParent^[k] d) = false ∧
        patlen ≤ (env.dnParent^[k + 1] d).bv_len) ∧ x = env.dnParent^[n] d := by
  induction n with
  | zero =>
    intro d x
    simp only [level_walk, Option.some.injEq, Function.iterate_zero, id_eq]
    constructor
    · intro h; exact ⟨fun k hk => absurd hk (Nat.not_lt_zero k), h.symm⟩
    · intro h; exact h.2.symm
  | succ n ih =>
    intro d x
    rw [level_walk]
    cases hd : BER_BVISEMPTY d with
    | true =>
      simp only [if_true]
      constructor
      · intro h; cases h
      · rintro ⟨h, _⟩
        have := (h 0 (Nat.succ_pos n)).1
        simp only [Function.iterate_zero, id_eq] at this
        rw [hd] at this
        cases this
    | false =>
      simp only [Bool.false_eq_true, if_false]
      by_cases hp : (env.dnParent d).bv_len < patlen
      · simp only [hp, if_true]
        constructor
        · intro h; cases h
        · rintro ⟨h, _⟩
          have := (h 0 (Nat.succ_pos n)).2
          simp only [Function.iterate_succ, Function.iterate_zero, Function.comp_apply,
            id_eq] at this
          omega
      · simp only [hp, if_false]
        rw [ih]
        constructor
        · rintro ⟨h, hx⟩
          refine ⟨?_, by rw [Function.iterate_succ_apply]; exact hx⟩
          intro k hk
          cases k with
          | zero =>
            simp only [Function.iterate_zero, id_eq, Function.iterate_succ,
              Function.comp_apply]
            exact ⟨hd, by omega⟩
          | succ k =>
            have := h k (by omega)
            simp only [Function.iterate_succ_apply] at this ⊢
            exact this
        · rintro ⟨h, hx⟩
          refine ⟨?_, by rw [Function.iterate_succ_apply] at hx; exact hx⟩
          intro k hk
          have := h (k + 1) (by omega)
          simp only [Function.iterate_succ_apply] at this ⊢
          exact this

/-- The LEVEL branch of `acl_mask_dn`, as the conjunction of its tests. -/
theorem level_branch_tests (env : Env) (e : Entry) (a : AccessControl) (nmatch : Int)
    (ms : List regmatch_t) (b : slap_dn_access) (opndn : berval)
    (hs : b.a_style = .ACL_STYLE_LEVEL) (hx : b.a_expand = false)
    (he : e.e_name.bv_val.isSome = true) :
    acl_mask_dn env e a nmatch ms b opndn = 0 ↔
      b.a_pat.bv_len < opndn.bv_len ∧
      ¬ (env.junk.level > 0 ∧
        DN_SEPARATOR (char_at env.junk opndn.str
          ((opndn.bv_len : Int) - (b.a_pat.bv_len : Int) - 1)) = false) ∧
      ∃ ndn, level_walk env b.a_pat.bv_len b.a_level.toNat opndn = some ndn ∧
        ndn.bv_len = b.a_pat.bv_len ∧
        (b.a_pat.str == opndn.str.drop (opndn.bv_len - b.a_pat.bv_len)) = true := by
  have hne : e.e_name.bv_val.isNone = false := by
    cases h : e.e_name.bv_val with
    | none => rw [h] at he; cases he
    | some x => rfl
  unfold acl_mask_dn
  simp only [hs, hx, hne, reduceCtorEq, if_false, Bool.false_eq_true]
  unfold acl_mask_dn_structural
  simp only [hs, reduceCtorEq, if_false, if_true]
  by_cases h1 : opndn.bv_len < b.a_pat.bv_len
  · have h1' : ¬ b.a_pat.bv_len < opndn.bv_len := by omega
    simp [h1, h1']
  · by_cases h2 : opndn.bv_len ≤ b.a_pat.bv_len
    · have h2' : ¬ b.a_pat.bv_len < opndn.bv_len := by omega
      simp [h1, h2, h2']
    · have h2' : b.a_pat.bv_len < opndn.bv_len := by omega
      simp only [h1, h2, h2', if_false, true_and]
      by_cases h3 : env.junk.level > 0
      · cases h4 : DN_SEPARATOR (char_at env.junk opndn.str
            ((opndn.bv_len : Int) - (b.a_pat.bv_len : Int) - 1)) with
        | false => simp [h3]
        | true =>
          cases h5 : level_walk env b.a_pat.bv_len b.a_level.toNat opndn with
          | none => simp [h3]
          | some ndn =>
            by_cases h6 : ndn.bv_len = b.a_pat.bv_len
            · cases h7 : (b.a_pat.str == opndn.str.drop (opndn.bv_len - b.a_pat.bv_len))
              · simp [h3, h6, h7]
              · simp [h3, h6, h7]
            · simp [h3, h6]
      · cases h5 : level_walk env b.a_pat.bv_len b.a_level.toNat opndn with
        | none => simp [h3]
        | some ndn =>
          by_cases h6 : ndn.bv_len = b.a_pat.bv_len
          · cases h7 : (b.a_pat.str == opndn.str.drop (opndn.bv_len - b.a_pat.bv_len))
            · simp [h3, h6, h7]
            · simp [h3, h6, h7]
          · simp [h3, h6]

/-- C36 (as the code has it): in `acl_mask_dn` with the structural style
LEVEL and the level `n` (a negative level counts as 0), when the byte of the
operation DN before its tail of the length of the pattern is a DN separator,
the clause matches (returns 0) iff the operation DN is longer than the
pattern, none of the DNs met while taking the parent `n` times is empty and
none of these parents is shorter than the pattern, the `n`-th parent has the
length of the pattern and the operation DN ends with the pattern. With the
level 0 the clause never matches, whatever the operation DN. -/
theorem acl_mask_dn_level (env : Env) (e : Entry) (a : AccessControl) (nmatch : Int)
    (ms : List regmatch_t) (b : slap_dn_access) (opndn : berval)
    (hs : b.a_style = .ACL_STYLE_LEVEL) (hx : b.a_expand = false)
    (he : e.e_name.bv_val.isSome = true) :
    (DN_SEPARATOR (char_at env.junk opndn.str
        ((opndn.bv_len : Int) - (b.a_pat.bv_len : Int) - 1)) = true →
      (acl_mask_dn env e a nmatch ms b opndn = 0 ↔
        b.a_pat.bv_len < opndn.bv_len ∧
        (∀ k, k < b.a_level.toNat → BER_BVISEMPTY (env.dnParent^[k] opndn) = false ∧
          b.a_pat.bv_len ≤ (env.dnParent^[k + 1] opndn).bv_len) ∧
        (env.dnParent^[b.a_level.toNat] opndn).bv_len = b.a_pat.bv_len ∧
        b.a_pat.str <:+ opndn.str)) ∧
    (b.a_level ≤ 0 → acl_mask_dn env e a nmatch ms b opndn ≠ 0) := by
  have key := level_branch_tests env e a nmatch ms b opndn hs hx he
  have hsuf : b.a_pat.bv_len < opndn.bv_len →
      ((b.a_pat.str == opndn.str.drop (opndn.bv_len - b.a_pat.bv_len)) = true ↔
        b.a_pat.str <:+ opndn.str) := by
    intro hlt
    have h := suffix_iff_cmp opndn.str b.a_pat.str
    have hk : ((opndn.str.length : Int) - (b.a_pat.str.length : Int)).toNat
        = opndn.bv_len - b.a_pat.bv_len := by
      show ((opndn.str.length : Int) - (b.a_pat.str.length : Int)).toNat
        = opndn.str.length - b.a_pat.str.length
      omega
    rw [hk] at h
    have hle : b.a_pat.str.length ≤ opndn.str.length := by
      have : b.a_pat.str.length < opndn.str.length := hlt
      omega
    constructor
    · intro hc; exact h.mpr ⟨hle, hc⟩
    · intro hc; exact (h.mp hc).2
  constructor
  · intro hsep
    rw [key]
    constructor
    · rintro ⟨h1, _, ndn, h3, h4, h5⟩
      obtain ⟨w1, w2⟩ := (level_walk_iterate env _ _ opndn ndn).mp h3
      refine ⟨h1, w1, ?_, (hsuf h1).mp h5⟩
      rw [← w2]; exact h4
    · rintro ⟨h1, h2, h3, h4⟩
      refine ⟨h1, ?_, env.dnParent^[b.a_level.toNat] opndn, ?_, h3, (hsuf h1).mpr h4⟩
      · rintro ⟨_, hf⟩
        rw [hsep] at hf
        cases hf
      · exact (level_walk_iterate env _ _ opndn _).mpr ⟨h2, rfl⟩
  · intro h0 hm
    obtain ⟨h1, _, ndn, h3, h4, _⟩ := key.mp hm
    have hz : b.a_level.toNat = 0 := by omega
    rw [hz, level_walk] at h3
    injection h3 with h3
    rw [← h3] at h4
    omega

theorem acl_mask_dn_level_witness :
    acl_mask_dn env_rdn (entry_of "dc=y") (to_any []) 100 matches_zero
        (dn_pat .ACL_STYLE_LEVEL "dc=x" 2) (BER_BVC "uid=b,ou=p,dc=x") = 0 ↔
      (dn_pat .ACL_STYLE_LEVEL "dc=x" 2).a_pat.bv_len < (BER_BVC "uid=b,ou=p,dc=x").bv_len ∧
      (∀ k, k < (dn_pat .ACL_STYLE_LEVEL "dc=x" 2).a_level.toNat →
        BER_BVISEMPTY (env_rdn.dnParent^[k] (BER_BVC "uid=b,ou=p,dc=x")) = false ∧
        (dn_pat .ACL_STYLE_LEVEL "dc=x" 2).a_pat.bv_len ≤
          (env_rdn.dnParent^[k + 1] (BER_BVC "uid=b,ou=p,dc=x")).bv_len) ∧
      (env_rdn.dnParent^[(dn_pat .ACL_STYLE_LEVEL "dc=x" 2).a_level.toNat]
        (BER_BVC "uid=b,ou=p,dc=x")).bv_len = (dn_pat .ACL_STYLE_LEVEL "dc=x" 2).a_pat.bv_len ∧
      (dn_pat .ACL_STYLE_LEVEL "dc=x" 2).a_pat.str <:+ (BER_BVC "uid=b,ou=p,dc=x").str :=
  (acl_mask_dn_level env_rdn (entry_of "dc=y") (to_any []) 100 matches_zero
    (dn_pat .ACL_STYLE_LEVEL "dc=x" 2) (BER_BVC "uid=b,ou=p,dc=x") rfl rfl (by decide)).1
    (by decide)

/-- C36, as stated, fails: with the style LEVEL and the level 0 an operation
DN equal to the pattern does not match (`acl_mask_dn` returns 1), while with the
level 2 the requester `uid=b,ou=p,dc=x` matches the pattern `dc=x`. And on
the empty pattern with the level 1, whether the requester `dc=x` matches
depends on the content of the local `level` before its assignment. -/
theorem level_zero_never_matches :
    acl_mask_dn env_rdn (entry_of "dc=y") (to_any []) 100 matches_zero
      (dn_pat .ACL_STYLE_LEVEL "dc=x" 0) (BER_BVC "dc=x") = 1 ∧
    acl_mask_dn env_rdn (entry_of "dc=y") (to_any []) 100 matches_zero
      (dn_pat .ACL_STYLE_LEVEL "dc=x" 2) (BER_BVC "uid=b,ou=p,dc=x") = 0 ∧
    acl_mask_dn env_rdn (entry_of "dc=y") (to_any []) 100 matches_zero
      (dn_pat .ACL_STYLE_LEVEL "" 1) (BER_BVC "dc=x") = 0 ∧
    acl_mask_dn { env_rdn with junk := { junk0 with level := 1 } } (entry_of "dc=y") (to_any [])
      100 matches_zero (dn_pat .ACL_STYLE_LEVEL "" 1) (BER_BVC "dc=x") = 1 := by
  decide

/-! ### The field parser `aci_get_part` on every list -/

theorem fields_of_ne_nil (sep : Nat) : ∀ (l : List Nat), fields_of sep l ≠ []
  | [] => by simp [fields_of]
  | c :: cs => by
    have ih := fields_of_ne_nil sep cs
    rw [fields_of]
    split_ifs
    · simp
    · cases h : fields_of sep cs with
      | nil => exact absurd h ih
      | cons f fs => simp

theorem joined_fields_of (sep : Nat) : ∀ (l : List Nat), joined sep (fields_of sep l) = l
  | [] => by simp [fields_of, joined]
  | c :: cs => by
    have ih := joined_fields_of sep cs
    have hne := fields_of_ne_nil sep cs
    rw [fields_of]
    cases h : fields_of sep cs with
    | nil => exact absurd h hne
    | cons f fs =>
      rw [h] at ih
      by_cases hc : c = sep
      · simp only [hc, if_true]
        rw [joined, ih]
        simp
      · simp only [hc, if_false]
        cases fs with
        | nil =>
          simp only [joined] at ih ⊢
          rw [ih]
        | cons g gs =>
          rw [joined] at ih ⊢
          rw [List.cons_append, ih]

theorem fields_of_sep_free (sep : Nat) : ∀ (l : List Nat), ∀ f ∈ fields_of sep l, sep ∉ f
  | [] => by
    intro f hf
    simp only [fields_of, List.mem_singleton] at hf
    rw [hf]
    exact List.not_mem_nil _
  | c :: cs => by
    have ih := fields_of_sep_free sep cs
    intro f hf
    rw [fields_of] at hf
    cases h : fields_of sep cs with
    | nil => exact absurd h (fields_of_ne_nil sep cs)
    | cons g gs =>
      rw [h] at hf ih
      by_cases hc : c = sep
      · simp only [hc, if_true, List.mem_cons] at hf
        rcases hf with hf | hf | hf
        · rw [hf]; exact List.not_mem_nil _
        · rw [hf]; exact ih g (List.mem_cons_self _ _)
        · exact ih f (List.mem_cons_of_mem _ hf)
      · simp only [hc, if_false, List.mem_cons] at hf
        rcases hf with hf | hf
        · rw [hf]
          intro hm
          rcases List.mem_cons.mp hm with hm | hm
          · exact hc hm.symm
          · exact ih g (List.mem_cons_self _ _) hm
        · exact ih f (List.mem_cons_of_mem _ hf)

theorem fields_of_length (sep : Nat) :
    ∀ (l : List Nat), (fields_of sep l).length = l.count sep + 1
  | [] => by simp [fields_of]
  | c :: cs => by
    have ih := fields_of_length sep cs
    rw [fields_of]
    cases h : fields_of sep cs with
    | nil => exact absurd h (fields_of_ne_nil sep cs)
    | cons g gs =>
      rw [h] at ih
      by_cases hc : c = sep
      · simp only [hc, if_true, List.length_cons, List.count_cons_self] at ih ⊢
        omega
      · have hc' : (c == sep) = false := by simp [hc]
        simp only [hc, if_false, List.length_cons, List.count_cons, hc', Bool.false_eq_true]
          at ih ⊢
        omega

/-- The loops of `aci_get_part` that pass fields keep the end of the list:
position plus remaining length is unchanged. -/
theorem aci_skip_field_end (junk : Indeterminate) (buf : List Nat) (sep : Nat) :
    ∀ (len p len1 p1 : Nat), aci_skip_field junk buf sep len p = some (len1, p1) →
      p1 + len1 = p + len := by
  intro len
  induction len with
  | zero => intro p len1 p1 h; simp [aci_skip_field] at h
  | succ len ih =>
    intro p len1 p1 h
    rw [aci_skip_field] at h
    split_ifs at h
    · have := ih _ _ _ h
      omega
    · simp only [Option.some.injEq, Prod.mk.injEq] at h
      omega

theorem aci_skip_fields_end (junk : Indeterminate) (buf : List Nat) (sep : Nat) :
    ∀ (ix len p len1 p1 : Nat), aci_skip_fields junk buf sep ix len p = some (len1, p1) →
      p1 + len1 = p + len := by
  intro ix
  induction ix with
  | zero =>
    intro len p len1 p1 h
    simp only [aci_skip_fields, Option.some.injEq, Prod.mk.injEq] at h
    omega
  | succ ix ih =>
    intro len p len1 p1 h
    rw [aci_skip_fields] at h
    cases hs : aci_skip_field junk buf sep len p with
    | none => rw [hs] at h; cases h
    | some r =>
      obtain ⟨l2, p2⟩ := r
      rw [hs] at h
      have h1 := aci_skip_field_end junk buf sep _ _ _ _ hs
      have h2 := ih _ _ _ _ h
      omega

/-- The loop of `aci_get_part` over the leading spaces stops at the first byte
that is not a space. -/
theorem aci_skip_spaces_holds (junk : Indeterminate) (buf : List Nat) :
    ∀ (sp rest : List Nat) (p len : Nat), (∀ c ∈ sp, c = 32) → rest.head? ≠ some 32 →
      (rest = [] → char_at junk buf ((p + sp.length : Nat) : Int) ≠ 32) →
      holds ⟨buf, p, len⟩ (sp ++ rest) →
      aci_skip_spaces junk buf len p = some (rest.length, p + sp.length) := by
  intro sp
  induction sp with
  | nil =>
    intro rest p len _ hhead hend h
    simp only [List.nil_append] at h
    cases rest with
    | nil =>
      have hl := holds_len _ _ h
      simp only [List.length_nil] at hl
      rw [hl, aci_skip_spaces]
      have := hend rfl
      simp only [List.length_nil, Nat.add_zero] at this
      simp [this]
    | cons c cs =>
      obtain ⟨hlen, _⟩ := holds_tail buf p len c cs h
      have hc : c ≠ 32 := by
        intro hc
        apply hhead
        simp [hc]
      rw [hlen, aci_skip_spaces, holds_head junk buf p len c cs h, if_neg hc]
      simp
  | cons s sp ih =>
    intro rest p len hsp hhead hend h
    have hs : s = 32 := hsp s (List.mem_cons_self _ _)
    rw [List.cons_append] at h
    obtain ⟨hlen, ht⟩ := holds_tail buf p len s _ h
    rw [hlen, aci_skip_spaces, holds_head junk buf p len s _ h, if_pos hs]
    rw [ih rest (p + 1) _ (fun c hc => hsp c (List.mem_cons_of_mem _ hc)) hhead ?_ ht]
    · simp only [List.length_cons, Option.some.injEq, Prod.mk.injEq, true_and]
      omega
    · intro hr
      have := hend hr
      simp only [List.length_cons] at this
      have he : p + 1 + sp.length = p + (sp.length + 1) := by omega
      rw [he]
      exact this

theorem strip_right_snoc (l : List Nat) (c : Nat) :
    strip_right (l ++ [c]) = if c = 32 then strip_right l else l ++ [c] := by
  unfold strip_right
  rw [List.reverse_append, List.reverse_singleton, List.singleton_append, List.dropWhile_cons]
  by_cases hc : c = 32
  · simp [hc]
  · simp [hc]

theorem strip_right_prefix (l : List Nat) : strip_right l <+: l := by
  unfold strip_right
  have h := List.dropWhile_suffix (fun c => c == 32) (l := l.reverse)
  have := List.reverse_prefix.mpr h
  simpa using this

/-- The loop of `aci_get_part` over the trailing spaces. -/
theorem aci_trim_holds (junk : Indeterminate) (buf : List Nat) (p len : Nat) (g : List Nat)
    (h : holds ⟨buf, p, len⟩ g) :
    ∀ n, n ≤ g.length → aci_trim junk buf p n = (strip_right (g.take n)).length := by
  intro n
  induction n with
  | zero => intro _; simp [aci_trim, strip_right]
  | succ n ih =>
    intro hn
    have hlt : n < g.length := by omega
    have hch := holds_char junk buf p len g h n hlt
    rw [aci_trim, hch]
    have htake : g.take (n + 1) = g.take n ++ [g[n]] := by
      rw [List.take_succ, List.getElem?_eq_getElem hlt]
      rfl
    rw [htake, strip_right_snoc]
    by_cases hc : g[n] = 32
    · rw [if_pos hc, if_pos hc]
      exact ih (by omega)
    · rw [if_neg hc, if_neg hc]
      simp [List.length_take]
      omega


theorem holds_of_slice (s : bvslice) (hin : s.off + s.len ≤ s.buf.length) : holds s s.str := by
  refine ⟨s.buf.take s.off, (s.buf.drop s.off).drop s.len, ?_, ?_, ?_⟩
  · unfold bvslice.str
    rw [List.append_assoc, List.take_append_drop, List.take_append_drop]
  · rw [List.length_take]; omega
  · unfold bvslice.str
    rw [List.length_take, List.length_drop]; omega

theorem head_dropWhile_space : ∀ (l : List Nat), (l.dropWhile (fun c => c == 32)).head? ≠ some 32
  | [] => by simp
  | c :: cs => by
    rw [List.dropWhile_cons]
    by_cases hc : c = 32
    · simp only [hc, beq_self_eq_true, if_true]
      exact head_dropWhile_space cs
    · have : (c == 32) = false := by simp [hc]
      simp only [this, Bool.false_eq_true, if_false, List.head?_cons, ne_eq, Option.some.injEq]
      exact hc

theorem takeWhile_all_space (l : List Nat) : ∀ c ∈ l.takeWhile (fun c => c == 32), c = 32 := by
  intro c hc
  have := List.mem_takeWhile_imp hc
  simpa using this

/-- A stripped field is a part of the field, and has a space neither at its
head nor at its end. -/
theorem strip_spaces_spec (f : List Nat) :
    (∀ c ∈ strip_spaces f, c ∈ f) ∧ (strip_spaces f).head? ≠ some 32 ∧
      (strip_spaces f).getLast? ≠ some 32 := by
  have hpre := strip_right_prefix (f.dropWhile (fun c => c == 32))
  refine ⟨?_, ?_, ?_⟩
  · intro c hc
    exact (List.dropWhile_suffix _).subset (hpre.subset hc)
  · unfold strip_spaces
    obtain ⟨t, ht⟩ := hpre
    cases hs : strip_right (f.dropWhile (fun c => c == 32)) with
    | nil => simp
    | cons c cs =>
      rw [hs] at ht
      have hh := head_dropWhile_space f
      rw [← ht] at hh
      simpa using hh
  · unfold strip_spaces strip_right
    rw [List.getLast?_reverse]
    exact head_dropWhile_space _

/-- The function `aci_get_part` with a separator other than the space, on a
slice that lies in its buffer and is not followed by a space: the field of
index `ix`, stripped, is returned as a slice of the buffer. -/
theorem aci_get_part_stripped (junk : Indeterminate) (s : bvslice) (sep ix : Nat)
    (hin : s.off + s.len ≤ s.buf.length) (hsep : sep ≠ 32)
    (hnext : char_at junk s.buf ((s.off + s.len : Nat) : Int) ≠ 32) (f : List Nat)
    (hf : (fields_of sep s.str)[ix]? = some f) :
    ∃ off, aci_get_part junk s (ix : Int) sep true =
        (((strip_spaces f).length : Int), ⟨s.buf, off, (strip_spaces f).length⟩) ∧
      holds ⟨s.buf, off, (strip_spaces f).length⟩ (strip_spaces f) := by
  have hs0 := holds_of_slice s hin
  obtain ⟨buf, off0, len0⟩ := s
  simp only at hin hnext
  have hfree := fields_of_sep_free sep (bvslice.str ⟨buf, off0, len0⟩)
  have hs : holds ⟨buf, off0, len0⟩ (joined sep (fields_of sep (bvslice.str ⟨buf, off0, len0⟩))) := by
    rw [joined_fields_of]; exact hs0
  generalize fields_of sep (bvslice.str ⟨buf, off0, len0⟩) = fs at hf hfree hs
  have hix : ix < fs.length := by
    by_contra hge
    rw [List.getElem?_eq_none (by omega)] at hf
    cases hf
  obtain ⟨p', h1, h2⟩ := aci_skip_fields_holds junk buf sep ix fs off0 len0 hfree hs hix
  have hend := aci_skip_fields_end junk buf sep ix len0 off0 _ _ h1
  have hdrop : fs.drop ix = f :: fs.drop (ix + 1) := by
    rw [List.drop_eq_getElem_cons hix]
    congr 1
    rw [List.getElem?_eq_getElem hix] at hf
    exact Option.some.inj hf
  have hmem : f ∈ fs := by
    rw [List.getElem?_eq_getElem hix] at hf
    rw [← Option.some.inj hf]
    exact List.getElem_mem _
  have hfs : sep ∉ f := hfree f hmem
  rw [hdrop] at h1 h2 hend
  obtain ⟨rest, hj, hrest⟩ := joined_cons sep f (fs.drop (ix + 1))
  rw [hj] at h1 h2 hend
  -- the leading spaces, and what follows them
  have hsplit : f = f.takeWhile (fun c => c == 32) ++ f.dropWhile (fun c => c == 32) :=
    (List.takeWhile_append_dropWhile _ f).symm
  generalize hsp : f.takeWhile (fun c => c == 32) = sp at hsplit
  have hspall : ∀ c ∈ sp, c = 32 := by rw [← hsp]; exact takeWhile_all_space f
  have hgsep : sep ∉ f.dropWhile (fun c => c == 32) :=
    fun hh => hfs ((List.dropWhile_suffix _).subset hh)
  have hghead := head_dropWhile_space f
  have hstrip : strip_spaces f = strip_right (f.dropWhile (fun c => c == 32)) := rfl
  rw [hstrip]
  generalize f.dropWhile (fun c => c == 32) = g at hsplit hgsep hghead
  subst hsplit
  rw [List.append_assoc] at h1 h2 hend
  have hhead : (g ++ rest).head? ≠ some 32 := by
    cases g with
    | cons c cs => simpa using hghead
    | nil =>
      rcases hrest with hr | ⟨l, hr⟩
      · rw [hr]; simp
      · rw [hr]; simpa using hsep
  have hnil : g ++ rest = [] → char_at junk buf ((p' + sp.length : Nat) : Int) ≠ 32 := by
    intro hn
    rw [hn] at hend
    simp only [List.append_nil] at hend
    rw [hend]
    exact hnext
  have hspaces := aci_skip_spaces_holds junk buf sp (g ++ rest) p' _ hspall hhead hnil h2
  have h3 := (holds_append buf p' _ sp (g ++ rest) h2).2
  have hfl := aci_field_len_holds junk buf sep rest hrest g (p' + sp.length) _ hgsep h3
  have h4 := (holds_append buf (p' + sp.length) _ g rest h3).1
  have htrim := aci_trim_holds junk buf (p' + sp.length) g.length g h4 g.length (le_refl _)
  rw [List.take_length] at htrim
  obtain ⟨t, ht⟩ := strip_right_prefix g
  have h5 : holds ⟨buf, p' + sp.length, (strip_right g).length⟩ (strip_right g) := by
    have h4' := h4
    rw [← ht] at h4'
    exact (holds_append buf (p' + sp.length) (strip_right g ++ t).length (strip_right g) t h4').1
  refine ⟨p' + sp.length, ?_, h5⟩
  unfold aci_get_part
  simp only [Int.toNat_ofNat, h1, hspaces, hfl, htrim, Bool.not_true, Bool.false_eq_true,
    if_false]


/-- C40 (as the code has it): for every list that lies in its buffer and is
not followed by a space, every index `ix ≥ 0` and every separator other than
the space, `aci_get_part` returns -1 iff the list holds fewer than `ix`
separators; otherwise it yields the field of index `ix` (counted from 0)
without its leading and trailing spaces and returns the length of that, so
what it yields holds no separator and has a space neither at its head nor at
its end. -/
theorem aci_get_part_field (junk : Indeterminate) (list : bvslice) (sep ix : Nat)
    (hin : list.off + list.len ≤ list.buf.length) (hsep : sep ≠ 32)
    (hnext : char_at junk list.buf ((list.off + list.len : Nat) : Int) ≠ 32) :
    ((aci_get_part junk list (ix : Int) sep true).1 = -1 ↔ list.str.count sep < ix) ∧
    (∀ f, (fields_of sep list.str)[ix]? = some f →
      (aci_get_part junk list (ix : Int) sep true).1 = ((strip_spaces f).length : Int) ∧
      (aci_get_part junk list (ix : Int) sep true).2.str = strip_spaces f) ∧
    ((aci_get_part junk list (ix : Int) sep true).1 ≠ -1 →
      sep ∉ (aci_get_part junk list (ix : Int) sep true).2.str ∧
      (aci_get_part junk list (ix : Int) sep true).2.str.head? ≠ some 32 ∧
      (aci_get_part junk list (ix : Int) sep true).2.str.getLast? ≠ some 32) := by
  have hlen := fields_of_length sep list.str
  have hfield : ∀ f, (fields_of sep list.str)[ix]? = some f →
      (aci_get_part junk list (ix : Int) sep true).1 = ((strip_spaces f).length : Int) ∧
      (aci_get_part junk list (ix : Int) sep true).2.str = strip_spaces f := by
    intro f hf
    obtain ⟨off, h1, h2⟩ := aci_get_part_stripped junk list sep ix hin hsep hnext f hf
    rw [h1]
    exact ⟨rfl, holds_str _ _ h2⟩
  have hbeyond : (fields_of sep list.str).length ≤ ix →
      (aci_get_part junk list (ix : Int) sep true).1 = -1 := by
    intro hge
    have hs : holds list (joined sep (fields_of sep list.str)) := by
      rw [joined_fields_of]; exact holds_of_slice list hin
    have := aci_skip_fields_beyond junk list.buf sep ix (fields_of sep list.str) list.off
      list.len (fields_of_sep_free sep list.str) hs (fields_of_ne_nil sep list.str) hge
    unfold aci_get_part
    simp only [Int.toNat_ofNat, this]
  have hcases : ix < (fields_of sep list.str).length ∨ (fields_of sep list.str).length ≤ ix :=
    Nat.lt_or_ge _ _
  refine ⟨?_, hfield, ?_⟩
  · constructor
    · intro hm
      rcases hcases with hlt | hge
      · have hf := List.getElem?_eq_getElem hlt
        have := (hfield _ hf).1
        rw [this] at hm
        omega
      · omega
    · intro hc
      exact hbeyond (by omega)
  · intro hne
    rcases hcases with hlt | hge
    · have hf := List.getElem?_eq_getElem hlt
      obtain ⟨_, hstr⟩ := hfield _ hf
      rw [hstr]
      obtain ⟨hsub, hh, hl⟩ := strip_spaces_spec ((fields_of sep list.str)[ix])
      refine ⟨?_, hh, hl⟩
      intro hm
      exact fields_of_sep_free sep list.str _ (List.getElem_mem _) (hsub _ hm)
    · exact absurd (hbeyond hge) hne

theorem aci_get_part_field_witness :
    (aci_get_part junk0 (BER_BVC "1.1# entry #grant;r;[all]#public#").slice ((1 : Nat) : Int) 35
        true).1 = ((strip_spaces (bytes " entry ")).length : Int) ∧
    (aci_get_part junk0 (BER_BVC "1.1# entry #grant;r;[all]#public#").slice ((1 : Nat) : Int) 35
        true).2.str = strip_spaces (bytes " entry ") :=
  (aci_get_part_field junk0 (BER_BVC "1.1# entry #grant;r;[all]#public#").slice 35 1 (by decide)
    (by decide) (by decide)).2.1 (bytes " entry ") (by decide)

/-- C40, as stated, fails for the space as separator: in the list `a  b` the
field of index 1 between the two spaces is empty, yet `aci_get_part` passes
over the second separator as a leading space, yields `b` and returns 1. -/
theorem aci_get_part_space_separator :
    (fields_of 32 (BER_BVC "a  b").slice.str)[1]? = some [] ∧
    strip_spaces [] = [] ∧
    (aci_get_part junk0 (BER_BVC "a  b").slice 1 32 true).1 = 1 ∧
    (aci_get_part junk0 (BER_BVC "a  b").slice 1 32 true).2.str = bytes "b" ∧
    char_at junk0 (BER_BVC "a  b").slice.buf 4 ≠ 32 := by
  decide

end Slapd
